import Mathlib

/-!
# seatd: the seat state machine and the server side of the client protocol

A shallow embedding of `seatd/seat.c` and `seatd/client.c`.

* Pointers to clients are natural numbers; `World.client` is the heap of client structs.
  The server has one seat (`client_get_seat_name` answers "seat0" for every client), so
  `client->seat` is either NULL or that seat and is kept as a `Bool`.
* A device pointer is the position of the device in its owner's ledger at the time of
  the call.
* C `int` values are `Int`. The device id that `seat_open_device` computes and the
  session counter that `seat_add_client` increments wrap around at 32 bits, as on the
  two's complement machines the server runs on (`int_wrap`); the other arithmetic
  (`ref_cnt`, declared in the absent `seat.h`, and the counts of the loops) is exact. The
  two-byte and four-byte wire fields are reduced explicitly.
* Every kernel shim, libc allocation and socket write whose result the code looks at
  takes its result from `World.tape`, in call order: a negative entry `-e` is a failure
  with `errno = e`. Calls whose result is ignored and that keep no state
  (`terminal_set_*`, `terminal_switch_vt`, `terminal_ack_*`, `shutdown`, logging) are
  left out; `close` is recorded in `World.closed`.
* `assert` is compiled in: a failed assertion, `abort()` and reading past an array are
  the result `none`.
-/

namespace Seatd

/-! ## Constants -/

def EPERM : Int := 1
def ENOENT : Int := 2
def EBADF : Int := 9
def EAGAIN : Int := 11
def ENOMEM : Int := 12
def EBUSY : Int := 16
def EINVAL : Int := 22
def EMFILE : Int := 24
def EALREADY : Int := 114

/-- Modelled from the spec: `protocol.h` is not part of the sources; the opcode numbers are
the ones of the tables in section 4.2. -/
def CLIENT_OPEN_SEAT : Nat := 1
/-- Modelled from the spec: section 4.2. -/
def CLIENT_CLOSE_SEAT : Nat := 2
/-- Modelled from the spec: section 4.2. -/
def CLIENT_OPEN_DEVICE : Nat := 3
/-- Modelled from the spec: section 4.2. -/
def CLIENT_CLOSE_DEVICE : Nat := 4
/-- Modelled from the spec: section 4.2. -/
def CLIENT_SWITCH_SESSION : Nat := 5
/-- Modelled from the spec: section 4.2. -/
def CLIENT_DISABLE_SEAT : Nat := 6
/-- Modelled from the spec: section 4.2. -/
def SERVER_ERROR : Nat := 101
/-- Modelled from the spec: section 4.2. -/
def SERVER_SEAT_OPENED : Nat := 102
/-- Modelled from the spec: section 4.2. -/
def SERVER_SEAT_CLOSED : Nat := 103
/-- Modelled from the spec: section 4.2. -/
def SERVER_DEVICE_OPENED : Nat := 104
/-- Modelled from the spec: section 4.2. -/
def SERVER_DEVICE_CLOSED : Nat := 105
/-- Modelled from the spec: section 4.2. -/
def SERVER_DISABLE_SEAT : Nat := 106
/-- Modelled from the spec: section 4.2. -/
def SERVER_ENABLE_SEAT : Nat := 107
/-- Modelled from the spec: `protocol.h` is not part of the sources; section 4.2 gives 256 as
the fixed maximum path length. -/
def MAX_PATH_LEN : Nat := 256

/-! ## Data model -/

/-- Modelled from the spec: the enum lives in `client.h`, which is not part of the sources;
section 3 lists the states in this order, `CLIENT_NEW` being the value of zeroed memory. -/
inductive client_state where
  | CLIENT_NEW
  | CLIENT_ACTIVE
  | CLIENT_PENDING_DISABLE
  | CLIENT_DISABLED
  | CLIENT_CLOSED
  deriving DecidableEq, Repr

inductive seat_device_type where
  | SEAT_DEVICE_TYPE_EVDEV
  | SEAT_DEVICE_TYPE_DRM
  deriving DecidableEq, Repr

open client_state seat_device_type

/-- A `struct seat_device`; `path` is the C string without its terminating NUL. -/
structure seat_device where
  device_id : Int
  fd : Int
  ref_cnt : Int
  active : Bool
  path : List Nat
  type : seat_device_type
  deriving DecidableEq, Repr

/-- Modelled from the spec: `connection.c` is not part of the sources. Section 4.1: an
inbound byte buffer that `get` consumes and `restore` rewinds, an outbound byte buffer
and an outbound fd queue. `outbuf` and `out_fds` hold everything put on the connection
so far, in order, whether `flush` has already written it or not. -/
structure connection where
  fd : Int
  inbuf : List Nat
  in_pos : Nat
  outbuf : List Nat
  out_fds : List Int
  deriving DecidableEq, Repr

/-- The fields of `struct client` that `seat.c` and `client.c` read or write. -/
structure client where
  seat : Bool
  state : client_state
  session : Int
  devices : List seat_device
  connection : connection
  deriving DecidableEq, Repr

/-- A `struct seat`; `clients` is the intrusive list headed by `seat->clients`. -/
structure seat where
  seat_name : List Nat
  vt_bound : Bool
  cur_vt : Int
  cur_ttyfd : Int
  clients : List Nat
  active_client : Option Nat
  next_client : Option Nat
  session_cnt : Int
  deriving DecidableEq, Repr

/-- What the build and the file system fix and the server only consults: `realpath`
(an errno or the canonical path), the device-node tests of `evdev.c` and `drm.c`,
`MAX_SEAT_DEVICES` of `seat.h`, and the indeterminate initial bytes of the local
`char path[MAX_PATH_LEN]` of `client_handle_opcode`. -/
structure Platform where
  realpath : List Nat → Except Int (List Nat)
  path_is_evdev : List Nat → Bool
  path_is_drm : List Nat → Bool
  MAX_SEAT_DEVICES : Nat
  stack : List Nat

structure World where
  seat : seat
  client : Nat → client
  errno : Int
  tape : List Int
  closed : List Int
  platform : Platform

/-- Replace the client struct at address `c`. -/
def World.setClient (w : World) (c : Nat) (cl : Seatd.client) : World :=
  { w with client := fun i => if i = c then cl else w.client i }

/-- Result of the next kernel, libc or socket call: `-1` with `errno` set on failure,
the non-negative result otherwise. An exhausted tape answers `0`. -/
def World.syscall (w : World) : Int × World :=
  match w.tape with
  | [] => (0, w)
  | r :: rest =>
    if r < 0 then (-1, { w with tape := rest, errno := -r })
    else (r, { w with tape := rest })

/-- The call `close(fd)`. -/
def World.close (w : World) (fd : Int) : World :=
  { w with closed := w.closed ++ [fd] }

/-! ## Wire encoding (two-byte and four-byte fields, least significant byte first) -/

/-- Value of `INT_MAX` for a 32-bit `int`. -/
def INT_MAX : Int := 2147483647

/-- Value of `INT_MIN` for a 32-bit `int`. -/
def INT_MIN : Int := -2147483648

/-- The `int` that holds the exact value `v`: the value itself when it is representable,
reduced modulo 2^32 into the range of `int` when it is not. -/
def int_wrap (v : Int) : Int := (v + 2147483648) % 4294967296 - 2147483648

def le16 (v : Nat) : List Nat := [v % 256, v / 256 % 256]

def le32 (v : Int) : List Nat :=
  let n := (v % 4294967296).toNat
  [n % 256, n / 256 % 256, n / 65536 % 256, n / 16777216 % 256]

def rd16 (b : List Nat) : Nat := b.getD 0 0 % 256 + 256 * (b.getD 1 0 % 256)

def rd32 (b : List Nat) : Int :=
  let n := b.getD 0 0 % 256 + 256 * (b.getD 1 0 % 256) + 65536 * (b.getD 2 0 % 256)
    + 16777216 * (b.getD 3 0 % 256)
  if n < 2147483648 then (n : Int) else (n : Int) - 4294967296

/-- A `struct proto_header { uint16_t opcode; uint16_t size; }`. -/
def proto_header (opcode size : Nat) : List Nat := le16 opcode ++ le16 size

/-! ## connection.c -/

/-- Modelled from the spec: `put(bytes)` appends to the outbound buffer; the callers test
for `-1`, so a put can fail, and then nothing is appended. -/
def connection_put (w : World) (c : Nat) (bytes : List Nat) : Int × World :=
  let (r, w1) := w.syscall
  if r = -1 then (-1, w1)
  else
    let cl := w1.client c
    (0, w1.setClient c
      { cl with connection := { cl.connection with outbuf := cl.connection.outbuf ++ bytes } })

/-- Modelled from the spec: `put_fd(fd)` enqueues the fd for transmission. -/
def connection_put_fd (w : World) (c : Nat) (fd : Int) : Int × World :=
  let (r, w1) := w.syscall
  if r = -1 then (-1, w1)
  else
    let cl := w1.client c
    (0, w1.setClient c
      { cl with connection := { cl.connection with out_fds := cl.connection.out_fds ++ [fd] } })

/-- Modelled from the spec: `flush()` writes as much as possible and fails with `errno`
set (`EAGAIN` leaves the remainder buffered). -/
def connection_flush (w : World) (_c : Nat) : Int × World :=
  w.syscall

/-- Modelled from the spec: `pending()` is the number of bytes available. -/
def connection_pending (w : World) (c : Nat) : Nat :=
  (w.client c).connection.inbuf.length - (w.client c).connection.in_pos

/-- Modelled from the spec: `get(n)` consumes `n` bytes of the inbound buffer and fails
when fewer are available. -/
def connection_get (w : World) (c : Nat) (n : Nat) : Option (List Nat) × World :=
  let cl := w.client c
  if connection_pending w c < n then (none, { w with errno := EAGAIN })
  else
    (some ((cl.connection.inbuf.drop cl.connection.in_pos).take n),
      w.setClient c { cl with connection := { cl.connection with in_pos := cl.connection.in_pos + n } })

/-- Modelled from the spec: `restore(n)` un-consumes the last `n` bytes. -/
def connection_restore (w : World) (c : Nat) (n : Nat) : World :=
  let cl := w.client c
  w.setClient c { cl with connection := { cl.connection with in_pos := cl.connection.in_pos - n } }

/-! ## Kernel shims used by seat.c -/

/-- The shim `terminal_open(vt)`: a tty fd, or `-1`. -/
def terminal_open (w : World) (_vt : Int) : Int × World := w.syscall

/-- The shim `terminal_current_vt(fd)`: the number of the current VT, or `-1`. -/
def terminal_current_vt (w : World) (_fd : Int) : Int × World := w.syscall

/-- The shim `drm_set_master(fd)`. -/
def drm_set_master (w : World) (_fd : Int) : Int × World := w.syscall

/-- The shim `drm_drop_master(fd)`. -/
def drm_drop_master (w : World) (_fd : Int) : Int × World := w.syscall

/-- The shim `evdev_revoke(fd)`. -/
def evdev_revoke (w : World) (_fd : Int) : Int × World := w.syscall

/-! ## client.c: the two events seat.c sends -/

def client_send_disable_seat (w : World) (c : Nat) : Int × World :=
  let p := connection_put w c (proto_header SERVER_DISABLE_SEAT 0)
  if p.1 = -1 then (-1, p.2)
  else
    let f := connection_flush p.2 c
    if f.1 = -1 then (-1, f.2) else (0, f.2)

def client_send_enable_seat (w : World) (c : Nat) : Int × World :=
  let p := connection_put w c (proto_header SERVER_ENABLE_SEAT 0)
  if p.1 = -1 then (-1, p.2)
  else
    let f := connection_flush p.2 c
    if f.1 = -1 then (-1, f.2) else (0, f.2)

/-! ## seat.c -/

/-- The seat `seat_create` returns when its two allocations succeed. -/
def seat_create (seat_name : List Nat) (vt_bound : Bool) : seat :=
  { seat_name := seat_name, vt_bound := vt_bound, cur_vt := 0, cur_ttyfd := -1,
    clients := [], active_client := none, next_client := none, session_cnt := 0 }

def seat_update_vt (w : World) : World :=
  let t := terminal_open w 0
  if t.1 = -1 then t.2
  else
    let v := terminal_current_vt t.2 t.1
    ({ v.2 with seat := { v.2.seat with cur_vt := v.1 } }).close t.1

def vt_open (w : World) (vt : Int) : Option (Int × World) :=
  if vt = -1 then none
  else
    let w1 := if w.seat.cur_ttyfd ≠ -1 then w.close w.seat.cur_ttyfd else w
    let t := terminal_open w1 vt
    let w2 := { t.2 with seat := { t.2.seat with cur_ttyfd := t.1 } }
    if t.1 = -1 then some (-1, w2) else some (0, w2)

def vt_close (w : World) : World :=
  if w.seat.cur_ttyfd = -1 then w
  else { w.close w.seat.cur_ttyfd with seat := { w.seat with cur_ttyfd := -1 } }

def vt_close_num (w : World) (vt : Int) : Int × World :=
  let t := terminal_open w vt
  if t.1 = -1 then (-1, t.2) else (0, t.2.close t.1)

def vt_switch (w : World) (_vt : Int) : Int × World :=
  let t := terminal_open w w.seat.cur_vt
  if t.1 = -1 then (-1, t.2) else (0, t.2.close t.1)

def vt_ack (w : World) (_release : Bool) : Int × World :=
  let t := terminal_open w w.seat.cur_vt
  if t.1 = -1 then (-1, t.2) else (0, t.2.close t.1)

/-- The counter `seat->session_cnt` is an `int`, as the `client->session` it is stored in:
`session_cnt++` wraps around after INT_MAX. -/
def seat_add_client (w : World) (c : Nat) : Int × World :=
  if (w.client c).seat then (-1, { w with errno := EBUSY })
  else if w.seat.vt_bound ∧ w.seat.active_client ≠ none then (-1, { w with errno := EBUSY })
  else if (w.client c).session ≠ -1 then (-1, { w with errno := EINVAL })
  else if w.seat.vt_bound then
    let w1 := seat_update_vt w
    if w1.seat.cur_vt = -1 then (-1, { w1 with errno := EINVAL })
    else (0, w1.setClient c { w1.client c with session := w1.seat.cur_vt, seat := true })
  else
    let w1 := { w with seat := { w.seat with session_cnt := int_wrap (w.seat.session_cnt + 1) } }
    (0, w1.setClient c { w1.client c with session := w.seat.session_cnt, seat := true })

/-- The loop of `seat_find_device`: position of the first device with this id. -/
def find_device_loop (device_id : Int) : List seat_device → Nat → Option Nat
  | [], _ => none
  | d :: rest, pos => if d.device_id = device_id then some pos else find_device_loop device_id rest (pos + 1)

def seat_find_device (w : World) (c : Nat) (device_id : Int) : Option (Option Nat × World) :=
  if (w.client c).seat = false then none
  else if device_id = 0 then none
  else
    match find_device_loop device_id (w.client c).devices 0 with
    | some i => some (some i, w)
    | none => some (none, { w with errno := ENOENT })

/-- The loop of `seat_open_device` over the ledger: either the position of the first device
whose path is `sanitized_path` (the `goto done`), or the values of `device_id` and
`device_count` when the loop ends. The local `device_id` is an `int`, so
`old_device->device_id + 1` wraps around after INT_MAX. -/
def open_device_loop (sanitized_path : List Nat) :
    List seat_device → Int → Nat → Nat → Nat ⊕ (Int × Nat)
  | [], device_id, device_count, _ => Sum.inr (device_id, device_count)
  | old_device :: rest, device_id, device_count, pos =>
    if old_device.path = sanitized_path then Sum.inl pos
    else
      open_device_loop sanitized_path rest
        (if old_device.device_id ≥ device_id then int_wrap (old_device.device_id + 1)
          else device_id)
        (device_count + 1) (pos + 1)

/-- Apply `f` to the device at position `i` of a ledger. -/
def update_device (f : seat_device → seat_device) : List seat_device → Nat → List seat_device
  | [], _ => []
  | d :: rest, 0 => f d :: rest
  | d :: rest, i + 1 => d :: update_device f rest i

/-- Returns the position of the device in the ledger (`none` for NULL). `linked_list_insert`
puts the new element right after the list head, so a new device is at position 0. -/
def seat_open_device (w : World) (c : Nat) (path : List Nat) : Option (Option Nat × World) :=
  if (w.client c).seat = false then none
  else if path.length = 0 then none
  else if (w.client c).state ≠ CLIENT_ACTIVE then some (none, { w with errno := EPERM })
  else if w.seat.active_client ≠ some c then none
  else
    match w.platform.realpath path with
    | Except.error e => some (none, { w with errno := e })
    | Except.ok sanitized_path =>
      if w.platform.path_is_evdev sanitized_path = false ∧
          w.platform.path_is_drm sanitized_path = false then
        some (none, { w with errno := ENOENT })
      else
        let type := if w.platform.path_is_evdev sanitized_path then SEAT_DEVICE_TYPE_EVDEV
          else SEAT_DEVICE_TYPE_DRM
        match open_device_loop sanitized_path (w.client c).devices 1 0 0 with
        | Sum.inl i =>
          some (some i, w.setClient c { w.client c with
            devices := update_device (fun d => { d with ref_cnt := d.ref_cnt + 1 })
              (w.client c).devices i })
        | Sum.inr (device_id, device_count) =>
          if device_count ≥ w.platform.MAX_SEAT_DEVICES then some (none, { w with errno := EMFILE })
          else
            let o := w.syscall
            if o.1 = -1 then some (none, o.2)
            else
              let w1 := if type = SEAT_DEVICE_TYPE_DRM then (drm_set_master o.2 o.1).2 else o.2
              let a := w1.syscall
              if a.1 = -1 then some (none, { a.2.close o.1 with errno := ENOMEM })
              else
                let s := a.2.syscall
                if s.1 = -1 then some (none, s.2.close o.1)
                else
                  some (some 0, s.2.setClient c { s.2.client c with
                    devices := { device_id := device_id, fd := o.1, ref_cnt := 1, active := true,
                                 path := sanitized_path, type := type } :: (s.2.client c).devices })

def seat_deactivate_device (w : World) (d : seat_device) : Option (Int × seat_device × World) :=
  if ¬ (d.fd > 0) then none
  else if d.active = false then some (0, d, w)
  else
    match d.type with
    | SEAT_DEVICE_TYPE_DRM =>
      let r := drm_drop_master w d.fd
      if r.1 = -1 then some (-1, d, r.2) else some (0, { d with active := false }, r.2)
    | SEAT_DEVICE_TYPE_EVDEV =>
      let r := evdev_revoke w d.fd
      if r.1 = -1 then some (-1, d, r.2) else some (0, { d with active := false }, r.2)

def seat_close_device (w : World) (c : Nat) (i : Nat) : Option (Int × World) :=
  if (w.client c).seat = false then none
  else
    match (w.client c).devices[i]? with
    | none => none
    | some d =>
      if d.fd = -1 then none
      else if d.ref_cnt - 1 > 0 then
        some (0, w.setClient c { w.client c with
          devices := update_device (fun d => { d with ref_cnt := d.ref_cnt - 1 }) (w.client c).devices i })
      else
        let w1 := w.setClient c { w.client c with devices := (w.client c).devices.eraseIdx i }
        if d.fd ≠ -1 then
          match seat_deactivate_device w1 { d with ref_cnt := d.ref_cnt - 1 } with
          | none => none
          | some (_, _, w2) => some (0, w2.close d.fd)
        else some (0, w1)

def seat_activate_device (w : World) (c : Nat) (d : seat_device) :
    Option (Int × seat_device × World) :=
  if (w.client c).seat = false then none
  else if ¬ (d.fd > 0) then none
  else if d.active then some (0, d, w)
  else
    match d.type with
    | SEAT_DEVICE_TYPE_DRM => some (0, { d with active := true }, (drm_set_master w d.fd).2)
    | SEAT_DEVICE_TYPE_EVDEV => some (-1, d, { w with errno := EINVAL })

/-- A loop over a ledger whose body updates the device it visits; the return value of the
body is only logged. -/
def for_each_device (body : World → seat_device → Option (Int × seat_device × World)) :
    List seat_device → World → Option (List seat_device × World)
  | [], w => some ([], w)
  | d :: rest, w =>
    match body w d with
    | none => none
    | some (_, d1, w1) =>
      match for_each_device body rest w1 with
      | none => none
      | some (rest1, w2) => some (d1 :: rest1, w2)

def seat_open_client (w : World) (c : Nat) : Option (Int × World) :=
  if (w.client c).state ≠ CLIENT_NEW ∧ (w.client c).state ≠ CLIENT_DISABLED then
    some (-1, { w with errno := EALREADY })
  else if w.seat.active_client ≠ none then some (-1, { w with errno := EBUSY })
  else
    match (if w.seat.vt_bound then vt_open w (w.client c).session else some (0, w)) with
    | none => none
    | some (r, w1) =>
      if r = -1 then some (-1, if w1.seat.vt_bound then vt_close w1 else w1)
      else
        match for_each_device (fun w d => seat_activate_device w c d) (w1.client c).devices w1 with
        | none => none
        | some (devices, w2) =>
          let w3 := ({ w2 with seat := { w2.seat with active_client := some c } }).setClient c
            { w2.client c with devices := devices, state := CLIENT_ACTIVE }
          let e := client_send_enable_seat w3 c
          if e.1 = -1 then some (-1, if e.2.seat.vt_bound then vt_close e.2 else e.2)
          else some (0, e.2)

def seat_activate (w : World) : Option (Int × World) :=
  if w.seat.active_client ≠ none then some (0, w)
  else
    match w.seat.next_client with
    | some next_client =>
      seat_open_client { w with seat := { w.seat with next_client := none } } next_client
    | none =>
      match w.seat.clients with
      | [] => some (-1, w)
      | first :: _ =>
        if w.seat.vt_bound ∧ w.seat.cur_vt = -1 then some (-1, w)
        else if w.seat.vt_bound then
          match w.seat.clients.find? (fun c => (w.client c).session = w.seat.cur_vt) with
          | some c => seat_open_client w c
          | none => some (-1, w)
        else seat_open_client w first

/-- The loop `while (!linked_list_empty(&client->devices)) seat_close_device(client, first)`,
unrolled `fuel` times. -/
def close_devices_loop : Nat → World → Nat → Option World
  | 0, w, _ => some w
  | fuel + 1, w, c =>
    if (w.client c).devices.isEmpty then some w
    else
      match seat_close_device w c 0 with
      | none => none
      | some (_, w1) => close_devices_loop fuel w1 c

/-- Number of iterations that empties a ledger: a device leaves after `ref_cnt` calls, or
after one call when `ref_cnt < 1`. -/
def close_devices_fuel (devices : List seat_device) : Nat :=
  (devices.map (fun d => d.ref_cnt.toNat + 1)).sum

def seat_close_client (w : World) (c : Nat) : Option (Int × World) :=
  if (w.client c).seat = false then none
  else
    match close_devices_loop (close_devices_fuel (w.client c).devices) w c with
    | none => none
    | some w1 =>
      let was_current := decide (w1.seat.active_client = some c)
      match (if was_current then seat_activate { w1 with seat := { w1.seat with active_client := none } }
             else some (0, w1)) with
      | none => none
      | some (_, w2) =>
        let w3 :=
          if w2.seat.vt_bound then
            if was_current ∧ w2.seat.active_client = none then vt_close w2
            else if was_current = false ∧ (w2.client c).state ≠ CLIENT_CLOSED then
              (vt_close_num w2 (w2.client c).session).2
            else w2
          else w2
        some (0, w3.setClient c { w3.client c with state := CLIENT_CLOSED })

def seat_remove_client (w : World) (c : Nat) : Option (Int × World) :=
  if (w.client c).seat = false then none
  else
    let w1 := if w.seat.next_client = some c then { w with seat := { w.seat with next_client := none } }
      else w
    match close_devices_loop (close_devices_fuel (w1.client c).devices) w1 c with
    | none => none
    | some w2 =>
      match seat_close_client w2 c with
      | none => none
      | some (_, w3) => some (0, w3.setClient c { w3.client c with seat := false })

/-- With assertions compiled in, `assert(seat->active_client = client)` stores the client. -/
def seat_disable_client (w : World) (c : Nat) : Option (Int × World) :=
  if (w.client c).seat = false then none
  else if (w.client c).state ≠ CLIENT_ACTIVE then some (-1, { w with errno := EBUSY })
  else
    let w1 := { w with seat := { w.seat with active_client := some c } }
    match for_each_device seat_deactivate_device (w1.client c).devices w1 with
    | none => none
    | some (devices, w2) =>
      let w3 := w2.setClient c { w2.client c with devices := devices, state := CLIENT_PENDING_DISABLE }
      match w3.seat.active_client with
      | none => none
      | some a =>
        let s := client_send_disable_seat w3 a
        if s.1 = -1 then some (-1, s.2) else some (0, s.2)

def seat_ack_disable_client (w : World) (c : Nat) : Option (Int × World) :=
  if (w.client c).seat = false then none
  else if (w.client c).state ≠ CLIENT_PENDING_DISABLE then some (-1, { w with errno := EBUSY })
  else
    let w1 := w.setClient c { w.client c with state := CLIENT_DISABLED }
    if w1.seat.active_client ≠ some c then some (0, w1)
    else
      match seat_activate { w1 with seat := { w1.seat with active_client := none } } with
      | none => none
      | some (_, w2) => some (0, w2)

def seat_set_next_session (w : World) (c : Nat) (session : Int) : Option (Int × World) :=
  if (w.client c).seat = false then none
  else if (w.client c).state ≠ CLIENT_ACTIVE then some (-1, { w with errno := EPERM })
  else if w.seat.active_client ≠ some c then none
  else if session ≤ 0 then some (-1, { w with errno := EINVAL })
  else if session = (w.client c).session then some (0, w)
  else if w.seat.next_client ≠ none then some (0, w)
  else if w.seat.vt_bound then
    let s := vt_switch w session
    if s.1 = -1 then some (-1, s.2) else some (0, s.2)
  else
    match w.seat.clients.find? (fun t => (w.client t).session = session) with
    | none => some (-1, { w with errno := EINVAL })
    | some target =>
      let w1 := { w with seat := { w.seat with next_client := some target } }
      match w1.seat.active_client with
      | none => none
      | some a =>
        match seat_disable_client w1 a with
        | none => none
        | some (_, w2) => some (0, w2)

def seat_vt_activate (w : World) : Option (Int × World) :=
  if w.seat.vt_bound = false then some (-1, w)
  else
    let w1 := seat_update_vt w
    let w2 := (vt_ack w1 false).2
    if w2.seat.active_client = none then
      match seat_activate w2 with
      | none => none
      | some (_, w3) => some (0, w3)
    else some (0, w2)

def seat_vt_release (w : World) : Option (Int × World) :=
  if w.seat.vt_bound = false then some (-1, w)
  else
    let w1 := seat_update_vt w
    match (match w1.seat.active_client with
           | some a => seat_disable_client w1 a
           | none => some (0, w1)) with
    | none => none
    | some (_, w2) =>
      let w3 := (vt_ack w2 true).2
      some (0, { w3 with seat := { w3.seat with cur_vt := -1 } })

/-! ## client.c -/

/-- The struct `client_create` returns when `get_peer` and `calloc` succeed: zeroed memory
with the connection fd stored and the device list initialised. -/
def client_create (client_fd : Int) : client :=
  { seat := false, state := CLIENT_NEW, session := 0, devices := [],
    connection := { fd := client_fd, inbuf := [], in_pos := 0, outbuf := [], out_fds := [] } }

def client_flush (w : World) (c : Nat) : Int × World :=
  let f := connection_flush w c
  if f.1 = -1 ∧ f.2.errno = EAGAIN then (0, f.2)
  else if f.1 = -1 then (-1, f.2)
  else (0, f.2)

def client_send_error (w : World) (c : Nat) (error_code : Int) : Int × World :=
  let h := connection_put w c (proto_header SERVER_ERROR 4)
  if h.1 = -1 then (-1, h.2)
  else
    let m := connection_put h.2 c (le32 error_code)
    if m.1 ≠ 0 then (-1, m.2) else (0, m.2)

/-- The string "seat0". -/
def client_get_seat_name : List Nat := [115, 101, 97, 116, 48]

/-- Modelled from the spec: `server.c` is not part of the sources; the server holds the
seats by name (section 4.5), here the one seat. `false` is NULL. -/
def server_get_seat (w : World) (seat_name : List Nat) : Bool :=
  decide (w.seat.seat_name = seat_name)

def handle_open_seat (w : World) (c : Nat) : Option (Int × World) :=
  let seat_name := client_get_seat_name
  if server_get_seat w seat_name = false then some (-1, w)
  else
    let a := seat_add_client w c
    if a.1 = -1 then some (-1, a.2)
    else
      let seat_name_len := seat_name.length
      let h := connection_put a.2 c (proto_header SERVER_SEAT_OPENED ((2 + seat_name_len) % 65536))
      if h.1 = -1 then some (-1, h.2)
      else
        let m := connection_put h.2 c (le16 (seat_name_len % 65536))
        if m.1 = -1 then some (-1, m.2)
        else
          let n := connection_put m.2 c seat_name
          if n.1 = -1 then some (-1, n.2)
          else
            match seat_open_client n.2 c with
            | none => none
            | some (_, w1) => some (0, w1)

def handle_close_seat (w : World) (c : Nat) : Option (Int × World) :=
  if (w.client c).seat = false then some (-1, w)
  else
    match seat_remove_client w c with
    | none => none
    | some (r, w1) =>
      if r = -1 then some (-1, w1)
      else
        let h := connection_put w1 c (proto_header SERVER_SEAT_CLOSED 0)
        if h.1 = -1 then some (-1, h.2) else some (0, h.2)

/-- The C string held in a char array: the bytes before the first NUL; `none` when the
array holds no NUL, so that reading the string runs past the array. -/
def c_string (buf : List Nat) : Option (List Nat) :=
  if 0 ∈ buf then some (buf.takeWhile (fun b => b ≠ 0)) else none

/-- The argument `path` is the whole char array of the caller; the string in it is first
read by `seat_open_device`. -/
def handle_open_device (w : World) (c : Nat) (path : List Nat) : Option (Int × World) :=
  if (w.client c).seat = false then some (-1, w)
  else
    match c_string path with
    | none => none
    | some path_str =>
      match seat_open_device w c path_str with
      | none => none
      | some (none, w1) => some (client_send_error w1 c w1.errno)
      | some (some i, w1) =>
        match (w1.client c).devices[i]? with
        | none => none
        | some device =>
          let dupfd := w1.syscall
          if dupfd.1 = -1 then
            match seat_close_device dupfd.2 c i with
            | none => none
            | some (_, w2) => some (client_send_error w2 c w2.errno)
          else
            let q := connection_put_fd dupfd.2 c dupfd.1
            if q.1 = -1 then some (-1, q.2)
            else
              let h := connection_put q.2 c (proto_header SERVER_DEVICE_OPENED 4)
              if h.1 = -1 then some (-1, h.2)
              else
                let m := connection_put h.2 c (le32 device.device_id)
                if m.1 ≠ 0 then some (-1, m.2) else some (0, m.2)

def handle_close_device (w : World) (c : Nat) (device_id : Int) : Option (Int × World) :=
  if (w.client c).seat = false then some (-1, w)
  else
    match seat_find_device w c device_id with
    | none => none
    | some (none, w1) => some (client_send_error { w1 with errno := EBADF } c EBADF)
    | some (some i, w1) =>
      match seat_close_device w1 c i with
      | none => none
      | some (r, w2) =>
        if r = -1 then some (client_send_error w2 c w2.errno)
        else
          let h := connection_put w2 c (proto_header SERVER_DEVICE_CLOSED 4)
          if h.1 = -1 then some (-1, h.2)
          else
            let m := connection_put h.2 c (le32 device_id)
            if m.1 ≠ 0 then some (-1, m.2) else some (0, m.2)

def handle_switch_session (w : World) (c : Nat) (session : Int) : Option (Int × World) :=
  if (w.client c).seat = false then some (-1, w)
  else
    match seat_set_next_session w c session with
    | none => none
    | some (r, w1) =>
      if r = -1 then some (client_send_error w1 c w1.errno) else some (0, w1)

def handle_disable_seat (w : World) (c : Nat) : Option (Int × World) :=
  if (w.client c).seat = false then some (-1, w)
  else if w.seat.active_client ≠ some c then
    some (client_send_error { w with errno := EPERM } c EPERM)
  else
    match seat_ack_disable_client w c with
    | none => none
    | some (r, w1) =>
      if r = -1 then some (client_send_error w1 c w1.errno) else some (0, w1)

/-- The tail of `client_handle_opcode`: flush unless the handler failed. -/
def finish_opcode (res : Option (Int × World)) (c : Nat) : Option (Int × World) :=
  match res with
  | none => none
  | some (r, w) => if r ≠ -1 then some (client_flush w c) else some (r, w)

def client_handle_opcode (w : World) (c : Nat) (opcode : Nat) (size : Nat) :
    Option (Int × World) :=
  if opcode = CLIENT_OPEN_SEAT then
    if size ≠ 0 then some (-1, w) else finish_opcode (handle_open_seat w c) c
  else if opcode = CLIENT_CLOSE_SEAT then
    if size ≠ 0 then some (-1, w) else finish_opcode (handle_close_seat w c) c
  else if opcode = CLIENT_OPEN_DEVICE then
    if 2 > size then some (-1, w)
    else
      match connection_get w c 2 with
      | (none, w1) => some (-1, w1)
      | (some msg, w1) =>
        let path_len := rd16 msg
        if 2 + path_len > size ∨ path_len > MAX_PATH_LEN then some (-1, w1)
        else
          match connection_get w1 c path_len with
          | (none, w2) => some (-1, w2)
          | (some bytes, w2) =>
            let path := (bytes ++ w2.platform.stack.drop path_len).take MAX_PATH_LEN
            finish_opcode (handle_open_device w2 c path) c
  else if opcode = CLIENT_CLOSE_DEVICE then
    if 4 > size then some (-1, w)
    else
      match connection_get w c 4 with
      | (none, w1) => some (-1, w1)
      | (some msg, w1) => finish_opcode (handle_close_device w1 c (rd32 msg)) c
  else if opcode = CLIENT_SWITCH_SESSION then
    if 4 > size then some (-1, w)
    else
      match connection_get w c 4 with
      | (none, w1) => some (-1, w1)
      | (some msg, w1) => finish_opcode (handle_switch_session w1 c (rd32 msg)) c
  else if opcode = CLIENT_DISABLE_SEAT then
    if size ≠ 0 then some (-1, w) else finish_opcode (handle_disable_seat w c) c
  else some (-1, w)

/-! ## Reachable states of the seat -/

/-- The operations `seat.h` exports on an existing seat. -/
inductive seat_op where
  | add_client (c : Nat)
  | open_client (c : Nat)
  | remove_client (c : Nat)
  | open_device (c : Nat) (path : List Nat)
  | close_device (c : Nat) (i : Nat)
  | set_next_session (c : Nat) (session : Int)
  | ack_disable_client (c : Nat)
  | vt_activate
  | vt_release

/-- The state after one seat operation, `none` when the server aborts in it. -/
def seat_op.run : seat_op → World → Option World
  | seat_op.add_client c, w => some (seat_add_client w c).2
  | seat_op.open_client c, w => (seat_open_client w c).map Prod.snd
  | seat_op.remove_client c, w => (seat_remove_client w c).map Prod.snd
  | seat_op.open_device c path, w => (seat_open_device w c path).map Prod.snd
  | seat_op.close_device c i, w => (seat_close_device w c i).map Prod.snd
  | seat_op.set_next_session c session, w => (seat_set_next_session w c session).map Prod.snd
  | seat_op.ack_disable_client c, w => (seat_ack_disable_client w c).map Prod.snd
  | seat_op.vt_activate, w => (seat_vt_activate w).map Prod.snd
  | seat_op.vt_release, w => (seat_vt_release w).map Prod.snd

/-- A client struct that no seat operation has touched yet: not attached, `CLIENT_NEW`,
no device. Its session and its connection are arbitrary. -/
def client.untouched (cl : client) : Prop :=
  cl.seat = false ∧ cl.state = CLIENT_NEW ∧ cl.devices = []

/-- The state right after `seat_create`: a new seat, and only untouched clients. -/
def World.initial (w : World) : Prop :=
  (∃ seat_name vt_bound, w.seat = seat_create seat_name vt_bound) ∧ ∀ c, (w.client c).untouched

/-- The environment between two operations: the pending results of the kernel and the
socket and the state of the file system are arbitrary; the build constant stays. -/
def World.withEnv (w : World) (tape : List Int) (env : Platform) : World :=
  { w with tape := tape,
           platform := { env with MAX_SEAT_DEVICES := w.platform.MAX_SEAT_DEVICES } }

/-- States reachable from `seat_create` by seat operations, whatever the kernel shims and
the socket writes return. -/
inductive Reachable : World → Prop where
  | init {w : World} : w.initial → Reachable w
  | step {w w1 : World} (op : seat_op) (tape : List Int) (env : Platform) :
      Reachable w → op.run (w.withEnv tape env) = some w1 → Reachable w1

/-- Run a list of operations, each with the results the environment gives during it. -/
def run_ops : List (seat_op × List Int) → World → Option World
  | [], w => some w
  | (op, tape) :: rest, w =>
    match op.run (w.withEnv tape w.platform) with
    | none => none
    | some w1 => run_ops rest w1

/-- A file system for examples: every path is canonical, paths starting with "/dev/input/"
are evdev nodes and paths starting with "/dev/dri/" are DRM nodes. -/
def example_platform : Platform :=
  { realpath := fun p => Except.ok p,
    path_is_evdev := fun p => p.take 11 = [47, 100, 101, 118, 47, 105, 110, 112, 117, 116, 47],
    path_is_drm := fun p => p.take 9 = [47, 100, 101, 118, 47, 100, 114, 105, 47],
    MAX_SEAT_DEVICES := 128,
    stack := [] }

/-- The state after `seat_create(seat_name, vt_bound)` with every client struct equal
to `cl`. -/
def example_world (vt_bound : Bool) (cl : client) (tape : List Int) : World :=
  { seat := seat_create client_get_seat_name vt_bound, client := fun _ => cl, errno := 0,
    tape := tape, closed := [], platform := example_platform }

/-- A client as the seat expects a new one: `client_create` with `session = -1`. -/
def new_client : client := { client_create 7 with session := -1 }

/-- The path "/dev/dri/card0". -/
def dri_card0 : List Nat := [47, 100, 101, 118, 47, 100, 114, 105, 47, 99, 97, 114, 100, 48]

/-- The path "/etc/passwd". -/
def etc_passwd : List Nat := [47, 101, 116, 99, 47, 112, 97, 115, 115, 119, 100]

/-! ## Views and invariants -/

/-- The part of a state the seat invariants are about: the active client, and the state
and the device ids of every client. -/
structure View where
  active_client : Option Nat
  state : Nat → client_state
  ids : Nat → List Int

def World.view (w : World) : View :=
  { active_client := w.seat.active_client,
    state := fun c => (w.client c).state,
    ids := fun c => (w.client c).devices.map seat_device.device_id }

/-- What `seat_open_client` and `seat_activate` can do to a view: nothing, or make one
client active on a seat that had no active client. -/
def Opened (v v1 : View) : Prop :=
  v1.ids = v.ids ∧
    (v1 = v ∨ ∃ n, v.active_client = none ∧ v1.active_client = some n ∧
      v1.state = Function.update v.state n CLIENT_ACTIVE)

/-- What closing devices can do to a view: ledgers lose devices, nothing else changes. -/
def Shrunk (v v1 : View) : Prop :=
  v1.active_client = v.active_client ∧ v1.state = v.state ∧ ∀ c, (v1.ids c).Sublist (v.ids c)

/-- What `seat_disable_client c` can do to a view: nothing, or move the active client `c`
to `CLIENT_PENDING_DISABLE`. -/
def Disabled (c : Nat) (v v1 : View) : Prop :=
  v1.ids = v.ids ∧
    (v1 = v ∨ (v.state c = CLIENT_ACTIVE ∧ v1.active_client = some c ∧
      v1.state = Function.update v.state c CLIENT_PENDING_DISABLE))

/-- Every client in state `CLIENT_ACTIVE` is the seat's active client. -/
def View.one_active (v : View) : Prop :=
  ∀ c, v.state c = CLIENT_ACTIVE → v.active_client = some c

/-- The state after `seat_add_client` and `seat_open_client` of client 0 on a seat that is
not VT-bound. -/
def world_one_active : World :=
  (run_ops [(seat_op.add_client 0, []), (seat_op.open_client 0, [])]
    (example_world false new_client [])).getD (example_world false new_client [])

/-- A seat that is not VT-bound and clients exactly as `client_create` returns them;
client 0 has received an OPEN_SEAT header. -/
def world_created : World := example_world false (client_create 7) []

/-- A VT-bound seat on VT 1 whose client 0 has been added and opened. -/
def world_vt_active : World :=
  (run_ops [(seat_op.add_client 0, [3, 1]), (seat_op.open_client 0, [4, 0, 0])]
    (example_world true new_client [])).getD (example_world true new_client [])

/-- The state after the VT of `world_vt_active` was released and client 0 acknowledged:
client 0 is attached and `CLIENT_DISABLED`, the seat has no active client. -/
def world_vt_disabled : World :=
  (run_ops [(seat_op.vt_release, [3, 1, 0, 0, 5]), (seat_op.ack_disable_client 0, [])]
    world_vt_active).getD world_vt_active

/-- The state after `seat_add_client` of client 1 in `world_vt_disabled`, the kernel
reporting VT 2. -/
def world_vt_two_attached : World :=
  (seat_add_client (world_vt_disabled.withEnv [3, 2] example_platform) 1).2

/-- The state after client 0 was added and opened on a seat that is not VT-bound and then
opened "/dev/dri/card0" (fd 5). -/
def world_card0 : World :=
  (run_ops [(seat_op.open_device 0 dri_card0, [5, 0, 0, 0])] world_one_active).getD
    world_one_active

/-- The state after `n` consecutive calls `seat_close_device(client, device)` on the
device at position `i`. -/
def seat_close_device_n : Nat → World → Nat → Nat → Option World
  | 0, w, _, _ => some w
  | n + 1, w, c, i =>
    match seat_close_device w c i with
    | none => none
    | some (_, w1) => seat_close_device_n n w1 c i

/-- The state after client 0 opened "/dev/dri/card0" a second time. -/
def world_card0_twice : World :=
  (run_ops [(seat_op.open_device 0 dri_card0, [])] world_card0).getD world_card0

/-- Between `w` and `w1` only the ledger of client `c` and the environment (tape, errno,
closed fds) may differ. -/
def OnlyLedger (c : Nat) (w w1 : World) : Prop :=
  w1.seat = w.seat ∧ w1.platform = w.platform ∧ (∀ k, k ≠ c → w1.client k = w.client k) ∧
    w1.client c = { w.client c with devices := (w1.client c).devices }

/-- The client struct `cl` with `bytes` appended to its outbound buffer. -/
def client.put (cl : client) (bytes : List Nat) : client :=
  { cl with connection := { cl.connection with outbuf := cl.connection.outbuf ++ bytes } }

/-- The client struct `cl` with `fd` appended to its outbound fd queue. -/
def client.put_fd (cl : client) (fd : Int) : client :=
  { cl with connection := { cl.connection with out_fds := cl.connection.out_fds ++ [fd] } }

/-- Between `w` and `w1` only the connection of client `c` and the environment (tape,
errno) may differ. -/
def OnlyConn (c : Nat) (w w1 : World) : Prop :=
  w1.seat = w.seat ∧ w1.platform = w.platform ∧ w1.closed = w.closed ∧
    (∀ k, k ≠ c → w1.client k = w.client k) ∧
    w1.client c = { w.client c with connection := (w1.client c).connection }

/-- The state `world_one_active` when client 0 asks for "/etc/passwd". -/
def world_passwd_request : World :=
  world_one_active.withEnv [0, 0] example_platform

/-- The state `world_one_active` when the payload of a CLOSE_DEVICE message for client 0
has been read from the socket. -/
def world_close_request (payload : List Nat) : World :=
  world_one_active.setClient 0 { world_one_active.client 0 with
    connection := { (world_one_active.client 0).connection with inbuf := payload } }

/-- The next `n` unread bytes of the inbound buffer of client `c`. -/
def pending_bytes (w : World) (c : Nat) (n : Nat) : List Nat :=
  ((w.client c).connection.inbuf.drop (w.client c).connection.in_pos).take n

/-- The state `world_one_active` when client 0 has sent the payload of an OPEN_DEVICE
message announcing path_len = 1024. -/
def world_oversize_request : World :=
  world_one_active.setClient 0 { world_one_active.client 0 with
    connection := { (world_one_active.client 0).connection with
      inbuf := [0, 4, 47, 100, 101, 118] } }

/-- A seat that is not VT-bound with clients 0 and 1 attached through `seat_add_client`
(sessions 0 and 1) and client 0 opened: A = client 0 is ACTIVE, B = client 1 is not. -/
def world_two_clients : World :=
  (run_ops [(seat_op.add_client 0, []), (seat_op.add_client 1, []),
      (seat_op.open_client 0, [])]
    (example_world false new_client [])).getD (example_world false new_client [])

/-- A seat that is not VT-bound whose client 0 has been attached and is still NEW. -/
def world_attached : World :=
  (run_ops [(seat_op.add_client 0, [])]
    (example_world false new_client [])).getD (example_world false new_client [])

/-- The state after `seat_open_client` of the DISABLED client 0 of `world_vt_disabled` when
the VT opens (fd 4) and the `connection_put` of ENABLE_SEAT fails with EAGAIN, `none` if the
server aborts. -/
def world_vt_enable_lost : Option World :=
  run_ops [(seat_op.open_client 0, [4, -11])] world_vt_disabled

/-- The state and the ledger of every client. -/
def snap (w : World) : Nat → client_state × List seat_device :=
  fun c => ((w.client c).state, (w.client c).devices)

/-- The return values of the calls `seat_deactivate_device(device)` that the loop of
`seat_disable_client` makes over the ledger `l`, in order (the loop only logs them). -/
def deactivate_results : List seat_device → World → List Int
  | [], _ => []
  | d :: rest, w =>
    match seat_deactivate_device w d with
    | none => []
    | some (r, _, w1) => r :: deactivate_results rest w1

/-- No call of `seat_deactivate_device` that the operation makes from `seat_disable_client`
returns -1: every drop-master and every evdev-revoke it issues succeeds. -/
def seat_op.deactivations_ok : seat_op → World → Bool
  | seat_op.set_next_session c _, w => ! (deactivate_results (w.client c).devices w).contains (-1)
  | seat_op.vt_release, w =>
    match (seat_update_vt w).seat.active_client with
    | some a =>
      ! (deactivate_results ((seat_update_vt w).client a).devices (seat_update_vt w)).contains (-1)
    | none => true
  | _, _ => true

/-- States reachable from `seat_create` by seat operations during which no drop-master and no
evdev-revoke issued by `seat_disable_client` fails; every other kernel or socket call may
fail. -/
inductive ReachableRevoking : World → Prop where
  | init {w : World} : w.initial → ReachableRevoking w
  | step {w w1 : World} (op : seat_op) (tape : List Int) (env : Platform) :
      ReachableRevoking w → op.deactivations_ok (w.withEnv tape env) = true →
      op.run (w.withEnv tape env) = some w1 → ReachableRevoking w1

/-- The device-state invariant of one client, on its state and ledger: an ACTIVE client has
every DRM device active; when `strict`, a PENDING_DISABLE or DISABLED client has no active
device. -/
def client_ok (strict : Bool) (x : client_state × List seat_device) : Prop :=
  (x.1 = CLIENT_ACTIVE → ∀ d ∈ x.2, d.type = SEAT_DEVICE_TYPE_DRM → d.active = true) ∧
  (strict = true → x.1 = CLIENT_PENDING_DISABLE ∨ x.1 = CLIENT_DISABLED →
    ∀ d ∈ x.2, d.active = false)

/-- The invariant `client_ok` for every client. -/
def devices_ok (strict : Bool) (w : World) : Prop := ∀ c, client_ok strict (snap w c)

/-- Every device of `l1` has the type and the activity flag of some device of `l`. -/
def Flags (l l1 : List seat_device) : Prop :=
  ∀ d1 ∈ l1, ∃ d ∈ l, d1.type = d.type ∧ d1.active = d.active

/-- The path "/dev/input/event0". -/
def input_event0 : List Nat :=
  [47, 100, 101, 118, 47, 105, 110, 112, 117, 116, 47, 101, 118, 101, 110, 116, 48]

/-- Run a list of operations as `run_ops` does, stopping (`none`) at an operation in which a
deactivation made by `seat_disable_client` fails. -/
def run_ops_revoking : List (seat_op × List Int) → World → Option World
  | [], w => some w
  | (op, tape) :: rest, w =>
    if op.deactivations_ok (w.withEnv tape w.platform) = true then
      match op.run (w.withEnv tape w.platform) with
      | none => none
      | some w1 => run_ops_revoking rest w1
    else none

/-- The ACTIVE client 0 of the VT-bound seat after opening "/dev/dri/card0" (fd 5, id 1) and
"/dev/input/event0" (fd 6, id 2); the ledger is [event0, card0]. -/
def world_two_devices : World :=
  (run_ops [(seat_op.open_device 0 dri_card0, [5, 0, 0, 0]),
      (seat_op.open_device 0 input_event0, [6, 0, 0])] world_vt_active).getD world_vt_active

/-- The state after the VT of `world_two_devices` was released, every shim succeeding, and
client 0 acknowledged: client 0 is DISABLED, both devices are inactive. -/
def world_two_devices_disabled : World :=
  (run_ops [(seat_op.vt_release, [3, 1, 0, 0, 0, 0, 5]), (seat_op.ack_disable_client 0, [])]
    world_two_devices).getD world_two_devices

/-- The state after `seat_open_client` re-enabled client 0 of `world_two_devices_disabled`. -/
def world_reenabled : World :=
  (run_ops [(seat_op.open_client 0, [4, 0, 0, 0])] world_two_devices_disabled).getD
    world_two_devices_disabled

/-- The state after the VT of `world_two_devices` was released with `drm_drop_master` failing
(EPERM) for "/dev/dri/card0". -/
def world_drop_master_failed : World :=
  (run_ops [(seat_op.vt_release, [3, 1, 0, -1, 0, 0, 5])] world_two_devices).getD
    world_two_devices

/-- The state of `world_two_devices_disabled` before the acknowledgement, built from
`seat_create` with every deactivation checked: client 0 is PENDING_DISABLE. -/
def world_revoked : World :=
  (run_ops_revoking [(seat_op.add_client 0, [3, 1]), (seat_op.open_client 0, [4, 0, 0]),
      (seat_op.open_device 0 dri_card0, [5, 0, 0, 0]),
      (seat_op.open_device 0 input_event0, [6, 0, 0]),
      (seat_op.vt_release, [3, 1, 0, 0, 0, 0, 5])]
    (example_world true new_client [])).getD (example_world true new_client [])

/-- The part of a state that decides attachment and activation: the client list, the queued
and the active client and the session counter of the seat, and the seat pointer, the state
and the session of every client. -/
def core (w : World) :
    (List Nat × Option Nat × Int × Option Nat) × (Nat → Bool × client_state × Int) :=
  ((w.seat.clients, w.seat.next_client, w.seat.session_cnt, w.seat.active_client),
    fun c => ((w.client c).seat, (w.client c).state, (w.client c).session))

/-- The attachment invariant: the client list is empty and no switch is queued (nothing
links a client into `seat->clients`), and the seat's active client is ACTIVE or
PENDING_DISABLE. -/
def seat_ok (w : World) : Prop :=
  w.seat.clients = [] ∧ w.seat.next_client = none ∧
  (∀ a, w.seat.active_client = some a →
    (w.client a).state = CLIENT_ACTIVE ∨ (w.client a).state = CLIENT_PENDING_DISABLE)

/-- Between `w` and `w1` no client changed its seat pointer or its session, and no CLOSED
client left the state CLOSED. -/
def Kept (w w1 : World) : Prop :=
  ∀ k, (w1.client k).seat = (w.client k).seat ∧ (w1.client k).session = (w.client k).session ∧
    ((w.client k).state = CLIENT_CLOSED → (w1.client k).state = CLIENT_CLOSED)

/-- The state `w1` is reached from `w` by seat operations, whatever the kernel shims and the
socket writes return. -/
inductive Steps : World → World → Prop where
  | refl (w : World) : Steps w w
  | step {w w1 w2 : World} (op : seat_op) (tape : List Int) (env : Platform) :
      Steps w w1 → op.run (w1.withEnv tape env) = some w2 → Steps w w2

/-- Client `c` has been attached and removed: it is CLOSED and unattached and keeps the
session it was given. -/
def removed (c : Nat) (w : World) : Prop :=
  (w.client c).seat = false ∧ (w.client c).session ≠ -1 ∧ (w.client c).state = CLIENT_CLOSED

/-- The rule of section 4.3 for `seat_activate`, in the words of the specification: with an
active client nothing changes and the result is 0; otherwise `next_client` if it is set, the
slot being cleared; otherwise failure if `clients` is empty, or if the seat is VT-bound with
`cur_vt = -1`; otherwise on a VT-bound seat the first client with `session = cur_vt`, failure
if there is none, and on a seat that is not VT-bound the head of `clients`; the chosen client
is opened with `seat_open_client`. -/
def seat_activate_spec (w : World) : Option (Int × World) :=
  if w.seat.active_client.isSome then some (0, w)
  else if w.seat.next_client.isSome then
    w.seat.next_client.bind
      (fun n => seat_open_client { w with seat := { w.seat with next_client := none } } n)
  else if w.seat.clients.isEmpty then some (-1, w)
  else if w.seat.vt_bound ∧ w.seat.cur_vt = -1 then some (-1, w)
  else if w.seat.vt_bound then
    match w.seat.clients.filter (fun c => (w.client c).session = w.seat.cur_vt) with
    | [] => some (-1, w)
    | c :: _ => seat_open_client w c
  else w.seat.clients.head?.bind (fun c => seat_open_client w c)

/-- The PENDING_DISABLE state of the VT-bound seat: the VT of `world_vt_active` was released
and client 0 has not acknowledged yet. -/
def world_vt_pending : World :=
  (run_ops [(seat_op.vt_release, [3, 1, 0, 0, 5])] world_vt_active).getD world_vt_active

/-- Every kernel and socket call still to come succeeds. -/
def tape_ok (w : World) : Prop := ∀ r ∈ w.tape, 0 ≤ r

/-- The state `world_two_clients` when client 1, attached and not the active client, sends
DISABLE_SEAT. -/
def world_two_clients_request : World := world_two_clients.withEnv [0, 0] example_platform

/-- The file system of `example_platform` with the 256 bytes of the local array `path` of
`client_handle_opcode` holding zeros when the function is entered. -/
def zero_stack_platform : Platform := { example_platform with stack := List.replicate 256 0 }

/-- The state `world_one_active` when the payload of an OPEN_DEVICE message for client 0 has
been read from the socket and the kernel will give fd 5 to `open` and fd 6 to `dup`. -/
def world_open_request (payload : List Nat) : World :=
  (world_close_request payload).withEnv [5, 0, 0, 0, 6, 0, 0, 0, 0] zero_stack_platform

/-- The state `world_vt_pending` when client 0, PENDING_DISABLE, asks for a device. -/
def world_pending_request : World := world_vt_pending.withEnv [0, 0] example_platform

/-- The device as the claim describes it after the client is re-enabled: a DRM device is
active, an EVDEV device is as before. -/
def reactivated (d : seat_device) : seat_device :=
  match d.type with
  | SEAT_DEVICE_TYPE_DRM => { d with active := true }
  | SEAT_DEVICE_TYPE_EVDEV => d

/-- The DISABLED client of `world_two_devices_disabled` about to be re-enabled, every call
succeeding. -/
def world_reenable_request : World :=
  world_two_devices_disabled.withEnv [4, 0, 0, 0] example_platform

/-- Value of `EINTR` in errno.h. -/
def EINTR : Int := 4

/-- Value of `EPIPE` in errno.h. -/
def EPIPE : Int := 32

/-- Value of `EBADMSG` in errno.h. -/
def EBADMSG : Int := 74

/-- Value of `POLLIN` in poll.h. -/
def POLLIN : Nat := 1

/-- Value of `POLLERR` in poll.h. -/
def POLLERR : Nat := 8

/-- Value of `POLLHUP` in poll.h. -/
def POLLHUP : Nat := 16

/-- The fields of `struct backend_seatd` of libseat/backend/seatd.c: the connection, whether
the listener has an `enable_seat` and a `disable_seat` callback, the queue of pending events
(their opcodes, oldest first) and the seat name. -/
structure libseat.backend_seatd where
  connection : connection
  enable_seat : Bool
  disable_seat : Bool
  pending_events : List Nat
  seat_name : List Nat
  deriving DecidableEq, Repr

/-- A client process using the backend: the backend, the listener callbacks invoked so far
(the opcode of the event each was invoked for, oldest first), the data the socket will deliver
(one list of bytes for each successful read; an empty list is end of file; no list left means
EAGAIN), the fds it will deliver, the results of the other kernel and libc calls (`calloc`,
`poll`, socket writes), and errno. -/
structure libseat.Proc where
  backend : libseat.backend_seatd
  calls : List Nat
  socket : List (List Nat)
  in_fds : List Int
  tape : List Int
  errno : Int
  deriving DecidableEq, Repr

/-- Result of the next kernel or libc call of the client process: `-1` with errno set on
failure, the non-negative result otherwise; an exhausted tape answers `0`. -/
def libseat.Proc.syscall (p : libseat.Proc) : Int × libseat.Proc :=
  match p.tape with
  | [] => (0, p)
  | r :: rest =>
    if r < 0 then (-1, { p with tape := rest, errno := -r })
    else (r, { p with tape := rest })

/-- Replace the connection of the backend. -/
def libseat.Proc.setConnection (p : libseat.Proc) (k : connection) : libseat.Proc :=
  { p with backend := { p.backend with connection := k } }

/-- Modelled from the spec: `pending()` of connection.c, the number of unread bytes. -/
def libseat.connection_pending (p : libseat.Proc) : Nat :=
  p.backend.connection.inbuf.length - p.backend.connection.in_pos

/-- Modelled from the spec: `get(n)` of connection.c consumes `n` bytes and fails with
EAGAIN when fewer are available. -/
def libseat.connection_get (p : libseat.Proc) (n : Nat) : Option (List Nat) × libseat.Proc :=
  if libseat.connection_pending p < n then (none, { p with errno := EAGAIN })
  else
    (some ((p.backend.connection.inbuf.drop p.backend.connection.in_pos).take n),
      p.setConnection { p.backend.connection with in_pos := p.backend.connection.in_pos + n })

/-- Modelled from the spec: `restore(n)` of connection.c un-consumes the last `n` bytes. -/
def libseat.connection_restore (p : libseat.Proc) (n : Nat) : libseat.Proc :=
  p.setConnection { p.backend.connection with in_pos := p.backend.connection.in_pos - n }

/-- Modelled from the spec: `put(bytes)` of connection.c appends to the outbound buffer, or
fails and appends nothing. -/
def libseat.connection_put (p : libseat.Proc) (bytes : List Nat) : Int × libseat.Proc :=
  let s := p.syscall
  if s.1 = -1 then (-1, s.2)
  else (0, s.2.setConnection
    { s.2.backend.connection with outbuf := s.2.backend.connection.outbuf ++ bytes })

/-- Modelled from the spec: `flush()` of connection.c writes what it can. -/
def libseat.connection_flush (p : libseat.Proc) : Int × libseat.Proc := p.syscall

/-- Modelled from the spec: `read()` of connection.c moves the bytes the socket has into the
inbound buffer and returns their number, 0 at end of file, -1 with EAGAIN when there are
none. -/
def libseat.connection_read (p : libseat.Proc) : Int × libseat.Proc :=
  match p.socket with
  | [] => (-1, { p with errno := EAGAIN })
  | chunk :: rest =>
    if chunk = [] then (0, { p with socket := rest })
    else ((chunk.length : Int), ({ p with socket := rest } : libseat.Proc).setConnection
      { p.backend.connection with inbuf := p.backend.connection.inbuf ++ chunk })

/-- Modelled from the spec: `get_fd()` of connection.c takes the next received fd. -/
def libseat.connection_get_fd (p : libseat.Proc) : Int × libseat.Proc :=
  match p.in_fds with
  | [] => (-1, { p with errno := EAGAIN })
  | fd :: rest => (fd, { p with in_fds := rest })

def libseat.handle_enable_seat (p : libseat.Proc) : libseat.Proc :=
  if p.backend.enable_seat then { p with calls := p.calls ++ [SERVER_ENABLE_SEAT] } else p

def libseat.handle_disable_seat (p : libseat.Proc) : libseat.Proc :=
  if p.backend.disable_seat then { p with calls := p.calls ++ [SERVER_DISABLE_SEAT] } else p

/-- The result is the header's size field, `none` for SIZE_MAX. -/
def libseat.read_header (p : libseat.Proc) (expected_opcode : Nat) : Option Nat × libseat.Proc :=
  match libseat.connection_get p 4 with
  | (none, p1) => (none, p1)
  | (some header, p1) =>
    if rd16 header ≠ expected_opcode then
      (none, { libseat.connection_restore p1 4 with errno := EBADMSG })
    else (some (rd16 (header.drop 2)), p1)

def libseat.queue_event (p : libseat.Proc) (opcode : Nat) : Int × libseat.Proc :=
  let ev := p.syscall
  if ev.1 = -1 then (-1, ev.2)
  else (0, { ev.2 with backend :=
    { ev.2.backend with pending_events := ev.2.backend.pending_events ++ [opcode] } })

/-- The loop of `execute_events` over the queue `events`; `none` is `abort()`. -/
def libseat.execute_events_loop : List Nat → libseat.Proc → Option libseat.Proc
  | [], p => some p
  | opcode :: rest, p =>
    let p1 : libseat.Proc := { p with backend := { p.backend with pending_events := rest } }
    if opcode = SERVER_DISABLE_SEAT then
      libseat.execute_events_loop rest (libseat.handle_disable_seat p1)
    else if opcode = SERVER_ENABLE_SEAT then
      libseat.execute_events_loop rest (libseat.handle_enable_seat p1)
    else none

def libseat.execute_events (p : libseat.Proc) : Option libseat.Proc :=
  libseat.execute_events_loop p.backend.pending_events p

/-- The loop of `dispatch_pending`, unrolled `fuel` times; `has_opcode` says whether the
argument `opcode` is not NULL and `opcode` is the value it points to. The result is the
number of packets, the value `opcode` points to, and the state. -/
def libseat.dispatch_pending_loop : Nat → libseat.Proc → Bool → Int → Nat →
    Int × Nat × libseat.Proc
  | 0, p, _, packets, opcode => (packets, opcode, p)
  | fuel + 1, p, has_opcode, packets, opcode =>
    match libseat.connection_get p 4 with
    | (none, p1) => (packets, opcode, p1)
    | (some header, p1) =>
      if rd16 header = SERVER_DISABLE_SEAT ∨ rd16 header = SERVER_ENABLE_SEAT then
        libseat.dispatch_pending_loop fuel (libseat.queue_event p1 (rd16 header)).2 has_opcode
          (packets + 1) opcode
      else
        (packets + 1,
          if has_opcode = true ∧ libseat.connection_pending p1 ≥ rd16 (header.drop 2)
            then rd16 header else opcode,
          libseat.connection_restore p1 4)

/-- Every iteration of the loop consumes a header of four bytes, so this many iterations
end it. -/
def libseat.dispatch_pending (p : libseat.Proc) (has_opcode : Bool) (opcode : Nat) :
    Int × Nat × libseat.Proc :=
  libseat.dispatch_pending_loop (libseat.connection_pending p / 4 + 1) p has_opcode 0 opcode

def libseat.poll_connection (p : libseat.Proc) (_timeout : Int) : Int × libseat.Proc :=
  let r := p.syscall
  if r.1 = -1 then ((if r.2.errno = EAGAIN ∨ r.2.errno = EINTR then 0 else -1), r.2)
  else if r.1.toNat / POLLERR % 2 = 1 ∨ r.1.toNat / POLLHUP % 2 = 1 then
    (-1, { r.2 with errno := EPIPE })
  else if r.1.toNat / POLLIN % 2 = 1 then
    let len := libseat.connection_read r.2
    if len.1 = 0 ∨ (len.1 = -1 ∧ len.2.errno ≠ EAGAIN) then (-1, len.2) else len
  else (0, r.2)

/-- The loop of `dispatch`, unrolled `fuel` times; `none` when it is still waiting after
`fuel` iterations. -/
def libseat.dispatch_loop : Nat → libseat.Proc → Nat → Option (Int × libseat.Proc)
  | 0, _, _ => none
  | fuel + 1, p, opcode =>
    let d := libseat.dispatch_pending p true opcode
    if d.1 = 0 ∧ d.2.1 = 0 then
      let r := libseat.poll_connection d.2.2 (-1)
      if r.1 = -1 then some (-1, r.2) else libseat.dispatch_loop fuel r.2 d.2.1
    else some (0, d.2.2)

def libseat.dispatch (fuel : Nat) (p : libseat.Proc) : Option (Int × libseat.Proc) :=
  let f := libseat.connection_flush p
  if f.1 = -1 then some (-1, f.2) else libseat.dispatch_loop fuel f.2 0

def libseat.dispatch_background (p : libseat.Proc) (timeout : Int) :
    Option (Int × libseat.Proc) :=
  let d := libseat.dispatch_pending p false 0
  let timeout1 := if d.1 > 0 then 0 else timeout
  let read := if timeout1 = 0 then libseat.connection_read d.2.2
    else libseat.poll_connection d.2.2 timeout1
  if read.1 > 0 then
    let d2 := libseat.dispatch_pending read.2 false 0
    (libseat.execute_events d2.2.2).map (fun q => (d.1 + d2.1, q))
  else if read.1 = -1 ∧ read.2.errno ≠ EAGAIN then some (-1, read.2)
  else (libseat.execute_events read.2).map (fun q => (d.1, q))

/-- Value of `MAX_SEAT_LEN` of protocol.h, the size of `backend->seat_name`. -/
def MAX_SEAT_LEN : Nat := 64

def libseat.check_error (p : libseat.Proc) : libseat.Proc :=
  match libseat.connection_get p 4 with
  | (none, p1) => p1
  | (some header, p1) =>
    if rd16 header ≠ SERVER_ERROR then { p1 with errno := EBADMSG }
    else
      match libseat.connection_get p1 4 with
      | (none, p2) => p2
      | (some msg, p2) => { p2 with errno := rd32 msg }

/-- What `destroy(backend)` leaves of the process state: the socket is closed and the queue
of pending events is freed without running any callback. -/
def libseat.destroy (p : libseat.Proc) : libseat.Proc :=
  { p with backend := { p.backend with
      connection := { p.backend.connection with fd := -1 }, pending_events := [] } }

/-- The function `_open_seat(listener, data, fd)`; the result is whether a seat was returned;
`none` when `dispatch` is still waiting after `fuel` iterations. -/
def libseat._open_seat (fuel : Nat) (p : libseat.Proc) (enable_seat disable_seat : Bool)
    (fd : Int) : Option (Bool × libseat.Proc) :=
  let b := p.syscall
  if b.1 = -1 then some (false, b.2)
  else
    let p0 : libseat.Proc := { b.2 with backend :=
      { connection := { fd := fd, inbuf := [], in_pos := 0, outbuf := [], out_fds := [] },
        enable_seat := enable_seat, disable_seat := disable_seat, pending_events := [],
        seat_name := [] } }
    let h := libseat.connection_put p0 (proto_header CLIENT_OPEN_SEAT 0)
    if h.1 = -1 then some (false, libseat.destroy h.2)
    else
      match libseat.dispatch fuel h.2 with
      | none => none
      | some (d, p1) =>
        if d = -1 then some (false, libseat.destroy p1)
        else
          match libseat.read_header p1 SERVER_SEAT_OPENED with
          | (none, p2) => some (false, libseat.destroy (libseat.check_error p2))
          | (some size, p2) =>
            if 2 > size then some (false, { p2 with errno := EBADMSG })
            else
              match libseat.connection_get p2 2 with
              | (none, p3) => some (false, p3)
              | (some rmsg, p3) =>
                if 2 + rd16 rmsg > size ∨ rd16 rmsg ≥ MAX_SEAT_LEN then
                  some (false, { p3 with errno := EBADMSG })
                else
                  match libseat.connection_get p3 (rd16 rmsg) with
                  | (none, p4) => some (false, p4)
                  | (some name, p4) =>
                    some (true, { p4 with backend := { p4.backend with seat_name := name } })

def libseat.close_seat (fuel : Nat) (p : libseat.Proc) : Option (Int × libseat.Proc) :=
  let h := libseat.connection_put p (proto_header CLIENT_CLOSE_SEAT 0)
  if h.1 = -1 then some (-1, libseat.destroy h.2)
  else
    match libseat.dispatch fuel h.2 with
    | none => none
    | some (d, p1) =>
      if d = -1 then some (-1, libseat.destroy p1)
      else
        match libseat.read_header p1 SERVER_SEAT_CLOSED with
        | (none, p2) => some (-1, libseat.destroy (libseat.check_error p2))
        | (some _, p2) => some (0, libseat.destroy p2)

/-- The function `open_device(base, path, fd)`; `path` is the C string without its NUL. The
result is the return value and the value stored through `fd`. -/
def libseat.open_device (fuel : Nat) (p : libseat.Proc) (path : List Nat) :
    Option (Int × Option Int × libseat.Proc) :=
  let pathlen := path.length + 1
  if pathlen > MAX_PATH_LEN then some (-1, none, { p with errno := EINVAL })
  else
    let h := libseat.connection_put p (proto_header CLIENT_OPEN_DEVICE (2 + pathlen))
    if h.1 = -1 then some (-1, none, h.2)
    else
      let m := libseat.connection_put h.2 (le16 pathlen)
      if m.1 = -1 then some (-1, none, m.2)
      else
        let s := libseat.connection_put m.2 (path ++ [0])
        if s.1 = -1 then some (-1, none, s.2)
        else
          match libseat.dispatch fuel s.2 with
          | none => none
          | some (d, p1) =>
            if d = -1 then some (-1, none, p1)
            else
              match libseat.read_header p1 SERVER_DEVICE_OPENED with
              | (none, p2) => some (-1, none, libseat.check_error p2)
              | (some size, p2) =>
                if 4 > size then some (-1, none, { p2 with errno := EBADMSG })
                else
                  match libseat.connection_get p2 4 with
                  | (none, p3) => some (-1, none, p3)
                  | (some rmsg, p3) =>
                    let received_fd := libseat.connection_get_fd p3
                    if received_fd.1 = -1 then some (-1, none, received_fd.2)
                    else some (rd32 rmsg, some received_fd.1, received_fd.2)

def libseat.close_device (fuel : Nat) (p : libseat.Proc) (device_id : Int) :
    Option (Int × libseat.Proc) :=
  if device_id < 0 then some (-1, { p with errno := EINVAL })
  else
    let h := libseat.connection_put p (proto_header CLIENT_CLOSE_DEVICE 4)
    if h.1 = -1 then some (-1, h.2)
    else
      let m := libseat.connection_put h.2 (le32 device_id)
      if m.1 = -1 then some (-1, m.2)
      else
        match libseat.dispatch fuel m.2 with
        | none => none
        | some (d, p1) =>
          if d = -1 then some (-1, p1)
          else
            match libseat.read_header p1 SERVER_DEVICE_CLOSED with
            | (none, p2) => some (-1, libseat.check_error p2)
            | (some size, p2) =>
              if 4 > size then some (-1, { p2 with errno := EBADMSG })
              else
                match libseat.connection_get p2 4 with
                | (none, p3) => some (-1, p3)
                | (some rmsg, p3) =>
                  if rd32 rmsg ≠ device_id then some (-1, { p3 with errno := EBADMSG })
                  else some (0, p3)

/-- A client process whose backend has both callbacks and an open connection (fd 3) with
`inbuf` received and unread, and `socket` still to arrive. -/
def libseat.example_proc (inbuf : List Nat) (socket : List (List Nat)) (tape : List Int) :
    libseat.Proc :=
  let k : connection := { fd := 3, inbuf := inbuf, in_pos := 0, outbuf := [], out_fds := [] }
  let b : libseat.backend_seatd := { connection := k, enable_seat := true, disable_seat := true, pending_events := [], seat_name := client_get_seat_name }
  { backend := b, calls := [], socket := socket, in_fds := [], tape := tape, errno := 0 }

/-- Between `p` and `p1` no listener callback was invoked and nothing was put on the
connection. -/
def libseat.Quiet (p p1 : libseat.Proc) : Prop :=
  p1.calls = p.calls ∧ p1.backend.connection.outbuf = p.backend.connection.outbuf

/-- The bytes `open_device` puts on the connection for `path`: the header with opcode
OPEN_DEVICE and size `sizeof msg + pathlen`, the message with `path_len = pathlen`, and the
`pathlen = strlen(path) + 1` bytes of the path with its NUL. -/
def libseat.open_device_request (path : List Nat) : List Nat :=
  proto_header CLIENT_OPEN_DEVICE (2 + (path.length + 1)) ++ le16 (path.length + 1)
    ++ (path ++ [0])

/-- Every kernel and libc call of the client process still to come succeeds. -/
def libseat.tape_ok (p : libseat.Proc) : Prop := ∀ r ∈ p.tape, 0 ≤ r

/-- A client process with an empty inbound buffer whose socket will deliver
DEVICE_OPENED{1} and fd 7 once polled. -/
def libseat.proc_awaiting_device : libseat.Proc :=
  { libseat.example_proc [] [proto_header SERVER_DEVICE_OPENED 4 ++ le32 1] [0, 0, 0, 0, 1] with
    in_fds := [7] }

/-- Between `p` and `p1` no listener callback was invoked. -/
def libseat.Silent (p p1 : libseat.Proc) : Prop := p1.calls = p.calls

/-- Between `p` and `p1` no listener callback was invoked, the listener is the same, and the
event queue only grew, at its end and by notifications. -/
def libseat.Queued (p p1 : libseat.Proc) : Prop :=
  p1.calls = p.calls ∧ p1.backend.enable_seat = p.backend.enable_seat ∧
  p1.backend.disable_seat = p.backend.disable_seat ∧
  ∃ evs, p1.backend.pending_events = p.backend.pending_events ++ evs ∧
    ∀ e ∈ evs, e = SERVER_DISABLE_SEAT ∨ e = SERVER_ENABLE_SEAT

/-- The bytes of the inbound buffer that were not consumed yet. -/
def libseat.unread (p : libseat.Proc) : List Nat :=
  p.backend.connection.inbuf.drop p.backend.connection.in_pos

/-- Whether the listener has a callback for the event `opcode`, the test of
`handle_enable_seat` and `handle_disable_seat`. -/
def libseat.fires (p : libseat.Proc) (opcode : Nat) : Bool :=
  (decide (opcode = SERVER_DISABLE_SEAT) && p.backend.disable_seat) ||
    (decide (opcode = SERVER_ENABLE_SEAT) && p.backend.enable_seat)

/-- A client process whose inbound buffer holds DISABLE_SEAT, ENABLE_SEAT and the header of
DEVICE_OPENED without its payload; the socket has nothing more. -/
def libseat.proc_two_notifications : libseat.Proc :=
  libseat.example_proc (proto_header SERVER_DISABLE_SEAT 0 ++ proto_header SERVER_ENABLE_SEAT 0 ++ proto_header SERVER_DEVICE_OPENED 4) [] []

/-- The path "/dev/dri/card1". -/
def dri_card1 : List Nat := [47, 100, 101, 118, 47, 100, 114, 105, 47, 99, 97, 114, 100, 49]

/-- The path "/dev/dri/card2". -/
def dri_card2 : List Nat := [47, 100, 101, 118, 47, 100, 114, 105, 47, 99, 97, 114, 100, 50]

/-- Round `k` of a client that keeps two devices open: it closes the older of its two
devices, the one at position 1 of the ledger, and opens that path again. -/
def churn_round (k : Nat) : List (seat_op × List Int) :=
  [(seat_op.close_device 0 1, []), (seat_op.open_device 0 (if k % 2 = 0 then dri_card1 else dri_card0), [5, 0, 0, 0])]

/-- Client 0 opens "/dev/dri/card1" and "/dev/dri/card0" and then goes through `n` rounds
of closing and opening the older device; every kernel call succeeds. -/
def churn_ops : Nat → List (seat_op × List Int)
  | 0 => [(seat_op.open_device 0 dri_card1, [5, 0, 0, 0]), (seat_op.open_device 0 dri_card0, [5, 0, 0, 0])]
  | n + 1 => churn_ops n ++ churn_round n

/-- Client 0 is the active client and holds exactly the devices `devs`, on the file system
of the examples. -/
def holds (w : World) (devs : List seat_device) : Prop :=
  (w.client 0).seat = true ∧ (w.client 0).state = CLIENT_ACTIVE ∧
    w.seat.active_client = some 0 ∧ w.platform = example_platform ∧
    (w.client 0).devices = devs

/-- The clients 0, ..., n - 1 connect one after the other: each is attached by
`seat_add_client` and, before the next one comes, removed by `seat_remove_client`. -/
def cycle_ops : Nat → List (seat_op × List Int)
  | 0 => []
  | n + 1 => cycle_ops n ++ [(seat_op.add_client n, []), (seat_op.remove_client n, [])]

/-! ## Frame lemmas -/

@[simp] theorem syscall_seat (w : World) : w.syscall.2.seat = w.seat := by
  unfold World.syscall; split
  · rfl
  · split <;> rfl

@[simp] theorem syscall_client (w : World) : w.syscall.2.client = w.client := by
  unfold World.syscall; split
  · rfl
  · split <;> rfl

@[simp] theorem syscall_closed (w : World) : w.syscall.2.closed = w.closed := by
  unfold World.syscall; split
  · rfl
  · split <;> rfl

@[simp] theorem syscall_platform (w : World) : w.syscall.2.platform = w.platform := by
  unfold World.syscall; split
  · rfl
  · split <;> rfl

@[simp] theorem view_syscall (w : World) : w.syscall.2.view = w.view := by
  simp [World.view]

@[simp] theorem view_close (w : World) (fd : Int) : (w.close fd).view = w.view := rfl

@[simp] theorem view_errno (w : World) (e : Int) : ({ w with errno := e } : World).view = w.view := rfl

theorem view_setClient_connection (w : World) (c : Nat) (k : connection) :
    (w.setClient c { w.client c with connection := k }).view = w.view := by
  simp only [World.view, World.setClient, View.mk.injEq, true_and]
  constructor <;> funext i <;> by_cases h : i = c <;> simp [h]

@[simp] theorem view_connection_put (w : World) (c : Nat) (b : List Nat) :
    (connection_put w c b).2.view = w.view := by
  unfold connection_put
  simp only
  split
  · simp
  · rw [view_setClient_connection]; simp

@[simp] theorem view_connection_flush (w : World) (c : Nat) :
    (connection_flush w c).2.view = w.view := by
  simp [connection_flush]

@[simp] theorem view_client_send_enable_seat (w : World) (c : Nat) :
    (client_send_enable_seat w c).2.view = w.view := by
  unfold client_send_enable_seat
  simp only
  split
  · simp
  · split <;> simp

@[simp] theorem view_client_send_disable_seat (w : World) (c : Nat) :
    (client_send_disable_seat w c).2.view = w.view := by
  unfold client_send_disable_seat
  simp only
  split
  · simp
  · split <;> simp

@[simp] theorem view_terminal_open (w : World) (vt : Int) : (terminal_open w vt).2.view = w.view := by
  simp [terminal_open]

@[simp] theorem view_seat_update_vt (w : World) : (seat_update_vt w).view = w.view := by
  unfold seat_update_vt
  simp only
  split
  · simp
  · simp [World.view, World.close, terminal_current_vt, terminal_open]

theorem view_vt_open {w w1 : World} {vt r : Int} (h : vt_open w vt = some (r, w1)) :
    w1.view = w.view := by
  unfold vt_open at h
  simp only at h
  split_ifs at h <;> simp only [Option.some.injEq, Prod.mk.injEq] at h <;>
    obtain ⟨_, rfl⟩ := h <;> simp [World.view, terminal_open, World.close]

@[simp] theorem view_vt_close (w : World) : (vt_close w).view = w.view := by
  unfold vt_close; split <;> rfl

@[simp] theorem view_vt_close_num (w : World) (vt : Int) : (vt_close_num w vt).2.view = w.view := by
  unfold vt_close_num; simp only; split <;> simp

@[simp] theorem view_vt_switch (w : World) (vt : Int) : (vt_switch w vt).2.view = w.view := by
  unfold vt_switch; simp only; split <;> simp

@[simp] theorem view_vt_ack (w : World) (b : Bool) : (vt_ack w b).2.view = w.view := by
  unfold vt_ack; simp only; split <;> simp

@[simp] theorem setClient_seat (w : World) (c : Nat) (cl : client) :
    (w.setClient c cl).seat = w.seat := rfl

@[simp] theorem setClient_client_same (w : World) (c : Nat) (cl : client) :
    (w.setClient c cl).client c = cl := by simp [World.setClient]

theorem setClient_client_other (w : World) {c i : Nat} (cl : client) (h : i ≠ c) :
    (w.setClient c cl).client i = w.client i := by simp [World.setClient, h]

theorem view_setClient (w : World) (c : Nat) (cl : client) :
    (w.setClient c cl).view =
      { active_client := w.view.active_client,
        state := Function.update w.view.state c cl.state,
        ids := Function.update w.view.ids c (cl.devices.map seat_device.device_id) } := by
  simp only [World.view, World.setClient, View.mk.injEq, true_and]
  constructor <;> funext i <;> by_cases h : i = c <;> simp [h, Function.update]

theorem seat_deactivate_device_frame {w w1 : World} {d d1 : seat_device} {r : Int}
    (h : seat_deactivate_device w d = some (r, d1, w1)) :
    w1.view = w.view ∧ d1.device_id = d.device_id := by
  unfold seat_deactivate_device at h
  split_ifs at h
  · simp only [Option.some.injEq, Prod.mk.injEq] at h
    obtain ⟨_, rfl, rfl⟩ := h
    exact ⟨rfl, rfl⟩
  · split at h <;> simp only at h <;> split_ifs at h <;>
      simp only [Option.some.injEq, Prod.mk.injEq] at h <;>
      obtain ⟨_, rfl, rfl⟩ := h <;> simp [drm_drop_master, evdev_revoke]

theorem seat_activate_device_frame {w w1 : World} {c : Nat} {d d1 : seat_device} {r : Int}
    (h : seat_activate_device w c d = some (r, d1, w1)) :
    w1.view = w.view ∧ d1.device_id = d.device_id := by
  unfold seat_activate_device at h
  split_ifs at h
  · simp only [Option.some.injEq, Prod.mk.injEq] at h
    obtain ⟨_, rfl, rfl⟩ := h
    exact ⟨rfl, rfl⟩
  · split at h <;> simp only [Option.some.injEq, Prod.mk.injEq] at h <;>
      obtain ⟨_, rfl, rfl⟩ := h <;> simp [drm_set_master]

theorem for_each_device_frame (body : World → seat_device → Option (Int × seat_device × World))
    (hb : ∀ w d r d1 w1, body w d = some (r, d1, w1) →
      w1.view = w.view ∧ d1.device_id = d.device_id) :
    ∀ (l : List seat_device) (w : World) (l1 : List seat_device) (w1 : World),
      for_each_device body l w = some (l1, w1) →
      w1.view = w.view ∧ l1.map seat_device.device_id = l.map seat_device.device_id := by
  intro l
  induction l with
  | nil =>
    intro w l1 w1 h
    simp only [for_each_device, Option.some.injEq, Prod.mk.injEq] at h
    obtain ⟨rfl, rfl⟩ := h
    exact ⟨rfl, rfl⟩
  | cons d rest ih =>
    intro w l1 w1 h
    unfold for_each_device at h
    split at h
    · cases h
    · rename_i r d1 w2 hd
      split at h
      · cases h
      · rename_i rest1 w3 hr
        simp only [Option.some.injEq, Prod.mk.injEq] at h
        obtain ⟨rfl, rfl⟩ := h
        obtain ⟨hv, hid⟩ := hb _ _ _ _ _ hd
        obtain ⟨hv2, hid2⟩ := ih _ _ _ hr
        exact ⟨hv2.trans hv, by simp [hid, hid2]⟩

theorem seat_open_client_view {w w1 : World} {c : Nat} {r : Int}
    (h : seat_open_client w c = some (r, w1)) : Opened w.view w1.view := by
  unfold seat_open_client at h
  by_cases h1 : (w.client c).state ≠ CLIENT_NEW ∧ (w.client c).state ≠ CLIENT_DISABLED
  · rw [if_pos h1] at h
    simp only [Option.some.injEq, Prod.mk.injEq] at h
    obtain ⟨_, rfl⟩ := h
    exact ⟨rfl, Or.inl rfl⟩
  rw [if_neg h1] at h
  by_cases h2 : w.seat.active_client ≠ none
  · rw [if_pos h2] at h
    simp only [Option.some.injEq, Prod.mk.injEq] at h
    obtain ⟨_, rfl⟩ := h
    exact ⟨rfl, Or.inl rfl⟩
  rw [if_neg h2] at h
  generalize hvt : (if w.seat.vt_bound = true then vt_open w (w.client c).session
    else some (0, w)) = ov at h
  rcases ov with _ | ⟨r0, w0⟩
  · cases h
  have hv0 : w0.view = w.view := by
    split_ifs at hvt
    · exact view_vt_open hvt
    · simp only [Option.some.injEq, Prod.mk.injEq] at hvt
      rw [← hvt.2]
  simp only at h
  by_cases h3 : r0 = -1
  · rw [if_pos h3] at h
    simp only [Option.some.injEq, Prod.mk.injEq] at h
    obtain ⟨_, rfl⟩ := h
    refine ⟨?_, Or.inl ?_⟩ <;> split_ifs <;> simp [hv0]
  rw [if_neg h3] at h
  generalize hf : for_each_device (fun w d => seat_activate_device w c d)
    (w0.client c).devices w0 = od at h
  rcases od with _ | ⟨devs, w2⟩
  · cases h
  obtain ⟨hv2, hids⟩ := for_each_device_frame _
    (fun _ _ _ _ _ hh => seat_activate_device_frame hh) _ _ _ _ hf
  have e1 : w2.view = w.view := hv2.trans hv0
  have hids2 : List.map seat_device.device_id devs = w.view.ids c := by
    rw [hids]
    show w0.view.ids c = _
    rw [hv0]
  have key : ∀ w3 : World, w3.view = (({ w2 with seat := { w2.seat with active_client := some c } } : World).setClient c
      { w2.client c with devices := devs, state := CLIENT_ACTIVE }).view →
      Opened w.view w3.view := by
    intro w3 h3
    rw [h3, view_setClient]
    refine ⟨?_, Or.inr ⟨c, ?_, rfl, ?_⟩⟩
    · simp only [hids2]
      show Function.update w2.view.ids c _ = _
      rw [e1]; simp
    · simpa [World.view] using h2
    · show Function.update w2.view.state c _ = _
      rw [e1]
  simp only at h
  split_ifs at h <;> simp only [Option.some.injEq, Prod.mk.injEq] at h <;>
    obtain ⟨_, rfl⟩ := h <;> apply key <;> simp

theorem opened_refl (v : View) : Opened v v := ⟨rfl, Or.inl rfl⟩

theorem seat_activate_view {w w1 : World} {r : Int}
    (h : seat_activate w = some (r, w1)) : Opened w.view w1.view := by
  unfold seat_activate at h
  by_cases h1 : w.seat.active_client ≠ none
  · rw [if_pos h1] at h
    simp only [Option.some.injEq, Prod.mk.injEq] at h
    obtain ⟨_, rfl⟩ := h
    exact opened_refl _
  rw [if_neg h1] at h
  have hsome : ∀ {w0 : World} {n : Nat}, w0.view = w.view →
      seat_open_client w0 n = some (r, w1) → Opened w.view w1.view := by
    intro w0 n hv ho
    rw [← hv]
    exact seat_open_client_view ho
  split at h
  · refine hsome ?_ h
    rfl
  · split at h
    · simp only [Option.some.injEq, Prod.mk.injEq] at h
      obtain ⟨_, rfl⟩ := h
      exact opened_refl _
    · split_ifs at h
      · simp only [Option.some.injEq, Prod.mk.injEq] at h
        obtain ⟨_, rfl⟩ := h
        exact opened_refl _
      · split at h
        · exact hsome rfl h
        · simp only [Option.some.injEq, Prod.mk.injEq] at h
          obtain ⟨_, rfl⟩ := h
          exact opened_refl _
      · exact hsome rfl h

theorem shrunk_refl (v : View) : Shrunk v v := ⟨rfl, rfl, fun _ => List.Sublist.refl _⟩

theorem shrunk_trans {a b c : View} (h1 : Shrunk a b) (h2 : Shrunk b c) : Shrunk a c :=
  ⟨h2.1.trans h1.1, h2.2.1.trans h1.2.1, fun i => (h2.2.2 i).trans (h1.2.2 i)⟩

theorem map_id_update_device (f : seat_device → seat_device)
    (hf : ∀ d, (f d).device_id = d.device_id) :
    ∀ (l : List seat_device) (i : Nat),
      (update_device f l i).map seat_device.device_id = l.map seat_device.device_id := by
  intro l
  induction l with
  | nil => intro i; rfl
  | cons d rest ih =>
    intro i
    cases i with
    | zero => simp [update_device, hf]
    | succ j => simp [update_device, ih]

theorem seat_close_device_view {w w1 : World} {c i : Nat} {r : Int}
    (h : seat_close_device w c i = some (r, w1)) : Shrunk w.view w1.view := by
  unfold seat_close_device at h
  by_cases h1 : (w.client c).seat = false
  · rw [if_pos h1] at h; cases h
  rw [if_neg h1] at h
  split at h
  · cases h
  rename_i d hd
  by_cases h2 : d.fd = -1
  · rw [if_pos h2] at h; cases h
  rw [if_neg h2] at h
  by_cases h3 : d.ref_cnt - 1 > 0
  · rw [if_pos h3] at h
    simp only [Option.some.injEq, Prod.mk.injEq] at h
    obtain ⟨_, rfl⟩ := h
    rw [view_setClient]
    refine ⟨rfl, ?_, ?_⟩
    · show Function.update w.view.state c (w.view.state c) = _
      simp
    · intro k
      simp only
      rw [map_id_update_device (fun d : seat_device => { d with ref_cnt := d.ref_cnt - 1 })
        (fun _ => rfl)]
      show (Function.update w.view.ids c (w.view.ids c) k).Sublist _
      simp
  rw [if_neg h3] at h
  simp only at h
  have hs : Shrunk w.view
      (w.setClient c { w.client c with devices := (w.client c).devices.eraseIdx i }).view := by
    rw [view_setClient]
    refine ⟨rfl, ?_, ?_⟩
    · show Function.update w.view.state c (w.view.state c) = _
      simp
    · intro k
      simp only
      by_cases hk : k = c
      · subst hk
        simp only [Function.update_same]
        exact (List.eraseIdx_sublist _ _).map _
      · simp [Function.update_noteq hk]
  rw [if_pos h2] at h
  split at h
  · cases h
  rename_i r2 d2 w2 hde
  simp only [Option.some.injEq, Prod.mk.injEq] at h
  obtain ⟨_, rfl⟩ := h
  rw [view_close, (seat_deactivate_device_frame hde).1]
  exact hs

theorem close_devices_loop_view : ∀ (fuel : Nat) (w w1 : World) (c : Nat),
    close_devices_loop fuel w c = some w1 → Shrunk w.view w1.view := by
  intro fuel
  induction fuel with
  | zero =>
    intro w w1 c h
    simp only [close_devices_loop, Option.some.injEq] at h
    subst h
    exact shrunk_refl _
  | succ n ih =>
    intro w w1 c h
    unfold close_devices_loop at h
    split_ifs at h
    · simp only [Option.some.injEq] at h
      subst h
      exact shrunk_refl _
    · split at h
      · cases h
      · rename_i r w2 hc
        exact shrunk_trans (seat_close_device_view hc) (ih _ _ _ h)

@[simp] theorem seat_update_vt_client (w : World) : (seat_update_vt w).client = w.client := by
  unfold seat_update_vt
  simp only
  split <;> simp [World.close, terminal_current_vt, terminal_open]

@[simp] theorem view_seat_add_client (w : World) (c : Nat) : (seat_add_client w c).2.view = w.view := by
  unfold seat_add_client
  simp only
  split_ifs <;> simp only [view_errno, view_seat_update_vt, view_setClient] <;>
    simp [World.view]

theorem open_device_loop_inr (p : List Nat) :
    ∀ (l : List seat_device) (id : Int) (cnt pos : Nat) (id1 : Int) (cnt1 : Nat),
      open_device_loop p l id cnt pos = Sum.inr (id1, cnt1) →
      (∀ d ∈ l, d.path ≠ p) ∧
        (id1 = id ∨ ∃ d ∈ l, id1 = int_wrap (d.device_id + 1)) ∧ cnt1 = cnt + l.length := by
  intro l
  induction l with
  | nil =>
    intro id cnt pos id1 cnt1 h
    simp only [open_device_loop, Sum.inr.injEq, Prod.mk.injEq] at h
    obtain ⟨rfl, rfl⟩ := h
    simp
  | cons d rest ih =>
    intro id cnt pos id1 cnt1 h
    unfold open_device_loop at h
    by_cases hp : d.path = p
    · rw [if_pos hp] at h; cases h
    rw [if_neg hp] at h
    obtain ⟨h3, h4, h5⟩ := ih _ _ _ _ _ h
    refine ⟨?_, ?_, ?_⟩
    · intro x hx
      rcases List.mem_cons.1 hx with rfl | hx
      · exact hp
      · exact h3 x hx
    · rcases h4 with h4 | ⟨x, hx, h4⟩
      · split_ifs at h4 with hge
        · exact Or.inr ⟨d, List.mem_cons_self _ _, h4⟩
        · exact Or.inl h4
      · exact Or.inr ⟨x, List.mem_cons_of_mem _ hx, h4⟩
    · simp only [List.length_cons]; omega

theorem seat_open_device_view {w w1 : World} {c : Nat} {path : List Nat} {r : Option Nat}
    (h : seat_open_device w c path = some (r, w1)) :
    w1.view.active_client = w.view.active_client ∧ w1.view.state = w.view.state ∧
      (w1.view.ids = w.view.ids ∨
        ∃ id, w1.view.ids = Function.update w.view.ids c (id :: w.view.ids c) ∧
          (id = 1 ∨ ∃ i ∈ w.view.ids c, id = int_wrap (i + 1))) := by
  have same : ∀ (w0 : World), w0.view = w.view →
      w0.view.active_client = w.view.active_client ∧ w0.view.state = w.view.state ∧
      (w0.view.ids = w.view.ids ∨
        ∃ id, w0.view.ids = Function.update w.view.ids c (id :: w.view.ids c) ∧
          (id = 1 ∨ ∃ i ∈ w.view.ids c, id = int_wrap (i + 1))) := by
    intro w0 h0
    rw [h0]
    exact ⟨rfl, rfl, Or.inl rfl⟩
  unfold seat_open_device at h
  by_cases h1 : (w.client c).seat = false
  · rw [if_pos h1] at h; cases h
  rw [if_neg h1] at h
  by_cases h2 : path.length = 0
  · rw [if_pos h2] at h; cases h
  rw [if_neg h2] at h
  by_cases h3 : (w.client c).state ≠ CLIENT_ACTIVE
  · rw [if_pos h3] at h
    simp only [Option.some.injEq, Prod.mk.injEq] at h
    obtain ⟨_, rfl⟩ := h
    exact same _ rfl
  rw [if_neg h3] at h
  by_cases h4 : w.seat.active_client ≠ some c
  · rw [if_pos h4] at h; cases h
  rw [if_neg h4] at h
  split at h
  · simp only [Option.some.injEq, Prod.mk.injEq] at h
    obtain ⟨_, rfl⟩ := h
    exact same _ rfl
  rename_i sp hsp
  by_cases h5 : w.platform.path_is_evdev sp = false ∧ w.platform.path_is_drm sp = false
  · rw [if_pos h5] at h
    simp only [Option.some.injEq, Prod.mk.injEq] at h
    obtain ⟨_, rfl⟩ := h
    exact same _ rfl
  rw [if_neg h5] at h
  simp only at h
  generalize (if w.platform.path_is_evdev sp = true then SEAT_DEVICE_TYPE_EVDEV
    else SEAT_DEVICE_TYPE_DRM) = ty at h
  generalize hl : open_device_loop sp (w.client c).devices 1 0 0 = res at h
  rcases res with i | ⟨id, cnt⟩
  · simp only [Option.some.injEq, Prod.mk.injEq] at h
    obtain ⟨_, rfl⟩ := h
    apply same
    rw [view_setClient]
    simp only
    rw [map_id_update_device (fun d : seat_device => { d with ref_cnt := d.ref_cnt + 1 })
        (fun _ => rfl)]
    show ({ active_client := w.view.active_client,
            state := Function.update w.view.state c (w.view.state c),
            ids := Function.update w.view.ids c (w.view.ids c) } : View) = _
    simp
  · simp only at h
    obtain ⟨_, hor, _⟩ := open_device_loop_inr _ _ _ _ _ _ _ hl
    by_cases h6 : cnt ≥ w.platform.MAX_SEAT_DEVICES
    · rw [if_pos h6] at h
      simp only [Option.some.injEq, Prod.mk.injEq] at h
      obtain ⟨_, rfl⟩ := h
      exact same _ rfl
    rw [if_neg h6] at h
    by_cases h7 : w.syscall.1 = -1
    · rw [if_pos h7] at h
      simp only [Option.some.injEq, Prod.mk.injEq] at h
      obtain ⟨_, rfl⟩ := h
      exact same _ (by simp)
    rw [if_neg h7] at h
    generalize hw1 : (if ty = SEAT_DEVICE_TYPE_DRM then (drm_set_master w.syscall.2 w.syscall.1).2
        else w.syscall.2) = wd at h
    have hwd : wd.view = w.view := by
      rw [← hw1]; split_ifs <;> simp [drm_set_master]
    by_cases h8 : wd.syscall.1 = -1
    · rw [if_pos h8] at h
      simp only [Option.some.injEq, Prod.mk.injEq] at h
      obtain ⟨_, rfl⟩ := h
      exact same _ (by simp [World.view, World.close] at hwd ⊢; exact hwd)
    rw [if_neg h8] at h
    by_cases h9 : wd.syscall.2.syscall.1 = -1
    · rw [if_pos h9] at h
      simp only [Option.some.injEq, Prod.mk.injEq] at h
      obtain ⟨_, rfl⟩ := h
      exact same _ (by simp [hwd])
    rw [if_neg h9] at h
    simp only [Option.some.injEq, Prod.mk.injEq] at h
    obtain ⟨_, rfl⟩ := h
    rw [view_setClient]
    have hv2 : wd.syscall.2.syscall.2.view = w.view := by simp [hwd]
    refine ⟨?_, ?_, Or.inr ⟨id, ?_, ?_⟩⟩
    · simp only [hv2]
    · simp only [hv2]
      show Function.update w.view.state c (wd.syscall.2.syscall.2.view.state c) = _
      rw [hv2]; simp
    · simp only [hv2, List.map_cons]
      show Function.update w.view.ids c (id :: wd.syscall.2.syscall.2.view.ids c) = _
      rw [hv2]
    · rcases hor with h | ⟨d, hd, h⟩
      · exact Or.inl h
      · exact Or.inr ⟨d.device_id, List.mem_map_of_mem _ hd, h⟩

theorem seat_disable_client_view {w w1 : World} {c : Nat} {r : Int}
    (h : seat_disable_client w c = some (r, w1)) : Disabled c w.view w1.view := by
  unfold seat_disable_client at h
  by_cases h1 : (w.client c).seat = false
  · rw [if_pos h1] at h; cases h
  rw [if_neg h1] at h
  by_cases h2 : (w.client c).state ≠ CLIENT_ACTIVE
  · rw [if_pos h2] at h
    simp only [Option.some.injEq, Prod.mk.injEq] at h
    obtain ⟨_, rfl⟩ := h
    exact ⟨rfl, Or.inl rfl⟩
  rw [if_neg h2] at h
  simp only at h
  generalize hf : for_each_device seat_deactivate_device (w.client c).devices
    ({ w with seat := { w.seat with active_client := some c } } : World) = od at h
  rcases od with _ | ⟨devs, w2⟩
  · cases h
  obtain ⟨hv2, hids⟩ := for_each_device_frame _
    (fun _ _ _ _ _ hh => seat_deactivate_device_frame hh) _ _ _ _ hf
  simp only at h
  have hact : w2.seat.active_client = some c := by
    have := congrArg View.active_client hv2
    exact this
  simp only [setClient_seat, hact] at h
  have hst : w2.view.state = w.view.state := (congrArg View.state hv2).trans rfl
  have hid : w2.view.ids = w.view.ids := (congrArg View.ids hv2).trans rfl
  have key : ∀ w3 : World, w3.view = (w2.setClient c
      { w2.client c with devices := devs, state := CLIENT_PENDING_DISABLE }).view →
      Disabled c w.view w3.view := by
    intro w3 h3
    rw [h3, view_setClient]
    refine ⟨?_, Or.inr ⟨?_, hact, ?_⟩⟩
    · simp only [hids, hid]
      show Function.update w.view.ids c (w.view.ids c) = _
      simp
    · simpa using h2
    · simp only [hst]
  split_ifs at h <;> simp only [Option.some.injEq, Prod.mk.injEq] at h <;>
    obtain ⟨_, rfl⟩ := h <;> apply key <;> simp

theorem one_active_of_opened {v v1 : View} (hv : v.one_active) (h : Opened v v1) :
    v1.one_active := by
  rcases h.2 with rfl | ⟨n, hn, ha, hs⟩
  · exact hv
  · intro x hx
    rw [hs] at hx
    by_cases hxn : x = n
    · rw [ha, hxn]
    · rw [Function.update_noteq hxn] at hx
      have := hv x hx
      rw [hn] at this
      cases this

theorem one_active_of_shrunk {v v1 : View} (hv : v.one_active) (h : Shrunk v v1) :
    v1.one_active := by
  intro x hx
  rw [h.2.1] at hx
  rw [h.1]
  exact hv x hx

theorem one_active_of_disabled {c : Nat} {v v1 : View} (hv : v.one_active)
    (h : Disabled c v v1) : v1.one_active := by
  rcases h.2 with rfl | ⟨hc, ha, hs⟩
  · exact hv
  · intro x hx
    rw [hs] at hx
    by_cases hxc : x = c
    · rw [ha, hxc]
    · rw [Function.update_noteq hxc] at hx
      have h1 := hv x hx
      have h2 := hv c hc
      rw [h1] at h2
      exact absurd (Option.some.inj h2) hxc

theorem seat_close_client_ok {w w1 : World} {c : Nat} {r : Int}
    (h : seat_close_client w c = some (r, w1)) :
    (∀ k, (w1.view.ids k).Sublist (w.view.ids k)) ∧ (w.view.one_active → w1.view.one_active) := by
  unfold seat_close_client at h
  by_cases h1 : (w.client c).seat = false
  · rw [if_pos h1] at h; cases h
  rw [if_neg h1] at h
  generalize hl : close_devices_loop (close_devices_fuel (w.client c).devices) w c = ol at h
  rcases ol with _ | wa
  · cases h
  have hsh := close_devices_loop_view _ _ _ _ hl
  simp only at h
  generalize ha : (if decide (wa.seat.active_client = some c) = true then
      seat_activate { wa with seat := { wa.seat with active_client := none } }
      else some (0, wa)) = oa at h
  rcases oa with _ | ⟨r2, wb⟩
  · cases h
  simp only [Option.some.injEq, Prod.mk.injEq] at h
  obtain ⟨_, rfl⟩ := h
  rw [view_setClient]
  generalize hw3 : (if wb.seat.vt_bound = true then
      if decide (wa.seat.active_client = some c) = true ∧ wb.seat.active_client = none then vt_close wb
      else if decide (wa.seat.active_client = some c) = false ∧ (wb.client c).state ≠ CLIENT_CLOSED then
        (vt_close_num wb (wb.client c).session).2
      else wb
    else wb) = wc
  have hwc : wc.view = wb.view := by
    rw [← hw3]; split_ifs <;> simp
  have hidc : List.map seat_device.device_id (wc.client c).devices = wb.view.ids c := by
    show wc.view.ids c = _
    rw [hwc]
  simp only [hwc, hidc, Function.update_eq_self]
  by_cases hcur : wa.seat.active_client = some c
  · simp only [hcur, decide_True, if_true] at ha
    have hop := seat_activate_view ha
    have hids : wb.view.ids = wa.view.ids := hop.1
    refine ⟨fun k => by rw [hids]; exact hsh.2.2 k, ?_⟩
    intro hv x hx
    simp only at hx ⊢
    have hva := one_active_of_shrunk hv hsh
    by_cases hxc : x = c
    · subst hxc; simp at hx
    rw [Function.update_noteq hxc] at hx
    rcases hop.2 with he | ⟨n, _, hn, hs⟩
    · rw [he] at hx
      have := hva x hx
      rw [show wa.view.active_client = some c from hcur] at this
      exact absurd (Option.some.inj this).symm hxc
    · rw [hs] at hx
      by_cases hxn : x = n
      · rw [hn, hxn]
      · rw [Function.update_noteq hxn] at hx
        have := hva x hx
        rw [show wa.view.active_client = some c from hcur] at this
        exact absurd (Option.some.inj this).symm hxc
  · simp only [hcur, decide_False, Bool.false_eq_true, if_false, Option.some.injEq,
      Prod.mk.injEq] at ha
    obtain ⟨_, rfl⟩ := ha
    refine ⟨fun k => hsh.2.2 k, ?_⟩
    intro hv x hx
    simp only at hx ⊢
    have hva := one_active_of_shrunk hv hsh
    by_cases hxc : x = c
    · subst hxc; simp at hx
    rw [Function.update_noteq hxc] at hx
    exact hva x hx

theorem seat_remove_client_ok {w w1 : World} {c : Nat} {r : Int}
    (h : seat_remove_client w c = some (r, w1)) :
    (∀ k, (w1.view.ids k).Sublist (w.view.ids k)) ∧ (w.view.one_active → w1.view.one_active) := by
  unfold seat_remove_client at h
  by_cases h1 : (w.client c).seat = false
  · rw [if_pos h1] at h; cases h
  rw [if_neg h1] at h
  simp only at h
  generalize hw0 : (if w.seat.next_client = some c then
      ({ w with seat := { w.seat with next_client := none } } : World) else w) = w0 at h
  have hv0 : w0.view = w.view := by
    rw [← hw0]; split_ifs <;> rfl
  generalize hl : close_devices_loop (close_devices_fuel (w0.client c).devices) w0 c = ol at h
  rcases ol with _ | wa
  · cases h
  have hsh := close_devices_loop_view _ _ _ _ hl
  rw [hv0] at hsh
  simp only at h
  generalize hc : seat_close_client wa c = oc at h
  rcases oc with _ | ⟨r2, wb⟩
  · cases h
  simp only [Option.some.injEq, Prod.mk.injEq] at h
  obtain ⟨_, rfl⟩ := h
  obtain ⟨hsub, hone⟩ := seat_close_client_ok hc
  have hfin : (wb.setClient c { wb.client c with seat := false }).view = wb.view := by
    rw [view_setClient]
    show ({ active_client := wb.view.active_client,
            state := Function.update wb.view.state c (wb.view.state c),
            ids := Function.update wb.view.ids c (wb.view.ids c) } : View) = _
    simp
  rw [hfin]
  exact ⟨fun k => (hsub k).trans (hsh.2.2 k), fun hv => hone (one_active_of_shrunk hv hsh)⟩

theorem seat_ack_disable_client_ok {w w1 : World} {c : Nat} {r : Int}
    (h : seat_ack_disable_client w c = some (r, w1)) :
    w1.view.ids = w.view.ids ∧ (w.view.one_active → w1.view.one_active) := by
  unfold seat_ack_disable_client at h
  by_cases h1 : (w.client c).seat = false
  · rw [if_pos h1] at h; cases h
  rw [if_neg h1] at h
  by_cases h2 : (w.client c).state ≠ CLIENT_PENDING_DISABLE
  · rw [if_pos h2] at h
    simp only [Option.some.injEq, Prod.mk.injEq] at h
    obtain ⟨_, rfl⟩ := h
    exact ⟨rfl, id⟩
  rw [if_neg h2] at h
  simp only at h
  have hv1 : (w.setClient c { w.client c with state := CLIENT_DISABLED }).view =
      { w.view with state := Function.update w.view.state c CLIENT_DISABLED } := by
    rw [view_setClient]
    show ({ active_client := w.view.active_client,
            state := Function.update w.view.state c CLIENT_DISABLED,
            ids := Function.update w.view.ids c (w.view.ids c) } : View) = _
    simp
  by_cases h3 : (w.setClient c { w.client c with state := CLIENT_DISABLED }).seat.active_client ≠ some c
  · rw [if_pos h3] at h
    simp only [Option.some.injEq, Prod.mk.injEq] at h
    obtain ⟨_, rfl⟩ := h
    rw [hv1]
    refine ⟨rfl, ?_⟩
    intro hv x hx
    simp only at hx ⊢
    by_cases hxc : x = c
    · subst hxc; simp at hx
    rw [Function.update_noteq hxc] at hx
    exact hv x hx
  rw [if_neg h3] at h
  generalize ha : seat_activate _ = oa at h
  rcases oa with _ | ⟨r2, wb⟩
  · cases h
  simp only [Option.some.injEq, Prod.mk.injEq] at h
  obtain ⟨_, rfl⟩ := h
  have hop := seat_activate_view ha
  have hact : w.view.active_client = some c := by
    simpa using h3
  refine ⟨hop.1.trans ?_, ?_⟩
  · have := congrArg View.ids hv1
    exact this
  · intro hv
    refine one_active_of_opened ?_ hop
    intro x hx
    exfalso
    have hx1 : (w.setClient c { w.client c with state := CLIENT_DISABLED }).view.state x
        = CLIENT_ACTIVE := hx
    rw [hv1] at hx1
    simp only at hx1
    by_cases hxc : x = c
    · subst hxc; simp at hx1
    rw [Function.update_noteq hxc] at hx1
    have := hv x hx1
    rw [hact] at this
    exact hxc (Option.some.inj this).symm

theorem seat_set_next_session_ok {w w1 : World} {c : Nat} {session r : Int}
    (h : seat_set_next_session w c session = some (r, w1)) :
    w1.view.ids = w.view.ids ∧ (w.view.one_active → w1.view.one_active) := by
  unfold seat_set_next_session at h
  by_cases h1 : (w.client c).seat = false
  · rw [if_pos h1] at h; cases h
  rw [if_neg h1] at h
  by_cases h2 : (w.client c).state ≠ CLIENT_ACTIVE
  · rw [if_pos h2] at h
    simp only [Option.some.injEq, Prod.mk.injEq] at h
    obtain ⟨_, rfl⟩ := h
    exact ⟨rfl, id⟩
  rw [if_neg h2] at h
  by_cases h3 : w.seat.active_client ≠ some c
  · rw [if_pos h3] at h; cases h
  rw [if_neg h3] at h
  by_cases h4 : session ≤ 0
  · rw [if_pos h4] at h
    simp only [Option.some.injEq, Prod.mk.injEq] at h
    obtain ⟨_, rfl⟩ := h
    exact ⟨rfl, id⟩
  rw [if_neg h4] at h
  by_cases h5 : session = (w.client c).session
  · rw [if_pos h5] at h
    simp only [Option.some.injEq, Prod.mk.injEq] at h
    obtain ⟨_, rfl⟩ := h
    exact ⟨rfl, id⟩
  rw [if_neg h5] at h
  by_cases h6 : w.seat.next_client ≠ none
  · rw [if_pos h6] at h
    simp only [Option.some.injEq, Prod.mk.injEq] at h
    obtain ⟨_, rfl⟩ := h
    exact ⟨rfl, id⟩
  rw [if_neg h6] at h
  by_cases h7 : w.seat.vt_bound = true
  · rw [if_pos h7] at h
    simp only at h
    split_ifs at h <;> simp only [Option.some.injEq, Prod.mk.injEq] at h <;>
      obtain ⟨_, rfl⟩ := h <;> simp
  rw [if_neg h7] at h
  split at h
  · simp only [Option.some.injEq, Prod.mk.injEq] at h
    obtain ⟨_, rfl⟩ := h
    exact ⟨rfl, id⟩
  rename_i target _
  simp only at h
  split at h
  · cases h
  rename_i a _
  generalize hd : seat_disable_client _ a = od at h
  rcases od with _ | ⟨r2, wb⟩
  · cases h
  simp only [Option.some.injEq, Prod.mk.injEq] at h
  obtain ⟨_, rfl⟩ := h
  have hdis := seat_disable_client_view hd
  exact ⟨hdis.1, fun hv => one_active_of_disabled hv hdis⟩

theorem seat_vt_activate_ok {w w1 : World} {r : Int}
    (h : seat_vt_activate w = some (r, w1)) :
    w1.view.ids = w.view.ids ∧ (w.view.one_active → w1.view.one_active) := by
  unfold seat_vt_activate at h
  by_cases h1 : w.seat.vt_bound = false
  · rw [if_pos h1] at h
    simp only [Option.some.injEq, Prod.mk.injEq] at h
    obtain ⟨_, rfl⟩ := h
    exact ⟨rfl, id⟩
  rw [if_neg h1] at h
  simp only at h
  have hv2 : (vt_ack (seat_update_vt w) false).2.view = w.view := by simp
  by_cases h2 : (vt_ack (seat_update_vt w) false).2.seat.active_client = none
  · rw [if_pos h2] at h
    generalize ha : seat_activate _ = oa at h
    rcases oa with _ | ⟨r2, wb⟩
    · cases h
    simp only [Option.some.injEq, Prod.mk.injEq] at h
    obtain ⟨_, rfl⟩ := h
    have hop := seat_activate_view ha
    rw [hv2] at hop
    exact ⟨hop.1, fun hv => one_active_of_opened hv hop⟩
  · rw [if_neg h2] at h
    simp only [Option.some.injEq, Prod.mk.injEq] at h
    obtain ⟨_, rfl⟩ := h
    rw [hv2]
    exact ⟨rfl, id⟩

theorem seat_vt_release_ok {w w1 : World} {r : Int}
    (h : seat_vt_release w = some (r, w1)) :
    w1.view.ids = w.view.ids ∧ (w.view.one_active → w1.view.one_active) := by
  unfold seat_vt_release at h
  by_cases h1 : w.seat.vt_bound = false
  · rw [if_pos h1] at h
    simp only [Option.some.injEq, Prod.mk.injEq] at h
    obtain ⟨_, rfl⟩ := h
    exact ⟨rfl, id⟩
  rw [if_neg h1] at h
  simp only at h
  generalize hd : (match (seat_update_vt w).seat.active_client with
      | some a => seat_disable_client (seat_update_vt w) a
      | none => some (0, seat_update_vt w)) = od at h
  rcases od with _ | ⟨r2, wb⟩
  · cases h
  simp only [Option.some.injEq, Prod.mk.injEq] at h
  obtain ⟨_, rfl⟩ := h
  have hfin : ∀ w3 : World, ({ w3 with seat := { w3.seat with cur_vt := -1 } } : World).view
      = w3.view := fun _ => rfl
  rw [hfin, view_vt_ack]
  split at hd
  · rename_i a _
    have hdis := seat_disable_client_view hd
    rw [view_seat_update_vt] at hdis
    exact ⟨hdis.1, fun hv => one_active_of_disabled hv hdis⟩
  · simp only [Option.some.injEq, Prod.mk.injEq] at hd
    obtain ⟨_, rfl⟩ := hd
    simp

theorem view_withEnv (w : World) (tape : List Int) (env : Platform) :
    (w.withEnv tape env).view = w.view := rfl

/-- One seat operation keeps the invariant. -/
theorem seat_op_run_ok {op : seat_op} {w w1 : World} (h : op.run w = some w1)
    (hv : w.view.one_active) : w1.view.one_active := by
  cases op with
  | add_client c =>
    simp only [seat_op.run, Option.some.injEq] at h
    subst h
    simpa using hv
  | open_client c =>
    simp only [seat_op.run, Option.map_eq_some', Prod.exists, exists_eq_right] at h
    obtain ⟨r, h⟩ := h
    have := seat_open_client_view h
    exact one_active_of_opened hv this
  | remove_client c =>
    simp only [seat_op.run, Option.map_eq_some', Prod.exists, exists_eq_right] at h
    obtain ⟨r, h⟩ := h
    have := seat_remove_client_ok h
    exact this.2 hv
  | open_device c path =>
    simp only [seat_op.run, Option.map_eq_some', Prod.exists, exists_eq_right] at h
    obtain ⟨r, h⟩ := h
    obtain ⟨ha, hs, _⟩ := seat_open_device_view h
    intro x hx
    rw [hs] at hx
    rw [ha]
    exact hv x hx
  | close_device c i =>
    simp only [seat_op.run, Option.map_eq_some', Prod.exists, exists_eq_right] at h
    obtain ⟨r, h⟩ := h
    have := seat_close_device_view h
    exact one_active_of_shrunk hv this
  | set_next_session c session =>
    simp only [seat_op.run, Option.map_eq_some', Prod.exists, exists_eq_right] at h
    obtain ⟨r, h⟩ := h
    have := seat_set_next_session_ok h
    exact this.2 hv
  | ack_disable_client c =>
    simp only [seat_op.run, Option.map_eq_some', Prod.exists, exists_eq_right] at h
    obtain ⟨r, h⟩ := h
    have := seat_ack_disable_client_ok h
    exact this.2 hv
  | vt_activate =>
    simp only [seat_op.run, Option.map_eq_some', Prod.exists, exists_eq_right] at h
    obtain ⟨r, h⟩ := h
    have := seat_vt_activate_ok h
    exact this.2 hv
  | vt_release =>
    simp only [seat_op.run, Option.map_eq_some', Prod.exists, exists_eq_right] at h
    obtain ⟨r, h⟩ := h
    have := seat_vt_release_ok h
    exact this.2 hv

theorem initial_view_ok {w : World} (h : w.initial) : w.view.one_active := by
  obtain ⟨_, hc⟩ := h
  intro c hx
  have := (hc c).2.1
  rw [show w.view.state c = (w.client c).state from rfl, this] at hx
  cases hx

/-- The invariant holds in every reachable state. -/
theorem reachable_view_ok {w : World} (h : Reachable w) : w.view.one_active := by
  induction h with
  | init hi => exact initial_view_ok hi
  | step op tape env _ hrun ih => exact seat_op_run_ok hrun (by rw [view_withEnv]; exact ih)

theorem reachable_run_ops : ∀ (ops : List (seat_op × List Int)) (w w1 : World),
    Reachable w → run_ops ops w = some w1 → Reachable w1 := by
  intro ops
  induction ops with
  | nil =>
    intro w w1 hw h
    simp only [run_ops, Option.some.injEq] at h
    subst h
    exact hw
  | cons o rest ih =>
    intro w w1 hw h
    obtain ⟨op, tape⟩ := o
    unfold run_ops at h
    split at h
    · cases h
    · rename_i w2 hrun
      exact ih _ _ (Reachable.step op tape w.platform hw hrun) h

theorem example_world_initial (vt_bound : Bool) (cl : client) (tape : List Int)
    (h : cl.untouched) : (example_world vt_bound cl tape).initial :=
  ⟨⟨_, _, rfl⟩, fun _ => h⟩

theorem new_client_untouched : new_client.untouched := ⟨rfl, rfl, rfl⟩

theorem run_ops_getD {ops : List (seat_op × List Int)} {w : World}
    (h : (run_ops ops w).isSome = true) : run_ops ops w = some ((run_ops ops w).getD w) := by
  cases hr : run_ops ops w with
  | none => rw [hr] at h; cases h
  | some w1 => rfl

theorem world_one_active_reachable : Reachable world_one_active :=
  reachable_run_ops _ _ _
    (Reachable.init (example_world_initial false new_client [] new_client_untouched))
    (run_ops_getD (by decide))

/-- C1: in every seat state reachable from `seat_create` by any sequence of seat operations,
whatever the kernel shims and the socket writes return, at most one client attached to the
seat has state ACTIVE. -/
theorem C1_at_most_one_active_client (w : World) (h : Reachable w) (a b : Nat)
    (ha : (w.client a).seat = true ∧ (w.client a).state = CLIENT_ACTIVE)
    (hb : (w.client b).seat = true ∧ (w.client b).state = CLIENT_ACTIVE) : a = b := by
  have hv := (reachable_view_ok h)
  have h1 := hv a ha.2
  have h2 := hv b hb.2
  rw [h1] at h2
  exact Option.some.inj h2

/-- C1 at a concrete reachable state: client 0, added and opened on a seat that is not
VT-bound, is attached and ACTIVE. -/
theorem C1_at_most_one_active_client_witness :
    Reachable world_one_active ∧
      ((world_one_active.client 0).seat = true ∧
        (world_one_active.client 0).state = CLIENT_ACTIVE) ∧ (0 : Nat) = 0 :=
  ⟨world_one_active_reachable, by decide,
    C1_at_most_one_active_client world_one_active world_one_active_reachable 0 0
      (by decide) (by decide)⟩

/-- C2, the code at the failing input: for a client freshly returned by `client_create` and
a seat "seat0" that is not VT-bound and has no other client, handling OPEN_SEAT of size 0 does
not succeed: the handler returns -1 with `errno = EINVAL`, the client is not attached, stays
`CLIENT_NEW`, and nothing is put on its connection. -/
theorem C2_open_seat_of_created_client_fails :
    (client_handle_opcode world_created 0 CLIENT_OPEN_SEAT 0).map
        (fun r => (r.1, r.2.errno, r.2.client 0, r.2.seat.active_client))
      = some (-1, EINVAL, client_create 7, none) := by
  decide

theorem world_vt_active_reachable : Reachable world_vt_active :=
  reachable_run_ops _ _ _
    (Reachable.init (example_world_initial true new_client [] new_client_untouched))
    (run_ops_getD (by decide))

theorem world_vt_disabled_reachable : Reachable world_vt_disabled :=
  reachable_run_ops _ _ _ world_vt_active_reachable (run_ops_getD (by decide))

/-- C3 fails as stated: on a VT-bound seat, in a reachable state where client 0 is attached
and `CLIENT_DISABLED`, `seat_add_client` accepts client 1 (returns 0), and the state it
leaves is reachable and has two attached clients. -/
theorem C3_counterexample :
    Reachable world_vt_disabled ∧ world_vt_disabled.seat.vt_bound = true ∧
      (world_vt_disabled.client 0).seat = true ∧
      (world_vt_disabled.client 0).state = CLIENT_DISABLED ∧
      (world_vt_disabled.client 1).seat = false ∧
      (seat_add_client (world_vt_disabled.withEnv [3, 2] example_platform) 1).1 = 0 ∧
      Reachable world_vt_two_attached ∧
      (world_vt_two_attached.client 0).seat = true ∧
      (world_vt_two_attached.client 1).seat = true := by
  refine ⟨world_vt_disabled_reachable, by decide, by decide, by decide, by decide, by decide,
    ?_, by decide, by decide⟩
  exact Reachable.step (seat_op.add_client 1) [3, 2] example_platform
    world_vt_disabled_reachable rfl

/-- C3, amended: on a VT-bound seat `seat_add_client` rejects a new client (returns -1 with
`errno = EBUSY` and changes nothing else) whenever the seat has an active client, that is
whenever `active_client` is set, and so in every reachable state in which some client is
`CLIENT_ACTIVE`. -/
theorem C3_add_client_rejected_while_active (w : World) (c : Nat)
    (hvt : w.seat.vt_bound = true)
    (hact : w.seat.active_client ≠ none ∨
      (Reachable w ∧ ∃ a, (w.client a).state = CLIENT_ACTIVE)) :
    seat_add_client w c = (-1, { w with errno := EBUSY }) := by
  have h : w.seat.active_client ≠ none := by
    rcases hact with h | ⟨hr, a, ha⟩
    · exact h
    · have := (reachable_view_ok hr) a ha
      intro hn
      rw [show w.view.active_client = w.seat.active_client from rfl, hn] at this
      cases this
  unfold seat_add_client
  by_cases h1 : (w.client c).seat = true
  · rw [if_pos h1]
  · rw [if_neg h1, if_pos ⟨hvt, h⟩]

/-- C3 as amended, at a concrete state: on the VT-bound seat with the active client 0,
`seat_add_client` rejects client 1 with EBUSY. -/
theorem C3_add_client_rejected_while_active_witness :
    world_vt_active.seat.vt_bound = true ∧
      (world_vt_active.seat.active_client ≠ none ∨
        (Reachable world_vt_active ∧ ∃ a, (world_vt_active.client a).state = CLIENT_ACTIVE)) ∧
      seat_add_client world_vt_active 1 = (-1, { world_vt_active with errno := EBUSY }) :=
  ⟨by decide, Or.inl (by decide),
    C3_add_client_rejected_while_active world_vt_active 1 (by decide) (Or.inl (by decide))⟩

theorem update_device_eq_set (f : seat_device → seat_device) :
    ∀ (l : List seat_device) (i : Nat) (d : seat_device), l[i]? = some d →
      update_device f l i = l.set i (f d) := by
  intro l
  induction l with
  | nil => intro i d h; simp at h
  | cons x rest ih =>
    intro i d h
    cases i with
    | zero =>
      simp only [List.getElem?_cons_zero, Option.some.injEq] at h
      subst h
      rfl
    | succ j =>
      simp only [List.getElem?_cons_succ] at h
      simp [update_device, ih j d h]

theorem open_device_loop_inl (p : List Nat) :
    ∀ (l : List seat_device) (id : Int) (cnt pos i : Nat) (d : seat_device),
      l[i]? = some d → d.path = p → (∀ j < i, ∀ e, l[j]? = some e → e.path ≠ p) →
      open_device_loop p l id cnt pos = Sum.inl (pos + i) := by
  intro l
  induction l with
  | nil => intro id cnt pos i d h; simp at h
  | cons x rest ih =>
    intro id cnt pos i d h hp hfirst
    cases i with
    | zero =>
      simp only [List.getElem?_cons_zero, Option.some.injEq] at h
      subst h
      simp [open_device_loop, hp]
    | succ j =>
      simp only [List.getElem?_cons_succ] at h
      have hx : x.path ≠ p := hfirst 0 (Nat.succ_pos _) x (by simp)
      unfold open_device_loop
      rw [if_neg hx]
      rw [ih _ _ _ j d h hp (fun k hk e he => hfirst (k + 1) (Nat.succ_lt_succ hk) e (by simpa using he))]
      congr 1
      omega

theorem world_card0_reachable : Reachable world_card0 :=
  reachable_run_ops _ _ _ world_one_active_reachable (run_ops_getD (by decide))

theorem list_set_self {α : Type} : ∀ (l : List α) (i : Nat) (d : α), l[i]? = some d →
    l.set i d = l := by
  intro l
  induction l with
  | nil => intro i d h; simp
  | cons x rest ih =>
    intro i d h
    cases i with
    | zero =>
      simp only [List.getElem?_cons_zero, Option.some.injEq] at h
      subst h
      rfl
    | succ j =>
      simp only [List.getElem?_cons_succ] at h
      simp [ih j d h]

theorem seat_close_device_keep {w : World} {c i : Nat} {d : seat_device}
    (hseat : (w.client c).seat = true) (hd : (w.client c).devices[i]? = some d)
    (hfd : 0 < d.fd) (hcnt : 1 < d.ref_cnt) :
    seat_close_device w c i = some (0, w.setClient c { w.client c with
      devices := (w.client c).devices.set i { d with ref_cnt := d.ref_cnt - 1 } }) := by
  unfold seat_close_device
  rw [if_neg (by simp [hseat])]
  simp only [hd]
  rw [if_neg (by omega), if_pos (by omega), update_device_eq_set _ _ _ _ hd]

theorem seat_close_device_last {w : World} {c i : Nat} {d : seat_device}
    (hseat : (w.client c).seat = true) (hd : (w.client c).devices[i]? = some d)
    (hfd : 0 < d.fd) (hcnt : d.ref_cnt ≤ 1) :
    ∃ w1, seat_close_device w c i = some (0, w1) ∧
      (w1.client c).devices = (w.client c).devices.eraseIdx i ∧
      w1.closed = w.closed ++ [d.fd] ∧ w1.seat = w.seat ∧
      (∀ k, k ≠ c → w1.client k = w.client k) ∧
      (w1.client c).seat = (w.client c).seat ∧ (w1.client c).state = (w.client c).state ∧
      (w1.client c).connection = (w.client c).connection := by
  unfold seat_close_device
  rw [if_neg (by simp [hseat])]
  simp only [hd]
  rw [if_neg (by omega), if_neg (by omega), if_pos (by omega)]
  unfold seat_deactivate_device
  rw [if_neg (by simpa using hfd)]
  by_cases ha : d.active = false
  · simp [ha, World.close, World.setClient]
    intro k hk
    simp [hk]
  · rw [if_neg (by simpa using ha)]
    cases ht : d.type <;> simp only [ht] <;> split_ifs <;>
      simp [World.close, World.setClient, drm_drop_master, evdev_revoke] <;>
      intro k hk <;> simp [hk]

theorem seat_device_ref_cnt_self (d : seat_device) (x : Int) (h : d.ref_cnt = x) :
    ({ d with ref_cnt := x } : seat_device) = d := by
  cases d
  simp only at h
  simp [h]

theorem eraseIdx_set_self {α : Type} : ∀ (l : List α) (i : Nat) (a : α),
    (l.set i a).eraseIdx i = l.eraseIdx i := by
  intro l
  induction l with
  | nil => intro i a; rfl
  | cons x rest ih =>
    intro i a
    cases i with
    | zero => rfl
    | succ j => simp [ih j a]

theorem seat_close_device_n_spec : ∀ (N : Nat) (w : World) (c i : Nat) (d : seat_device),
    (w.client c).seat = true → (w.client c).devices[i]? = some d → 0 < d.fd →
    d.ref_cnt = (N : Int) + 1 →
    (∀ k, k < N + 1 → ∃ wk, seat_close_device_n k w c i = some wk ∧
      (wk.client c).devices =
        (w.client c).devices.set i { d with ref_cnt := (N : Int) + 1 - (k : Int) } ∧
      wk.closed = w.closed) ∧
    ∃ wN, seat_close_device_n (N + 1) w c i = some wN ∧
      (wN.client c).devices = (w.client c).devices.eraseIdx i ∧
      wN.closed = w.closed ++ [d.fd] := by
  intro N
  induction N with
  | zero =>
    intro w c i d hseat hd hfd hcnt
    constructor
    · intro k hk
      have hk0 : k = 0 := by omega
      subst hk0
      refine ⟨w, rfl, ?_, rfl⟩
      have : ({ d with ref_cnt := ((0 : Nat) : Int) + 1 - ((0 : Nat) : Int) } : seat_device) = d :=
        seat_device_ref_cnt_self d _ (by rw [hcnt]; simp)
      rw [this, list_set_self _ _ _ hd]
    · obtain ⟨w1, h1, h2, h3, _⟩ := seat_close_device_last hseat hd hfd (by omega)
      refine ⟨w1, ?_, h2, h3⟩
      simp [seat_close_device_n, h1]
  | succ n ih =>
    intro w c i d hseat hd hfd hcnt
    have hlen : i < (w.client c).devices.length := by
      rcases Nat.lt_or_ge i (w.client c).devices.length with h | h
      · exact h
      · rw [List.getElem?_eq_none h] at hd; cases hd
    have hstep := seat_close_device_keep hseat hd hfd (by omega)
    have hcl : ((w.setClient c { w.client c with
        devices := (w.client c).devices.set i { d with ref_cnt := d.ref_cnt - 1 } }).client c)
        = { w.client c with
        devices := (w.client c).devices.set i { d with ref_cnt := d.ref_cnt - 1 } } := by simp
    obtain ⟨ih1, ih2⟩ := ih (w.setClient c { w.client c with
        devices := (w.client c).devices.set i { d with ref_cnt := d.ref_cnt - 1 } }) c i
      { d with ref_cnt := d.ref_cnt - 1 } (by rw [hcl]; exact hseat)
      (by rw [hcl]; simp [List.getElem?_set, hlen]) hfd (by simp only; push_cast at hcnt ⊢; omega)
    constructor
    · intro k hk
      cases k with
      | zero =>
        refine ⟨w, rfl, ?_, rfl⟩
        have : ({ d with ref_cnt := ((n + 1 : Nat) : Int) + 1 - ((0 : Nat) : Int) } : seat_device) = d :=
          seat_device_ref_cnt_self d _ (by rw [hcnt]; simp)
        rw [this, list_set_self _ _ _ hd]
      | succ j =>
        obtain ⟨wk, hk1, hk2, hk3⟩ := ih1 j (by omega)
        refine ⟨wk, ?_, ?_, ?_⟩
        · simp only [seat_close_device_n, hstep]
          exact hk1
        · rw [hk2, hcl]
          simp only [List.set_set]
          congr 2
          push_cast
          omega
        · rw [hk3]; rfl
    · obtain ⟨wN, hN1, hN2, hN3⟩ := ih2
      refine ⟨wN, ?_, ?_, ?_⟩
      · simp only [seat_close_device_n, hstep]
        exact hN1
      · rw [hN2, hcl]
        simp only
        rw [eraseIdx_set_self]
      · rw [hN3]; rfl

/-- C5: for a device that one client has opened N >= 1 times (ref_cnt = N), each of the first
N-1 calls of `seat_close_device` only decrements ref_cnt by 1 and leaves the device in the
ledger with its fd open (after k < N calls the ledger is the original one with ref_cnt = N - k
and no fd has been closed); the N-th call, and no earlier one, removes the device from the
ledger and closes its fd. -/
theorem C5_close_device_ref_count (w : World) (c i : Nat) (d : seat_device) (N : Nat)
    (hseat : (w.client c).seat = true) (hd : (w.client c).devices[i]? = some d)
    (hfd : 0 < d.fd) (hcnt : d.ref_cnt = (N : Int)) (hN : 1 ≤ N) :
    (∀ k, k < N → ∃ wk, seat_close_device_n k w c i = some wk ∧
        (wk.client c).devices =
          (w.client c).devices.set i { d with ref_cnt := (N : Int) - (k : Int) } ∧
        wk.closed = w.closed) ∧
      ∃ wN, seat_close_device_n N w c i = some wN ∧
        (wN.client c).devices = (w.client c).devices.eraseIdx i ∧
        wN.closed = w.closed ++ [d.fd] := by
  obtain ⟨M, rfl⟩ : ∃ M, N = M + 1 := ⟨N - 1, by omega⟩
  have h := seat_close_device_n_spec M w c i d hseat hd hfd (by rw [hcnt]; push_cast; rfl)
  refine ⟨fun k hk => ?_, h.2⟩
  obtain ⟨wk, h1, h2, h3⟩ := h.1 k hk
  exact ⟨wk, h1, by rw [h2]; push_cast; rfl, h3⟩

/-- C5 at a concrete state: client 0 has opened "/dev/dri/card0" twice (ref_cnt 2) and
closes it twice. -/
theorem C5_close_device_ref_count_witness :
    ((world_card0_twice.client 0).seat = true ∧
      (world_card0_twice.client 0).devices[0]? = some
        { device_id := 1, fd := 5, ref_cnt := 2, active := true, path := dri_card0,
          type := SEAT_DEVICE_TYPE_DRM } ∧
      (0 : Int) < 5 ∧ (2 : Int) = ((2 : Nat) : Int) ∧ 1 ≤ 2) ∧
    ((∀ k, k < 2 → ∃ wk, seat_close_device_n k world_card0_twice 0 0 = some wk ∧
        (wk.client 0).devices =
          (world_card0_twice.client 0).devices.set 0
            { device_id := 1, fd := 5, ref_cnt := ((2 : Nat) : Int) - (k : Int), active := true,
              path := dri_card0, type := SEAT_DEVICE_TYPE_DRM } ∧
        wk.closed = world_card0_twice.closed) ∧
      ∃ wN, seat_close_device_n 2 world_card0_twice 0 0 = some wN ∧
        (wN.client 0).devices = (world_card0_twice.client 0).devices.eraseIdx 0 ∧
        wN.closed = world_card0_twice.closed ++ [5]) :=
  ⟨⟨by decide, by decide, by decide, rfl, by decide⟩,
    C5_close_device_ref_count world_card0_twice 0 0
      { device_id := 1, fd := 5, ref_cnt := 2, active := true, path := dri_card0,
        type := SEAT_DEVICE_TYPE_DRM } 2 (by decide) (by decide) (by decide) rfl (by decide)⟩

theorem onlyLedger_of_client_eq {c : Nat} {w w1 : World} (hs : w1.seat = w.seat)
    (hp : w1.platform = w.platform) (hc : w1.client = w.client) : OnlyLedger c w w1 :=
  ⟨hs, hp, fun k _ => by rw [hc], by rw [hc]⟩

theorem onlyLedger_setClient {c : Nat} {w w0 : World} (h : OnlyLedger c w w0)
    (devs : List seat_device) :
    OnlyLedger c w (w0.setClient c { w0.client c with devices := devs }) := by
  obtain ⟨h1, h2, h3, h4⟩ := h
  refine ⟨h1, h2, fun k hk => ?_, ?_⟩
  · rw [setClient_client_other _ _ hk]; exact h3 k hk
  · rw [setClient_client_same, h4]

theorem seat_deactivate_device_client {w w1 : World} {d d1 : seat_device} {r : Int}
    (h : seat_deactivate_device w d = some (r, d1, w1)) :
    w1.seat = w.seat ∧ w1.platform = w.platform ∧ w1.client = w.client := by
  unfold seat_deactivate_device at h
  split_ifs at h
  · simp only [Option.some.injEq, Prod.mk.injEq] at h
    obtain ⟨_, _, rfl⟩ := h
    exact ⟨rfl, rfl, rfl⟩
  · split at h <;> simp only at h <;> split_ifs at h <;>
      simp only [Option.some.injEq, Prod.mk.injEq] at h <;>
      obtain ⟨_, _, rfl⟩ := h <;> simp [drm_drop_master, evdev_revoke]

theorem seat_close_device_onlyLedger {w w1 : World} {c i : Nat} {r : Int}
    (h : seat_close_device w c i = some (r, w1)) : OnlyLedger c w w1 := by
  have base : OnlyLedger c w w := ⟨rfl, rfl, fun _ _ => rfl, rfl⟩
  unfold seat_close_device at h
  by_cases h1 : (w.client c).seat = false
  · rw [if_pos h1] at h; cases h
  rw [if_neg h1] at h
  split at h
  · cases h
  rename_i d hd
  by_cases h2 : d.fd = -1
  · rw [if_pos h2] at h; cases h
  rw [if_neg h2] at h
  by_cases h3 : d.ref_cnt - 1 > 0
  · rw [if_pos h3] at h
    simp only [Option.some.injEq, Prod.mk.injEq] at h
    obtain ⟨_, rfl⟩ := h
    exact onlyLedger_setClient base _
  rw [if_neg h3] at h
  simp only at h
  rw [if_pos h2] at h
  split at h
  · cases h
  rename_i r2 d2 w2 hde
  simp only [Option.some.injEq, Prod.mk.injEq] at h
  obtain ⟨_, rfl⟩ := h
  obtain ⟨e1, e2, e3⟩ := seat_deactivate_device_client hde
  have hb := onlyLedger_setClient base ((w.client c).devices.eraseIdx i)
  obtain ⟨b1, b2, b3, b4⟩ := hb
  refine ⟨?_, ?_, ?_, ?_⟩
  · show w2.seat = _
    rw [e1]; exact b1
  · show w2.platform = _
    rw [e2]; exact b2
  · intro k hk
    show w2.client k = _
    rw [e3]; exact b3 k hk
  · show w2.client c = { w.client c with devices := (w2.client c).devices }
    rw [e3]; exact b4

@[simp] theorem setClient_platform (w : World) (c : Nat) (cl : client) :
    (w.setClient c cl).platform = w.platform := rfl

@[simp] theorem setClient_closed (w : World) (c : Nat) (cl : client) :
    (w.setClient c cl).closed = w.closed := rfl

@[simp] theorem setClient_tape (w : World) (c : Nat) (cl : client) :
    (w.setClient c cl).tape = w.tape := rfl

@[simp] theorem setClient_errno (w : World) (c : Nat) (cl : client) :
    (w.setClient c cl).errno = w.errno := rfl

theorem onlyConn_syscall (c : Nat) (w : World) : OnlyConn c w w.syscall.2 :=
  ⟨by simp, by simp, by simp, fun k _ => by simp, by simp⟩

theorem onlyConn_trans {c : Nat} {w w1 w2 : World} (h1 : OnlyConn c w w1)
    (h2 : OnlyConn c w1 w2) : OnlyConn c w w2 := by
  obtain ⟨a1, a2, a3, a4, a5⟩ := h1
  obtain ⟨b1, b2, b3, b4, b5⟩ := h2
  refine ⟨b1.trans a1, b2.trans a2, b3.trans a3, fun k hk => (b4 k hk).trans (a4 k hk), ?_⟩
  rw [b5, a5]

theorem connection_put_spec (w : World) (c : Nat) (b : List Nat) :
    OnlyConn c w (connection_put w c b).2 ∧
      (((connection_put w c b).1 = -1 ∧ (connection_put w c b).2.client c = w.client c) ∨
        ((connection_put w c b).1 = 0 ∧
          (connection_put w c b).2.client c = (w.client c).put b)) := by
  unfold connection_put
  simp only
  split_ifs
  · exact ⟨onlyConn_syscall c w, Or.inl ⟨rfl, by simp⟩⟩
  · refine ⟨⟨by simp, by simp, by simp, fun k hk => ?_, by simp⟩, Or.inr ⟨rfl, ?_⟩⟩
    · rw [setClient_client_other _ _ hk]; simp
    · simp [client.put]

theorem connection_put_fd_spec (w : World) (c : Nat) (fd : Int) :
    OnlyConn c w (connection_put_fd w c fd).2 ∧
      (((connection_put_fd w c fd).1 = -1 ∧ (connection_put_fd w c fd).2.client c = w.client c) ∨
        ((connection_put_fd w c fd).1 = 0 ∧
          (connection_put_fd w c fd).2.client c = (w.client c).put_fd fd)) := by
  unfold connection_put_fd
  simp only
  split_ifs
  · exact ⟨onlyConn_syscall c w, Or.inl ⟨rfl, by simp⟩⟩
  · refine ⟨⟨by simp, by simp, by simp, fun k hk => ?_, by simp⟩, Or.inr ⟨rfl, ?_⟩⟩
    · rw [setClient_client_other _ _ hk]; simp
    · simp [client.put_fd]

theorem client_put_put (cl : client) (a b : List Nat) : (cl.put a).put b = cl.put (a ++ b) := by
  simp [client.put, List.append_assoc]

theorem client_send_error_spec (w : World) (c : Nat) (e : Int) :
    OnlyConn c w (client_send_error w c e).2 ∧
      ((client_send_error w c e).1 = -1 ∨
        ((client_send_error w c e).1 = 0 ∧ (client_send_error w c e).2.client c =
          (w.client c).put (proto_header SERVER_ERROR 4 ++ le32 e))) := by
  unfold client_send_error
  simp only
  obtain ⟨f1, g1⟩ := connection_put_spec w c (proto_header SERVER_ERROR 4)
  split_ifs with h1 h2
  · exact ⟨f1, Or.inl rfl⟩
  · obtain ⟨f2, _⟩ := connection_put_spec (connection_put w c (proto_header SERVER_ERROR 4)).2 c
      (le32 e)
    exact ⟨onlyConn_trans f1 f2, Or.inl rfl⟩
  · obtain ⟨f2, g2⟩ := connection_put_spec (connection_put w c (proto_header SERVER_ERROR 4)).2 c
      (le32 e)
    refine ⟨onlyConn_trans f1 f2, Or.inr ⟨rfl, ?_⟩⟩
    rcases g1 with ⟨g1, _⟩ | ⟨_, g1⟩
    · exact absurd g1 h1
    rcases g2 with ⟨g2, _⟩ | ⟨_, g2⟩
    · rw [g2] at h2; simp at h2
    rw [g2, g1, client_put_put]

theorem onlyConn_devices {c : Nat} {w w1 : World} (h : OnlyConn c w w1) :
    (w1.client c).devices = (w.client c).devices := by
  rw [h.2.2.2.2]

theorem syscall_of_tape {w : World} {a : Int} {rest : List Int} (ht : w.tape = a :: rest)
    (ha : 0 ≤ a) : w.syscall = (a, { w with tape := rest }) := by
  unfold World.syscall
  rw [ht]
  simp only
  rw [if_neg (by omega)]

theorem connection_put_of_tape {w : World} {c : Nat} {b : List Nat} {a : Int} {rest : List Int}
    (ht : w.tape = a :: rest) (ha : 0 ≤ a) :
    (connection_put w c b).1 = 0 ∧ (connection_put w c b).2.tape = rest ∧
      (connection_put w c b).2.errno = w.errno ∧
      (connection_put w c b).2.client c = (w.client c).put b ∧
      OnlyConn c w (connection_put w c b).2 := by
  obtain ⟨f, _⟩ := connection_put_spec w c b
  refine ⟨?_, ?_, ?_, ?_, f⟩ <;> unfold connection_put <;> simp only [syscall_of_tape ht ha] <;>
    rw [if_neg (by omega)] <;> simp [client.put]

theorem connection_put_fd_of_tape {w : World} {c : Nat} {f : Int} {a : Int} {rest : List Int}
    (ht : w.tape = a :: rest) (ha : 0 ≤ a) :
    (connection_put_fd w c f).1 = 0 ∧ (connection_put_fd w c f).2.tape = rest ∧
      (connection_put_fd w c f).2.errno = w.errno ∧
      (connection_put_fd w c f).2.client c = (w.client c).put_fd f ∧
      OnlyConn c w (connection_put_fd w c f).2 := by
  obtain ⟨f, _⟩ := connection_put_fd_spec w c f
  refine ⟨?_, ?_, ?_, ?_, f⟩ <;> unfold connection_put_fd <;>
    simp only [syscall_of_tape ht ha] <;> rw [if_neg (by omega)] <;> simp [client.put_fd]

theorem client_send_error_of_tape {w : World} {c : Nat} {e a b : Int} {rest : List Int}
    (ht : w.tape = a :: b :: rest) (ha : 0 ≤ a) (hb : 0 ≤ b) :
    (client_send_error w c e).1 = 0 ∧ (client_send_error w c e).2.tape = rest ∧
      (client_send_error w c e).2.errno = w.errno ∧
      (client_send_error w c e).2.client c =
        (w.client c).put (proto_header SERVER_ERROR 4 ++ le32 e) ∧
      OnlyConn c w (client_send_error w c e).2 := by
  obtain ⟨p1, p2, p3, p4, p5⟩ := connection_put_of_tape (c := c)
    (b := proto_header SERVER_ERROR 4) ht ha
  obtain ⟨q1, q2, q3, q4, q5⟩ := connection_put_of_tape (c := c) (b := le32 e) p2 hb
  unfold client_send_error
  simp only
  rw [if_neg (by rw [p1]; decide), if_neg (by rw [q1]; decide)]
  exact ⟨rfl, q2, q3.trans p3, by rw [q4, p4, client_put_put], onlyConn_trans p5 q5⟩

theorem handle_open_device_error (w w0 : World) (c : Nat) (buf path : List Nat) {a b : Int}
    {rest : List Int} (hseat : (w.client c).seat = true) (hbuf : c_string buf = some path)
    (ho : seat_open_device w c path = some (none, w0)) (ht : w0.tape = a :: b :: rest)
    (ha : 0 ≤ a) (hb : 0 ≤ b) :
    ∃ w1, handle_open_device w c buf = some (0, w1) ∧ w1.tape = rest ∧
      w1.client c = (w0.client c).put (proto_header SERVER_ERROR 4 ++ le32 w0.errno) ∧
      OnlyConn c w0 w1 := by
  obtain ⟨e1, e2, _, e4, e5⟩ := client_send_error_of_tape (c := c) (e := w0.errno) ht ha hb
  refine ⟨(client_send_error w0 c w0.errno).2, ?_, e2, e4, e5⟩
  unfold handle_open_device
  rw [if_neg (by simp [hseat])]
  simp only [hbuf, ho]
  rw [← e1]

theorem handle_open_device_success (w w0 : World) (c i : Nat) (buf path : List Nat)
    (d : seat_device) {dupfd q h1 h2 : Int} {rest : List Int}
    (hseat : (w.client c).seat = true) (hbuf : c_string buf = some path)
    (ho : seat_open_device w c path = some (some i, w0))
    (hd : (w0.client c).devices[i]? = some d)
    (ht : w0.tape = dupfd :: q :: h1 :: h2 :: rest)
    (hdup : 0 ≤ dupfd) (hq : 0 ≤ q) (hh1 : 0 ≤ h1) (hh2 : 0 ≤ h2) :
    ∃ w2, handle_open_device w c buf = some (0, w2) ∧ w2.tape = rest ∧
      w2.client c = ((w0.client c).put_fd dupfd).put
        (proto_header SERVER_DEVICE_OPENED 4 ++ le32 d.device_id) ∧
      OnlyConn c w0 w2 := by
  have hs := syscall_of_tape ht hdup
  have hs1 : w0.syscall.1 = dupfd := by rw [hs]
  have hs2 : w0.syscall.2.tape = q :: h1 :: h2 :: rest := by rw [hs]
  obtain ⟨a1, a2, _, a4, a5⟩ := connection_put_fd_of_tape (c := c) (f := w0.syscall.1) hs2 hq
  obtain ⟨b1, b2, _, b4, b5⟩ := connection_put_of_tape (c := c)
    (b := proto_header SERVER_DEVICE_OPENED 4) a2 hh1
  obtain ⟨c1, c2, _, c4, c5⟩ := connection_put_of_tape (c := c)
    (b := le32 d.device_id) b2 hh2
  refine ⟨_, ?_, c2, ?_, onlyConn_trans (onlyConn_trans (onlyConn_trans (onlyConn_syscall c w0) a5) b5) c5⟩
  · unfold handle_open_device
    rw [if_neg (by simp [hseat])]
    simp only [hbuf, ho, hd]
    rw [if_neg (by rw [hs1]; omega), if_neg (by rw [a1]; decide), if_neg (by rw [b1]; decide),
      if_neg (by rw [c1]; decide)]
  · rw [c4, b4, a4, client_put_put, hs1, syscall_client]

theorem syscall_tape {w : World} {a : Int} {rest : List Int} (ht : w.tape = a :: rest) :
    w.syscall.2.tape = rest := by
  unfold World.syscall
  rw [ht]
  simp only
  split_ifs <;> rfl

theorem open_device_loop_none (p : List Nat) :
    ∀ (l : List seat_device) (id : Int) (cnt pos : Nat), (∀ d ∈ l, d.path ≠ p) →
      ∃ id1, open_device_loop p l id cnt pos = Sum.inr (id1, cnt + l.length) := by
  intro l
  induction l with
  | nil => intro id cnt pos _; exact ⟨id, rfl⟩
  | cons x rest ih =>
    intro id cnt pos h
    unfold open_device_loop
    rw [if_neg (h x (List.mem_cons_self _ _))]
    obtain ⟨id1, h1⟩ := ih (if x.device_id ≥ id then int_wrap (x.device_id + 1) else id)
      (cnt + 1) (pos + 1)
      (fun d hd => h d (List.mem_cons_of_mem _ hd))
    exact ⟨id1, by rw [h1]; simp only [List.length_cons]; congr 2; omega⟩

theorem seat_open_device_invalid {w : World} {c : Nat} {path p : List Nat}
    (hseat : (w.client c).seat = true) (hstate : (w.client c).state = CLIENT_ACTIVE)
    (hact : w.seat.active_client = some c) (hpath : path ≠ [])
    (hreal : w.platform.realpath path = Except.ok p)
    (hev : w.platform.path_is_evdev p = false) (hdrm : w.platform.path_is_drm p = false) :
    seat_open_device w c path = some (none, { w with errno := ENOENT }) := by
  unfold seat_open_device
  rw [if_neg (by simp [hseat]), if_neg (by simpa using hpath), if_neg (by simp [hstate]),
    if_neg (by simp [hact])]
  simp only [hreal]
  rw [if_pos ⟨hev, hdrm⟩]

theorem seat_open_device_existing (w : World) (c i : Nat) (path p : List Nat) (d : seat_device)
    (hseat : (w.client c).seat = true) (hstate : (w.client c).state = CLIENT_ACTIVE)
    (hact : w.seat.active_client = some c) (hpath : path ≠ [])
    (hreal : w.platform.realpath path = Except.ok p)
    (htype : w.platform.path_is_evdev p = true ∨ w.platform.path_is_drm p = true)
    (hd : (w.client c).devices[i]? = some d) (hp : d.path = p)
    (hfirst : ∀ j < i, ∀ e, (w.client c).devices[j]? = some e → e.path ≠ p) :
    seat_open_device w c path = some (some i, w.setClient c { w.client c with
        devices := (w.client c).devices.set i { d with ref_cnt := d.ref_cnt + 1 } }) := by
  unfold seat_open_device
  rw [if_neg (by simp [hseat]), if_neg (by simpa using hpath), if_neg (by simp [hstate]),
    if_neg (by simp [hact])]
  simp only [hreal]
  rw [if_neg (by
    rcases htype with h | h
    · simp [h]
    · simp [h])]
  have hl := open_device_loop_inl p (w.client c).devices 1 0 0 i d hd hp hfirst
  rw [Nat.zero_add] at hl
  simp only [hl]
  rw [update_device_eq_set _ _ _ _ hd]

theorem seat_open_device_new (w : World) (c : Nat) (path p : List Nat) (fd m al sd : Int)
    (rest : List Int)
    (hseat : (w.client c).seat = true) (hstate : (w.client c).state = CLIENT_ACTIVE)
    (hact : w.seat.active_client = some c) (hpath : path ≠ [])
    (hreal : w.platform.realpath path = Except.ok p)
    (hev : w.platform.path_is_evdev p = false) (hdrm : w.platform.path_is_drm p = true)
    (hnot : ∀ d ∈ (w.client c).devices, d.path ≠ p)
    (hroom : (w.client c).devices.length < w.platform.MAX_SEAT_DEVICES)
    (ht : w.tape = fd :: m :: al :: sd :: rest) (hfd : 0 ≤ fd) (hal : 0 ≤ al) (hsd : 0 ≤ sd) :
    ∃ w0 id, seat_open_device w c path = some (some 0, w0) ∧ w0.tape = rest ∧
      w0.client c = { w.client c with devices :=
        { device_id := id, fd := fd, ref_cnt := 1, active := true, path := p,
          type := SEAT_DEVICE_TYPE_DRM } :: (w.client c).devices } ∧
      OnlyLedger c w w0 := by
  obtain ⟨id, hl⟩ := open_device_loop_none p (w.client c).devices 1 0 0 hnot
  rw [Nat.zero_add] at hl
  have s1 := syscall_of_tape ht hfd
  have s1a : w.syscall.1 = fd := by rw [s1]
  have s1b : w.syscall.2.tape = m :: al :: sd :: rest := by rw [s1]
  have s2b : (drm_set_master w.syscall.2 w.syscall.1).2.tape = al :: sd :: rest :=
    syscall_tape s1b
  have s3 := syscall_of_tape s2b hal
  have s3a : (drm_set_master w.syscall.2 w.syscall.1).2.syscall.1 = al := by rw [s3]
  have s3b : (drm_set_master w.syscall.2 w.syscall.1).2.syscall.2.tape = sd :: rest := by rw [s3]
  have s4 := syscall_of_tape s3b hsd
  have s4a : (drm_set_master w.syscall.2 w.syscall.1).2.syscall.2.syscall.1 = sd := by rw [s4]
  have s4b : (drm_set_master w.syscall.2 w.syscall.1).2.syscall.2.syscall.2.tape = rest := by
    rw [s4]
  have hcl : (drm_set_master w.syscall.2 w.syscall.1).2.syscall.2.syscall.2.client = w.client := by
    simp [drm_set_master]
  have hse : (drm_set_master w.syscall.2 w.syscall.1).2.syscall.2.syscall.2.seat = w.seat := by
    simp [drm_set_master]
  have hpl : (drm_set_master w.syscall.2 w.syscall.1).2.syscall.2.syscall.2.platform
      = w.platform := by
    simp [drm_set_master]
  have hres : seat_open_device w c path = some (some 0,
      (drm_set_master w.syscall.2 w.syscall.1).2.syscall.2.syscall.2.setClient c
        { (drm_set_master w.syscall.2 w.syscall.1).2.syscall.2.syscall.2.client c with
          devices := { device_id := id, fd := w.syscall.1, ref_cnt := 1, active := true, path := p,
                       type := SEAT_DEVICE_TYPE_DRM } ::
            ((drm_set_master w.syscall.2 w.syscall.1).2.syscall.2.syscall.2.client c).devices }) := by
    unfold seat_open_device
    rw [if_neg (by simp [hseat]), if_neg (by simpa using hpath), if_neg (by simp [hstate]),
      if_neg (by simp [hact])]
    simp only [hreal]
    rw [if_neg (by simp [hdrm])]
    simp only [hev, hl, Bool.false_eq_true, if_false, if_true]
    rw [if_neg (by omega), if_neg (by rw [s1a]; omega), if_neg (by rw [s3a]; omega),
      if_neg (by rw [s4a]; omega)]
  refine ⟨_, id, hres, ?_, ?_, ?_⟩
  · rw [setClient_tape, s4b]
  · rw [setClient_client_same, hcl, s1a]
  · exact onlyLedger_setClient (onlyLedger_of_client_eq hse hpl hcl) _

/-- C8: for an ACTIVE client, OPEN_DEVICE with a path that resolves but is neither an evdev
nor a DRM device is answered with ERROR whose error_code is ENOENT (the two socket writes of
the reply succeeding), queues no fd, leaves the device ledger unchanged and keeps the
connection (the handler returns 0, not -1); a following OPEN_DEVICE of a valid DRM path still
succeeds, whether the path is new to the ledger (`open`, the allocations, `dup` and the socket
writes succeeding) or already in it: it is answered with DEVICE_OPENED and one fd. -/
theorem C8_invalid_path_keeps_connection (w : World) (c : Nat) (buf path p : List Nat)
    (a b : Int) (rest : List Int)
    (hseat : (w.client c).seat = true) (hstate : (w.client c).state = CLIENT_ACTIVE)
    (hact : w.seat.active_client = some c)
    (hbuf : c_string buf = some path) (hpath : path ≠ [])
    (hreal : w.platform.realpath path = Except.ok p)
    (hev : w.platform.path_is_evdev p = false) (hdrm : w.platform.path_is_drm p = false)
    (ht : w.tape = a :: b :: rest) (ha : 0 ≤ a) (hb : 0 ≤ b) :
    ∃ w1, handle_open_device w c buf = some (0, w1) ∧
      (w1.client c).connection.outbuf = (w.client c).connection.outbuf ++
        (proto_header SERVER_ERROR 4 ++ le32 ENOENT) ∧
      (w1.client c).connection.out_fds = (w.client c).connection.out_fds ∧
      (w1.client c).devices = (w.client c).devices ∧
      (w1.client c).state = CLIENT_ACTIVE ∧ (w1.client c).seat = true ∧
      w1.seat = w.seat ∧ (∀ k, k ≠ c → w1.client k = w.client k) ∧ w1.closed = w.closed ∧
      (∀ (buf2 path2 p2 : List Nat) (env : Platform) (fd m al sd dupfd q h1 h2 : Int)
          (rest2 : List Int),
        c_string buf2 = some path2 → path2 ≠ [] → env.realpath path2 = Except.ok p2 →
        env.path_is_evdev p2 = false → env.path_is_drm p2 = true →
        (∀ d ∈ (w.client c).devices, d.path ≠ p2) →
        (w.client c).devices.length < w.platform.MAX_SEAT_DEVICES →
        0 ≤ fd → 0 ≤ al → 0 ≤ sd → 0 ≤ dupfd → 0 ≤ q → 0 ≤ h1 → 0 ≤ h2 →
        ∃ w2 id, handle_open_device
            (w1.withEnv (fd :: m :: al :: sd :: dupfd :: q :: h1 :: h2 :: rest2) env) c buf2
            = some (0, w2) ∧
          (w2.client c).connection.outbuf = (w1.client c).connection.outbuf ++
            (proto_header SERVER_DEVICE_OPENED 4 ++ le32 id) ∧
          (w2.client c).connection.out_fds = (w1.client c).connection.out_fds ++ [dupfd] ∧
          (w2.client c).devices =
            { device_id := id, fd := fd, ref_cnt := 1, active := true, path := p2,
              type := SEAT_DEVICE_TYPE_DRM } :: (w.client c).devices) ∧
      (∀ (buf2 path2 p2 : List Nat) (env : Platform) (i : Nat) (d : seat_device)
          (dupfd q h1 h2 : Int) (rest2 : List Int),
        c_string buf2 = some path2 → path2 ≠ [] → env.realpath path2 = Except.ok p2 →
        env.path_is_evdev p2 = false → env.path_is_drm p2 = true →
        (w.client c).devices[i]? = some d → d.path = p2 →
        (∀ j < i, ∀ e, (w.client c).devices[j]? = some e → e.path ≠ p2) →
        0 ≤ dupfd → 0 ≤ q → 0 ≤ h1 → 0 ≤ h2 →
        ∃ w2, handle_open_device (w1.withEnv (dupfd :: q :: h1 :: h2 :: rest2) env) c buf2
            = some (0, w2) ∧
          (w2.client c).connection.outbuf = (w1.client c).connection.outbuf ++
            (proto_header SERVER_DEVICE_OPENED 4 ++ le32 d.device_id) ∧
          (w2.client c).connection.out_fds = (w1.client c).connection.out_fds ++ [dupfd] ∧
          (w2.client c).devices =
            (w.client c).devices.set i { d with ref_cnt := d.ref_cnt + 1 }) := by
  have ho := seat_open_device_invalid hseat hstate hact hpath hreal hev hdrm
  obtain ⟨w1, hr, _, hcl, hoc⟩ := handle_open_device_error w { w with errno := ENOENT } c buf path
    hseat hbuf ho ht ha hb
  have hcl1 : w1.client c = (w.client c).put (proto_header SERVER_ERROR 4 ++ le32 ENOENT) := hcl
  have hdev1 : (w1.client c).devices = (w.client c).devices := by rw [hcl1]; rfl
  have hst1 : (w1.client c).state = CLIENT_ACTIVE := by rw [hcl1]; exact hstate
  have hse1 : (w1.client c).seat = true := by rw [hcl1]; exact hseat
  have hseat1 : w1.seat = w.seat := hoc.1
  have hpl1 : w1.platform = w.platform := hoc.2.1
  refine ⟨w1, hr, by rw [hcl1]; rfl, by rw [hcl1]; rfl, hdev1, hst1, hse1, hseat1,
    hoc.2.2.2.1, hoc.2.2.1, ?_, ?_⟩
  · intro buf2 path2 p2 env fd m al sd dupfd q h1 h2 rest2 hb2 hp2 hr2 he2 hd2 hnot hroom
      hfd hal hsd hdup hq hh1 hh2
    obtain ⟨w0, id, hopen, htape0, hcl0, hol⟩ := seat_open_device_new
      (w1.withEnv (fd :: m :: al :: sd :: dupfd :: q :: h1 :: h2 :: rest2) env) c
      path2 p2 fd m al sd (dupfd :: q :: h1 :: h2 :: rest2)
      hse1 hst1 (by show w1.seat.active_client = _; rw [hseat1]; exact hact) hp2 hr2 he2 hd2
      (by show ∀ d ∈ (w1.client c).devices, _; rw [hdev1]; exact hnot)
      (by show (w1.client c).devices.length < w1.platform.MAX_SEAT_DEVICES
          rw [hdev1, hpl1]; exact hroom)
      rfl hfd hal hsd
    have hd0 : (w0.client c).devices[0]? = some
        { device_id := id, fd := fd, ref_cnt := 1, active := true, path := p2,
          type := SEAT_DEVICE_TYPE_DRM } := by
      rw [hcl0]; simp
    obtain ⟨w2, hres, _, hcl2, _⟩ := handle_open_device_success
      (w1.withEnv (fd :: m :: al :: sd :: dupfd :: q :: h1 :: h2 :: rest2) env) w0 c 0 buf2 path2 _
      hse1 hb2 hopen hd0 htape0 hdup hq hh1 hh2
    refine ⟨w2, id, hres, ?_, ?_, ?_⟩
    · rw [hcl2, hcl0]; rfl
    · rw [hcl2, hcl0]; rfl
    · rw [hcl2, hcl0]
      show _ :: (w1.client c).devices = _
      rw [hdev1]
  · intro buf2 path2 p2 env i d dupfd q h1 h2 rest2 hb2 hp2 hr2 he2 hd2 hdi hdp hfirst
      hdup hq hh1 hh2
    have hopen := seat_open_device_existing
      (w1.withEnv (dupfd :: q :: h1 :: h2 :: rest2) env) c i path2 p2 d
      hse1 hst1 (by show w1.seat.active_client = _; rw [hseat1]; exact hact) hp2 hr2
      (Or.inr hd2)
      (by show (w1.client c).devices[i]? = _; rw [hdev1]; exact hdi) hdp
      (by
        intro j hj e he
        have he1 : (w1.client c).devices[j]? = some e := he
        rw [hdev1] at he1
        exact hfirst j hj e he1)
    have hlen : i < (w.client c).devices.length := by
      rcases Nat.lt_or_ge i (w.client c).devices.length with h | h
      · exact h
      · rw [List.getElem?_eq_none h] at hdi; cases hdi
    obtain ⟨w2, hres, _, hcl2, _⟩ := handle_open_device_success
      (w1.withEnv (dupfd :: q :: h1 :: h2 :: rest2) env) _ c i buf2 path2
      { d with ref_cnt := d.ref_cnt + 1 }
      hse1 hb2 hopen
      (by
        rw [setClient_client_same]
        show ((w1.client c).devices.set i _)[i]? = _
        rw [hdev1]
        simp [List.getElem?_set, hlen])
      rfl hdup hq hh1 hh2
    refine ⟨w2, hres, ?_, ?_, ?_⟩
    · rw [hcl2, setClient_client_same]; rfl
    · rw [hcl2, setClient_client_same]; rfl
    · rw [hcl2, setClient_client_same]
      show (w1.client c).devices.set i _ = _
      rw [hdev1]

/-- C8 at a concrete state: the active client 0 asks for "/etc/passwd" and then for
"/dev/dri/card0". -/
theorem C8_invalid_path_keeps_connection_witness :
    ((world_passwd_request.client 0).seat = true ∧
      (world_passwd_request.client 0).state = CLIENT_ACTIVE ∧
      world_passwd_request.seat.active_client = some 0 ∧
      c_string (etc_passwd ++ [0]) = some etc_passwd ∧ etc_passwd ≠ [] ∧
      world_passwd_request.platform.realpath etc_passwd = Except.ok etc_passwd ∧
      world_passwd_request.platform.path_is_evdev etc_passwd = false ∧
      world_passwd_request.platform.path_is_drm etc_passwd = false ∧
      world_passwd_request.tape = [0, 0]) ∧
    ∃ w1, handle_open_device world_passwd_request 0 (etc_passwd ++ [0]) = some (0, w1) ∧
      (w1.client 0).connection.outbuf = (world_passwd_request.client 0).connection.outbuf ++
        (proto_header SERVER_ERROR 4 ++ le32 ENOENT) ∧
      (w1.client 0).connection.out_fds = (world_passwd_request.client 0).connection.out_fds ∧
      (w1.client 0).devices = (world_passwd_request.client 0).devices ∧
      ∃ w2 id, handle_open_device (w1.withEnv [5, 0, 0, 0, 6, 0, 0, 0] example_platform) 0
          (dri_card0 ++ [0]) = some (0, w2) ∧
        (w2.client 0).connection.outbuf = (w1.client 0).connection.outbuf ++
          (proto_header SERVER_DEVICE_OPENED 4 ++ le32 id) ∧
        (w2.client 0).connection.out_fds = (w1.client 0).connection.out_fds ++ [6] := by
  refine ⟨⟨by decide, by decide, by decide, by decide, by decide, rfl, by decide, by decide,
    rfl⟩, ?_⟩
  obtain ⟨w1, h1, h2, h3, h4, _, _, _, _, _, hnew, _⟩ :=
    C8_invalid_path_keeps_connection world_passwd_request 0 (etc_passwd ++ [0]) etc_passwd
      etc_passwd 0 0 [] (by decide) (by decide) (by decide) (by decide) (by decide) rfl
      (by decide) (by decide) rfl (by decide) (by decide)
  obtain ⟨w2, id, g1, g2, g3, _⟩ := hnew (dri_card0 ++ [0]) dri_card0 dri_card0 example_platform
    5 0 0 0 6 0 0 0 [] (by decide) (by decide) rfl (by decide) (by decide)
    (by
      have hnil : (world_passwd_request.client 0).devices = [] := by decide
      intro d hd
      rw [hnil] at hd
      cases hd)
    (by decide) (by decide) (by decide) (by decide) (by decide) (by decide) (by decide)
    (by decide)
  exact ⟨w1, h1, h2, h3, h4, w2, id, g1, g2, g3⟩

/-- C9, the code at the failing input: for the attached client 0, CLOSE_DEVICE with
device_id 0 (not the id of a device in its ledger) makes `seat_find_device` fail its
`assert(device_id != 0)`, so the server aborts instead of answering ERROR{EBADF}; with
device_id 3 or -1, equally absent from the ledger, the same request is answered with
ERROR{EBADF} and the handler returns 0. -/
theorem C9_close_device_zero_aborts :
    rd32 [0, 0, 0, 0] = 0 ∧
    (client_handle_opcode (world_close_request [0, 0, 0, 0]) 0 CLIENT_CLOSE_DEVICE 4).isNone
      = true ∧
    (client_handle_opcode (world_close_request [3, 0, 0, 0]) 0 CLIENT_CLOSE_DEVICE 4).map
        (fun r => (r.1, (r.2.client 0).connection.outbuf))
      = some (0, proto_header SERVER_ENABLE_SEAT 0 ++ proto_header SERVER_ERROR 4 ++ le32 EBADF) ∧
    (client_handle_opcode (world_close_request [255, 255, 255, 255]) 0 CLIENT_CLOSE_DEVICE 4).map
        (fun r => (r.1, (r.2.client 0).connection.outbuf))
      = some (0, proto_header SERVER_ENABLE_SEAT 0 ++ proto_header SERVER_ERROR 4 ++ le32 EBADF) := by
  refine ⟨by decide, by decide, by decide, by decide⟩

/-- C10 fails as stated: CLOSE_SEAT (size 0) from client 0, which has no seat, is not
answered with ERROR: `client_handle_opcode` returns -1 and the outbound buffer stays empty. -/
theorem C10_counterexample :
    ((example_world false new_client []).client 0).seat = false ∧
    (client_handle_opcode (example_world false new_client []) 0 CLIENT_CLOSE_SEAT 0).map
        (fun r => (r.1, (r.2.client 0).connection.outbuf)) = some (-1, []) := by
  refine ⟨by decide, by decide⟩

theorem connection_get_frame (w : World) (c n : Nat) :
    ((connection_get w c n).2.client c).seat = (w.client c).seat ∧
      ((connection_get w c n).2.client c).connection.outbuf = (w.client c).connection.outbuf ∧
      ((connection_get w c n).2.client c).connection.out_fds = (w.client c).connection.out_fds := by
  unfold connection_get
  simp only
  split_ifs
  · exact ⟨rfl, rfl, rfl⟩
  · simp

/-- C10, amended: each request that is invalid for the client's attachment (OPEN_SEAT from
a client that already has a seat; CLOSE_SEAT, OPEN_DEVICE, CLOSE_DEVICE, SWITCH_SESSION or
DISABLE_SEAT from a client with no seat) is treated as a protocol error: whatever its size,
`client_handle_opcode` returns -1 and appends no reply, neither ERROR nor any other, to the
outbound buffer and queues no fd. -/
theorem C10_attachment_errors_end_connection (w : World) (c : Nat) (opcode size : Nat)
    (h : ((w.client c).seat = false ∧
          (opcode = CLIENT_CLOSE_SEAT ∨ opcode = CLIENT_OPEN_DEVICE ∨
            opcode = CLIENT_CLOSE_DEVICE ∨ opcode = CLIENT_SWITCH_SESSION ∨
            opcode = CLIENT_DISABLE_SEAT)) ∨
        ((w.client c).seat = true ∧ opcode = CLIENT_OPEN_SEAT)) :
    ∃ w1, client_handle_opcode w c opcode size = some (-1, w1) ∧
      (w1.client c).connection.outbuf = (w.client c).connection.outbuf ∧
      (w1.client c).connection.out_fds = (w.client c).connection.out_fds ∧
      (w1.client c).seat = (w.client c).seat := by
  rcases h with ⟨hs, ho⟩ | ⟨hs, rfl⟩
  · rcases ho with rfl | rfl | rfl | rfl | rfl
    · -- CLOSE_SEAT
      unfold client_handle_opcode
      rw [if_neg (by decide), if_pos rfl]
      split_ifs
      · exact ⟨w, rfl, rfl, rfl, rfl⟩
      · refine ⟨w, ?_, rfl, rfl, rfl⟩
        simp [handle_close_seat, hs, finish_opcode]
    · -- OPEN_DEVICE
      unfold client_handle_opcode
      rw [if_neg (by decide), if_neg (by decide), if_pos rfl]
      split_ifs
      · exact ⟨w, rfl, rfl, rfl, rfl⟩
      · obtain ⟨f1, f2, f3⟩ := connection_get_frame w c 2
        rcases hg : connection_get w c 2 with ⟨_ | msg, wa⟩
        · rw [hg] at f1 f2 f3
          exact ⟨wa, rfl, f2, f3, f1⟩
        · rw [hg] at f1 f2 f3
          simp only
          split_ifs
          · exact ⟨wa, rfl, f2, f3, f1⟩
          · obtain ⟨g1, g2, g3⟩ := connection_get_frame wa c (rd16 msg)
            rcases hg2 : connection_get wa c (rd16 msg) with ⟨_ | bytes, wb⟩
            · rw [hg2] at g1 g2 g3
              exact ⟨wb, rfl, g2.trans f2, g3.trans f3, g1.trans f1⟩
            · rw [hg2] at g1 g2 g3
              refine ⟨wb, ?_, g2.trans f2, g3.trans f3, g1.trans f1⟩
              have hsb : (wb.client c).seat = false := by rw [g1, f1, hs]
              simp [handle_open_device, hsb, finish_opcode]
    · -- CLOSE_DEVICE
      unfold client_handle_opcode
      rw [if_neg (by decide), if_neg (by decide), if_neg (by decide), if_pos rfl]
      split_ifs
      · exact ⟨w, rfl, rfl, rfl, rfl⟩
      · obtain ⟨f1, f2, f3⟩ := connection_get_frame w c 4
        rcases hg : connection_get w c 4 with ⟨_ | msg, wa⟩
        · rw [hg] at f1 f2 f3
          exact ⟨wa, rfl, f2, f3, f1⟩
        · rw [hg] at f1 f2 f3
          refine ⟨wa, ?_, f2, f3, f1⟩
          have hsa : (wa.client c).seat = false := by rw [f1, hs]
          simp [handle_close_device, hsa, finish_opcode]
    · -- SWITCH_SESSION
      unfold client_handle_opcode
      rw [if_neg (by decide), if_neg (by decide), if_neg (by decide), if_neg (by decide),
        if_pos rfl]
      split_ifs
      · exact ⟨w, rfl, rfl, rfl, rfl⟩
      · obtain ⟨f1, f2, f3⟩ := connection_get_frame w c 4
        rcases hg : connection_get w c 4 with ⟨_ | msg, wa⟩
        · rw [hg] at f1 f2 f3
          exact ⟨wa, rfl, f2, f3, f1⟩
        · rw [hg] at f1 f2 f3
          refine ⟨wa, ?_, f2, f3, f1⟩
          have hsa : (wa.client c).seat = false := by rw [f1, hs]
          simp [handle_switch_session, hsa, finish_opcode]
    · -- DISABLE_SEAT
      unfold client_handle_opcode
      rw [if_neg (by decide), if_neg (by decide), if_neg (by decide), if_neg (by decide),
        if_neg (by decide), if_pos rfl]
      split_ifs
      · exact ⟨w, rfl, rfl, rfl, rfl⟩
      · refine ⟨w, ?_, rfl, rfl, rfl⟩
        simp [handle_disable_seat, hs, finish_opcode]
  · -- OPEN_SEAT from an attached client
    unfold client_handle_opcode
    rw [if_pos rfl]
    split_ifs
    · exact ⟨w, rfl, rfl, rfl, rfl⟩
    · have hadd : seat_add_client w c = (-1, { w with errno := EBUSY }) := by
        unfold seat_add_client
        rw [if_pos hs]
      unfold handle_open_seat
      simp only
      by_cases h1 : server_get_seat w client_get_seat_name = false
      · rw [if_pos h1]
        exact ⟨w, by simp [finish_opcode], rfl, rfl, rfl⟩
      · rw [if_neg h1, if_pos (by rw [hadd]), hadd]
        exact ⟨{ w with errno := EBUSY }, by simp [finish_opcode], rfl, rfl, rfl⟩

/-- C10 as amended, at a concrete state: CLOSE_DEVICE from client 0, which has no seat. -/
theorem C10_attachment_errors_end_connection_witness :
    ((((example_world false new_client []).client 0).seat = false ∧
          (CLIENT_CLOSE_DEVICE = CLIENT_CLOSE_SEAT ∨ CLIENT_CLOSE_DEVICE = CLIENT_OPEN_DEVICE ∨
            CLIENT_CLOSE_DEVICE = CLIENT_CLOSE_DEVICE ∨
            CLIENT_CLOSE_DEVICE = CLIENT_SWITCH_SESSION ∨
            CLIENT_CLOSE_DEVICE = CLIENT_DISABLE_SEAT)) ∨
        (((example_world false new_client []).client 0).seat = true ∧
          CLIENT_CLOSE_DEVICE = CLIENT_OPEN_SEAT)) ∧
    ∃ w1, client_handle_opcode (example_world false new_client []) 0 CLIENT_CLOSE_DEVICE 4
        = some (-1, w1) ∧
      (w1.client 0).connection.outbuf =
        ((example_world false new_client []).client 0).connection.outbuf ∧
      (w1.client 0).connection.out_fds =
        ((example_world false new_client []).client 0).connection.out_fds ∧
      (w1.client 0).seat = ((example_world false new_client []).client 0).seat :=
  ⟨Or.inl ⟨by decide, by decide⟩,
    C10_attachment_errors_end_connection (example_world false new_client []) 0
      CLIENT_CLOSE_DEVICE 4 (Or.inl ⟨by decide, by decide⟩)⟩

/-- C11 fails as stated: a CLOSE_DEVICE message whose header says size 8 (payload: device_id 3
and four surplus bytes) is accepted: the handler runs and answers ERROR{EBADF},
`client_handle_opcode` returns 0, and only 4 of the 8 payload bytes are consumed. -/
theorem C11_counterexample :
    (client_handle_opcode (world_close_request [3, 0, 0, 0, 9, 9, 9, 9]) 0 CLIENT_CLOSE_DEVICE
        8).map (fun r => (r.1, (r.2.client 0).connection.outbuf, (r.2.client 0).connection.in_pos))
      = some (0, proto_header SERVER_ENABLE_SEAT 0 ++ proto_header SERVER_ERROR 4 ++ le32 EBADF,
          4) := by
  decide

theorem connection_get_cases (w : World) (c n : Nat) :
    (connection_get w c n).1 = none ∨ (connection_get w c n).1 = some (pending_bytes w c n) := by
  unfold connection_get
  simp only
  split_ifs
  · exact Or.inl rfl
  · exact Or.inr rfl

/-- C11, amended: `client_handle_opcode` rejects (returns -1 without running the handler)
every message whose header size is too small for the payload its opcode defines: a size
other than 0 for OPEN_SEAT, CLOSE_SEAT and DISABLE_SEAT, a size below 4 for CLOSE_DEVICE and
SWITCH_SESSION, a size below 2 + path_len for OPEN_DEVICE. The state is left as it was, or
with only the two bytes of path_len consumed. -/
theorem C11_short_size_rejected (w : World) (c : Nat) (opcode size : Nat)
    (h : ((opcode = CLIENT_OPEN_SEAT ∨ opcode = CLIENT_CLOSE_SEAT ∨
            opcode = CLIENT_DISABLE_SEAT) ∧ size ≠ 0) ∨
        ((opcode = CLIENT_CLOSE_DEVICE ∨ opcode = CLIENT_SWITCH_SESSION) ∧ size < 4) ∨
        (opcode = CLIENT_OPEN_DEVICE ∧ size < 2 + rd16 (pending_bytes w c 2))) :
    ∃ w1, client_handle_opcode w c opcode size = some (-1, w1) ∧
      (w1 = w ∨ w1 = (connection_get w c 2).2) := by
  rcases h with ⟨ho, hs⟩ | ⟨ho, hs⟩ | ⟨rfl, hs⟩
  · refine ⟨w, ?_, Or.inl rfl⟩
    rcases ho with rfl | rfl | rfl
    · unfold client_handle_opcode
      rw [if_pos rfl, if_pos hs]
    · unfold client_handle_opcode
      rw [if_neg (by decide), if_pos rfl, if_pos hs]
    · unfold client_handle_opcode
      rw [if_neg (by decide), if_neg (by decide), if_neg (by decide), if_neg (by decide),
        if_neg (by decide), if_pos rfl, if_pos hs]
  · refine ⟨w, ?_, Or.inl rfl⟩
    rcases ho with rfl | rfl
    · unfold client_handle_opcode
      rw [if_neg (by decide), if_neg (by decide), if_neg (by decide), if_pos rfl,
        if_pos (by omega)]
    · unfold client_handle_opcode
      rw [if_neg (by decide), if_neg (by decide), if_neg (by decide), if_neg (by decide),
        if_pos rfl, if_pos (by omega)]
  · unfold client_handle_opcode
    rw [if_neg (by decide), if_neg (by decide), if_pos rfl]
    by_cases h2 : 2 > size
    · rw [if_pos h2]
      exact ⟨w, rfl, Or.inl rfl⟩
    rw [if_neg h2]
    rcases hg : connection_get w c 2 with ⟨_ | msg, wa⟩
    · exact ⟨wa, rfl, Or.inr rfl⟩
    · have hm : msg = pending_bytes w c 2 := by
        rcases connection_get_cases w c 2 with h1 | h1
        · rw [hg] at h1; cases h1
        · rw [hg] at h1; exact Option.some.inj h1
      simp only
      rw [if_pos (Or.inl (by rw [hm]; omega))]
      exact ⟨wa, rfl, Or.inr rfl⟩

/-- C11 as amended, at a concrete input: SWITCH_SESSION with header size 3. -/
theorem C11_short_size_rejected_witness :
    (((CLIENT_SWITCH_SESSION = CLIENT_OPEN_SEAT ∨ CLIENT_SWITCH_SESSION = CLIENT_CLOSE_SEAT ∨
            CLIENT_SWITCH_SESSION = CLIENT_DISABLE_SEAT) ∧ 3 ≠ 0) ∨
        ((CLIENT_SWITCH_SESSION = CLIENT_CLOSE_DEVICE ∨
            CLIENT_SWITCH_SESSION = CLIENT_SWITCH_SESSION) ∧ 3 < 4) ∨
        (CLIENT_SWITCH_SESSION = CLIENT_OPEN_DEVICE ∧
          3 < 2 + rd16 (pending_bytes (world_close_request [1, 0, 0]) 0 2))) ∧
    ∃ w1, client_handle_opcode (world_close_request [1, 0, 0]) 0 CLIENT_SWITCH_SESSION 3
        = some (-1, w1) ∧
      (w1 = world_close_request [1, 0, 0] ∨
        w1 = (connection_get (world_close_request [1, 0, 0]) 0 2).2) :=
  ⟨Or.inr (Or.inl ⟨Or.inr rfl, by decide⟩),
    C11_short_size_rejected (world_close_request [1, 0, 0]) 0 CLIENT_SWITCH_SESSION 3
      (Or.inr (Or.inl ⟨Or.inr rfl, by decide⟩))⟩

theorem client_handle_opcode_close_device (w : World) (c size : Nat) (h : 4 ≤ size) :
    client_handle_opcode w c CLIENT_CLOSE_DEVICE size =
      match connection_get w c 4 with
      | (none, w1) => some (-1, w1)
      | (some msg, w1) => finish_opcode (handle_close_device w1 c (rd32 msg)) c := by
  unfold client_handle_opcode
  rw [if_neg (by decide), if_neg (by decide), if_neg (by decide), if_pos rfl,
    if_neg (by omega)]

theorem client_handle_opcode_switch_session (w : World) (c size : Nat) (h : 4 ≤ size) :
    client_handle_opcode w c CLIENT_SWITCH_SESSION size =
      match connection_get w c 4 with
      | (none, w1) => some (-1, w1)
      | (some msg, w1) => finish_opcode (handle_switch_session w1 c (rd32 msg)) c := by
  unfold client_handle_opcode
  rw [if_neg (by decide), if_neg (by decide), if_neg (by decide), if_neg (by decide),
    if_pos rfl, if_neg (by omega)]

theorem client_handle_opcode_open_device (w : World) (c size : Nat)
    (hp : 2 ≤ connection_pending w c) (h : 2 + rd16 (pending_bytes w c 2) ≤ size) :
    client_handle_opcode w c CLIENT_OPEN_DEVICE size =
      if rd16 (pending_bytes w c 2) > MAX_PATH_LEN then some (-1, (connection_get w c 2).2)
      else
        match connection_get (connection_get w c 2).2 c (rd16 (pending_bytes w c 2)) with
        | (none, w2) => some (-1, w2)
        | (some bytes, w2) =>
          finish_opcode (handle_open_device w2 c
            ((bytes ++ w2.platform.stack.drop (rd16 (pending_bytes w c 2))).take MAX_PATH_LEN)) c := by
  unfold client_handle_opcode
  rw [if_neg (by decide), if_neg (by decide), if_pos rfl, if_neg (by omega)]
  have hg : connection_get w c 2 = (some (pending_bytes w c 2), (connection_get w c 2).2) := by
    unfold connection_get
    simp only
    rw [if_neg (by omega)]
    rfl
  rw [hg]
  simp only
  by_cases hm : rd16 (pending_bytes w c 2) > MAX_PATH_LEN
  · rw [if_pos (Or.inr hm), if_pos hm]
  · rw [if_neg (by
      intro hh
      rcases hh with hh | hh
      · omega
      · exact hm hh), if_neg hm]

/-- A payload-carrying message with a size larger than its payload is handled exactly like
the message with the exact size: the surplus is never looked at. -/
theorem client_handle_opcode_surplus_size (w : World) (c : Nat) (size : Nat) :
    (4 ≤ size → client_handle_opcode w c CLIENT_CLOSE_DEVICE size
        = client_handle_opcode w c CLIENT_CLOSE_DEVICE 4) ∧
      (4 ≤ size → client_handle_opcode w c CLIENT_SWITCH_SESSION size
        = client_handle_opcode w c CLIENT_SWITCH_SESSION 4) ∧
      (2 + rd16 (pending_bytes w c 2) ≤ size → 2 ≤ connection_pending w c →
        client_handle_opcode w c CLIENT_OPEN_DEVICE size
          = client_handle_opcode w c CLIENT_OPEN_DEVICE (2 + rd16 (pending_bytes w c 2))) := by
  refine ⟨fun h => ?_, fun h => ?_, fun h hp => ?_⟩
  · rw [client_handle_opcode_close_device w c size h,
      client_handle_opcode_close_device w c 4 (le_refl _)]
  · rw [client_handle_opcode_switch_session w c size h,
      client_handle_opcode_switch_session w c 4 (le_refl _)]
  · rw [client_handle_opcode_open_device w c size hp h,
      client_handle_opcode_open_device w c _ hp (le_refl _)]

/-- C12: for every OPEN_DEVICE message whose path_len exceeds MAX_PATH_LEN, whatever the
header size, `client_handle_opcode` returns -1 without calling `seat_open_device` (no
environment call is made; the seat, every ledger and every client state are unchanged) and
without appending any reply to the outbound buffer. -/
theorem C12_oversize_path_rejected (w : World) (c : Nat) (size : Nat)
    (h : MAX_PATH_LEN < rd16 (pending_bytes w c 2)) :
    ∃ w1, client_handle_opcode w c CLIENT_OPEN_DEVICE size = some (-1, w1) ∧
      (w1.client c).connection.outbuf = (w.client c).connection.outbuf ∧
      (w1.client c).connection.out_fds = (w.client c).connection.out_fds ∧
      w1.tape = w.tape ∧ w1.closed = w.closed ∧ w1.seat = w.seat ∧
      (∀ k, (w1.client k).devices = (w.client k).devices ∧
        (w1.client k).state = (w.client k).state) := by
  have hget : ((connection_get w c 2).2.client c).connection.outbuf
        = (w.client c).connection.outbuf ∧
      ((connection_get w c 2).2.client c).connection.out_fds
        = (w.client c).connection.out_fds ∧
      (connection_get w c 2).2.tape = w.tape ∧ (connection_get w c 2).2.closed = w.closed ∧
      (connection_get w c 2).2.seat = w.seat ∧
      (∀ k, ((connection_get w c 2).2.client k).devices = (w.client k).devices ∧
        ((connection_get w c 2).2.client k).state = (w.client k).state) := by
    unfold connection_get
    simp only
    split_ifs
    · exact ⟨rfl, rfl, rfl, rfl, rfl, fun _ => ⟨rfl, rfl⟩⟩
    · refine ⟨by simp, by simp, rfl, rfl, rfl, fun k => ?_⟩
      by_cases hk : k = c
      · subst hk; simp
      · rw [setClient_client_other _ _ hk]; exact ⟨rfl, rfl⟩
  unfold client_handle_opcode
  rw [if_neg (by decide), if_neg (by decide), if_pos rfl]
  by_cases h2 : 2 > size
  · rw [if_pos h2]
    exact ⟨w, rfl, rfl, rfl, rfl, rfl, rfl, fun _ => ⟨rfl, rfl⟩⟩
  rw [if_neg h2]
  rcases hg : connection_get w c 2 with ⟨_ | msg, wa⟩
  · rw [hg] at hget
    exact ⟨wa, rfl, hget⟩
  · have hm : msg = pending_bytes w c 2 := by
      rcases connection_get_cases w c 2 with h1 | h1
      · rw [hg] at h1; cases h1
      · rw [hg] at h1; exact Option.some.inj h1
    rw [hg] at hget
    simp only
    rw [if_pos (Or.inr (by rw [hm]; exact h))]
    exact ⟨wa, rfl, hget⟩

/-- C12 at a concrete input: path_len = 1024 in a message with header size 1026. -/
theorem C12_oversize_path_rejected_witness :
    MAX_PATH_LEN < rd16 (pending_bytes world_oversize_request 0 2) ∧
    rd16 (pending_bytes world_oversize_request 0 2) = 1024 ∧
    ∃ w1, client_handle_opcode world_oversize_request 0 CLIENT_OPEN_DEVICE 1026 = some (-1, w1) ∧
      (w1.client 0).connection.outbuf = (world_oversize_request.client 0).connection.outbuf ∧
      (w1.client 0).connection.out_fds = (world_oversize_request.client 0).connection.out_fds ∧
      w1.tape = world_oversize_request.tape ∧ w1.closed = world_oversize_request.closed ∧
      w1.seat = world_oversize_request.seat ∧
      (∀ k, (w1.client k).devices = (world_oversize_request.client k).devices ∧
        (w1.client k).state = (world_oversize_request.client k).state) :=
  ⟨by decide, by decide,
    C12_oversize_path_rejected world_oversize_request 0 1026 (by decide)⟩

/-- C13 fails as stated: client 0, the first client attached to a seat that is not
VT-bound, was given session 0 and is ACTIVE; its SWITCH_SESSION to session 0 is rejected:
`seat_set_next_session` returns -1 with EINVAL and the handler sends ERROR{EINVAL}. -/
theorem C13_counterexample :
    (world_one_active.client 0).state = CLIENT_ACTIVE ∧
    (world_one_active.client 0).session = 0 ∧
    (seat_set_next_session world_one_active 0 0).map (fun r => (r.1, r.2.errno))
      = some (-1, EINVAL) ∧
    (handle_switch_session world_one_active 0 0).map
        (fun r => (r.1, (r.2.client 0).connection.outbuf))
      = some (0, proto_header SERVER_ENABLE_SEAT 0 ++ proto_header SERVER_ERROR 4
          ++ le32 EINVAL) := by
  refine ⟨by decide, by decide, by decide, by decide⟩

/-- C13, amended: for every attached ACTIVE client whose session is greater than 0,
SWITCH_SESSION with session equal to the client's own session is a no-op that returns
success: nothing is sent and the state is unchanged. When the client's session is 0 or
negative the request is rejected with EINVAL before the sessions are compared, and nothing
but errno changes in the seat module. -/
theorem C13_switch_to_own_session (w : World) (c : Nat)
    (hseat : (w.client c).seat = true) (hstate : (w.client c).state = CLIENT_ACTIVE)
    (hact : w.seat.active_client = some c) :
    (0 < (w.client c).session →
        seat_set_next_session w c (w.client c).session = some (0, w) ∧
        handle_switch_session w c (w.client c).session = some (0, w)) ∧
      ((w.client c).session ≤ 0 →
        seat_set_next_session w c (w.client c).session
          = some (-1, { w with errno := EINVAL })) := by
  constructor
  · intro hs
    have h1 : seat_set_next_session w c (w.client c).session = some (0, w) := by
      unfold seat_set_next_session
      rw [if_neg (by simp [hseat]), if_neg (by simp [hstate]), if_neg (by simp [hact]),
        if_neg (by omega), if_pos rfl]
    refine ⟨h1, ?_⟩
    unfold handle_switch_session
    rw [if_neg (by simp [hseat]), h1]
    simp
  · intro hs
    unfold seat_set_next_session
    rw [if_neg (by simp [hseat]), if_neg (by simp [hstate]), if_neg (by simp [hact]),
      if_pos hs]

/-- C13 as amended, at a concrete state: the active client of the VT-bound seat has
session 1. -/
theorem C13_switch_to_own_session_witness :
    ((world_vt_active.client 0).seat = true ∧
      (world_vt_active.client 0).state = CLIENT_ACTIVE ∧
      world_vt_active.seat.active_client = some 0 ∧ (world_vt_active.client 0).session = 1) ∧
    ((0 < (world_vt_active.client 0).session →
        seat_set_next_session world_vt_active 0 (world_vt_active.client 0).session
          = some (0, world_vt_active) ∧
        handle_switch_session world_vt_active 0 (world_vt_active.client 0).session
          = some (0, world_vt_active)) ∧
      ((world_vt_active.client 0).session ≤ 0 →
        seat_set_next_session world_vt_active 0 (world_vt_active.client 0).session
          = some (-1, { world_vt_active with errno := EINVAL }))) :=
  ⟨⟨by decide, by decide, by decide, by decide⟩,
    C13_switch_to_own_session world_vt_active 0 (by decide) (by decide) (by decide)⟩

/-- C14, the code at the failing input: with A = client 0 (ACTIVE, session 0) and B = client 1
(attached, session 1) on a seat that is not VT-bound, SWITCH_SESSION{1} from A does not
succeed: `seat->clients` is empty because `seat_add_client` never links a client into it,
`seat_set_next_session` finds no target and returns -1 with EINVAL, the handler answers
ERROR{EINVAL}; no DISABLE_SEAT is sent, A stays ACTIVE and next_client stays empty. -/
theorem C14_switch_finds_no_target :
    ((world_two_clients.client 0).seat, (world_two_clients.client 0).state,
        (world_two_clients.client 0).session) = (true, CLIENT_ACTIVE, 0) ∧
    ((world_two_clients.client 1).seat, (world_two_clients.client 1).state,
        (world_two_clients.client 1).session) = (true, CLIENT_NEW, 1) ∧
    world_two_clients.seat.clients = [] ∧
    (seat_set_next_session world_two_clients 0 1).map
        (fun r => (r.1, r.2.errno, r.2.seat.next_client, (r.2.client 0).state,
          (r.2.client 0).connection.outbuf))
      = some (-1, EINVAL, none, CLIENT_ACTIVE, proto_header SERVER_ENABLE_SEAT 0) ∧
    (handle_switch_session world_two_clients 0 1).map
        (fun r => (r.1, (r.2.client 0).connection.outbuf, (r.2.client 0).state,
          (r.2.client 1).state, r.2.seat.next_client))
      = some (0, proto_header SERVER_ENABLE_SEAT 0 ++ proto_header SERVER_ERROR 4 ++ le32 EINVAL,
          CLIENT_ACTIVE, CLIENT_NEW, none) := by
  refine ⟨by decide, by decide, by decide, by decide, by decide⟩

/-- C19, the code at the failing input: `seat_open_client` for the attached NEW client 0 of a
seat without active client, the `connection_put` of ENABLE_SEAT failing with EAGAIN, returns
-1 and appends nothing, yet leaves the client CLIENT_ACTIVE and the seat's active client;
the same happens on a VT-bound seat for a DISABLED client, where the error path only closes
the VT. -/
theorem C19_failed_enable_leaves_client_active :
    ((world_attached.client 0).state, world_attached.seat.active_client)
      = (CLIENT_NEW, none) ∧
    (seat_open_client (world_attached.withEnv [-11] example_platform) 0).map
        (fun r => (r.1, r.2.errno, (r.2.client 0).state, r.2.seat.active_client,
          (r.2.client 0).connection.outbuf))
      = some (-1, EAGAIN, CLIENT_ACTIVE, some 0, []) ∧
    ((world_vt_disabled.client 0).state, world_vt_disabled.seat.active_client)
      = (CLIENT_DISABLED, none) ∧
    (seat_open_client (world_vt_disabled.withEnv [4, -11] example_platform) 0).map
        (fun r => (r.1, r.2.errno, (r.2.client 0).state, r.2.seat.active_client))
      = some (-1, EAGAIN, CLIENT_ACTIVE, some 0) ∧
    (seat_open_client (world_vt_disabled.withEnv [4, -11] example_platform) 0).map
        (fun r => (r.2.seat.cur_ttyfd, r.2.closed.reverse.head?, (r.2.client 0).connection.outbuf))
      = some (-1, some 4,
          proto_header SERVER_ENABLE_SEAT 0 ++ proto_header SERVER_DISABLE_SEAT 0) := by
  refine ⟨by decide, by decide, by decide, by decide, by decide⟩

/-- C20, the code at the failing input: client 0 of a VT-bound seat is opened (ENABLE_SEAT),
disabled by a VT release (DISABLE_SEAT) and acknowledges; `seat_open_client` then makes it
ACTIVE while the `connection_put` of its ENABLE_SEAT fails, and the next VT release sends a
second DISABLE_SEAT: the outbound buffer holds ENABLE_SEAT, DISABLE_SEAT, DISABLE_SEAT. -/
theorem C20_disable_sent_twice :
    (world_vt_disabled.client 0).connection.outbuf
      = proto_header SERVER_ENABLE_SEAT 0 ++ proto_header SERVER_DISABLE_SEAT 0 ∧
    (world_vt_disabled.client 0).state = CLIENT_DISABLED ∧
    world_vt_enable_lost.map (fun w => ((w.client 0).state, (w.client 0).connection.outbuf))
      = some (CLIENT_ACTIVE,
          proto_header SERVER_ENABLE_SEAT 0 ++ proto_header SERVER_DISABLE_SEAT 0) ∧
    (world_vt_enable_lost.bind (run_ops [(seat_op.vt_release, [3, 1, 0, 0, 5])])).map
        (fun w => ((w.client 0).state, (w.client 0).connection.outbuf))
      = some (CLIENT_PENDING_DISABLE,
          proto_header SERVER_ENABLE_SEAT 0 ++ proto_header SERVER_DISABLE_SEAT 0
            ++ proto_header SERVER_DISABLE_SEAT 0) := by
  refine ⟨by decide, by decide, by decide, by decide⟩

theorem snap_of_client {w w1 : World} (h : w1.client = w.client) : snap w1 = snap w := by
  unfold snap
  rw [h]

@[simp] theorem snap_syscall (w : World) : snap w.syscall.2 = snap w :=
  snap_of_client (syscall_client w)

@[simp] theorem snap_close (w : World) (fd : Int) : snap (w.close fd) = snap w := rfl

@[simp] theorem snap_errno (w : World) (e : Int) : snap ({ w with errno := e } : World) = snap w :=
  rfl

@[simp] theorem snap_seat (w : World) (s : seat) : snap ({ w with seat := s } : World) = snap w :=
  rfl

@[simp] theorem snap_withEnv (w : World) (tape : List Int) (env : Platform) :
    snap (w.withEnv tape env) = snap w := rfl

theorem snap_setClient (w : World) (c : Nat) (cl : client) :
    snap (w.setClient c cl) = Function.update (snap w) c (cl.state, cl.devices) := by
  funext i
  by_cases h : i = c
  · subst h
    unfold snap
    rw [setClient_client_same, Function.update_same]
  · unfold snap
    rw [setClient_client_other _ _ h, Function.update_noteq h]

theorem snap_setClient_same (w : World) (c : Nat) (cl : client)
    (h1 : cl.state = (w.client c).state) (h2 : cl.devices = (w.client c).devices) :
    snap (w.setClient c cl) = snap w := by
  rw [snap_setClient, h1, h2]
  exact Function.update_eq_self c (snap w)

@[simp] theorem snap_connection_put (w : World) (c : Nat) (b : List Nat) :
    snap (connection_put w c b).2 = snap w := by
  unfold connection_put
  simp only
  split
  · simp
  · refine (snap_setClient_same _ c _ ?_ ?_).trans (snap_syscall w) <;> rfl

@[simp] theorem snap_connection_flush (w : World) (c : Nat) :
    snap (connection_flush w c).2 = snap w := by
  simp [connection_flush]

@[simp] theorem snap_client_send_enable_seat (w : World) (c : Nat) :
    snap (client_send_enable_seat w c).2 = snap w := by
  unfold client_send_enable_seat
  simp only
  split
  · simp
  · split <;> simp

@[simp] theorem snap_client_send_disable_seat (w : World) (c : Nat) :
    snap (client_send_disable_seat w c).2 = snap w := by
  unfold client_send_disable_seat
  simp only
  split
  · simp
  · split <;> simp

@[simp] theorem snap_terminal_open (w : World) (vt : Int) : snap (terminal_open w vt).2 = snap w := by
  simp [terminal_open]

@[simp] theorem snap_seat_update_vt (w : World) : snap (seat_update_vt w) = snap w := by
  unfold seat_update_vt
  simp only
  split
  · simp
  · exact snap_of_client (by simp [World.close, terminal_current_vt, terminal_open])

theorem snap_vt_open {w w1 : World} {vt r : Int} (h : vt_open w vt = some (r, w1)) :
    snap w1 = snap w := by
  unfold vt_open at h
  simp only at h
  split_ifs at h <;> simp only [Option.some.injEq, Prod.mk.injEq] at h <;>
    obtain ⟨_, rfl⟩ := h <;> exact snap_of_client (by simp [terminal_open, World.close])

@[simp] theorem snap_vt_close (w : World) : snap (vt_close w) = snap w := by
  unfold vt_close; split <;> rfl

@[simp] theorem snap_vt_close_num (w : World) (vt : Int) : snap (vt_close_num w vt).2 = snap w := by
  unfold vt_close_num; simp only; split <;> simp

@[simp] theorem snap_vt_switch (w : World) (vt : Int) : snap (vt_switch w vt).2 = snap w := by
  unfold vt_switch; simp only; split <;> simp

@[simp] theorem snap_vt_ack (w : World) (b : Bool) : snap (vt_ack w b).2 = snap w := by
  unfold vt_ack; simp only; split <;> simp

@[simp] theorem snap_seat_add_client (w : World) (c : Nat) : snap (seat_add_client w c).2 = snap w := by
  unfold seat_add_client
  simp only
  split_ifs
  · rfl
  · rfl
  · rfl
  · exact (snap_errno (seat_update_vt w) EINVAL).trans (snap_seat_update_vt w)
  · refine (snap_setClient_same _ c _ ?_ ?_).trans (snap_seat_update_vt w) <;> rfl
  · refine (snap_setClient_same _ c _ ?_ ?_).trans ?_ <;> rfl

theorem devices_ok_of_snap {s : Bool} {w w1 : World} (h : snap w1 = snap w)
    (hv : devices_ok s w) : devices_ok s w1 := by
  intro c
  rw [h]
  exact hv c

theorem flags_refl (l : List seat_device) : Flags l l :=
  fun d hd => ⟨d, hd, rfl, rfl⟩

theorem client_ok_flags {s : Bool} {st : client_state} {l l1 : List seat_device}
    (h : client_ok s (st, l)) (hf : Flags l l1) : client_ok s (st, l1) := by
  constructor
  · intro hst d1 hd1 ht
    obtain ⟨d, hd, e1, e2⟩ := hf d1 hd1
    rw [e2]
    exact h.1 hst d hd (e1 ▸ ht)
  · intro hs hst d1 hd1
    obtain ⟨d, hd, _, e2⟩ := hf d1 hd1
    rw [e2]
    exact h.2 hs hst d hd

theorem devices_ok_update {s : Bool} {w w1 : World} {c : Nat} {x : client_state × List seat_device}
    (h : snap w1 = Function.update (snap w) c x) (hx : client_ok s x)
    (hv : devices_ok s w) : devices_ok s w1 := by
  intro k
  rw [h]
  by_cases hk : k = c
  · subst hk; rw [Function.update_same]; exact hx
  · rw [Function.update_noteq hk]; exact hv k

theorem seat_deactivate_device_snap {w w1 : World} {d d1 : seat_device} {r : Int}
    (h : seat_deactivate_device w d = some (r, d1, w1)) :
    snap w1 = snap w ∧ (r ≠ -1 → d1.active = false) := by
  unfold seat_deactivate_device at h
  by_cases h1 : ¬ (d.fd > 0)
  · rw [if_pos h1] at h; cases h
  rw [if_neg h1] at h
  by_cases h2 : d.active = false
  · rw [if_pos h2] at h
    simp only [Option.some.injEq, Prod.mk.injEq] at h
    obtain ⟨_, rfl, rfl⟩ := h
    exact ⟨rfl, fun _ => h2⟩
  rw [if_neg h2] at h
  split at h <;> simp only at h <;> split_ifs at h <;>
    simp only [Option.some.injEq, Prod.mk.injEq] at h <;>
    obtain ⟨rfl, rfl, rfl⟩ := h <;>
    simp [drm_drop_master, evdev_revoke]

theorem seat_activate_device_snap {w w1 : World} {c : Nat} {d d1 : seat_device} {r : Int}
    (h : seat_activate_device w c d = some (r, d1, w1)) :
    snap w1 = snap w ∧ (d1.type = SEAT_DEVICE_TYPE_DRM → d1.active = true) := by
  unfold seat_activate_device at h
  by_cases h1 : (w.client c).seat = false
  · rw [if_pos h1] at h; cases h
  rw [if_neg h1] at h
  by_cases h2 : ¬ (d.fd > 0)
  · rw [if_pos h2] at h; cases h
  rw [if_neg h2] at h
  by_cases h3 : d.active = true
  · rw [if_pos h3] at h
    simp only [Option.some.injEq, Prod.mk.injEq] at h
    obtain ⟨_, rfl, rfl⟩ := h
    exact ⟨rfl, fun _ => h3⟩
  rw [if_neg h3] at h
  split at h
  · simp only [Option.some.injEq, Prod.mk.injEq] at h
    obtain ⟨_, rfl, rfl⟩ := h
    exact ⟨by simp [drm_set_master], fun _ => rfl⟩
  · rename_i ht
    simp only [Option.some.injEq, Prod.mk.injEq] at h
    obtain ⟨_, rfl, rfl⟩ := h
    exact ⟨rfl, fun hd => by rw [ht] at hd; cases hd⟩

theorem for_each_activate_snap (c : Nat) :
    ∀ (l : List seat_device) (w : World) (l1 : List seat_device) (w1 : World),
      for_each_device (fun w d => seat_activate_device w c d) l w = some (l1, w1) →
      snap w1 = snap w ∧ ∀ d ∈ l1, d.type = SEAT_DEVICE_TYPE_DRM → d.active = true := by
  intro l
  induction l with
  | nil =>
    intro w l1 w1 h
    simp only [for_each_device, Option.some.injEq, Prod.mk.injEq] at h
    obtain ⟨rfl, rfl⟩ := h
    exact ⟨rfl, fun d hd => by cases hd⟩
  | cons d rest ih =>
    intro w l1 w1 h
    unfold for_each_device at h
    split at h
    · cases h
    · rename_i r d1 w2 hd
      split at h
      · cases h
      · rename_i rest1 w3 hr
        simp only [Option.some.injEq, Prod.mk.injEq] at h
        obtain ⟨rfl, rfl⟩ := h
        obtain ⟨hv, hact⟩ := seat_activate_device_snap hd
        obtain ⟨hv2, hact2⟩ := ih _ _ _ hr
        refine ⟨hv2.trans hv, fun x hx => ?_⟩
        rcases List.mem_cons.1 hx with rfl | hx
        · exact hact
        · exact hact2 x hx

theorem for_each_deactivate_snap :
    ∀ (l : List seat_device) (w : World) (l1 : List seat_device) (w1 : World),
      for_each_device seat_deactivate_device l w = some (l1, w1) →
      snap w1 = snap w ∧
        ((-1 : Int) ∉ deactivate_results l w → ∀ d ∈ l1, d.active = false) := by
  intro l
  induction l with
  | nil =>
    intro w l1 w1 h
    simp only [for_each_device, Option.some.injEq, Prod.mk.injEq] at h
    obtain ⟨rfl, rfl⟩ := h
    exact ⟨rfl, fun _ d hd => by cases hd⟩
  | cons d rest ih =>
    intro w l1 w1 h
    unfold for_each_device at h
    split at h
    · cases h
    · rename_i r d1 w2 hd
      split at h
      · cases h
      · rename_i rest1 w3 hr
        simp only [Option.some.injEq, Prod.mk.injEq] at h
        obtain ⟨rfl, rfl⟩ := h
        obtain ⟨hv, hact⟩ := seat_deactivate_device_snap hd
        obtain ⟨hv2, hact2⟩ := ih _ _ _ hr
        refine ⟨hv2.trans hv, fun hok x hx => ?_⟩
        have hres : deactivate_results (d :: rest) w = r :: deactivate_results rest w2 := by
          rw [deactivate_results, hd]
        rw [hres] at hok
        rcases List.mem_cons.1 hx with rfl | hx
        · exact hact (fun e => hok (by rw [e]; exact List.mem_cons_self _ _))
        · exact hact2 (fun e => hok (List.mem_cons_of_mem _ e)) x hx

theorem client_ok_active {s : Bool} {l : List seat_device}
    (h : ∀ d ∈ l, d.type = SEAT_DEVICE_TYPE_DRM → d.active = true) :
    client_ok s (CLIENT_ACTIVE, l) :=
  And.intro (fun _ => h) (fun _ hst => by rcases hst with e | e <;> cases e)

theorem client_ok_closed {s : Bool} (l : List seat_device) : client_ok s (CLIENT_CLOSED, l) :=
  And.intro (fun e => by cases e) (fun _ hst => by rcases hst with e | e <;> cases e)

theorem client_ok_pending {s : Bool} {l : List seat_device}
    (h : s = true → ∀ d ∈ l, d.active = false) : client_ok s (CLIENT_PENDING_DISABLE, l) :=
  And.intro (fun e => by cases e) (fun hs _ => h hs)

theorem client_ok_disabled {s : Bool} {l : List seat_device}
    (h : client_ok s (CLIENT_PENDING_DISABLE, l)) : client_ok s (CLIENT_DISABLED, l) :=
  And.intro (fun e => by cases e) (fun hs _ => h.2 hs (Or.inl rfl))

theorem seat_open_client_devices_ok {s : Bool} {w w1 : World} {c : Nat} {r : Int}
    (h : seat_open_client w c = some (r, w1)) (hv : devices_ok s w) : devices_ok s w1 := by
  unfold seat_open_client at h
  by_cases h1 : (w.client c).state ≠ CLIENT_NEW ∧ (w.client c).state ≠ CLIENT_DISABLED
  · rw [if_pos h1] at h
    simp only [Option.some.injEq, Prod.mk.injEq] at h
    obtain ⟨_, rfl⟩ := h
    exact hv
  rw [if_neg h1] at h
  by_cases h2 : w.seat.active_client ≠ none
  · rw [if_pos h2] at h
    simp only [Option.some.injEq, Prod.mk.injEq] at h
    obtain ⟨_, rfl⟩ := h
    exact hv
  rw [if_neg h2] at h
  generalize hvt : (if w.seat.vt_bound = true then vt_open w (w.client c).session
    else some (0, w)) = ov at h
  rcases ov with _ | ⟨r0, w0⟩
  · cases h
  have hv0 : snap w0 = snap w := by
    split_ifs at hvt
    · exact snap_vt_open hvt
    · simp only [Option.some.injEq, Prod.mk.injEq] at hvt
      rw [← hvt.2]
  simp only at h
  by_cases h3 : r0 = -1
  · rw [if_pos h3] at h
    simp only [Option.some.injEq, Prod.mk.injEq] at h
    obtain ⟨_, rfl⟩ := h
    refine devices_ok_of_snap ?_ hv
    split_ifs <;> simp [hv0]
  rw [if_neg h3] at h
  generalize hf : for_each_device (fun w d => seat_activate_device w c d)
    (w0.client c).devices w0 = od at h
  rcases od with _ | ⟨devs, w2⟩
  · cases h
  obtain ⟨hv2, hact⟩ := for_each_activate_snap c _ _ _ _ hf
  simp only at h
  have key : ∀ wz : World, snap wz = snap
      (({ w2 with seat := { w2.seat with active_client := some c } } : World).setClient c
        { w2.client c with devices := devs, state := CLIENT_ACTIVE }) → devices_ok s wz := by
    intro wz hz
    refine devices_ok_update (c := c) (hz.trans ((snap_setClient _ _ _).trans ?_)) (client_ok_active hact) hv
    rw [snap_seat, hv2, hv0]
  split_ifs at h <;> simp only [Option.some.injEq, Prod.mk.injEq] at h <;>
    obtain ⟨_, rfl⟩ := h <;> apply key <;> simp

theorem seat_activate_devices_ok {s : Bool} {w w1 : World} {r : Int}
    (h : seat_activate w = some (r, w1)) (hv : devices_ok s w) : devices_ok s w1 := by
  unfold seat_activate at h
  by_cases h1 : w.seat.active_client ≠ none
  · rw [if_pos h1] at h
    simp only [Option.some.injEq, Prod.mk.injEq] at h
    obtain ⟨_, rfl⟩ := h
    exact hv
  rw [if_neg h1] at h
  split at h
  · exact seat_open_client_devices_ok h hv
  · split at h
    · simp only [Option.some.injEq, Prod.mk.injEq] at h
      obtain ⟨_, rfl⟩ := h
      exact hv
    · split_ifs at h
      · simp only [Option.some.injEq, Prod.mk.injEq] at h
        obtain ⟨_, rfl⟩ := h
        exact hv
      · split at h
        · exact seat_open_client_devices_ok h hv
        · simp only [Option.some.injEq, Prod.mk.injEq] at h
          obtain ⟨_, rfl⟩ := h
          exact hv
      · exact seat_open_client_devices_ok h hv

theorem flags_update_device (f : seat_device → seat_device)
    (hf : ∀ d, (f d).type = d.type ∧ (f d).active = d.active) :
    ∀ (l : List seat_device) (i : Nat), Flags l (update_device f l i) := by
  intro l
  induction l with
  | nil => intro i d hd; simp [update_device] at hd
  | cons x rest ih =>
    intro i d hd
    cases i with
    | zero =>
      simp only [update_device, List.mem_cons] at hd
      rcases hd with rfl | hd
      · exact ⟨x, List.mem_cons_self _ _, hf x⟩
      · exact ⟨d, List.mem_cons_of_mem _ hd, rfl, rfl⟩
    | succ j =>
      simp only [update_device, List.mem_cons] at hd
      rcases hd with rfl | hd
      · exact ⟨d, List.mem_cons_self _ _, rfl, rfl⟩
      · obtain ⟨y, hy, e⟩ := ih j d hd
        exact ⟨y, List.mem_cons_of_mem _ hy, e⟩

theorem flags_eraseIdx (l : List seat_device) (i : Nat) : Flags l (l.eraseIdx i) :=
  fun d hd => ⟨d, (List.eraseIdx_sublist l i).subset hd, rfl, rfl⟩

theorem devices_ok_ledger {s : Bool} {w w1 : World} {c : Nat} {l : List seat_device}
    (h : snap w1 = Function.update (snap w) c ((w.client c).state, l))
    (hf : Flags (w.client c).devices l) (hv : devices_ok s w) : devices_ok s w1 :=
  devices_ok_update h (client_ok_flags (hv c) hf) hv

theorem seat_close_device_devices_ok {s : Bool} {w w1 : World} {c i : Nat} {r : Int}
    (h : seat_close_device w c i = some (r, w1)) (hv : devices_ok s w) : devices_ok s w1 := by
  unfold seat_close_device at h
  by_cases h1 : (w.client c).seat = false
  · rw [if_pos h1] at h; cases h
  rw [if_neg h1] at h
  split at h
  · cases h
  rename_i d hd
  by_cases h2 : d.fd = -1
  · rw [if_pos h2] at h; cases h
  rw [if_neg h2] at h
  by_cases h3 : d.ref_cnt - 1 > 0
  · rw [if_pos h3] at h
    simp only [Option.some.injEq, Prod.mk.injEq] at h
    obtain ⟨_, rfl⟩ := h
    exact devices_ok_ledger (snap_setClient _ _ _)
      (flags_update_device (fun d => { d with ref_cnt := d.ref_cnt - 1 })
        (fun _ => ⟨rfl, rfl⟩) _ i) hv
  rw [if_neg h3] at h
  simp only at h
  rw [if_pos h2] at h
  generalize hde : seat_deactivate_device _ _ = od at h
  rcases od with _ | ⟨r2, d2, w2⟩
  · cases h
  simp only [Option.some.injEq, Prod.mk.injEq] at h
  obtain ⟨_, rfl⟩ := h
  obtain ⟨hs2, _⟩ := seat_deactivate_device_snap hde
  exact devices_ok_ledger (c := c) ((snap_close _ _).trans (hs2.trans (snap_setClient _ _ _)))
    (flags_eraseIdx _ _) hv

theorem close_devices_loop_devices_ok {s : Bool} :
    ∀ (fuel : Nat) (w w1 : World) (c : Nat),
      close_devices_loop fuel w c = some w1 → devices_ok s w → devices_ok s w1 := by
  intro fuel
  induction fuel with
  | zero =>
    intro w w1 c h hv
    simp only [close_devices_loop, Option.some.injEq] at h
    subst h
    exact hv
  | succ n ih =>
    intro w w1 c h hv
    unfold close_devices_loop at h
    split_ifs at h
    · simp only [Option.some.injEq] at h
      subst h
      exact hv
    · split at h
      · cases h
      · rename_i r w2 hc
        exact ih _ _ _ h (seat_close_device_devices_ok hc hv)

theorem seat_close_client_devices_ok {s : Bool} {w w1 : World} {c : Nat} {r : Int}
    (h : seat_close_client w c = some (r, w1)) (hv : devices_ok s w) : devices_ok s w1 := by
  unfold seat_close_client at h
  by_cases h1 : (w.client c).seat = false
  · rw [if_pos h1] at h; cases h
  rw [if_neg h1] at h
  generalize hl : close_devices_loop _ w c = ol at h
  rcases ol with _ | wa
  · cases h
  simp only at h
  have hva := close_devices_loop_devices_ok _ _ _ _ hl hv
  generalize ha : (if decide (wa.seat.active_client = some c) = true then
      seat_activate { wa with seat := { wa.seat with active_client := none } }
    else some (0, wa)) = oa at h
  rcases oa with _ | ⟨r2, wb⟩
  · cases h
  have hvb : devices_ok s wb := by
    split_ifs at ha
    · exact seat_activate_devices_ok ha hva
    · simp only [Option.some.injEq, Prod.mk.injEq] at ha
      rw [← ha.2]; exact hva
  simp only [Option.some.injEq, Prod.mk.injEq] at h
  obtain ⟨_, rfl⟩ := h
  refine devices_ok_update (c := c) (snap_setClient _ _ _) (client_ok_closed _) ?_
  refine devices_ok_of_snap ?_ hvb
  split_ifs <;> simp

theorem seat_remove_client_devices_ok {s : Bool} {w w1 : World} {c : Nat} {r : Int}
    (h : seat_remove_client w c = some (r, w1)) (hv : devices_ok s w) : devices_ok s w1 := by
  unfold seat_remove_client at h
  by_cases h1 : (w.client c).seat = false
  · rw [if_pos h1] at h; cases h
  rw [if_neg h1] at h
  simp only at h
  generalize hl : close_devices_loop _ _ c = ol at h
  rcases ol with _ | wa
  · cases h
  simp only at h
  have hva : devices_ok s wa := by
    refine close_devices_loop_devices_ok _ _ _ _ hl ?_
    split_ifs
    · exact hv
    · exact hv
  generalize hc : seat_close_client wa c = oc at h
  rcases oc with _ | ⟨r2, wb⟩
  · cases h
  simp only [Option.some.injEq, Prod.mk.injEq] at h
  obtain ⟨_, rfl⟩ := h
  refine devices_ok_of_snap ?_ (seat_close_client_devices_ok hc hva)
  exact snap_setClient_same _ _ _ rfl rfl

theorem syscall_with_seat (w : World) (x : seat) :
    ({ w with seat := x } : World).syscall = (w.syscall.1, { w.syscall.2 with seat := x }) := by
  obtain ⟨s0, cl, e, tape, closed, pf⟩ := w
  cases tape with
  | nil => rfl
  | cons r rest =>
    simp only [World.syscall]
    split_ifs <;> rfl

theorem seat_deactivate_device_with_seat (w : World) (x : seat) (d : seat_device) :
    seat_deactivate_device ({ w with seat := x } : World) d
      = (seat_deactivate_device w d).map
          (fun t => (t.1, t.2.1, ({ t.2.2 with seat := x } : World))) := by
  unfold seat_deactivate_device
  by_cases h1 : ¬ (d.fd > 0)
  · rw [if_pos h1, if_pos h1]; rfl
  rw [if_neg h1, if_neg h1]
  by_cases h2 : d.active = false
  · rw [if_pos h2, if_pos h2]; rfl
  rw [if_neg h2, if_neg h2]
  cases d.type <;> simp only [drm_drop_master, evdev_revoke, syscall_with_seat] <;>
    split_ifs <;> rfl

theorem deactivate_results_with_seat :
    ∀ (l : List seat_device) (w : World) (x : seat),
      deactivate_results l ({ w with seat := x } : World) = deactivate_results l w := by
  intro l
  induction l with
  | nil => intro w x; rfl
  | cons d rest ih =>
    intro w x
    rw [deactivate_results, deactivate_results, seat_deactivate_device_with_seat]
    cases hd : seat_deactivate_device w d with
    | none => rfl
    | some t =>
      obtain ⟨r, d1, w1⟩ := t
      simp only [Option.map_some']
      rw [ih]

theorem seat_disable_client_devices_ok {s : Bool} {w w1 : World} {c : Nat} {r : Int}
    (h : seat_disable_client w c = some (r, w1)) (hv : devices_ok s w)
    (hok : s = true → (-1 : Int) ∉ deactivate_results (w.client c).devices w) :
    devices_ok s w1 := by
  unfold seat_disable_client at h
  by_cases h1 : (w.client c).seat = false
  · rw [if_pos h1] at h; cases h
  rw [if_neg h1] at h
  by_cases h2 : (w.client c).state ≠ CLIENT_ACTIVE
  · rw [if_pos h2] at h
    simp only [Option.some.injEq, Prod.mk.injEq] at h
    obtain ⟨_, rfl⟩ := h
    exact hv
  rw [if_neg h2] at h
  simp only at h
  generalize hf : for_each_device seat_deactivate_device _ _ = od at h
  rcases od with _ | ⟨devs, w2⟩
  · cases h
  obtain ⟨hs2, hin⟩ := for_each_deactivate_snap _ _ _ _ hf
  rw [deactivate_results_with_seat] at hin
  simp only at h
  have key : ∀ wz : World, snap wz = snap
      (w2.setClient c { w2.client c with devices := devs, state := CLIENT_PENDING_DISABLE }) →
      devices_ok s wz := by
    intro wz hz
    refine devices_ok_update (c := c) (hz.trans ((snap_setClient _ _ _).trans ?_))
      (client_ok_pending (fun hs => hin (hok hs))) hv
    rw [hs2, snap_seat]
  split at h
  · cases h
  split_ifs at h <;> simp only [Option.some.injEq, Prod.mk.injEq] at h <;>
    obtain ⟨_, rfl⟩ := h <;> apply key <;> simp

theorem seat_ack_disable_client_devices_ok {s : Bool} {w w1 : World} {c : Nat} {r : Int}
    (h : seat_ack_disable_client w c = some (r, w1)) (hv : devices_ok s w) :
    devices_ok s w1 := by
  unfold seat_ack_disable_client at h
  by_cases h1 : (w.client c).seat = false
  · rw [if_pos h1] at h; cases h
  rw [if_neg h1] at h
  by_cases h2 : (w.client c).state ≠ CLIENT_PENDING_DISABLE
  · rw [if_pos h2] at h
    simp only [Option.some.injEq, Prod.mk.injEq] at h
    obtain ⟨_, rfl⟩ := h
    exact hv
  rw [if_neg h2] at h
  simp only at h
  have h2s : (w.client c).state = CLIENT_PENDING_DISABLE := not_not.1 h2
  have hva : devices_ok s (w.setClient c { w.client c with state := CLIENT_DISABLED }) := by
    refine devices_ok_update (c := c) (snap_setClient _ _ _) (client_ok_disabled ?_) hv
    have := hv c
    unfold snap at this
    rw [h2s] at this
    exact this
  split_ifs at h
  · simp only [Option.some.injEq, Prod.mk.injEq] at h
    obtain ⟨_, rfl⟩ := h
    exact hva
  · generalize ha : seat_activate _ = oa at h
    rcases oa with _ | ⟨r2, wb⟩
    · cases h
    simp only [Option.some.injEq, Prod.mk.injEq] at h
    obtain ⟨_, rfl⟩ := h
    exact seat_activate_devices_ok ha hva

theorem seat_set_next_session_devices_ok {s : Bool} {w w1 : World} {c : Nat} {session r : Int}
    (h : seat_set_next_session w c session = some (r, w1)) (hv : devices_ok s w)
    (hok : s = true → (-1 : Int) ∉ deactivate_results (w.client c).devices w) :
    devices_ok s w1 := by
  unfold seat_set_next_session at h
  by_cases h1 : (w.client c).seat = false
  · rw [if_pos h1] at h; cases h
  rw [if_neg h1] at h
  by_cases h2 : (w.client c).state ≠ CLIENT_ACTIVE
  · rw [if_pos h2] at h
    simp only [Option.some.injEq, Prod.mk.injEq] at h
    obtain ⟨_, rfl⟩ := h
    exact hv
  rw [if_neg h2] at h
  by_cases h3 : w.seat.active_client ≠ some c
  · rw [if_pos h3] at h; cases h
  rw [if_neg h3] at h
  by_cases h4 : session ≤ 0
  · rw [if_pos h4] at h
    simp only [Option.some.injEq, Prod.mk.injEq] at h
    obtain ⟨_, rfl⟩ := h
    exact hv
  rw [if_neg h4] at h
  by_cases h5 : session = (w.client c).session
  · rw [if_pos h5] at h
    simp only [Option.some.injEq, Prod.mk.injEq] at h
    obtain ⟨_, rfl⟩ := h
    exact hv
  rw [if_neg h5] at h
  by_cases h6 : w.seat.next_client ≠ none
  · rw [if_pos h6] at h
    simp only [Option.some.injEq, Prod.mk.injEq] at h
    obtain ⟨_, rfl⟩ := h
    exact hv
  rw [if_neg h6] at h
  by_cases h7 : w.seat.vt_bound = true
  · rw [if_pos h7] at h
    simp only at h
    split_ifs at h <;> simp only [Option.some.injEq, Prod.mk.injEq] at h <;>
      obtain ⟨_, rfl⟩ := h <;> exact devices_ok_of_snap (snap_vt_switch _ _) hv
  rw [if_neg h7] at h
  split at h
  · simp only [Option.some.injEq, Prod.mk.injEq] at h
    obtain ⟨_, rfl⟩ := h
    exact hv
  rename_i target _
  simp only at h
  have hac : w.seat.active_client = some c := not_not.1 h3
  rw [hac] at h
  simp only at h
  generalize hd : seat_disable_client _ c = od at h
  rcases od with _ | ⟨r2, wb⟩
  · cases h
  simp only [Option.some.injEq, Prod.mk.injEq] at h
  obtain ⟨_, rfl⟩ := h
  refine seat_disable_client_devices_ok hd hv (fun hs => ?_)
  rw [deactivate_results_with_seat]
  exact hok hs

theorem seat_vt_activate_devices_ok {s : Bool} {w w1 : World} {r : Int}
    (h : seat_vt_activate w = some (r, w1)) (hv : devices_ok s w) : devices_ok s w1 := by
  unfold seat_vt_activate at h
  by_cases h1 : w.seat.vt_bound = false
  · rw [if_pos h1] at h
    simp only [Option.some.injEq, Prod.mk.injEq] at h
    obtain ⟨_, rfl⟩ := h
    exact hv
  rw [if_neg h1] at h
  simp only at h
  have hv2 : devices_ok s (vt_ack (seat_update_vt w) false).2 :=
    devices_ok_of_snap ((snap_vt_ack _ _).trans (snap_seat_update_vt w)) hv
  split_ifs at h
  · generalize ha : seat_activate _ = oa at h
    rcases oa with _ | ⟨r2, wb⟩
    · cases h
    simp only [Option.some.injEq, Prod.mk.injEq] at h
    obtain ⟨_, rfl⟩ := h
    exact seat_activate_devices_ok ha hv2
  · simp only [Option.some.injEq, Prod.mk.injEq] at h
    obtain ⟨_, rfl⟩ := h
    exact hv2

theorem seat_vt_release_devices_ok {s : Bool} {w w1 : World} {r : Int}
    (h : seat_vt_release w = some (r, w1)) (hv : devices_ok s w)
    (hok : s = true → ∀ a, (seat_update_vt w).seat.active_client = some a →
      (-1 : Int) ∉ deactivate_results ((seat_update_vt w).client a).devices (seat_update_vt w)) :
    devices_ok s w1 := by
  unfold seat_vt_release at h
  by_cases h1 : w.seat.vt_bound = false
  · rw [if_pos h1] at h
    simp only [Option.some.injEq, Prod.mk.injEq] at h
    obtain ⟨_, rfl⟩ := h
    exact hv
  rw [if_neg h1] at h
  simp only at h
  generalize hd : (match (seat_update_vt w).seat.active_client with
      | some a => seat_disable_client (seat_update_vt w) a
      | none => some (0, seat_update_vt w)) = od at h
  rcases od with _ | ⟨r2, wb⟩
  · cases h
  simp only [Option.some.injEq, Prod.mk.injEq] at h
  obtain ⟨_, rfl⟩ := h
  have hv1 : devices_ok s (seat_update_vt w) := devices_ok_of_snap (snap_seat_update_vt w) hv
  have hvb : devices_ok s wb := by
    split at hd
    · rename_i a ha
      exact seat_disable_client_devices_ok hd hv1 (fun hs => hok hs a ha)
    · simp only [Option.some.injEq, Prod.mk.injEq] at hd
      rw [← hd.2]; exact hv1
  exact devices_ok_of_snap ((snap_seat _ _).trans (snap_vt_ack _ _)) hvb

theorem seat_open_device_devices_ok {s : Bool} {w w1 : World} {c : Nat} {path : List Nat}
    {r : Option Nat} (h : seat_open_device w c path = some (r, w1)) (hv : devices_ok s w) :
    devices_ok s w1 := by
  unfold seat_open_device at h
  by_cases h1 : (w.client c).seat = false
  · rw [if_pos h1] at h; cases h
  rw [if_neg h1] at h
  by_cases h2 : path.length = 0
  · rw [if_pos h2] at h; cases h
  rw [if_neg h2] at h
  by_cases h3 : (w.client c).state ≠ CLIENT_ACTIVE
  · rw [if_pos h3] at h
    simp only [Option.some.injEq, Prod.mk.injEq] at h
    obtain ⟨_, rfl⟩ := h
    exact hv
  rw [if_neg h3] at h
  have hst : (w.client c).state = CLIENT_ACTIVE := not_not.1 h3
  by_cases h4 : w.seat.active_client ≠ some c
  · rw [if_pos h4] at h; cases h
  rw [if_neg h4] at h
  split at h
  · simp only [Option.some.injEq, Prod.mk.injEq] at h
    obtain ⟨_, rfl⟩ := h
    exact hv
  rename_i sp _
  by_cases h5 : w.platform.path_is_evdev sp = false ∧ w.platform.path_is_drm sp = false
  · rw [if_pos h5] at h
    simp only [Option.some.injEq, Prod.mk.injEq] at h
    obtain ⟨_, rfl⟩ := h
    exact hv
  rw [if_neg h5] at h
  simp only at h
  split at h
  · rename_i i _
    simp only [Option.some.injEq, Prod.mk.injEq] at h
    obtain ⟨_, rfl⟩ := h
    exact devices_ok_ledger (snap_setClient _ _ _)
      (flags_update_device (fun d => { d with ref_cnt := d.ref_cnt + 1 })
        (fun _ => ⟨rfl, rfl⟩) _ i) hv
  rename_i device_id device_count _
  by_cases h6 : device_count ≥ w.platform.MAX_SEAT_DEVICES
  · rw [if_pos h6] at h
    simp only [Option.some.injEq, Prod.mk.injEq] at h
    obtain ⟨_, rfl⟩ := h
    exact hv
  rw [if_neg h6] at h
  by_cases h7 : w.syscall.1 = -1
  · rw [if_pos h7] at h
    simp only [Option.some.injEq, Prod.mk.injEq] at h
    obtain ⟨_, rfl⟩ := h
    exact devices_ok_of_snap (snap_syscall w) hv
  rw [if_neg h7] at h
  generalize hw1 : (if (if w.platform.path_is_evdev sp = true then SEAT_DEVICE_TYPE_EVDEV
      else SEAT_DEVICE_TYPE_DRM) = SEAT_DEVICE_TYPE_DRM
    then (drm_set_master w.syscall.2 w.syscall.1).2 else w.syscall.2) = wa at h
  have hsa : snap wa = snap w := by
    rw [← hw1]
    split_ifs <;> simp [drm_set_master]
  by_cases h8 : wa.syscall.1 = -1
  · rw [if_pos h8] at h
    simp only [Option.some.injEq, Prod.mk.injEq] at h
    obtain ⟨_, rfl⟩ := h
    exact devices_ok_of_snap ((snap_syscall wa).trans hsa) hv
  rw [if_neg h8] at h
  by_cases h9 : wa.syscall.2.syscall.1 = -1
  · rw [if_pos h9] at h
    simp only [Option.some.injEq, Prod.mk.injEq] at h
    obtain ⟨_, rfl⟩ := h
    exact devices_ok_of_snap
      ((snap_close _ _).trans ((snap_syscall _).trans ((snap_syscall wa).trans hsa))) hv
  rw [if_neg h9] at h
  simp only [Option.some.injEq, Prod.mk.injEq] at h
  obtain ⟨_, rfl⟩ := h
  have hs3 : snap wa.syscall.2.syscall.2 = snap w :=
    (snap_syscall _).trans ((snap_syscall wa).trans hsa)
  have hc3 : snap wa.syscall.2.syscall.2 c = snap w c := by rw [hs3]
  have hdev : (wa.syscall.2.syscall.2.client c).devices = (w.client c).devices :=
    congrArg Prod.snd hc3
  have hstate : (wa.syscall.2.syscall.2.client c).state = CLIENT_ACTIVE :=
    (congrArg Prod.fst hc3).trans hst
  refine devices_ok_update (c := c) ((snap_setClient _ _ _).trans (by rw [hs3])) ?_ hv
  simp only
  rw [hstate, hdev]
  refine client_ok_active (fun d hd ht => ?_)
  rcases List.mem_cons.1 hd with rfl | hd
  · rfl
  · have := hv c
    unfold snap at this
    rw [hst] at this
    exact this.1 rfl d hd ht

/-- One seat operation keeps the device-state invariant; in its strict form when no
deactivation made by the operation fails. -/
theorem seat_op_run_devices_ok {s : Bool} {op : seat_op} {w w1 : World}
    (h : op.run w = some w1) (hok : s = true → op.deactivations_ok w = true)
    (hv : devices_ok s w) : devices_ok s w1 := by
  cases op with
  | add_client c =>
    simp only [seat_op.run, Option.some.injEq] at h
    subst h
    exact devices_ok_of_snap (snap_seat_add_client w c) hv
  | open_client c =>
    simp only [seat_op.run, Option.map_eq_some', Prod.exists, exists_eq_right] at h
    obtain ⟨r, h⟩ := h
    exact seat_open_client_devices_ok h hv
  | remove_client c =>
    simp only [seat_op.run, Option.map_eq_some', Prod.exists, exists_eq_right] at h
    obtain ⟨r, h⟩ := h
    exact seat_remove_client_devices_ok h hv
  | open_device c path =>
    simp only [seat_op.run, Option.map_eq_some', Prod.exists, exists_eq_right] at h
    obtain ⟨r, h⟩ := h
    exact seat_open_device_devices_ok h hv
  | close_device c i =>
    simp only [seat_op.run, Option.map_eq_some', Prod.exists, exists_eq_right] at h
    obtain ⟨r, h⟩ := h
    exact seat_close_device_devices_ok h hv
  | set_next_session c session =>
    simp only [seat_op.run, Option.map_eq_some', Prod.exists, exists_eq_right] at h
    obtain ⟨r, h⟩ := h
    refine seat_set_next_session_devices_ok h hv (fun hs => ?_)
    have := hok hs
    simpa [seat_op.deactivations_ok] using this
  | ack_disable_client c =>
    simp only [seat_op.run, Option.map_eq_some', Prod.exists, exists_eq_right] at h
    obtain ⟨r, h⟩ := h
    exact seat_ack_disable_client_devices_ok h hv
  | vt_activate =>
    simp only [seat_op.run, Option.map_eq_some', Prod.exists, exists_eq_right] at h
    obtain ⟨r, h⟩ := h
    exact seat_vt_activate_devices_ok h hv
  | vt_release =>
    simp only [seat_op.run, Option.map_eq_some', Prod.exists, exists_eq_right] at h
    obtain ⟨r, h⟩ := h
    refine seat_vt_release_devices_ok h hv (fun hs a ha => ?_)
    have := hok hs
    simp only [seat_op.deactivations_ok, ha] at this
    simpa using this

theorem initial_devices_ok (s : Bool) {w : World} (h : w.initial) : devices_ok s w := by
  intro c
  obtain ⟨_, hc⟩ := h
  obtain ⟨_, hst, hd⟩ := hc c
  unfold snap
  rw [hst, hd]
  exact And.intro (fun e => by cases e) (fun _ _ d hd => by cases hd)

theorem reachable_devices_ok {w : World} (h : Reachable w) : devices_ok false w := by
  induction h with
  | init hi => exact initial_devices_ok false hi
  | step op tape env _ hrun ih =>
    exact seat_op_run_devices_ok hrun (fun e => by cases e)
      (devices_ok_of_snap (snap_withEnv _ _ _) ih)

theorem reachableRevoking_devices_ok {w : World} (h : ReachableRevoking w) :
    devices_ok true w := by
  induction h with
  | init hi => exact initial_devices_ok true hi
  | step op tape env _ hok hrun ih =>
    exact seat_op_run_devices_ok hrun (fun _ => hok)
      (devices_ok_of_snap (snap_withEnv _ _ _) ih)

theorem world_two_devices_reachable : Reachable world_two_devices :=
  reachable_run_ops _ _ _ world_vt_active_reachable (run_ops_getD (by decide))

theorem world_two_devices_disabled_reachable : Reachable world_two_devices_disabled :=
  reachable_run_ops _ _ _ world_two_devices_reachable (run_ops_getD (by decide))

theorem world_reenabled_reachable : Reachable world_reenabled :=
  reachable_run_ops _ _ _ world_two_devices_disabled_reachable (run_ops_getD (by decide))

theorem world_drop_master_failed_reachable : Reachable world_drop_master_failed :=
  reachable_run_ops _ _ _ world_two_devices_reachable (run_ops_getD (by decide))

theorem reachableRevoking_run_ops : ∀ (ops : List (seat_op × List Int)) (w w1 : World),
    ReachableRevoking w → run_ops_revoking ops w = some w1 → ReachableRevoking w1 := by
  intro ops
  induction ops with
  | nil =>
    intro w w1 hw h
    simp only [run_ops_revoking, Option.some.injEq] at h
    subst h
    exact hw
  | cons o rest ih =>
    intro w w1 hw h
    obtain ⟨op, tape⟩ := o
    unfold run_ops_revoking at h
    by_cases hok : op.deactivations_ok (w.withEnv tape w.platform) = true
    · rw [if_pos hok] at h
      split at h
      · cases h
      · rename_i w2 hrun
        exact ih _ _ (ReachableRevoking.step op tape w.platform hw hok hrun) h
    · rw [if_neg hok] at h; cases h

theorem option_getD_eq {α : Type} {o : Option α} (d : α) (h : o.isSome = true) :
    o = some (o.getD d) := by
  cases o with
  | none => cases h
  | some x => rfl

theorem world_revoked_reachable : ReachableRevoking world_revoked :=
  reachableRevoking_run_ops _ _ _
    (ReachableRevoking.init (example_world_initial true new_client [] new_client_untouched))
    (option_getD_eq _ (by decide))

/-- C17 fails as stated: in a reachable state client 0, re-enabled by `seat_open_client`
after a VT release and its acknowledgement, is ACTIVE while the EVDEV device of its ledger is
inactive (its DRM device is active again). -/
theorem C17_counterexample :
    Reachable world_reenabled ∧ (world_reenabled.client 0).state = CLIENT_ACTIVE ∧
      (world_reenabled.client 0).devices.map (fun d => (d.path, d.type, d.active))
        = [(input_event0, SEAT_DEVICE_TYPE_EVDEV, false),
           (dri_card0, SEAT_DEVICE_TYPE_DRM, true)] :=
  ⟨world_reenabled_reachable, by decide, by decide⟩

/-- C17, amended: in every reachable state, if a client is ACTIVE then every DRM device in
its ledger has active = true; this holds in particular right after `seat_open_client`
re-enables a client that was previously disabled. -/
theorem C17_active_client_drm_devices_active (w : World) (h : Reachable w) (c : Nat)
    (hst : (w.client c).state = CLIENT_ACTIVE) :
    ∀ d ∈ (w.client c).devices, d.type = SEAT_DEVICE_TYPE_DRM → d.active = true :=
  (reachable_devices_ok h c).1 hst

/-- C17 as amended, at the re-enabled client of `world_reenabled`. -/
theorem C17_active_client_drm_devices_active_witness :
    Reachable world_reenabled ∧ (world_reenabled.client 0).state = CLIENT_ACTIVE ∧
      ((world_reenabled.client 0).devices.map (fun d => d.type)
        = [SEAT_DEVICE_TYPE_EVDEV, SEAT_DEVICE_TYPE_DRM]) ∧
      ∀ d ∈ (world_reenabled.client 0).devices, d.type = SEAT_DEVICE_TYPE_DRM → d.active = true :=
  ⟨world_reenabled_reachable, by decide, by decide,
    C17_active_client_drm_devices_active world_reenabled world_reenabled_reachable 0
      (by decide)⟩

/-- C18 fails as stated: when `drm_drop_master` fails during the `seat_disable_client` of a
VT release, the reachable state has client 0 in PENDING_DISABLE with its DRM device still
active, and the device stays active when the client acknowledges and becomes DISABLED. -/
theorem C18_counterexample :
    Reachable world_drop_master_failed ∧
      (world_drop_master_failed.client 0).state = CLIENT_PENDING_DISABLE ∧
      (world_drop_master_failed.client 0).devices.map (fun d => (d.path, d.active))
        = [(input_event0, false), (dri_card0, true)] ∧
      (run_ops [(seat_op.ack_disable_client 0, [])] world_drop_master_failed).map
          (fun w => ((w.client 0).state, (w.client 0).devices.map (fun d => d.active)))
        = some (CLIENT_DISABLED, [false, true]) :=
  ⟨world_drop_master_failed_reachable, by decide, by decide, by decide⟩

/-- C18, amended: in every state reachable by seat operations during which no drop-master
and no evdev-revoke issued by `seat_disable_client` failed, if a client is PENDING_DISABLE or
DISABLED then no device in its ledger has active = true. -/
theorem C18_disabled_client_devices_inactive (w : World) (h : ReachableRevoking w) (c : Nat)
    (hst : (w.client c).state = CLIENT_PENDING_DISABLE ∨ (w.client c).state = CLIENT_DISABLED) :
    ∀ d ∈ (w.client c).devices, d.active = false :=
  (reachableRevoking_devices_ok h c).2 rfl hst

/-- C18 as amended, at the PENDING_DISABLE client of `world_revoked`, which holds two
devices. -/
theorem C18_disabled_client_devices_inactive_witness :
    ReachableRevoking world_revoked ∧
      (world_revoked.client 0).state = CLIENT_PENDING_DISABLE ∧
      (world_revoked.client 0).devices.length = 2 ∧
      ∀ d ∈ (world_revoked.client 0).devices, d.active = false :=
  ⟨world_revoked_reachable, by decide, by decide,
    C18_disabled_client_devices_inactive world_revoked world_revoked_reachable 0
      (Or.inl (by decide))⟩

theorem core_of {w w1 : World} (hs : w1.seat.clients = w.seat.clients ∧
      w1.seat.next_client = w.seat.next_client ∧ w1.seat.session_cnt = w.seat.session_cnt ∧
      w1.seat.active_client = w.seat.active_client)
    (hc : ∀ k, (w1.client k).seat = (w.client k).seat ∧ (w1.client k).state = (w.client k).state ∧
      (w1.client k).session = (w.client k).session) : core w1 = core w := by
  unfold core
  obtain ⟨h1, h2, h3, h4⟩ := hs
  rw [h1, h2, h3, h4]
  congr 1
  funext k
  obtain ⟨a, b, c⟩ := hc k
  rw [a, b, c]

theorem core_of_seat_client {w w1 : World} (hs : w1.seat = w.seat) (hc : w1.client = w.client) :
    core w1 = core w := by
  unfold core
  rw [hs, hc]

theorem seat_ok_of_core {w w1 : World} (h : core w1 = core w) (hv : seat_ok w) : seat_ok w1 := by
  unfold core at h
  simp only [Prod.mk.injEq] at h
  obtain ⟨⟨h1, h2, h3, h4⟩, h5⟩ := h
  have hk : ∀ k, (w1.client k).seat = (w.client k).seat ∧
      (w1.client k).state = (w.client k).state ∧
      (w1.client k).session = (w.client k).session := by
    intro k
    have := congrFun h5 k
    simp only [Prod.mk.injEq] at this
    exact this
  obtain ⟨v1, v2, v4⟩ := hv
  refine ⟨h1.trans v1, h2.trans v2, ?_⟩
  intro a ha
  rw [(hk a).2.1]
  exact v4 a (h4 ▸ ha)

@[simp] theorem core_syscall (w : World) : core w.syscall.2 = core w :=
  core_of_seat_client (syscall_seat w) (syscall_client w)

@[simp] theorem core_close (w : World) (fd : Int) : core (w.close fd) = core w := rfl

@[simp] theorem core_errno (w : World) (e : Int) : core ({ w with errno := e } : World) = core w :=
  rfl

@[simp] theorem core_withEnv (w : World) (tape : List Int) (env : Platform) :
    core (w.withEnv tape env) = core w := rfl

theorem core_setClient_same (w : World) (c : Nat) (cl : client)
    (h1 : cl.seat = (w.client c).seat) (h2 : cl.state = (w.client c).state)
    (h3 : cl.session = (w.client c).session) : core (w.setClient c cl) = core w := by
  refine core_of ⟨rfl, rfl, rfl, rfl⟩ (fun k => ?_)
  by_cases hk : k = c
  · subst hk
    rw [setClient_client_same]
    exact ⟨h1, h2, h3⟩
  · rw [setClient_client_other _ _ hk]
    exact ⟨rfl, rfl, rfl⟩

@[simp] theorem core_connection_put (w : World) (c : Nat) (b : List Nat) :
    core (connection_put w c b).2 = core w := by
  unfold connection_put
  simp only
  split
  · simp
  · refine (core_setClient_same _ c _ ?_ ?_ ?_).trans (core_syscall w) <;> rfl

@[simp] theorem core_connection_flush (w : World) (c : Nat) :
    core (connection_flush w c).2 = core w := by
  simp [connection_flush]

@[simp] theorem core_client_send_enable_seat (w : World) (c : Nat) :
    core (client_send_enable_seat w c).2 = core w := by
  unfold client_send_enable_seat
  simp only
  split
  · simp
  · split <;> simp

@[simp] theorem core_client_send_disable_seat (w : World) (c : Nat) :
    core (client_send_disable_seat w c).2 = core w := by
  unfold client_send_disable_seat
  simp only
  split
  · simp
  · split <;> simp

@[simp] theorem core_terminal_open (w : World) (vt : Int) : core (terminal_open w vt).2 = core w := by
  simp [terminal_open]

@[simp] theorem core_seat_update_vt (w : World) : core (seat_update_vt w) = core w := by
  unfold seat_update_vt
  simp only
  split
  · simp
  · exact core_of (by simp [World.close, terminal_current_vt, terminal_open])
      (fun k => by simp [World.close, terminal_current_vt, terminal_open])

theorem core_vt_open {w w1 : World} {vt r : Int} (h : vt_open w vt = some (r, w1)) :
    core w1 = core w := by
  unfold vt_open at h
  simp only at h
  split_ifs at h <;> simp only [Option.some.injEq, Prod.mk.injEq] at h <;>
    obtain ⟨_, rfl⟩ := h <;>
    exact core_of (by simp [terminal_open, World.close])
      (fun k => by simp [terminal_open, World.close])

@[simp] theorem core_vt_close (w : World) : core (vt_close w) = core w := by
  unfold vt_close; split <;> rfl

@[simp] theorem core_vt_close_num (w : World) (vt : Int) : core (vt_close_num w vt).2 = core w := by
  unfold vt_close_num; simp only; split <;> simp

@[simp] theorem core_vt_switch (w : World) (vt : Int) : core (vt_switch w vt).2 = core w := by
  unfold vt_switch; simp only; split <;> simp

@[simp] theorem core_vt_ack (w : World) (b : Bool) : core (vt_ack w b).2 = core w := by
  unfold vt_ack; simp only; split <;> simp

theorem seat_deactivate_device_core {w w1 : World} {d d1 : seat_device} {r : Int}
    (h : seat_deactivate_device w d = some (r, d1, w1)) : core w1 = core w := by
  unfold seat_deactivate_device at h
  split_ifs at h
  · simp only [Option.some.injEq, Prod.mk.injEq] at h
    obtain ⟨_, _, rfl⟩ := h
    rfl
  · split at h <;> simp only at h <;> split_ifs at h <;>
      simp only [Option.some.injEq, Prod.mk.injEq] at h <;>
      obtain ⟨_, _, rfl⟩ := h <;> simp [drm_drop_master, evdev_revoke]

theorem seat_activate_device_core {w w1 : World} {c : Nat} {d d1 : seat_device} {r : Int}
    (h : seat_activate_device w c d = some (r, d1, w1)) : core w1 = core w := by
  unfold seat_activate_device at h
  split_ifs at h
  · simp only [Option.some.injEq, Prod.mk.injEq] at h
    obtain ⟨_, _, rfl⟩ := h
    rfl
  · split at h <;> simp only [Option.some.injEq, Prod.mk.injEq] at h <;>
      obtain ⟨_, _, rfl⟩ := h <;> simp [drm_set_master]

theorem for_each_device_core (body : World → seat_device → Option (Int × seat_device × World))
    (hb : ∀ w d r d1 w1, body w d = some (r, d1, w1) → core w1 = core w) :
    ∀ (l : List seat_device) (w : World) (l1 : List seat_device) (w1 : World),
      for_each_device body l w = some (l1, w1) → core w1 = core w := by
  intro l
  induction l with
  | nil =>
    intro w l1 w1 h
    simp only [for_each_device, Option.some.injEq, Prod.mk.injEq] at h
    obtain ⟨_, rfl⟩ := h
    rfl
  | cons d rest ih =>
    intro w l1 w1 h
    unfold for_each_device at h
    split at h
    · cases h
    · rename_i r d1 w2 hd
      split at h
      · cases h
      · rename_i rest1 w3 hr
        simp only [Option.some.injEq, Prod.mk.injEq] at h
        obtain ⟨_, rfl⟩ := h
        exact (ih _ _ _ hr).trans (hb _ _ _ _ _ hd)

theorem core_setClient_devices (w : World) (c : Nat) (l : List seat_device) :
    core (w.setClient c { w.client c with devices := l }) = core w :=
  core_setClient_same _ c _ rfl rfl rfl

theorem seat_close_device_core {w w1 : World} {c i : Nat} {r : Int}
    (h : seat_close_device w c i = some (r, w1)) : core w1 = core w := by
  unfold seat_close_device at h
  by_cases h1 : (w.client c).seat = false
  · rw [if_pos h1] at h; cases h
  rw [if_neg h1] at h
  split at h
  · cases h
  rename_i d hd
  by_cases h2 : d.fd = -1
  · rw [if_pos h2] at h; cases h
  rw [if_neg h2] at h
  by_cases h3 : d.ref_cnt - 1 > 0
  · rw [if_pos h3] at h
    simp only [Option.some.injEq, Prod.mk.injEq] at h
    obtain ⟨_, rfl⟩ := h
    exact core_setClient_devices _ _ _
  rw [if_neg h3] at h
  simp only at h
  rw [if_pos h2] at h
  generalize hde : seat_deactivate_device _ _ = od at h
  rcases od with _ | ⟨r2, d2, w2⟩
  · cases h
  simp only [Option.some.injEq, Prod.mk.injEq] at h
  obtain ⟨_, rfl⟩ := h
  exact (core_close _ _).trans ((seat_deactivate_device_core hde).trans
    (core_setClient_devices _ _ _))

theorem close_devices_loop_core :
    ∀ (fuel : Nat) (w w1 : World) (c : Nat),
      close_devices_loop fuel w c = some w1 → core w1 = core w := by
  intro fuel
  induction fuel with
  | zero =>
    intro w w1 c h
    simp only [close_devices_loop, Option.some.injEq] at h
    subst h
    rfl
  | succ n ih =>
    intro w w1 c h
    unfold close_devices_loop at h
    split_ifs at h
    · simp only [Option.some.injEq] at h
      subst h
      rfl
    · split at h
      · cases h
      · rename_i r w2 hc
        exact (ih _ _ _ h).trans (seat_close_device_core hc)

theorem seat_open_device_core {w w1 : World} {c : Nat} {path : List Nat}
    {r : Option Nat} (h : seat_open_device w c path = some (r, w1)) : core w1 = core w := by
  unfold seat_open_device at h
  by_cases h1 : (w.client c).seat = false
  · rw [if_pos h1] at h; cases h
  rw [if_neg h1] at h
  by_cases h2 : path.length = 0
  · rw [if_pos h2] at h; cases h
  rw [if_neg h2] at h
  by_cases h3 : (w.client c).state ≠ CLIENT_ACTIVE
  · rw [if_pos h3] at h
    simp only [Option.some.injEq, Prod.mk.injEq] at h
    obtain ⟨_, rfl⟩ := h
    rfl
  rw [if_neg h3] at h
  by_cases h4 : w.seat.active_client ≠ some c
  · rw [if_pos h4] at h; cases h
  rw [if_neg h4] at h
  split at h
  · simp only [Option.some.injEq, Prod.mk.injEq] at h
    obtain ⟨_, rfl⟩ := h
    rfl
  rename_i sp _
  by_cases h5 : w.platform.path_is_evdev sp = false ∧ w.platform.path_is_drm sp = false
  · rw [if_pos h5] at h
    simp only [Option.some.injEq, Prod.mk.injEq] at h
    obtain ⟨_, rfl⟩ := h
    rfl
  rw [if_neg h5] at h
  simp only at h
  split at h
  · rename_i i _
    simp only [Option.some.injEq, Prod.mk.injEq] at h
    obtain ⟨_, rfl⟩ := h
    exact core_setClient_devices _ _ _
  rename_i device_id device_count _
  by_cases h6 : device_count ≥ w.platform.MAX_SEAT_DEVICES
  · rw [if_pos h6] at h
    simp only [Option.some.injEq, Prod.mk.injEq] at h
    obtain ⟨_, rfl⟩ := h
    rfl
  rw [if_neg h6] at h
  by_cases h7 : w.syscall.1 = -1
  · rw [if_pos h7] at h
    simp only [Option.some.injEq, Prod.mk.injEq] at h
    obtain ⟨_, rfl⟩ := h
    exact core_syscall w
  rw [if_neg h7] at h
  generalize hw1 : (if (if w.platform.path_is_evdev sp = true then SEAT_DEVICE_TYPE_EVDEV
      else SEAT_DEVICE_TYPE_DRM) = SEAT_DEVICE_TYPE_DRM
    then (drm_set_master w.syscall.2 w.syscall.1).2 else w.syscall.2) = wa at h
  have hsa : core wa = core w := by
    rw [← hw1]
    split_ifs <;> simp [drm_set_master]
  by_cases h8 : wa.syscall.1 = -1
  · rw [if_pos h8] at h
    simp only [Option.some.injEq, Prod.mk.injEq] at h
    obtain ⟨_, rfl⟩ := h
    exact (core_syscall wa).trans hsa
  rw [if_neg h8] at h
  by_cases h9 : wa.syscall.2.syscall.1 = -1
  · rw [if_pos h9] at h
    simp only [Option.some.injEq, Prod.mk.injEq] at h
    obtain ⟨_, rfl⟩ := h
    exact (core_close _ _).trans ((core_syscall _).trans ((core_syscall wa).trans hsa))
  rw [if_neg h9] at h
  simp only [Option.some.injEq, Prod.mk.injEq] at h
  obtain ⟨_, rfl⟩ := h
  exact (core_setClient_devices _ _ _).trans ((core_syscall _).trans ((core_syscall wa).trans hsa))

/-- With an empty client list and no queued client `seat_activate` finds nothing to open. -/
theorem seat_activate_idle {w : World} (h1 : w.seat.clients = []) (h2 : w.seat.next_client = none)
    (h3 : w.seat.active_client = none) : seat_activate w = some (-1, w) := by
  unfold seat_activate
  rw [if_neg (by simp [h3]), h2]
  simp only
  rw [h1]

theorem core_eq_iff {w w1 : World} : core w1 = core w ↔
    (w1.seat.clients = w.seat.clients ∧ w1.seat.next_client = w.seat.next_client ∧
      w1.seat.session_cnt = w.seat.session_cnt ∧ w1.seat.active_client = w.seat.active_client) ∧
    ∀ k, (w1.client k).seat = (w.client k).seat ∧ (w1.client k).state = (w.client k).state ∧
      (w1.client k).session = (w.client k).session := by
  constructor
  · intro h
    unfold core at h
    simp only [Prod.mk.injEq] at h
    obtain ⟨⟨h1, h2, h3, h4⟩, h5⟩ := h
    refine ⟨⟨h1, h2, h3, h4⟩, fun k => ?_⟩
    have := congrFun h5 k
    simp only [Prod.mk.injEq] at this
    exact this
  · intro h
    exact core_of h.1 h.2

/-- The attachment invariant survives a step that changes only the state of client `c`, to
a state other than CLOSED, and the active client, to `c` in state ACTIVE or PENDING_DISABLE
or to nothing. -/
theorem seat_ok_step {w w1 : World} {c : Nat}
    (hs : w1.seat.clients = w.seat.clients ∧ w1.seat.next_client = w.seat.next_client ∧
      w1.seat.session_cnt = w.seat.session_cnt)
    (hk : ∀ k, k ≠ c → (w1.client k).seat = (w.client k).seat ∧
      (w1.client k).state = (w.client k).state ∧ (w1.client k).session = (w.client k).session)
    (_hc : (w1.client c).seat = (w.client c).seat ∧ (w1.client c).session = (w.client c).session ∧
      (w1.client c).state ≠ CLIENT_CLOSED)
    (ha : ∀ x, w1.seat.active_client = some x →
      (x = c ∧ ((w1.client c).state = CLIENT_ACTIVE ∨ (w1.client c).state = CLIENT_PENDING_DISABLE))
        ∨ (x ≠ c ∧ w.seat.active_client = some x))
    (hv : seat_ok w) : seat_ok w1 := by
  obtain ⟨h1, h2, _⟩ := hs
  obtain ⟨v1, v2, v4⟩ := hv
  refine ⟨h1.trans v1, h2.trans v2, ?_⟩
  intro x hx
  rcases ha x hx with ⟨rfl, hst⟩ | ⟨hne, hact⟩
  · exact hst
  · rw [(hk x hne).2.1]; exact v4 x hact

theorem seat_open_client_seat_ok {w w1 : World} {c : Nat} {r : Int}
    (h : seat_open_client w c = some (r, w1)) (hv : seat_ok w) : seat_ok w1 := by
  unfold seat_open_client at h
  by_cases h1 : (w.client c).state ≠ CLIENT_NEW ∧ (w.client c).state ≠ CLIENT_DISABLED
  · rw [if_pos h1] at h
    simp only [Option.some.injEq, Prod.mk.injEq] at h
    obtain ⟨_, rfl⟩ := h
    exact hv
  rw [if_neg h1] at h
  by_cases h2 : w.seat.active_client ≠ none
  · rw [if_pos h2] at h
    simp only [Option.some.injEq, Prod.mk.injEq] at h
    obtain ⟨_, rfl⟩ := h
    exact hv
  rw [if_neg h2] at h
  generalize hvt : (if w.seat.vt_bound = true then vt_open w (w.client c).session
    else some (0, w)) = ov at h
  rcases ov with _ | ⟨r0, w0⟩
  · cases h
  have hv0 : core w0 = core w := by
    split_ifs at hvt
    · exact core_vt_open hvt
    · simp only [Option.some.injEq, Prod.mk.injEq] at hvt
      rw [← hvt.2]
  simp only at h
  by_cases h3 : r0 = -1
  · rw [if_pos h3] at h
    simp only [Option.some.injEq, Prod.mk.injEq] at h
    obtain ⟨_, rfl⟩ := h
    refine seat_ok_of_core ?_ hv
    split_ifs <;> simp [hv0]
  rw [if_neg h3] at h
  generalize hf : for_each_device (fun w d => seat_activate_device w c d)
    (w0.client c).devices w0 = od at h
  rcases od with _ | ⟨devs, w2⟩
  · cases h
  have hv2 : core w2 = core w := (for_each_device_core _
    (fun _ _ _ _ _ hh => seat_activate_device_core hh) _ _ _ _ hf).trans hv0
  obtain ⟨⟨e1, e2, e3, _⟩, ek⟩ := core_eq_iff.1 hv2
  simp only at h
  have key : ∀ wz : World, core wz = core
      (({ w2 with seat := { w2.seat with active_client := some c } } : World).setClient c
        { w2.client c with devices := devs, state := CLIENT_ACTIVE }) → seat_ok wz := by
    intro wz hz
    obtain ⟨⟨z1, z2, z3, z4⟩, zk⟩ := core_eq_iff.1 hz
    refine seat_ok_step (w := w) (c := c) ⟨z1.trans e1, z2.trans e2, z3.trans e3⟩ ?_ ?_ ?_ hv
    · intro k hk
      have := zk k
      rw [setClient_client_other _ _ hk] at this
      exact ⟨this.1.trans (ek k).1, this.2.1.trans (ek k).2.1, this.2.2.trans (ek k).2.2⟩
    · have := zk c
      rw [setClient_client_same] at this
      exact ⟨this.1.trans (ek c).1, this.2.2.trans (ek c).2.2, fun e => by rw [this.2.1] at e; cases e⟩
    · intro x hx
      have hz4 : wz.seat.active_client = some c := z4
      rw [hz4] at hx
      have := zk c
      rw [setClient_client_same] at this
      exact Or.inl ⟨(Option.some.inj hx).symm, Or.inl this.2.1⟩
  split_ifs at h <;> simp only [Option.some.injEq, Prod.mk.injEq] at h <;>
    obtain ⟨_, rfl⟩ := h <;> apply key <;> simp

theorem seat_disable_client_seat_ok {w w1 : World} {c : Nat} {r : Int}
    (h : seat_disable_client w c = some (r, w1)) (hv : seat_ok w) : seat_ok w1 := by
  unfold seat_disable_client at h
  by_cases h1 : (w.client c).seat = false
  · rw [if_pos h1] at h; cases h
  rw [if_neg h1] at h
  by_cases h2 : (w.client c).state ≠ CLIENT_ACTIVE
  · rw [if_pos h2] at h
    simp only [Option.some.injEq, Prod.mk.injEq] at h
    obtain ⟨_, rfl⟩ := h
    exact hv
  rw [if_neg h2] at h
  simp only at h
  generalize hf : for_each_device seat_deactivate_device _ _ = od at h
  rcases od with _ | ⟨devs, w2⟩
  · cases h
  have hv2 := for_each_device_core _
    (fun _ _ _ _ _ hh => seat_deactivate_device_core hh) _ _ _ _ hf
  obtain ⟨⟨e1, e2, e3, e4⟩, ek⟩ := core_eq_iff.1 hv2
  simp only at h
  have hact : w2.seat.active_client = some c := e4
  have key : ∀ wz : World, core wz = core
      (w2.setClient c { w2.client c with devices := devs, state := CLIENT_PENDING_DISABLE }) →
      seat_ok wz := by
    intro wz hz
    obtain ⟨⟨z1, z2, z3, z4⟩, zk⟩ := core_eq_iff.1 hz
    refine seat_ok_step (w := w) (c := c) ⟨z1.trans e1, z2.trans e2, z3.trans e3⟩ ?_ ?_ ?_ hv
    · intro k hk
      have := zk k
      rw [setClient_client_other _ _ hk] at this
      exact ⟨this.1.trans (ek k).1, this.2.1.trans (ek k).2.1, this.2.2.trans (ek k).2.2⟩
    · have := zk c
      rw [setClient_client_same] at this
      exact ⟨this.1.trans (ek c).1, this.2.2.trans (ek c).2.2, fun e => by rw [this.2.1] at e; cases e⟩
    · intro x hx
      have hz4 : wz.seat.active_client = some c := z4.trans hact
      rw [hz4] at hx
      have := zk c
      rw [setClient_client_same] at this
      exact Or.inl ⟨(Option.some.inj hx).symm, Or.inr this.2.1⟩
  split at h
  · cases h
  split_ifs at h <;> simp only [Option.some.injEq, Prod.mk.injEq] at h <;>
    obtain ⟨_, rfl⟩ := h <;> apply key <;> simp

theorem seat_add_client_seat_ok {w : World} {c : Nat} (hv : seat_ok w) :
    seat_ok (seat_add_client w c).2 := by
  have hnew : ∀ (w0 : World) (s : Int), core w0 = core w →
      ∀ wz : World, wz.seat.clients = w0.seat.clients → wz.seat.next_client = w0.seat.next_client →
        wz.seat.active_client = w0.seat.active_client →
        wz.client = (w0.setClient c { w0.client c with session := s, seat := true }).client →
        seat_ok wz := by
    intro w0 s h0 wz z1 z2 z4 zc
    obtain ⟨⟨e1, e2, _, e4⟩, ek⟩ := core_eq_iff.1 h0
    obtain ⟨v1, v2, v4⟩ := hv
    have hst : ∀ k, (wz.client k).state = (w.client k).state := by
      intro k
      by_cases hk : k = c
      · subst hk
        rw [zc, setClient_client_same]
        exact (ek k).2.1
      · rw [zc, setClient_client_other _ _ hk]
        exact (ek k).2.1
    refine ⟨z1.trans (e1.trans v1), z2.trans (e2.trans v2), ?_⟩
    intro a ha
    rw [z4, e4] at ha
    rw [hst a]
    exact v4 a ha
  unfold seat_add_client
  by_cases h1 : (w.client c).seat = true
  · rw [if_pos h1]; exact hv
  rw [if_neg h1]
  by_cases h2 : w.seat.vt_bound = true ∧ w.seat.active_client ≠ none
  · rw [if_pos h2]; exact hv
  rw [if_neg h2]
  by_cases h3 : (w.client c).session ≠ -1
  · rw [if_pos h3]; exact hv
  rw [if_neg h3]
  by_cases h4 : w.seat.vt_bound = true
  · rw [if_pos h4]
    simp only
    by_cases h5 : (seat_update_vt w).seat.cur_vt = -1
    · rw [if_pos h5]
      exact seat_ok_of_core ((core_errno _ _).trans (core_seat_update_vt w)) hv
    · rw [if_neg h5]
      exact hnew (seat_update_vt w) _ (core_seat_update_vt w) _ rfl rfl rfl rfl
  · rw [if_neg h4]
    simp only
    exact hnew w _ rfl _ rfl rfl rfl rfl

theorem seat_ack_disable_client_seat_ok {w w1 : World} {c : Nat} {r : Int}
    (h : seat_ack_disable_client w c = some (r, w1)) (hv : seat_ok w) : seat_ok w1 := by
  unfold seat_ack_disable_client at h
  by_cases h1 : (w.client c).seat = false
  · rw [if_pos h1] at h; cases h
  rw [if_neg h1] at h
  by_cases h2 : (w.client c).state ≠ CLIENT_PENDING_DISABLE
  · rw [if_pos h2] at h
    simp only [Option.some.injEq, Prod.mk.injEq] at h
    obtain ⟨_, rfl⟩ := h
    exact hv
  rw [if_neg h2] at h
  simp only at h
  have key : ∀ a : Option Nat, (∀ x, a = some x → x ≠ c ∧ w.seat.active_client = some x) →
      seat_ok ({ w.setClient c { w.client c with state := CLIENT_DISABLED } with
        seat := { w.seat with active_client := a } } : World) := by
    intro a ha
    refine seat_ok_step (w := w) (c := c) ⟨rfl, rfl, rfl⟩ ?_ ?_ ?_ hv
    · intro k hk
      show ((w.setClient c _).client k).seat = _ ∧ ((w.setClient c _).client k).state = _ ∧
        ((w.setClient c _).client k).session = _
      rw [setClient_client_other _ _ hk]
      exact ⟨rfl, rfl, rfl⟩
    · show ((w.setClient c _).client c).seat = _ ∧ ((w.setClient c _).client c).session = _ ∧
        ((w.setClient c _).client c).state ≠ _
      rw [setClient_client_same]
      exact ⟨rfl, rfl, fun e => by cases e⟩
    · intro x hx
      exact Or.inr (ha x hx)
  by_cases h3 : w.seat.active_client ≠ some c
  · have h3s : (w.setClient c { w.client c with state := CLIENT_DISABLED }).seat.active_client
        ≠ some c := h3
    rw [if_pos h3s] at h
    simp only [Option.some.injEq, Prod.mk.injEq] at h
    obtain ⟨_, rfl⟩ := h
    exact key w.seat.active_client (fun x hx => ⟨fun e => h3 (e ▸ hx), hx⟩)
  · have h3s : ¬ (w.setClient c { w.client c with state := CLIENT_DISABLED }).seat.active_client
        ≠ some c := h3
    rw [if_neg h3s] at h
    have hok := key none (fun x hx => by cases hx)
    generalize ha : seat_activate _ = oa at h
    have e : oa = some (-1, _) := ha.symm.trans (seat_activate_idle hok.1 hok.2.1 rfl)
    subst e
    simp only [Option.some.injEq, Prod.mk.injEq] at h
    obtain ⟨_, rfl⟩ := h
    exact hok

theorem seat_set_next_session_seat_ok {w w1 : World} {c : Nat} {session r : Int}
    (h : seat_set_next_session w c session = some (r, w1)) (hv : seat_ok w) : seat_ok w1 := by
  unfold seat_set_next_session at h
  by_cases h1 : (w.client c).seat = false
  · rw [if_pos h1] at h; cases h
  rw [if_neg h1] at h
  by_cases h2 : (w.client c).state ≠ CLIENT_ACTIVE
  · rw [if_pos h2] at h
    simp only [Option.some.injEq, Prod.mk.injEq] at h
    obtain ⟨_, rfl⟩ := h
    exact hv
  rw [if_neg h2] at h
  by_cases h3 : w.seat.active_client ≠ some c
  · rw [if_pos h3] at h; cases h
  rw [if_neg h3] at h
  by_cases h4 : session ≤ 0
  · rw [if_pos h4] at h
    simp only [Option.some.injEq, Prod.mk.injEq] at h
    obtain ⟨_, rfl⟩ := h
    exact hv
  rw [if_neg h4] at h
  by_cases h5 : session = (w.client c).session
  · rw [if_pos h5] at h
    simp only [Option.some.injEq, Prod.mk.injEq] at h
    obtain ⟨_, rfl⟩ := h
    exact hv
  rw [if_neg h5] at h
  by_cases h6 : w.seat.next_client ≠ none
  · rw [if_pos h6] at h
    simp only [Option.some.injEq, Prod.mk.injEq] at h
    obtain ⟨_, rfl⟩ := h
    exact hv
  rw [if_neg h6] at h
  by_cases h7 : w.seat.vt_bound = true
  · rw [if_pos h7] at h
    simp only at h
    split_ifs at h <;> simp only [Option.some.injEq, Prod.mk.injEq] at h <;>
      obtain ⟨_, rfl⟩ := h <;> exact seat_ok_of_core (core_vt_switch _ _) hv
  rw [if_neg h7, hv.1] at h
  simp only [List.find?_nil, Option.some.injEq, Prod.mk.injEq] at h
  obtain ⟨_, rfl⟩ := h
  exact hv

theorem seat_vt_activate_seat_ok {w w1 : World} {r : Int}
    (h : seat_vt_activate w = some (r, w1)) (hv : seat_ok w) : seat_ok w1 := by
  unfold seat_vt_activate at h
  by_cases h1 : w.seat.vt_bound = false
  · rw [if_pos h1] at h
    simp only [Option.some.injEq, Prod.mk.injEq] at h
    obtain ⟨_, rfl⟩ := h
    exact hv
  rw [if_neg h1] at h
  simp only at h
  have hv2 : seat_ok (vt_ack (seat_update_vt w) false).2 :=
    seat_ok_of_core ((core_vt_ack _ _).trans (core_seat_update_vt w)) hv
  by_cases h2 : (vt_ack (seat_update_vt w) false).2.seat.active_client = none
  · rw [if_pos h2, seat_activate_idle hv2.1 hv2.2.1 h2] at h
    simp only [Option.some.injEq, Prod.mk.injEq] at h
    obtain ⟨_, rfl⟩ := h
    exact hv2
  · rw [if_neg h2] at h
    simp only [Option.some.injEq, Prod.mk.injEq] at h
    obtain ⟨_, rfl⟩ := h
    exact hv2

theorem seat_vt_release_seat_ok {w w1 : World} {r : Int}
    (h : seat_vt_release w = some (r, w1)) (hv : seat_ok w) : seat_ok w1 := by
  unfold seat_vt_release at h
  by_cases h1 : w.seat.vt_bound = false
  · rw [if_pos h1] at h
    simp only [Option.some.injEq, Prod.mk.injEq] at h
    obtain ⟨_, rfl⟩ := h
    exact hv
  rw [if_neg h1] at h
  simp only at h
  generalize hd : (match (seat_update_vt w).seat.active_client with
      | some a => seat_disable_client (seat_update_vt w) a
      | none => some (0, seat_update_vt w)) = od at h
  rcases od with _ | ⟨r2, wb⟩
  · cases h
  simp only [Option.some.injEq, Prod.mk.injEq] at h
  obtain ⟨_, rfl⟩ := h
  have hv1 : seat_ok (seat_update_vt w) := seat_ok_of_core (core_seat_update_vt w) hv
  have hvb : seat_ok wb := by
    split at hd
    · exact seat_disable_client_seat_ok hd hv1
    · simp only [Option.some.injEq, Prod.mk.injEq] at hd
      rw [← hd.2]; exact hv1
  refine seat_ok_of_core (core_of ⟨rfl, rfl, rfl, rfl⟩ (fun k => ⟨rfl, rfl, rfl⟩)) (seat_ok_of_core (core_vt_ack wb true) hvb)

/-- What `seat_close_client` does to the attachment data in a state that satisfies the
invariant: client `c` becomes CLOSED and stops being the active client; nothing is opened in
its place because the client list is empty. -/
theorem seat_close_client_core {w w1 : World} {c : Nat} {r : Int}
    (h : seat_close_client w c = some (r, w1)) (hv : seat_ok w) :
    (w1.seat.clients = w.seat.clients ∧ w1.seat.next_client = w.seat.next_client ∧
      w1.seat.session_cnt = w.seat.session_cnt ∧
      w1.seat.active_client = (if w.seat.active_client = some c then none
        else w.seat.active_client)) ∧
    (∀ k, k ≠ c → (w1.client k).seat = (w.client k).seat ∧
      (w1.client k).state = (w.client k).state ∧ (w1.client k).session = (w.client k).session) ∧
    (w1.client c).seat = (w.client c).seat ∧ (w1.client c).state = CLIENT_CLOSED ∧
      (w1.client c).session = (w.client c).session := by
  unfold seat_close_client at h
  by_cases h1 : (w.client c).seat = false
  · rw [if_pos h1] at h; cases h
  rw [if_neg h1] at h
  generalize hl : close_devices_loop _ w c = ol at h
  rcases ol with _ | wa
  · cases h
  simp only at h
  have hca := close_devices_loop_core _ _ _ _ hl
  have hva := seat_ok_of_core hca hv
  obtain ⟨⟨a1, a2, a3, a4⟩, ak⟩ := core_eq_iff.1 hca
  generalize ha : (if decide (wa.seat.active_client = some c) = true then
      seat_activate { wa with seat := { wa.seat with active_client := none } }
    else some (0, wa)) = oa at h
  rcases oa with _ | ⟨r2, wb⟩
  · cases h
  have hb : wb = (if wa.seat.active_client = some c then
      ({ wa with seat := { wa.seat with active_client := none } } : World) else wa) := by
    by_cases hc : wa.seat.active_client = some c
    · rw [if_pos hc]
      rw [if_pos (by simp [hc])] at ha
      rw [seat_activate_idle (w := { wa with seat := { wa.seat with active_client := none } })
        hva.1 hva.2.1 rfl] at ha
      simp only [Option.some.injEq, Prod.mk.injEq] at ha
      exact ha.2.symm
    · rw [if_neg hc]
      rw [if_neg (by simp [hc])] at ha
      simp only [Option.some.injEq, Prod.mk.injEq] at ha
      exact ha.2.symm
  simp only [Option.some.injEq, Prod.mk.injEq] at h
  obtain ⟨_, rfl⟩ := h
  generalize hw3 : (if wb.seat.vt_bound = true then
      if decide (wa.seat.active_client = some c) = true ∧ wb.seat.active_client = none
        then vt_close wb
      else if decide (wa.seat.active_client = some c) = false ∧
          (wb.client c).state ≠ CLIENT_CLOSED then (vt_close_num wb (wb.client c).session).2
        else wb
    else wb) = w3
  have hc3 : core w3 = core wb := by
    rw [← hw3]
    split_ifs <;> simp
  obtain ⟨⟨b1, b2, b3, b4⟩, bk⟩ := core_eq_iff.1 hc3
  have hbs : wb.seat.clients = wa.seat.clients ∧ wb.seat.next_client = wa.seat.next_client ∧
      wb.seat.session_cnt = wa.seat.session_cnt ∧
      wb.seat.active_client = (if wa.seat.active_client = some c then none
        else wa.seat.active_client) ∧ wb.client = wa.client := by
    rw [hb]
    split_ifs <;> exact ⟨rfl, rfl, rfl, rfl, rfl⟩
  obtain ⟨c1, c2, c3, c4, c5⟩ := hbs
  refine ⟨⟨b1.trans (c1.trans a1), b2.trans (c2.trans a2), b3.trans (c3.trans a3), ?_⟩, ?_, ?_⟩
  · show w3.seat.active_client = _
    rw [b4, c4, a4]
  · intro k hk
    rw [setClient_client_other _ _ hk]
    have := bk k
    rw [c5] at this
    exact ⟨this.1.trans (ak k).1, this.2.1.trans (ak k).2.1, this.2.2.trans (ak k).2.2⟩
  · rw [setClient_client_same]
    have := bk c
    rw [c5] at this
    exact ⟨this.1.trans (ak c).1, rfl, this.2.2.trans (ak c).2.2⟩

/-- What `seat_remove_client` does to the attachment data in a state that satisfies the
invariant. -/
theorem seat_remove_client_core {w w1 : World} {c : Nat} {r : Int}
    (h : seat_remove_client w c = some (r, w1)) (hv : seat_ok w) :
    (w1.seat.clients = w.seat.clients ∧ w1.seat.next_client = none ∧
      w1.seat.session_cnt = w.seat.session_cnt ∧
      w1.seat.active_client = (if w.seat.active_client = some c then none
        else w.seat.active_client)) ∧
    (∀ k, k ≠ c → (w1.client k).seat = (w.client k).seat ∧
      (w1.client k).state = (w.client k).state ∧ (w1.client k).session = (w.client k).session) ∧
    (w.client c).seat = true ∧
    (w1.client c).seat = false ∧ (w1.client c).state = CLIENT_CLOSED ∧
      (w1.client c).session = (w.client c).session := by
  unfold seat_remove_client at h
  by_cases h1 : (w.client c).seat = false
  · rw [if_pos h1] at h; cases h
  rw [if_neg h1] at h
  simp only at h
  have hn : (if w.seat.next_client = some c then
      ({ w with seat := { w.seat with next_client := none } } : World) else w) = w := by
    rw [if_neg (by rw [hv.2.1]; simp)]
  rw [hn] at h
  generalize hl : close_devices_loop _ _ c = ol at h
  rcases ol with _ | wa
  · cases h
  simp only at h
  have hca := close_devices_loop_core _ _ _ _ hl
  have hva := seat_ok_of_core hca hv
  obtain ⟨⟨a1, a2, a3, a4⟩, ak⟩ := core_eq_iff.1 hca
  generalize hc : seat_close_client wa c = oc at h
  rcases oc with _ | ⟨r2, wb⟩
  · cases h
  simp only [Option.some.injEq, Prod.mk.injEq] at h
  obtain ⟨_, rfl⟩ := h
  obtain ⟨⟨b1, b2, b3, b4⟩, bk, bc⟩ := seat_close_client_core hc hva
  refine ⟨⟨b1.trans a1, b2.trans hva.2.1, b3.trans a3, ?_⟩, ?_, by simpa using h1, ?_⟩
  · show wb.seat.active_client = _
    rw [b4, a4]
  · intro k hk
    rw [setClient_client_other _ _ hk]
    exact ⟨(bk k hk).1.trans (ak k).1, (bk k hk).2.1.trans (ak k).2.1,
      (bk k hk).2.2.trans (ak k).2.2⟩
  · rw [setClient_client_same]
    exact ⟨rfl, bc.2.1, bc.2.2.trans (ak c).2.2⟩

theorem seat_remove_client_seat_ok {w w1 : World} {c : Nat} {r : Int}
    (h : seat_remove_client w c = some (r, w1)) (hv : seat_ok w) : seat_ok w1 := by
  obtain ⟨⟨e1, e2, e3, e4⟩, ek, hat, ec1, ec2, ec3⟩ := seat_remove_client_core h hv
  obtain ⟨v1, v2, v4⟩ := hv
  refine ⟨e1.trans v1, e2, ?_⟩
  intro a ha
  rw [e4] at ha
  by_cases hc : w.seat.active_client = some c
  · rw [if_pos hc] at ha; cases ha
  · rw [if_neg hc] at ha
    have hne : a ≠ c := fun e => hc (e ▸ ha)
    rw [(ek a hne).2.1]
    exact v4 a ha

/-- One seat operation keeps the attachment invariant. -/
theorem seat_op_run_seat_ok {op : seat_op} {w w1 : World} (h : op.run w = some w1)
    (hv : seat_ok w) : seat_ok w1 := by
  cases op with
  | add_client c =>
    simp only [seat_op.run, Option.some.injEq] at h
    subst h
    exact seat_add_client_seat_ok hv
  | open_client c =>
    simp only [seat_op.run, Option.map_eq_some', Prod.exists, exists_eq_right] at h
    obtain ⟨r, h⟩ := h
    exact seat_open_client_seat_ok h hv
  | remove_client c =>
    simp only [seat_op.run, Option.map_eq_some', Prod.exists, exists_eq_right] at h
    obtain ⟨r, h⟩ := h
    exact seat_remove_client_seat_ok h hv
  | open_device c path =>
    simp only [seat_op.run, Option.map_eq_some', Prod.exists, exists_eq_right] at h
    obtain ⟨r, h⟩ := h
    exact seat_ok_of_core (seat_open_device_core h) hv
  | close_device c i =>
    simp only [seat_op.run, Option.map_eq_some', Prod.exists, exists_eq_right] at h
    obtain ⟨r, h⟩ := h
    exact seat_ok_of_core (seat_close_device_core h) hv
  | set_next_session c session =>
    simp only [seat_op.run, Option.map_eq_some', Prod.exists, exists_eq_right] at h
    obtain ⟨r, h⟩ := h
    exact seat_set_next_session_seat_ok h hv
  | ack_disable_client c =>
    simp only [seat_op.run, Option.map_eq_some', Prod.exists, exists_eq_right] at h
    obtain ⟨r, h⟩ := h
    exact seat_ack_disable_client_seat_ok h hv
  | vt_activate =>
    simp only [seat_op.run, Option.map_eq_some', Prod.exists, exists_eq_right] at h
    obtain ⟨r, h⟩ := h
    exact seat_vt_activate_seat_ok h hv
  | vt_release =>
    simp only [seat_op.run, Option.map_eq_some', Prod.exists, exists_eq_right] at h
    obtain ⟨r, h⟩ := h
    exact seat_vt_release_seat_ok h hv

theorem initial_seat_ok {w : World} (h : w.initial) : seat_ok w := by
  obtain ⟨⟨n, b, hs⟩, hc⟩ := h
  refine ⟨by rw [hs]; rfl, by rw [hs]; rfl, ?_⟩
  intro a ha
  rw [hs] at ha
  cases ha

/-- The attachment invariant holds in every reachable state. -/
theorem reachable_seat_ok {w : World} (h : Reachable w) : seat_ok w := by
  induction h with
  | init hi => exact initial_seat_ok hi
  | step op tape env _ hrun ih =>
    exact seat_op_run_seat_ok hrun (seat_ok_of_core (core_withEnv _ _ _) ih)

/-- With every fd of the ledger positive, the closing loop of `seat_remove_client` returns
with an empty ledger after closing the fd of every device, whatever the reference counts. -/
theorem close_devices_loop_empties : ∀ (fuel : Nat) (w : World) (c : Nat),
    (w.client c).seat = true → (∀ d ∈ (w.client c).devices, 0 < d.fd) →
    close_devices_fuel (w.client c).devices ≤ fuel →
    ∃ w1, close_devices_loop fuel w c = some w1 ∧ (w1.client c).devices = [] ∧
      (∀ d ∈ (w.client c).devices, d.fd ∈ w1.closed) ∧ (∀ x ∈ w.closed, x ∈ w1.closed) := by
  intro fuel
  induction fuel with
  | zero =>
    intro w c _ _ hm
    have hemp : (w.client c).devices = [] := by
      cases hl : (w.client c).devices with
      | nil => rfl
      | cons d rest =>
        rw [hl] at hm
        simp [close_devices_fuel] at hm
    refine ⟨w, rfl, hemp, ?_, fun x hx => hx⟩
    intro d hd
    rw [hemp] at hd
    cases hd
  | succ n ih =>
    intro w c hseat hfd hm
    unfold close_devices_loop
    by_cases hemp : (w.client c).devices = []
    · rw [if_pos (by simp [hemp])]
      refine ⟨w, rfl, hemp, ?_, fun x hx => hx⟩
      intro d hd
      rw [hemp] at hd
      cases hd
    obtain ⟨d, rest, hl⟩ := List.exists_cons_of_ne_nil hemp
    rw [if_neg (by simp [hl])]
    have hd0 : (w.client c).devices[0]? = some d := by rw [hl]; simp
    have hfd0 : 0 < d.fd := hfd d (by rw [hl]; exact List.mem_cons_self _ _)
    have hm2 : d.ref_cnt.toNat + 1 + close_devices_fuel rest ≤ n + 1 := by
      rw [hl] at hm
      simpa [close_devices_fuel] using hm
    by_cases hcnt : 1 < d.ref_cnt
    · obtain ⟨wk, hwk, hdevk, hseatk, hclosedk⟩ : ∃ wk, seat_close_device w c 0 = some (0, wk) ∧
          (wk.client c).devices = { d with ref_cnt := d.ref_cnt - 1 } :: rest ∧
          (wk.client c).seat = true ∧ wk.closed = w.closed :=
        ⟨_, seat_close_device_keep hseat hd0 hfd0 hcnt,
          by rw [setClient_client_same, hl]; rfl,
          by rw [setClient_client_same]; exact hseat, rfl⟩
      rw [hwk]
      simp only
      obtain ⟨w1, h1, h2, h3, h4⟩ := ih wk c hseatk
        (by
          rw [hdevk]
          intro x hx
          rcases List.mem_cons.1 hx with rfl | hx
          · exact hfd0
          · exact hfd x (by rw [hl]; exact List.mem_cons_of_mem _ hx))
        (by
          rw [hdevk]
          have e : close_devices_fuel ({ d with ref_cnt := d.ref_cnt - 1 } :: rest)
              = (d.ref_cnt - 1).toNat + 1 + close_devices_fuel rest := by
            simp [close_devices_fuel]
          rw [e]
          omega)
      refine ⟨w1, h1, h2, ?_, fun x hx => h4 x (hclosedk ▸ hx)⟩
      intro x hx
      rw [hdevk] at h3
      rw [hl] at hx
      rcases List.mem_cons.1 hx with rfl | hx
      · exact h3 { x with ref_cnt := x.ref_cnt - 1 } (List.mem_cons_self _ _)
      · exact h3 x (List.mem_cons_of_mem _ hx)
    · obtain ⟨wa, ha, hdev, hcl, _, _, has, _, _⟩ :=
        seat_close_device_last hseat hd0 hfd0 (by omega)
      rw [ha]
      simp only
      have hdev2 : (wa.client c).devices = rest := by rw [hdev, hl]; rfl
      obtain ⟨w1, h1, h2, h3, h4⟩ := ih wa c (has.trans hseat)
        (by
          rw [hdev2]
          intro x hx
          exact hfd x (by rw [hl]; exact List.mem_cons_of_mem _ hx))
        (by
          rw [hdev2]
          omega)
      refine ⟨w1, h1, h2, ?_, fun x hx => h4 x (by rw [hcl]; exact List.mem_append_left _ hx)⟩
      intro x hx
      rw [hdev2] at h3
      rw [hl] at hx
      rcases List.mem_cons.1 hx with rfl | hx
      · exact h4 _ (by rw [hcl]; simp)
      · exact h3 x hx

theorem closed_mono_vt_close (w : World) : ∀ x ∈ w.closed, x ∈ (vt_close w).closed := by
  intro x hx
  unfold vt_close
  split
  · exact hx
  · exact List.mem_append_left _ hx

theorem closed_mono_vt_close_num (w : World) (vt : Int) :
    ∀ x ∈ w.closed, x ∈ (vt_close_num w vt).2.closed := by
  intro x hx
  unfold vt_close_num
  simp only
  split
  · simpa [terminal_open] using hx
  · simp only [World.close, terminal_open, syscall_closed]
    exact List.mem_append_left _ hx

/-- On a client with an empty ledger, in a state that satisfies the attachment invariant,
`seat_close_client` returns and only marks the client CLOSED, clears the active client if it
was this client, and closes the VT. -/
theorem seat_close_client_empty {w : World} {c : Nat} (hseat : (w.client c).seat = true)
    (hv : seat_ok w) (hd : (w.client c).devices = []) :
    ∃ w3, seat_close_client w c = some (0, w3.setClient c { w3.client c with state := CLIENT_CLOSED })
      ∧ snap w3 = snap w ∧ (∀ x ∈ w.closed, x ∈ w3.closed) := by
  unfold seat_close_client
  rw [if_neg (by simp [hseat]), hd]
  simp only [close_devices_fuel, List.map_nil, List.sum_nil, close_devices_loop]
  by_cases hc : w.seat.active_client = some c
  · rw [if_pos (by simp [hc]),
      seat_activate_idle (w := { w with seat := { w.seat with active_client := none } })
        hv.1 hv.2.1 rfl]
    simp only
    refine ⟨_, rfl, ?_, ?_⟩
    · split_ifs <;> simp
    · intro x hx
      split_ifs
      · exact closed_mono_vt_close _ x hx
      · exact closed_mono_vt_close_num _ _ x hx
      · exact hx
      · exact hx
  · rw [if_neg (by simp [hc])]
    simp only
    refine ⟨_, rfl, ?_, ?_⟩
    · split_ifs <;> simp
    · intro x hx
      split_ifs
      · exact closed_mono_vt_close _ x hx
      · exact closed_mono_vt_close_num _ _ x hx
      · exact hx
      · exact hx

theorem world_card0_twice_reachable : Reachable world_card0_twice :=
  reachable_run_ops _ _ _ world_card0_reachable (run_ops_getD (by decide))

/-- C28: for a client in any attached state of a reachable seat whose device fds are positive,
`seat_remove_client` returns, and afterwards the client's ledger is empty, the fd of every
device it held has been closed (whatever its ref_cnt), its state is CLOSED, its seat pointer
is empty, and neither `active_client` nor `next_client` of the seat refers to it. -/
theorem C28_remove_client_postcondition (w : World) (h : Reachable w) (tape : List Int)
    (env : Platform) (c : Nat) (hseat : (w.client c).seat = true)
    (hfd : ∀ d ∈ (w.client c).devices, 0 < d.fd) :
    ∃ r w1, seat_remove_client (w.withEnv tape env) c = some (r, w1) ∧
      (w1.client c).devices = [] ∧ (∀ d ∈ (w.client c).devices, d.fd ∈ w1.closed) ∧
      (w1.client c).state = CLIENT_CLOSED ∧ (w1.client c).seat = false ∧
      w1.seat.active_client ≠ some c ∧ w1.seat.next_client ≠ some c := by
  have hv : seat_ok (w.withEnv tape env) := seat_ok_of_core (core_withEnv _ _ _) (reachable_seat_ok h)
  have hseat2 : ((w.withEnv tape env).client c).seat = true := hseat
  obtain ⟨wa, hla, hda, hca, _⟩ := close_devices_loop_empties
    (close_devices_fuel ((w.withEnv tape env).client c).devices) (w.withEnv tape env) c
    hseat2 hfd (le_refl _)
  have hcore := close_devices_loop_core _ _ _ _ hla
  have hva := seat_ok_of_core hcore hv
  have hsa : (wa.client c).seat = true := ((core_eq_iff.1 hcore).2 c).1.trans hseat2
  obtain ⟨w3, h3, hs3, hc3⟩ := seat_close_client_empty hsa hva hda
  have heq : seat_remove_client (w.withEnv tape env) c
      = some (0, (w3.setClient c { w3.client c with state := CLIENT_CLOSED }).setClient c
          { (w3.setClient c { w3.client c with state := CLIENT_CLOSED }).client c with
            seat := false }) := by
    unfold seat_remove_client
    rw [if_neg (by simp [hseat2])]
    simp only
    rw [if_neg (by rw [hv.2.1]; simp), hla]
    simp only
    rw [h3]
  obtain ⟨⟨_, e2, _, e4⟩, _, _, ec1, ec2, _⟩ := seat_remove_client_core heq hv
  refine ⟨_, _, heq, ?_, ?_, ec2, ec1, ?_, ?_⟩
  · rw [setClient_client_same, setClient_client_same]
    have := congrFun hs3 c
    unfold snap at this
    simp only [Prod.mk.injEq] at this
    exact this.2.trans hda
  · intro d hd
    exact hc3 _ (hca d hd)
  · rw [e4]
    split_ifs with hc
    · simp
    · exact hc
  · rw [e2]; simp

/-- C28 at a concrete reachable state: the ACTIVE client 0 holding one device with
ref_cnt 2 and fd 5. -/
theorem C28_remove_client_postcondition_witness :
    Reachable world_card0_twice ∧ (world_card0_twice.client 0).seat = true ∧
    (world_card0_twice.client 0).devices.map (fun d => (d.fd, d.ref_cnt)) = [(5, 2)] ∧
    (∀ d ∈ (world_card0_twice.client 0).devices, 0 < d.fd) ∧
    ∃ r w1, seat_remove_client (world_card0_twice.withEnv [] example_platform) 0 = some (r, w1) ∧
      (w1.client 0).devices = [] ∧
      (∀ d ∈ (world_card0_twice.client 0).devices, d.fd ∈ w1.closed) ∧
      (w1.client 0).state = CLIENT_CLOSED ∧ (w1.client 0).seat = false ∧
      w1.seat.active_client ≠ some 0 ∧ w1.seat.next_client ≠ some 0 :=
  ⟨world_card0_twice_reachable, by decide, by decide, by decide,
    C28_remove_client_postcondition world_card0_twice world_card0_twice_reachable []
      example_platform 0 (by decide) (by decide)⟩

theorem kept_refl (w : World) : Kept w w := fun _ => ⟨rfl, rfl, id⟩

theorem kept_trans {w w1 w2 : World} (h1 : Kept w w1) (h2 : Kept w1 w2) : Kept w w2 :=
  fun k => ⟨(h2 k).1.trans (h1 k).1, (h2 k).2.1.trans (h1 k).2.1,
    fun e => (h2 k).2.2 ((h1 k).2.2 e)⟩

theorem kept_of_core {w w1 : World} (h : core w1 = core w) : Kept w w1 := by
  intro k
  obtain ⟨a, b, c⟩ := (core_eq_iff.1 h).2 k
  exact ⟨a, c, fun e => b.trans e⟩

theorem kept_of_client {w w1 : World} (h : w1.client = w.client) : Kept w w1 := by
  intro k
  rw [h]
  exact ⟨rfl, rfl, id⟩

theorem kept_set_state (w : World) (c : Nat) (l : List seat_device) (st : client_state)
    (h : (w.client c).state = CLIENT_CLOSED → st = CLIENT_CLOSED) :
    Kept w (w.setClient c { w.client c with devices := l, state := st }) := by
  intro k
  by_cases hk : k = c
  · subst hk
    rw [setClient_client_same]
    exact ⟨rfl, rfl, h⟩
  · rw [setClient_client_other _ _ hk]
    exact ⟨rfl, rfl, id⟩

theorem seat_open_client_kept {w w1 : World} {c : Nat} {r : Int}
    (h : seat_open_client w c = some (r, w1)) : Kept w w1 := by
  unfold seat_open_client at h
  by_cases h1 : (w.client c).state ≠ CLIENT_NEW ∧ (w.client c).state ≠ CLIENT_DISABLED
  · rw [if_pos h1] at h
    simp only [Option.some.injEq, Prod.mk.injEq] at h
    obtain ⟨_, rfl⟩ := h
    exact kept_refl _
  rw [if_neg h1] at h
  by_cases h2 : w.seat.active_client ≠ none
  · rw [if_pos h2] at h
    simp only [Option.some.injEq, Prod.mk.injEq] at h
    obtain ⟨_, rfl⟩ := h
    exact kept_refl _
  rw [if_neg h2] at h
  generalize hvt : (if w.seat.vt_bound = true then vt_open w (w.client c).session
    else some (0, w)) = ov at h
  rcases ov with _ | ⟨r0, w0⟩
  · cases h
  have hv0 : core w0 = core w := by
    split_ifs at hvt
    · exact core_vt_open hvt
    · simp only [Option.some.injEq, Prod.mk.injEq] at hvt
      rw [← hvt.2]
  simp only at h
  by_cases h3 : r0 = -1
  · rw [if_pos h3] at h
    simp only [Option.some.injEq, Prod.mk.injEq] at h
    obtain ⟨_, rfl⟩ := h
    refine kept_of_core ?_
    split_ifs <;> simp [hv0]
  rw [if_neg h3] at h
  generalize hf : for_each_device (fun w d => seat_activate_device w c d)
    (w0.client c).devices w0 = od at h
  rcases od with _ | ⟨devs, w2⟩
  · cases h
  have hv2 : core w2 = core w := (for_each_device_core _
    (fun _ _ _ _ _ hh => seat_activate_device_core hh) _ _ _ _ hf).trans hv0
  have hnc : (w2.client c).state = CLIENT_CLOSED → CLIENT_ACTIVE = CLIENT_CLOSED := by
    intro e
    rw [((core_eq_iff.1 hv2).2 c).2.1] at e
    exfalso
    apply h1
    rw [e]
    exact ⟨by decide, by decide⟩
  simp only at h
  have key : ∀ wz : World, core wz = core
      (({ w2 with seat := { w2.seat with active_client := some c } } : World).setClient c
        { w2.client c with devices := devs, state := CLIENT_ACTIVE }) → Kept w wz := by
    intro wz hz
    refine kept_trans (kept_of_core hv2) (kept_trans ?_ (kept_of_core hz))
    exact kept_set_state ({ w2 with seat := { w2.seat with active_client := some c } } : World)
      c devs CLIENT_ACTIVE hnc
  split_ifs at h <;> simp only [Option.some.injEq, Prod.mk.injEq] at h <;>
    obtain ⟨_, rfl⟩ := h <;> apply key <;> simp

theorem seat_disable_client_kept {w w1 : World} {c : Nat} {r : Int}
    (h : seat_disable_client w c = some (r, w1)) : Kept w w1 := by
  unfold seat_disable_client at h
  by_cases h1 : (w.client c).seat = false
  · rw [if_pos h1] at h; cases h
  rw [if_neg h1] at h
  by_cases h2 : (w.client c).state ≠ CLIENT_ACTIVE
  · rw [if_pos h2] at h
    simp only [Option.some.injEq, Prod.mk.injEq] at h
    obtain ⟨_, rfl⟩ := h
    exact kept_refl _
  rw [if_neg h2] at h
  simp only at h
  generalize hf : for_each_device seat_deactivate_device _ _ = od at h
  rcases od with _ | ⟨devs, w2⟩
  · cases h
  have hv2 := for_each_device_core _
    (fun _ _ _ _ _ hh => seat_deactivate_device_core hh) _ _ _ _ hf
  have hk2 : Kept w w2 := fun k => kept_of_core hv2 k
  have hnc : (w2.client c).state = CLIENT_CLOSED → CLIENT_PENDING_DISABLE = CLIENT_CLOSED := by
    intro e
    have e2 : (w2.client c).state = (w.client c).state := ((core_eq_iff.1 hv2).2 c).2.1
    rw [e2, not_not.1 h2] at e
    cases e
  simp only at h
  have key : ∀ wz : World, core wz = core
      (w2.setClient c { w2.client c with devices := devs, state := CLIENT_PENDING_DISABLE }) →
      Kept w wz := by
    intro wz hz
    exact kept_trans hk2 (kept_trans (kept_set_state w2 c devs _ hnc) (kept_of_core hz))
  split at h
  · cases h
  split_ifs at h <;> simp only [Option.some.injEq, Prod.mk.injEq] at h <;>
    obtain ⟨_, rfl⟩ := h <;> apply key <;> simp

theorem seat_activate_kept {w w1 : World} {r : Int}
    (h : seat_activate w = some (r, w1)) : Kept w w1 := by
  unfold seat_activate at h
  by_cases h1 : w.seat.active_client ≠ none
  · rw [if_pos h1] at h
    simp only [Option.some.injEq, Prod.mk.injEq] at h
    obtain ⟨_, rfl⟩ := h
    exact kept_refl _
  rw [if_neg h1] at h
  split at h
  · exact fun k => seat_open_client_kept h k
  · split at h
    · simp only [Option.some.injEq, Prod.mk.injEq] at h
      obtain ⟨_, rfl⟩ := h
      exact kept_refl _
    · split_ifs at h
      · simp only [Option.some.injEq, Prod.mk.injEq] at h
        obtain ⟨_, rfl⟩ := h
        exact kept_refl _
      · split at h
        · exact seat_open_client_kept h
        · simp only [Option.some.injEq, Prod.mk.injEq] at h
          obtain ⟨_, rfl⟩ := h
          exact kept_refl _
      · exact seat_open_client_kept h

theorem seat_ack_disable_client_kept {w w1 : World} {c : Nat} {r : Int}
    (h : seat_ack_disable_client w c = some (r, w1)) : Kept w w1 := by
  unfold seat_ack_disable_client at h
  by_cases h1 : (w.client c).seat = false
  · rw [if_pos h1] at h; cases h
  rw [if_neg h1] at h
  by_cases h2 : (w.client c).state ≠ CLIENT_PENDING_DISABLE
  · rw [if_pos h2] at h
    simp only [Option.some.injEq, Prod.mk.injEq] at h
    obtain ⟨_, rfl⟩ := h
    exact kept_refl _
  rw [if_neg h2] at h
  simp only at h
  have hk1 : Kept w (w.setClient c { w.client c with state := CLIENT_DISABLED }) :=
    kept_set_state w c (w.client c).devices CLIENT_DISABLED
      (fun e => by rw [not_not.1 h2] at e; cases e)
  split_ifs at h
  · simp only [Option.some.injEq, Prod.mk.injEq] at h
    obtain ⟨_, rfl⟩ := h
    exact hk1
  · generalize ha : seat_activate _ = oa at h
    rcases oa with _ | ⟨r2, wb⟩
    · cases h
    simp only [Option.some.injEq, Prod.mk.injEq] at h
    obtain ⟨_, rfl⟩ := h
    exact kept_trans hk1 (fun k => seat_activate_kept ha k)

theorem seat_set_next_session_kept {w w1 : World} {c : Nat} {session r : Int}
    (h : seat_set_next_session w c session = some (r, w1)) : Kept w w1 := by
  unfold seat_set_next_session at h
  by_cases h1 : (w.client c).seat = false
  · rw [if_pos h1] at h; cases h
  rw [if_neg h1] at h
  by_cases h2 : (w.client c).state ≠ CLIENT_ACTIVE
  · rw [if_pos h2] at h
    simp only [Option.some.injEq, Prod.mk.injEq] at h
    obtain ⟨_, rfl⟩ := h
    exact kept_refl _
  rw [if_neg h2] at h
  by_cases h3 : w.seat.active_client ≠ some c
  · rw [if_pos h3] at h; cases h
  rw [if_neg h3] at h
  by_cases h4 : session ≤ 0
  · rw [if_pos h4] at h
    simp only [Option.some.injEq, Prod.mk.injEq] at h
    obtain ⟨_, rfl⟩ := h
    exact kept_refl _
  rw [if_neg h4] at h
  by_cases h5 : session = (w.client c).session
  · rw [if_pos h5] at h
    simp only [Option.some.injEq, Prod.mk.injEq] at h
    obtain ⟨_, rfl⟩ := h
    exact kept_refl _
  rw [if_neg h5] at h
  by_cases h6 : w.seat.next_client ≠ none
  · rw [if_pos h6] at h
    simp only [Option.some.injEq, Prod.mk.injEq] at h
    obtain ⟨_, rfl⟩ := h
    exact kept_refl _
  rw [if_neg h6] at h
  by_cases h7 : w.seat.vt_bound = true
  · rw [if_pos h7] at h
    simp only at h
    split_ifs at h <;> simp only [Option.some.injEq, Prod.mk.injEq] at h <;>
      obtain ⟨_, rfl⟩ := h <;> exact kept_of_core (core_vt_switch _ _)
  rw [if_neg h7] at h
  split at h
  · simp only [Option.some.injEq, Prod.mk.injEq] at h
    obtain ⟨_, rfl⟩ := h
    exact kept_refl _
  rename_i target _
  simp only at h
  split at h
  · cases h
  rename_i a _
  generalize hd : seat_disable_client _ a = od at h
  rcases od with _ | ⟨r2, wb⟩
  · cases h
  simp only [Option.some.injEq, Prod.mk.injEq] at h
  obtain ⟨_, rfl⟩ := h
  exact fun k => seat_disable_client_kept hd k

theorem seat_vt_activate_kept {w w1 : World} {r : Int}
    (h : seat_vt_activate w = some (r, w1)) : Kept w w1 := by
  unfold seat_vt_activate at h
  by_cases h1 : w.seat.vt_bound = false
  · rw [if_pos h1] at h
    simp only [Option.some.injEq, Prod.mk.injEq] at h
    obtain ⟨_, rfl⟩ := h
    exact kept_refl _
  rw [if_neg h1] at h
  simp only at h
  have hk2 : Kept w (vt_ack (seat_update_vt w) false).2 :=
    kept_of_core ((core_vt_ack _ _).trans (core_seat_update_vt w))
  split_ifs at h
  · generalize ha : seat_activate _ = oa at h
    rcases oa with _ | ⟨r2, wb⟩
    · cases h
    simp only [Option.some.injEq, Prod.mk.injEq] at h
    obtain ⟨_, rfl⟩ := h
    exact kept_trans hk2 (seat_activate_kept ha)
  · simp only [Option.some.injEq, Prod.mk.injEq] at h
    obtain ⟨_, rfl⟩ := h
    exact hk2

theorem seat_vt_release_kept {w w1 : World} {r : Int}
    (h : seat_vt_release w = some (r, w1)) : Kept w w1 := by
  unfold seat_vt_release at h
  by_cases h1 : w.seat.vt_bound = false
  · rw [if_pos h1] at h
    simp only [Option.some.injEq, Prod.mk.injEq] at h
    obtain ⟨_, rfl⟩ := h
    exact kept_refl _
  rw [if_neg h1] at h
  simp only at h
  generalize hd : (match (seat_update_vt w).seat.active_client with
      | some a => seat_disable_client (seat_update_vt w) a
      | none => some (0, seat_update_vt w)) = od at h
  rcases od with _ | ⟨r2, wb⟩
  · cases h
  simp only [Option.some.injEq, Prod.mk.injEq] at h
  obtain ⟨_, rfl⟩ := h
  have hk1 : Kept w (seat_update_vt w) := kept_of_core (core_seat_update_vt w)
  have hkb : Kept w wb := by
    split at hd
    · exact kept_trans hk1 (seat_disable_client_kept hd)
    · simp only [Option.some.injEq, Prod.mk.injEq] at hd
      rw [← hd.2]; exact hk1
  exact kept_trans hkb (fun k => kept_of_core (core_vt_ack wb true) k)

theorem reachable_steps {w w1 : World} (h : Reachable w) (hs : Steps w w1) : Reachable w1 := by
  induction hs with
  | refl => exact h
  | step op tape env _ hrun ih => exact Reachable.step op tape env ih hrun

theorem removed_of_kept {c : Nat} {w w1 : World} (hk : Kept w w1) (h : removed c w) :
    removed c w1 :=
  ⟨(hk c).1.trans h.1, by rw [(hk c).2.1]; exact h.2.1, (hk c).2.2 h.2.2⟩

theorem seat_add_client_rejected {w : World} {c : Nat} (h : (w.client c).session ≠ -1) :
    ∃ e, seat_add_client w c = (-1, { w with errno := e }) := by
  unfold seat_add_client
  by_cases h1 : (w.client c).seat = true
  · rw [if_pos h1]; exact ⟨_, rfl⟩
  rw [if_neg h1]
  by_cases h2 : w.seat.vt_bound = true ∧ w.seat.active_client ≠ none
  · rw [if_pos h2]; exact ⟨_, rfl⟩
  rw [if_neg h2, if_pos h]
  exact ⟨_, rfl⟩

theorem seat_add_client_other (w : World) {c k : Nat} (hk : k ≠ c) :
    ((seat_add_client w c).2.client k).seat = (w.client k).seat ∧
    ((seat_add_client w c).2.client k).session = (w.client k).session ∧
    ((seat_add_client w c).2.client k).state = (w.client k).state := by
  have hu := (core_eq_iff.1 (core_seat_update_vt w)).2 k
  unfold seat_add_client
  simp only
  split_ifs
  · exact ⟨rfl, rfl, rfl⟩
  · exact ⟨rfl, rfl, rfl⟩
  · exact ⟨rfl, rfl, rfl⟩
  · exact ⟨hu.1, hu.2.2, hu.2.1⟩
  · show (((seat_update_vt w).setClient c _).client k).seat = _ ∧
      (((seat_update_vt w).setClient c _).client k).session = _ ∧
      (((seat_update_vt w).setClient c _).client k).state = _
    rw [setClient_client_other _ _ hk]
    exact ⟨hu.1, hu.2.2, hu.2.1⟩
  · show (((World.setClient _ c _).client k).seat = _ ∧
      ((World.setClient _ c _).client k).session = _ ∧
      ((World.setClient _ c _).client k).state = _)
    rw [setClient_client_other _ _ hk]
    exact ⟨rfl, rfl, rfl⟩

/-- A removed client stays removed through every seat operation. -/
theorem removed_step {c : Nat} {op : seat_op} {w w1 : World} (hv : seat_ok w)
    (h : op.run w = some w1) (hr : removed c w) : removed c w1 := by
  cases op with
  | add_client k =>
    simp only [seat_op.run, Option.some.injEq] at h
    subst h
    by_cases hk : k = c
    · subst hk
      obtain ⟨e, he⟩ := seat_add_client_rejected hr.2.1
      rw [he]
      exact hr
    · obtain ⟨a, b, d⟩ := seat_add_client_other w (Ne.symm hk)
      exact ⟨a.trans hr.1, by rw [b]; exact hr.2.1, d.trans hr.2.2⟩
  | open_client k =>
    simp only [seat_op.run, Option.map_eq_some', Prod.exists, exists_eq_right] at h
    obtain ⟨r, h⟩ := h
    exact removed_of_kept (seat_open_client_kept h) hr
  | remove_client k =>
    simp only [seat_op.run, Option.map_eq_some', Prod.exists, exists_eq_right] at h
    obtain ⟨r, h⟩ := h
    obtain ⟨_, ek, hat, _⟩ := seat_remove_client_core h hv
    by_cases hk : k = c
    · subst hk
      rw [hr.1] at hat
      cases hat
    · obtain ⟨a, b, d⟩ := ek c (Ne.symm hk)
      exact ⟨a.trans hr.1, by rw [d]; exact hr.2.1, b.trans hr.2.2⟩
  | open_device k path =>
    simp only [seat_op.run, Option.map_eq_some', Prod.exists, exists_eq_right] at h
    obtain ⟨r, h⟩ := h
    exact removed_of_kept (kept_of_core (seat_open_device_core h)) hr
  | close_device k i =>
    simp only [seat_op.run, Option.map_eq_some', Prod.exists, exists_eq_right] at h
    obtain ⟨r, h⟩ := h
    exact removed_of_kept (kept_of_core (seat_close_device_core h)) hr
  | set_next_session k session =>
    simp only [seat_op.run, Option.map_eq_some', Prod.exists, exists_eq_right] at h
    obtain ⟨r, h⟩ := h
    exact removed_of_kept (seat_set_next_session_kept h) hr
  | ack_disable_client k =>
    simp only [seat_op.run, Option.map_eq_some', Prod.exists, exists_eq_right] at h
    obtain ⟨r, h⟩ := h
    exact removed_of_kept (seat_ack_disable_client_kept h) hr
  | vt_activate =>
    simp only [seat_op.run, Option.map_eq_some', Prod.exists, exists_eq_right] at h
    obtain ⟨r, h⟩ := h
    exact removed_of_kept (seat_vt_activate_kept h) hr
  | vt_release =>
    simp only [seat_op.run, Option.map_eq_some', Prod.exists, exists_eq_right] at h
    obtain ⟨r, h⟩ := h
    exact removed_of_kept (seat_vt_release_kept h) hr

theorem removed_steps {c : Nat} {w w1 : World} (h : Reachable w) (hs : Steps w w1)
    (hr : removed c w) : removed c w1 := by
  induction hs with
  | refl => exact hr
  | step op tape env hprev hrun ih =>
    exact removed_step (seat_ok_of_core (core_withEnv _ _ _)
      (reachable_seat_ok (reachable_steps h hprev))) hrun ih

/-- C23, the code at the failing input: `seat_add_client` succeeds for a new client and sets
its seat pointer, but the client is not a member of `seat.clients`, which stays empty (no
state changes `seat.clients` in `seat_add_client`), so the scan of `seat_activate` finds no
client: it returns -1, on the seat that is not VT-bound and, through `seat_vt_activate`, on
the VT-bound seat whose only client is DISABLED on the current VT. -/
theorem C23_add_client_does_not_link :
    (seat_add_client (example_world false new_client []) 0).1 = 0 ∧
    ((seat_add_client (example_world false new_client []) 0).2.client 0).seat = true ∧
    (seat_add_client (example_world false new_client []) 0).2.seat.clients = [] ∧
    (seat_activate (seat_add_client (example_world false new_client []) 0).2).map
        (fun r => (r.1, r.2.seat.active_client, (r.2.client 0).state))
      = some (-1, none, CLIENT_NEW) ∧
    ((world_vt_disabled.client 0).seat, (world_vt_disabled.client 0).session,
        world_vt_disabled.seat.clients) = (true, 1, []) ∧
    (seat_vt_activate (world_vt_disabled.withEnv [3, 1, 5] example_platform)).map
        (fun r => (r.1, r.2.seat.cur_vt, r.2.seat.active_client, (r.2.client 0).state))
      = some (0, 1, none, CLIENT_DISABLED) ∧
    ∀ (w : World) (c : Nat), (seat_add_client w c).2.seat.clients = w.seat.clients := by
  refine ⟨by decide, by decide, by decide, by decide, by decide, by decide, ?_⟩
  intro w c
  have hu := (core_eq_iff.1 (core_seat_update_vt w)).1.1
  unfold seat_add_client
  simp only
  split_ifs
  · rfl
  · rfl
  · rfl
  · exact hu
  · exact hu
  · rfl

/-- C24, the code at the failing input: the client `client_create` returns is NEW, has no
seat and an empty ledger, but its session is 0, the value of the zeroed allocation, not -1;
`seat_add_client` therefore rejects it with EINVAL at its check `session != -1`. -/
theorem C24_client_create_session_is_zero :
    ((client_create 7).state, (client_create 7).seat, (client_create 7).devices,
        (client_create 7).session) = (CLIENT_NEW, false, [], 0) ∧
    (client_create 7).session ≠ -1 ∧
    ((seat_add_client world_created 0).1, (seat_add_client world_created 0).2.errno,
        ((seat_add_client world_created 0).2.client 0).seat) = (-1, EINVAL, false) := by
  refine ⟨by decide, by decide, by decide⟩

/-- C25: `seat_activate` is the rule of the specification: with an active client it changes
nothing and returns 0; otherwise it opens exactly the chosen client (the queued one, clearing
the slot; else the first client of the current VT on a VT-bound seat; else the head of the
list) and fails with -1, changing nothing, when there is none. -/
theorem C25_seat_activate_rule (w : World) : seat_activate w = seat_activate_spec w := by
  unfold seat_activate seat_activate_spec
  by_cases h1 : w.seat.active_client = none
  · rw [if_neg (by simp [h1]), if_neg (by simp [h1])]
    cases h2 : w.seat.next_client with
    | some n => simp
    | none =>
      simp only [Option.isSome_none, Bool.false_eq_true, if_false]
      cases h3 : w.seat.clients with
      | nil => simp
      | cons first rest =>
        simp only [List.isEmpty_cons, Bool.false_eq_true, if_false, List.head?_cons,
          Option.some_bind]
        by_cases h4 : w.seat.vt_bound = true ∧ w.seat.cur_vt = -1
        · rw [if_pos h4, if_pos h4]
        rw [if_neg h4, if_neg h4]
        by_cases h5 : w.seat.vt_bound = true
        · rw [if_pos h5, if_pos h5]
          generalize first :: rest = l
          induction l with
          | nil => rfl
          | cons x xs ih =>
            by_cases hx : (w.client x).session = w.seat.cur_vt
            · simp [List.find?, List.filter, hx]
            · simp only [List.find?, List.filter, hx, decide_False]
              exact ih
        · rw [if_neg h5, if_neg h5]
  · rw [if_pos h1, if_pos (by
      cases h : w.seat.active_client with
      | none => exact absurd h h1
      | some a => rfl)]

theorem world_vt_pending_reachable : Reachable world_vt_pending :=
  reachable_run_ops _ _ _ world_vt_active_reachable (run_ops_getD (by decide))

theorem world_two_clients_reachable : Reachable world_two_clients :=
  reachable_run_ops _ _ _
    (Reachable.init (example_world_initial false new_client [] new_client_untouched))
    (run_ops_getD (by decide))

/-- C26: for an attached client, `seat_ack_disable_client` fails with EBUSY and changes
nothing else when the state is not PENDING_DISABLE; on a PENDING_DISABLE client that is not
the active client it only sets the state to DISABLED; on the active client it sets the state
to DISABLED, clears `active_client` and then runs `seat_activate`, whose result it ignores:
it returns 0, and afterwards the acking client is the active client only if `seat_activate`
re-opened it (it is then ACTIVE), and is DISABLED otherwise. -/
theorem C26_ack_disable_client (w : World) (c : Nat) (hseat : (w.client c).seat = true) :
    ((w.client c).state ≠ CLIENT_PENDING_DISABLE →
      seat_ack_disable_client w c = some (-1, { w with errno := EBUSY })) ∧
    ((w.client c).state = CLIENT_PENDING_DISABLE → w.seat.active_client ≠ some c →
      seat_ack_disable_client w c
        = some (0, w.setClient c { w.client c with state := CLIENT_DISABLED })) ∧
    ((w.client c).state = CLIENT_PENDING_DISABLE → w.seat.active_client = some c →
      seat_ack_disable_client w c
        = (seat_activate
            ({ w.setClient c { w.client c with state := CLIENT_DISABLED } with
                seat := { w.seat with active_client := none } })).map (fun x => (0, x.2)) ∧
      ∀ r w1, seat_ack_disable_client w c = some (r, w1) → r = 0 ∧
        (w1.seat.active_client = some c → (w1.client c).state = CLIENT_ACTIVE) ∧
        (w1.seat.active_client ≠ some c → (w1.client c).state = CLIENT_DISABLED)) := by
  refine ⟨fun h => ?_, fun h ha => ?_, fun h ha => ?_⟩
  · unfold seat_ack_disable_client
    rw [if_neg (by simp [hseat]), if_pos h]
  · unfold seat_ack_disable_client
    rw [if_neg (by simp [hseat]), if_neg (by simp [h])]
    simp only
    rw [if_pos (by simpa using ha)]
  · have heq : seat_ack_disable_client w c
        = (seat_activate
            ({ w.setClient c { w.client c with state := CLIENT_DISABLED } with
                seat := { w.seat with active_client := none } })).map (fun x => (0, x.2)) := by
      unfold seat_ack_disable_client
      rw [if_neg (by simp [hseat]), if_neg (by simp [h])]
      simp only
      rw [if_neg (by simp [ha])]
      generalize hx : seat_activate _ = o
      have e : seat_activate
          ({ w.setClient c { w.client c with state := CLIENT_DISABLED } with
              seat := { w.seat with active_client := none } }) = o := hx
      rw [e]
      cases o with
      | none => rfl
      | some x => rfl
    refine ⟨heq, fun r w1 hr => ?_⟩
    rw [heq] at hr
    generalize hact : seat_activate _ = oa at hr
    rcases oa with _ | ⟨r2, wb⟩
    · cases hr
    simp only [Option.map_some', Option.some.injEq, Prod.mk.injEq] at hr
    obtain ⟨rfl, rfl⟩ := hr
    obtain ⟨_, hop⟩ := seat_activate_view hact
    have hstc : ({ w.setClient c { w.client c with state := CLIENT_DISABLED } with
        seat := { w.seat with active_client := none } } : World).view.state c
        = CLIENT_DISABLED := by
      show ((w.setClient c _).client c).state = _
      rw [setClient_client_same]
    refine ⟨rfl, ?_, ?_⟩
    · intro hac
      rcases hop with hsame | ⟨n, _, hn, hst⟩
      · have : wb.view.active_client = none := by rw [hsame]; rfl
        rw [show wb.view.active_client = wb.seat.active_client from rfl, hac] at this
        cases this
      · rw [show wb.view.active_client = wb.seat.active_client from rfl, hac] at hn
        have hcn : c = n := Option.some.inj hn
        subst hcn
        have := congrFun hst c
        rw [Function.update_same] at this
        exact this
    · intro hac
      rcases hop with hsame | ⟨n, _, hn, hst⟩
      · have := congrArg (fun v => View.state v c) hsame
        exact this.trans hstc
      · have hne : c ≠ n := fun e => hac (by rw [e]; exact hn)
        have := congrFun hst c
        rw [Function.update_noteq hne] at this
        exact this.trans hstc

/-- C26 at the PENDING_DISABLE active client of `world_vt_pending`. -/
theorem C26_ack_disable_client_witness :
    (world_vt_pending.client 0).seat = true ∧
    (world_vt_pending.client 0).state = CLIENT_PENDING_DISABLE ∧
    world_vt_pending.seat.active_client = some 0 ∧
    (seat_ack_disable_client world_vt_pending 0).map
        (fun x => (x.1, x.2.seat.active_client, (x.2.client 0).state))
      = some (0, none, CLIENT_DISABLED) ∧
    (((world_vt_pending.client 0).state ≠ CLIENT_PENDING_DISABLE →
      seat_ack_disable_client world_vt_pending 0
        = some (-1, { world_vt_pending with errno := EBUSY })) ∧
    ((world_vt_pending.client 0).state = CLIENT_PENDING_DISABLE →
      world_vt_pending.seat.active_client ≠ some 0 →
      seat_ack_disable_client world_vt_pending 0
        = some (0, world_vt_pending.setClient 0
            { world_vt_pending.client 0 with state := CLIENT_DISABLED })) ∧
    ((world_vt_pending.client 0).state = CLIENT_PENDING_DISABLE →
      world_vt_pending.seat.active_client = some 0 →
      seat_ack_disable_client world_vt_pending 0
        = (seat_activate
            ({ world_vt_pending.setClient 0
                  { world_vt_pending.client 0 with state := CLIENT_DISABLED } with
                seat := { world_vt_pending.seat with active_client := none } })).map
            (fun x => (0, x.2)) ∧
      ∀ r w1, seat_ack_disable_client world_vt_pending 0 = some (r, w1) → r = 0 ∧
        (w1.seat.active_client = some 0 → (w1.client 0).state = CLIENT_ACTIVE) ∧
        (w1.seat.active_client ≠ some 0 → (w1.client 0).state = CLIENT_DISABLED))) :=
  ⟨by decide, by decide, by decide, by decide,
    C26_ack_disable_client world_vt_pending 0 (by decide)⟩

/-- C27: in a reachable state, for an attached client, `seat_set_next_session` fails with
EPERM when the client is not ACTIVE, with EINVAL when it is ACTIVE and `session <= 0`, and on
a seat that is not VT-bound with EINVAL when it is ACTIVE and no attached client has that
session; in each case it returns -1 and nothing but errno changes: `next_client`,
`active_client`, every client's state, every device and every outbound buffer are as
before. -/
theorem C27_set_next_session_failures (w : World) (h : Reachable w) (tape : List Int)
    (env : Platform) (c : Nat) (session : Int) (hseat : (w.client c).seat = true) :
    ((w.client c).state ≠ CLIENT_ACTIVE →
      seat_set_next_session (w.withEnv tape env) c session
        = some (-1, { w.withEnv tape env with errno := EPERM })) ∧
    ((w.client c).state = CLIENT_ACTIVE → session ≤ 0 →
      seat_set_next_session (w.withEnv tape env) c session
        = some (-1, { w.withEnv tape env with errno := EINVAL })) ∧
    ((w.client c).state = CLIENT_ACTIVE → w.seat.vt_bound = false →
      (∀ k, (w.client k).seat = true → (w.client k).session ≠ session) →
      seat_set_next_session (w.withEnv tape env) c session
        = some (-1, { w.withEnv tape env with errno := EINVAL })) := by
  have hv := reachable_seat_ok h
  have hone := (reachable_view_ok h)
  have hs2 : ((w.withEnv tape env).client c).seat = true := hseat
  refine ⟨fun hst => ?_, fun hst hle => ?_, fun hst hvt hno => ?_⟩
  · have hst2 : ((w.withEnv tape env).client c).state ≠ CLIENT_ACTIVE := hst
    unfold seat_set_next_session
    rw [if_neg (by simp [hs2]), if_pos hst2]
  · have hac : (w.withEnv tape env).seat.active_client = some c := hone c hst
    have hst2 : ((w.withEnv tape env).client c).state = CLIENT_ACTIVE := hst
    unfold seat_set_next_session
    rw [if_neg (by simp [hs2]), if_neg (by simp [hst2]), if_neg (by simp [hac]), if_pos hle]
  · have hac : (w.withEnv tape env).seat.active_client = some c := hone c hst
    have hst2 : ((w.withEnv tape env).client c).state = CLIENT_ACTIVE := hst
    have hnext : (w.withEnv tape env).seat.next_client = none := hv.2.1
    have hcl : (w.withEnv tape env).seat.clients = [] := hv.1
    have hvt2 : (w.withEnv tape env).seat.vt_bound = false := hvt
    have hown : session ≠ ((w.withEnv tape env).client c).session :=
      fun e => hno c hseat e.symm
    unfold seat_set_next_session
    rw [if_neg (by simp [hs2]), if_neg (by simp [hst2]), if_neg (by simp [hac])]
    by_cases hle : session ≤ 0
    · rw [if_pos hle]
    · rw [if_neg hle, if_neg hown, if_neg (by simp [hnext]), if_neg (by simp [hvt2]), hcl]
      rfl

/-- C27 at the two attached clients of `world_two_clients`: client 0 is ACTIVE with
session 0, client 1 is NEW with session 1, and no client has session 7. -/
theorem C27_set_next_session_failures_witness :
    Reachable world_two_clients ∧ (world_two_clients.client 0).seat = true ∧
    (world_two_clients.client 0).state = CLIENT_ACTIVE ∧
    world_two_clients.seat.vt_bound = false ∧
    (((world_two_clients.client 0).state ≠ CLIENT_ACTIVE →
      seat_set_next_session (world_two_clients.withEnv [] example_platform) 0 7
        = some (-1, { world_two_clients.withEnv [] example_platform with errno := EPERM })) ∧
    ((world_two_clients.client 0).state = CLIENT_ACTIVE → (7 : Int) ≤ 0 →
      seat_set_next_session (world_two_clients.withEnv [] example_platform) 0 7
        = some (-1, { world_two_clients.withEnv [] example_platform with errno := EINVAL })) ∧
    ((world_two_clients.client 0).state = CLIENT_ACTIVE →
      world_two_clients.seat.vt_bound = false →
      (∀ k, (world_two_clients.client k).seat = true →
        (world_two_clients.client k).session ≠ 7) →
      seat_set_next_session (world_two_clients.withEnv [] example_platform) 0 7
        = some (-1, { world_two_clients.withEnv [] example_platform with errno := EINVAL }))) :=
  ⟨world_two_clients_reachable, by decide, by decide, by decide,
    C27_set_next_session_failures world_two_clients world_two_clients_reachable []
      example_platform 0 7 (by decide)⟩

theorem syscall_tape_ok {w : World} (h : tape_ok w) :
    0 ≤ w.syscall.1 ∧ tape_ok w.syscall.2 ∧ w.syscall.2.errno = w.errno := by
  obtain ⟨s0, cl, e, tape, closed, pf⟩ := w
  cases tape with
  | nil => exact ⟨le_refl _, h, rfl⟩
  | cons r rest =>
    have hr : 0 ≤ r := h r (List.mem_cons_self _ _)
    simp only [World.syscall]
    rw [if_neg (by omega)]
    exact ⟨hr, fun x hx => h x (List.mem_cons_of_mem _ hx), rfl⟩

theorem tape_ok_of_tape {w w1 : World} (h : w1.tape = w.tape) (hv : tape_ok w) : tape_ok w1 := by
  unfold tape_ok
  rw [h]
  exact hv

theorem connection_put_ok {w : World} (c : Nat) (b : List Nat) (h : tape_ok w) :
    (connection_put w c b).1 = 0 ∧ tape_ok (connection_put w c b).2 ∧
      (connection_put w c b).2.client c = (w.client c).put b ∧
      OnlyConn c w (connection_put w c b).2 ∧ (connection_put w c b).2.errno = w.errno := by
  obtain ⟨f, _⟩ := connection_put_spec w c b
  obtain ⟨h1, h2, h3⟩ := syscall_tape_ok h
  refine ⟨?_, ?_, ?_, f, ?_⟩ <;> unfold connection_put <;> simp only <;>
    rw [if_neg (by omega)]
  · exact tape_ok_of_tape rfl h2
  · show (w.syscall.2.setClient c _).client c = _
    rw [setClient_client_same, syscall_client]
    rfl
  · exact h3

theorem client_send_error_ok {w : World} (c : Nat) (e : Int) (h : tape_ok w) :
    (client_send_error w c e).1 = 0 ∧ tape_ok (client_send_error w c e).2 ∧
      (client_send_error w c e).2.client c
        = (w.client c).put (proto_header SERVER_ERROR 4 ++ le32 e) ∧
      OnlyConn c w (client_send_error w c e).2 := by
  obtain ⟨a1, a2, a3, a4, _⟩ := connection_put_ok c (proto_header SERVER_ERROR 4) h
  obtain ⟨b1, b2, b3, b4, _⟩ := connection_put_ok c (le32 e) a2
  have hoc := (client_send_error_spec w c e).1
  refine ⟨?_, ?_, ?_, hoc⟩ <;> unfold client_send_error <;> simp only <;>
    rw [if_neg (by omega), if_neg (by simp [b1])]
  · exact b2
  · rw [b3, a3, client_put_put]

theorem client_send_disable_seat_ok {w : World} (c : Nat) (h : tape_ok w) :
    (client_send_disable_seat w c).1 = 0 ∧ tape_ok (client_send_disable_seat w c).2 ∧
      (client_send_disable_seat w c).2.client c
        = (w.client c).put (proto_header SERVER_DISABLE_SEAT 0) := by
  obtain ⟨a1, a2, a3, _, _⟩ := connection_put_ok c (proto_header SERVER_DISABLE_SEAT 0) h
  obtain ⟨f1, f2, _⟩ := syscall_tape_ok a2
  refine ⟨?_, ?_, ?_⟩ <;> unfold client_send_disable_seat <;> simp only <;>
    rw [if_neg (by omega), if_neg (by simp only [connection_flush]; omega)]
  · exact f2
  · simp only [connection_flush, syscall_client]
    exact a3

theorem client_send_enable_seat_ok {w : World} (c : Nat) (h : tape_ok w) :
    (client_send_enable_seat w c).1 = 0 ∧ tape_ok (client_send_enable_seat w c).2 ∧
      (client_send_enable_seat w c).2.client c
        = (w.client c).put (proto_header SERVER_ENABLE_SEAT 0) := by
  obtain ⟨a1, a2, a3, _, _⟩ := connection_put_ok c (proto_header SERVER_ENABLE_SEAT 0) h
  obtain ⟨f1, f2, _⟩ := syscall_tape_ok a2
  refine ⟨?_, ?_, ?_⟩ <;> unfold client_send_enable_seat <;> simp only <;>
    rw [if_neg (by omega), if_neg (by simp only [connection_flush]; omega)]
  · exact f2
  · simp only [connection_flush, syscall_client]
    exact a3

/-- C22: for an attached client and a socket that accepts the reply, DISABLE_SEAT from a
client that is not the seat's active client is answered with ERROR{EPERM}, and from the
active client in a state other than PENDING_DISABLE with ERROR{EBUSY}; in both cases the
handler returns 0 and only the outbound buffer of that client grows: its state, the seat
(with `active_client` and `next_client`) and every other client are unchanged. -/
theorem C22_disable_seat_rejected (w : World) (c : Nat) (hseat : (w.client c).seat = true)
    (htape : tape_ok w) :
    (w.seat.active_client ≠ some c →
      ∃ w1, handle_disable_seat w c = some (0, w1) ∧
        w1.client c = (w.client c).put (proto_header SERVER_ERROR 4 ++ le32 EPERM) ∧
        w1.seat = w.seat ∧ ∀ k, k ≠ c → w1.client k = w.client k) ∧
    (w.seat.active_client = some c → (w.client c).state ≠ CLIENT_PENDING_DISABLE →
      ∃ w1, handle_disable_seat w c = some (0, w1) ∧
        w1.client c = (w.client c).put (proto_header SERVER_ERROR 4 ++ le32 EBUSY) ∧
        w1.seat = w.seat ∧ ∀ k, k ≠ c → w1.client k = w.client k) := by
  constructor
  · intro hna
    have ht : tape_ok ({ w with errno := EPERM } : World) := htape
    obtain ⟨a1, _, a3, a4⟩ := client_send_error_ok c EPERM ht
    refine ⟨(client_send_error { w with errno := EPERM } c EPERM).2, ?_, a3, a4.1, a4.2.2.2.1⟩
    unfold handle_disable_seat
    rw [if_neg (by simp [hseat]), if_pos hna, ← a1]
  · intro ha hst
    have hack : seat_ack_disable_client w c = some (-1, { w with errno := EBUSY }) := by
      unfold seat_ack_disable_client
      rw [if_neg (by simp [hseat]), if_pos hst]
    have ht : tape_ok ({ w with errno := EBUSY } : World) := htape
    obtain ⟨a1, _, a3, a4⟩ := client_send_error_ok c EBUSY ht
    refine ⟨(client_send_error { w with errno := EBUSY } c EBUSY).2, ?_, a3, a4.1, a4.2.2.2.1⟩
    unfold handle_disable_seat
    rw [if_neg (by simp [hseat]), if_neg (by simp [ha]), hack]
    simp only [if_true]
    rw [← a1]

/-- C22 at client 1 of `world_two_clients`, attached while client 0 is the active client. -/
theorem C22_disable_seat_rejected_witness :
    (world_two_clients_request.client 1).seat = true ∧ tape_ok world_two_clients_request ∧
    world_two_clients_request.seat.active_client = some 0 ∧
    ((world_two_clients_request.seat.active_client ≠ some 1 →
      ∃ w1, handle_disable_seat world_two_clients_request 1 = some (0, w1) ∧
        w1.client 1 = (world_two_clients_request.client 1).put
          (proto_header SERVER_ERROR 4 ++ le32 EPERM) ∧
        w1.seat = world_two_clients_request.seat ∧
        ∀ k, k ≠ 1 → w1.client k = world_two_clients_request.client k) ∧
    (world_two_clients_request.seat.active_client = some 1 →
      (world_two_clients_request.client 1).state ≠ CLIENT_PENDING_DISABLE →
      ∃ w1, handle_disable_seat world_two_clients_request 1 = some (0, w1) ∧
        w1.client 1 = (world_two_clients_request.client 1).put
          (proto_header SERVER_ERROR 4 ++ le32 EBUSY) ∧
        w1.seat = world_two_clients_request.seat ∧
        ∀ k, k ≠ 1 → w1.client k = world_two_clients_request.client k)) :=
  ⟨by decide, by
      intro r hr
      have : world_two_clients_request.tape = [0, 0] := rfl
      rw [this] at hr
      simp at hr
      omega, by decide,
    C22_disable_seat_rejected world_two_clients_request 1 (by decide) (by
      intro r hr
      have : world_two_clients_request.tape = [0, 0] := rfl
      rw [this] at hr
      simp at hr
      omega)⟩

@[simp] theorem vt_ack_client (w : World) (b : Bool) : (vt_ack w b).2.client = w.client := by
  unfold vt_ack
  simp only
  split <;> simp [terminal_open, World.close]

theorem seat_update_vt_tape_ok {w : World} (h : tape_ok w) : tape_ok (seat_update_vt w) := by
  obtain ⟨a1, a2, _⟩ := syscall_tape_ok h
  obtain ⟨b1, b2, _⟩ := syscall_tape_ok a2
  unfold seat_update_vt
  simp only [terminal_open, terminal_current_vt]
  rw [if_neg (by omega)]
  exact tape_ok_of_tape rfl b2

theorem seat_deactivate_device_total {w : World} {d : seat_device} (hfd : 0 < d.fd) :
    ∃ r d1 w1, seat_deactivate_device w d = some (r, d1, w1) ∧
      (tape_ok w → tape_ok w1 ∧ d1.active = false) := by
  unfold seat_deactivate_device
  rw [if_neg (by simpa using hfd)]
  by_cases h2 : d.active = false
  · rw [if_pos h2]
    exact ⟨_, _, _, rfl, fun h => ⟨h, h2⟩⟩
  rw [if_neg h2]
  cases d.type with
  | SEAT_DEVICE_TYPE_DRM =>
    simp only [drm_drop_master]
    by_cases h3 : w.syscall.1 = -1
    · rw [if_pos h3]
      exact ⟨_, _, _, rfl, fun h => absurd h3 (by have := (syscall_tape_ok h).1; omega)⟩
    · rw [if_neg h3]
      exact ⟨_, _, _, rfl, fun h => ⟨(syscall_tape_ok h).2.1, rfl⟩⟩
  | SEAT_DEVICE_TYPE_EVDEV =>
    simp only [evdev_revoke]
    by_cases h3 : w.syscall.1 = -1
    · rw [if_pos h3]
      exact ⟨_, _, _, rfl, fun h => absurd h3 (by have := (syscall_tape_ok h).1; omega)⟩
    · rw [if_neg h3]
      exact ⟨_, _, _, rfl, fun h => ⟨(syscall_tape_ok h).2.1, rfl⟩⟩

theorem for_each_deactivate_total : ∀ (l : List seat_device) (w : World),
    (∀ d ∈ l, 0 < d.fd) →
    ∃ l1 w1, for_each_device seat_deactivate_device l w = some (l1, w1) ∧
      w1.client = w.client ∧ w1.seat = w.seat ∧
      (tape_ok w → tape_ok w1 ∧ ∀ d ∈ l1, d.active = false) := by
  intro l
  induction l with
  | nil =>
    intro w _
    exact ⟨[], w, rfl, rfl, rfl, fun h => ⟨h, fun d hd => by cases hd⟩⟩
  | cons d rest ih =>
    intro w hfd
    obtain ⟨r, d1, w1, h1, t1⟩ := seat_deactivate_device_total (w := w)
      (hfd d (List.mem_cons_self _ _))
    obtain ⟨hs1, _, hc1⟩ := seat_deactivate_device_client h1
    obtain ⟨l2, w2, h2, hc2, hs2, t2⟩ := ih w1 (fun x hx => hfd x (List.mem_cons_of_mem _ hx))
    refine ⟨d1 :: l2, w2, ?_, hc2.trans hc1, hs2.trans hs1, fun h => ?_⟩
    · unfold for_each_device
      rw [h1]
      simp only
      rw [h2]
    · obtain ⟨ta, da⟩ := t1 h
      obtain ⟨tb, db⟩ := t2 ta
      refine ⟨tb, fun x hx => ?_⟩
      rcases List.mem_cons.1 hx with rfl | hx
      · exact da
      · exact db x hx

/-- For an attached ACTIVE client whose device fds are positive `seat_disable_client`
returns; the client is then PENDING_DISABLE and the seat's active client, and when every call
succeeds the result is 0, DISABLE_SEAT has been appended to the client's outbound buffer and
every device is inactive. -/
theorem seat_disable_client_total {w : World} {a : Nat} (hseat : (w.client a).seat = true)
    (hst : (w.client a).state = CLIENT_ACTIVE) (hfd : ∀ d ∈ (w.client a).devices, 0 < d.fd) :
    ∃ r w1, seat_disable_client w a = some (r, w1) ∧
      (w1.client a).state = CLIENT_PENDING_DISABLE ∧ w1.seat.active_client = some a ∧
      (tape_ok w → r = 0 ∧ tape_ok w1 ∧
        (w1.client a).connection.outbuf
          = (w.client a).connection.outbuf ++ proto_header SERVER_DISABLE_SEAT 0 ∧
        ∀ d ∈ (w1.client a).devices, d.active = false) := by
  obtain ⟨l1, w2, hf, hc2, hs2, t2⟩ := for_each_deactivate_total (w.client a).devices
    ({ w with seat := { w.seat with active_client := some a } } : World) hfd
  have hact : (w2.setClient a { w2.client a with devices := l1, state := CLIENT_PENDING_DISABLE }).seat.active_client = some a := by
    rw [setClient_seat, hs2]
  have heq : seat_disable_client w a = some
      ((if (client_send_disable_seat (w2.setClient a { w2.client a with devices := l1, state := CLIENT_PENDING_DISABLE }) a).1 = -1 then -1 else 0),
       (client_send_disable_seat (w2.setClient a { w2.client a with devices := l1, state := CLIENT_PENDING_DISABLE }) a).2) := by
    unfold seat_disable_client
    rw [if_neg (by simp [hseat]), if_neg (by simp [hst])]
    simp only
    rw [hf]
    simp only
    rw [hact]
    simp only
    split_ifs <;> rfl
  refine ⟨_, _, heq, ?_, ?_, fun h => ?_⟩
  · have := congrFun (snap_client_send_disable_seat (w2.setClient a { w2.client a with devices := l1, state := CLIENT_PENDING_DISABLE }) a) a
    unfold snap at this
    simp only [Prod.mk.injEq] at this
    rw [this.1, setClient_client_same]
  · have := (core_eq_iff.1 (core_client_send_disable_seat (w2.setClient a { w2.client a with devices := l1, state := CLIENT_PENDING_DISABLE }) a)).1.2.2.2
    rw [this]
    exact hact
  · obtain ⟨tb, db⟩ := t2 h
    have t3 : tape_ok (w2.setClient a { w2.client a with devices := l1, state := CLIENT_PENDING_DISABLE }) := tb
    obtain ⟨s1, s2, s3⟩ := client_send_disable_seat_ok a t3
    refine ⟨by rw [if_neg (by omega)], s2, ?_, ?_⟩
    · rw [s3, setClient_client_same, hc2]
      rfl
    · rw [s3, setClient_client_same]
      exact db

/-- C30: on a seat that is not VT-bound `seat_vt_release` and `seat_vt_activate` return -1
and change nothing. On a VT-bound seat `seat_vt_release`, whenever it returns, returns 0 with
`cur_vt = -1`; it returns when there is no active client, and when the active client is
attached and ACTIVE (its device fds being positive): that client is then PENDING_DISABLE,
`active_client` still refers to it, and when the socket and the kernel calls succeed
DISABLE_SEAT has been appended to its outbound buffer. -/
theorem C30_vt_release_and_activate (w : World) :
    (w.seat.vt_bound = false →
      seat_vt_release w = some (-1, w) ∧ seat_vt_activate w = some (-1, w)) ∧
    (w.seat.vt_bound = true →
      (∀ r w1, seat_vt_release w = some (r, w1) → r = 0 ∧ w1.seat.cur_vt = -1) ∧
      (w.seat.active_client = none →
        ∃ w1, seat_vt_release w = some (0, w1) ∧ w1.seat.active_client = none) ∧
      (∀ a, w.seat.active_client = some a → (w.client a).seat = true →
        (w.client a).state = CLIENT_ACTIVE → (∀ d ∈ (w.client a).devices, 0 < d.fd) →
        ∃ w1, seat_vt_release w = some (0, w1) ∧ w1.seat.cur_vt = -1 ∧
          (w1.client a).state = CLIENT_PENDING_DISABLE ∧ w1.seat.active_client = some a ∧
          (tape_ok w → (w1.client a).connection.outbuf
            = (w.client a).connection.outbuf ++ proto_header SERVER_DISABLE_SEAT 0))) := by
  have hact : (seat_update_vt w).seat.active_client = w.seat.active_client :=
    (core_eq_iff.1 (core_seat_update_vt w)).1.2.2.2
  refine ⟨fun hvt => ?_, fun hvt => ⟨?_, ?_, ?_⟩⟩
  · constructor
    · unfold seat_vt_release
      rw [if_pos hvt]
    · unfold seat_vt_activate
      rw [if_pos hvt]
  · intro r w1 h
    unfold seat_vt_release at h
    rw [if_neg (by simp [hvt])] at h
    simp only at h
    generalize hd : (match (seat_update_vt w).seat.active_client with
        | some a => seat_disable_client (seat_update_vt w) a
        | none => some (0, seat_update_vt w)) = od at h
    rcases od with _ | ⟨r2, wb⟩
    · cases h
    simp only [Option.some.injEq, Prod.mk.injEq] at h
    obtain ⟨rfl, rfl⟩ := h
    exact ⟨rfl, rfl⟩
  · intro hnone
    refine ⟨{ (vt_ack (seat_update_vt w) true).2 with
      seat := { (vt_ack (seat_update_vt w) true).2.seat with cur_vt := -1 } }, ?_, ?_⟩
    · unfold seat_vt_release
      rw [if_neg (by simp [hvt])]
      simp only
      rw [hact, hnone]
    · show (vt_ack (seat_update_vt w) true).2.seat.active_client = none
      rw [(core_eq_iff.1 (core_vt_ack (seat_update_vt w) true)).1.2.2.2, hact, hnone]
  · intro a ha hseat hst hfd
    have hc : (seat_update_vt w).client = w.client := seat_update_vt_client w
    obtain ⟨r, wb, hdis, hpd, hac, htp⟩ := seat_disable_client_total (w := seat_update_vt w)
      (a := a) (by rw [hc]; exact hseat) (by rw [hc]; exact hst) (by rw [hc]; exact hfd)
    refine ⟨{ (vt_ack wb true).2 with seat := { (vt_ack wb true).2.seat with cur_vt := -1 } },
      ?_, rfl, ?_, ?_, fun ht => ?_⟩
    · unfold seat_vt_release
      rw [if_neg (by simp [hvt])]
      simp only
      rw [hact, ha]
      simp only
      rw [hdis]
    · show ((vt_ack wb true).2.client a).state = _
      rw [vt_ack_client]
      exact hpd
    · show (vt_ack wb true).2.seat.active_client = some a
      rw [(core_eq_iff.1 (core_vt_ack wb true)).1.2.2.2]
      exact hac
    · show ((vt_ack wb true).2.client a).connection.outbuf = _
      rw [vt_ack_client, (htp (seat_update_vt_tape_ok ht)).2.2.1, hc]

/-- C30 at the ACTIVE client of the VT-bound seat `world_vt_active`, every call
succeeding. -/
theorem C30_vt_release_and_activate_witness :
    (world_vt_active.withEnv [3, 1, 0, 0, 5] example_platform).seat.vt_bound = true ∧
    ∃ w1, seat_vt_release (world_vt_active.withEnv [3, 1, 0, 0, 5] example_platform)
        = some (0, w1) ∧ w1.seat.cur_vt = -1 ∧
      (w1.client 0).state = CLIENT_PENDING_DISABLE ∧ w1.seat.active_client = some 0 ∧
      (w1.client 0).connection.outbuf
        = ((world_vt_active.withEnv [3, 1, 0, 0, 5] example_platform).client 0).connection.outbuf
          ++ proto_header SERVER_DISABLE_SEAT 0 :=
  ⟨by decide,
    match ((C30_vt_release_and_activate
        (world_vt_active.withEnv [3, 1, 0, 0, 5] example_platform)).2 (by decide)).2.2 0
        (by decide) (by decide) (by decide) (by decide) with
    | ⟨w1, h1, h2, h3, h4, h5⟩ => ⟨w1, h1, h2, h3, h4, h5 (by
        intro r hr
        have e : (world_vt_active.withEnv [3, 1, 0, 0, 5] example_platform).tape
            = [3, 1, 0, 0, 5] := rfl
        rw [e] at hr
        simp at hr
        omega)⟩⟩

/-- C33: in every reachable state a client whose state is ACTIVE is the seat's active
client; hence the guards of `assert(seat->active_client == client)` in `seat_open_device` and
`seat_set_next_session` do not fire, and the assignment written in the assert of
`seat_disable_client` leaves the state as it is. -/
theorem C33_active_client_is_seat_active (w : World) (h : Reachable w) (c : Nat)
    (hst : (w.client c).state = CLIENT_ACTIVE) :
    w.seat.active_client = some c ∧ ¬ (w.seat.active_client ≠ some c) ∧
      ({ w with seat := { w.seat with active_client := some c } } : World) = w := by
  have hac : w.seat.active_client = some c := (reachable_view_ok h) c hst
  refine ⟨hac, by simp [hac], ?_⟩
  obtain ⟨s, cl, e, t, cd, pf⟩ := w
  obtain ⟨a1, a2, a3, a4, a5, a6, a7, a8⟩ := s
  simp only at hac
  subst hac
  rfl

/-- C33 at the ACTIVE client of `world_one_active`. -/
theorem C33_active_client_is_seat_active_witness :
    Reachable world_one_active ∧ (world_one_active.client 0).state = CLIENT_ACTIVE ∧
    (world_one_active.seat.active_client = some 0 ∧
      ¬ (world_one_active.seat.active_client ≠ some 0) ∧
      ({ world_one_active with
          seat := { world_one_active.seat with active_client := some 0 } } : World)
        = world_one_active) :=
  ⟨world_one_active_reachable, by decide,
    C33_active_client_is_seat_active world_one_active world_one_active_reachable 0 (by decide)⟩

/-- C34: for an attached client whose state is not ACTIVE and a non-empty path,
`seat_open_device` returns NULL with errno EPERM and changes nothing else: no path is
resolved, no kernel call is made and the ledger is untouched. The OPEN_DEVICE handler then,
the socket accepting the reply, returns 0 having appended exactly ERROR{EPERM} to the client's
outbound buffer: the fd queue, the ledger and the state of the client, the seat and every
other client are unchanged. -/
theorem C34_inactive_client_gets_no_device (w : World) (c : Nat) (buf path : List Nat)
    (hseat : (w.client c).seat = true) (hst : (w.client c).state ≠ CLIENT_ACTIVE)
    (hbuf : c_string buf = some path) (hpath : path ≠ []) (htape : tape_ok w) :
    seat_open_device w c path = some (none, { w with errno := EPERM }) ∧
    ∃ w1, handle_open_device w c buf = some (0, w1) ∧
      w1.client c = (w.client c).put (proto_header SERVER_ERROR 4 ++ le32 EPERM) ∧
      (w1.client c).connection.out_fds = (w.client c).connection.out_fds ∧
      (w1.client c).devices = (w.client c).devices ∧
      w1.seat = w.seat ∧ w1.closed = w.closed ∧ ∀ k, k ≠ c → w1.client k = w.client k := by
  have hopen : seat_open_device w c path = some (none, { w with errno := EPERM }) := by
    unfold seat_open_device
    rw [if_neg (by simp [hseat]), if_neg (by simpa using hpath), if_pos hst]
  have ht : tape_ok ({ w with errno := EPERM } : World) := htape
  obtain ⟨a1, _, a3, a4⟩ := client_send_error_ok c EPERM ht
  refine ⟨hopen, (client_send_error { w with errno := EPERM } c EPERM).2, ?_, a3, ?_, ?_,
    a4.1, a4.2.2.1, a4.2.2.2.1⟩
  · unfold handle_open_device
    rw [if_neg (by simp [hseat]), hbuf]
    simp only
    rw [hopen]
    simp only
    rw [← a1]
  · rw [a3]; rfl
  · rw [a3]; rfl

/-- C34 at the PENDING_DISABLE client of `world_vt_pending` asking for "/dev/dri/card0". -/
theorem C34_inactive_client_gets_no_device_witness :
    (world_pending_request.client 0).seat = true ∧
    (world_pending_request.client 0).state = CLIENT_PENDING_DISABLE ∧
    seat_open_device world_pending_request 0 dri_card0
      = some (none, { world_pending_request with errno := EPERM }) ∧
    ∃ w1, handle_open_device world_pending_request 0 (dri_card0 ++ [0]) = some (0, w1) ∧
      w1.client 0 = (world_pending_request.client 0).put
        (proto_header SERVER_ERROR 4 ++ le32 EPERM) ∧
      (w1.client 0).connection.out_fds = (world_pending_request.client 0).connection.out_fds ∧
      (w1.client 0).devices = (world_pending_request.client 0).devices ∧
      w1.seat = world_pending_request.seat ∧ w1.closed = world_pending_request.closed ∧
      ∀ k, k ≠ 0 → w1.client k = world_pending_request.client k :=
  ⟨by decide, by decide,
    C34_inactive_client_gets_no_device world_pending_request 0 (dri_card0 ++ [0]) dri_card0
      (by decide) (by decide) (by decide) (by decide) (by
        intro r hr
        have e : world_pending_request.tape = [0, 0] := rfl
        rw [e] at hr
        simp at hr
        omega)⟩

/-- C31, the code at the failing inputs: `client_handle_opcode` never looks for a NUL among
the received path bytes. With the array `path` holding zeros on entry, OPEN_DEVICE with
path_len = 0 reaches `seat_open_device` with the empty string and the server aborts in
`assert(strlen(path) > 0)`; OPEN_DEVICE with path_len = 14 and the bytes "/dev/dri/card0"
without NUL is not rejected: the string is completed by the bytes that follow in the array,
the device is opened and DEVICE_OPENED{1} is sent with an fd. -/
theorem C31_path_not_checked_for_nul :
    (client_handle_opcode (world_open_request [0, 0]) 0 CLIENT_OPEN_DEVICE 2).isNone = true ∧
    (client_handle_opcode (world_open_request ([14, 0] ++ dri_card0)) 0 CLIENT_OPEN_DEVICE 16).map
        (fun r => (r.1, (r.2.client 0).connection.outbuf, (r.2.client 0).connection.out_fds,
          (r.2.client 0).devices.map (fun d => (d.device_id, d.path))))
      = some (0, proto_header SERVER_ENABLE_SEAT 0 ++ proto_header SERVER_DEVICE_OPENED 4
          ++ le32 1, [6], [(1, dri_card0)]) := by
  refine ⟨by decide, by decide⟩

theorem vt_open_ok {w : World} {vt : Int} (hvt : vt ≠ -1) (h : tape_ok w) :
    ∃ w1, vt_open w vt = some (0, w1) ∧ w1.client = w.client ∧ tape_ok w1 ∧
      w1.seat.active_client = w.seat.active_client ∧ w1.seat.vt_bound = w.seat.vt_bound := by
  have hc : tape_ok (if w.seat.cur_ttyfd ≠ -1 then w.close w.seat.cur_ttyfd else w) := by
    split_ifs
    · exact h
    · exact h
  obtain ⟨a1, a2, _⟩ := syscall_tape_ok hc
  unfold vt_open
  rw [if_neg hvt]
  simp only [terminal_open]
  rw [if_neg (by omega)]
  refine ⟨_, rfl, ?_, tape_ok_of_tape rfl a2, ?_, ?_⟩
  · show (World.syscall _).2.client = _
    rw [syscall_client]
    split_ifs <;> rfl
  · show (World.syscall _).2.seat.active_client = _
    rw [syscall_seat]
    split_ifs <;> rfl
  · show (World.syscall _).2.seat.vt_bound = _
    rw [syscall_seat]
    split_ifs <;> rfl

theorem seat_activate_device_inactive {w : World} {c : Nat} {d : seat_device}
    (hseat : (w.client c).seat = true) (hfd : 0 < d.fd) (hin : d.active = false) :
    ∃ r w1, seat_activate_device w c d = some (r, reactivated d, w1) ∧ w1.client = w.client ∧
      w1.seat = w.seat ∧ (tape_ok w → tape_ok w1) ∧
      (d.type = SEAT_DEVICE_TYPE_EVDEV → r = -1 ∧ w1 = { w with errno := EINVAL }) := by
  unfold seat_activate_device reactivated
  rw [if_neg (by simp [hseat]), if_neg (by simpa using hfd), if_neg (by simp [hin])]
  cases d.type with
  | SEAT_DEVICE_TYPE_DRM =>
    refine ⟨_, _, rfl, ?_, ?_, fun h => ?_, fun e => by cases e⟩
    · simp [drm_set_master]
    · simp [drm_set_master]
    · exact (syscall_tape_ok h).2.1
  | SEAT_DEVICE_TYPE_EVDEV =>
    exact ⟨_, _, rfl, rfl, rfl, fun h => h, fun _ => ⟨rfl, rfl⟩⟩

theorem for_each_activate_total (c : Nat) : ∀ (l : List seat_device) (w : World),
    (w.client c).seat = true → (∀ d ∈ l, 0 < d.fd) → (∀ d ∈ l, d.active = false) →
    ∃ w1, for_each_device (fun w d => seat_activate_device w c d) l w
        = some (l.map reactivated, w1) ∧
      w1.client = w.client ∧ w1.seat = w.seat ∧ (tape_ok w → tape_ok w1) := by
  intro l
  induction l with
  | nil =>
    intro w _ _ _
    exact ⟨w, rfl, rfl, rfl, fun h => h⟩
  | cons d rest ih =>
    intro w hseat hfd hin
    obtain ⟨r, w1, h1, hc1, hs1, t1, _⟩ := seat_activate_device_inactive (w := w) (c := c)
      (d := d) hseat (hfd d (List.mem_cons_self _ _)) (hin d (List.mem_cons_self _ _))
    obtain ⟨w2, h2, hc2, hs2, t2⟩ := ih w1 (by rw [hc1]; exact hseat)
      (fun x hx => hfd x (List.mem_cons_of_mem _ hx))
      (fun x hx => hin x (List.mem_cons_of_mem _ hx))
    refine ⟨w2, ?_, hc2.trans hc1, hs2.trans hs1, fun h => t2 (t1 h)⟩
    unfold for_each_device
    rw [h1]
    simp only
    rw [h2]
    rfl

theorem reactivated_flags (d : seat_device) (hin : d.active = false) :
    (d.type = SEAT_DEVICE_TYPE_DRM → (reactivated d).active = true) ∧
    (d.type = SEAT_DEVICE_TYPE_EVDEV → (reactivated d).active = false) ∧
    (reactivated d).type = d.type := by
  unfold reactivated
  cases h : d.type with
  | SEAT_DEVICE_TYPE_DRM => exact ⟨fun _ => rfl, (fun e => by cases e), rfl⟩
  | SEAT_DEVICE_TYPE_EVDEV => exact ⟨(fun e => by cases e), fun _ => hin, h⟩

/-- C29: when `seat_open_client` re-enables an attached DISABLED client whose ledger holds
inactive devices (with positive fds), the seat having no active client and every kernel and
socket call succeeding, it returns 0; every DRM device of the ledger is active again, every
EVDEV device is still inactive (`seat_activate_device` returns -1 with EINVAL for it), and the
client is ACTIVE, is the seat's active client and has ENABLE_SEAT appended to its outbound
buffer. -/
theorem C29_reenable_disabled_client (w : World) (c : Nat)
    (hseat : (w.client c).seat = true) (hst : (w.client c).state = CLIENT_DISABLED)
    (hact : w.seat.active_client = none) (hfd : ∀ d ∈ (w.client c).devices, 0 < d.fd)
    (hin : ∀ d ∈ (w.client c).devices, d.active = false)
    (hsess : w.seat.vt_bound = true → (w.client c).session ≠ -1) (htape : tape_ok w) :
    (∃ w1, seat_open_client w c = some (0, w1) ∧
      (w1.client c).devices = (w.client c).devices.map reactivated ∧
      (∀ d ∈ (w1.client c).devices,
        (d.type = SEAT_DEVICE_TYPE_DRM → d.active = true) ∧
        (d.type = SEAT_DEVICE_TYPE_EVDEV → d.active = false)) ∧
      (w1.client c).state = CLIENT_ACTIVE ∧ w1.seat.active_client = some c ∧
      (w1.client c).connection.outbuf
        = (w.client c).connection.outbuf ++ proto_header SERVER_ENABLE_SEAT 0) ∧
    (∀ d ∈ (w.client c).devices, d.type = SEAT_DEVICE_TYPE_EVDEV →
      seat_activate_device w c d = some (-1, d, { w with errno := EINVAL })) := by
  constructor
  · have hvt : ∃ w0, (if w.seat.vt_bound = true then vt_open w (w.client c).session
        else some (0, w)) = some (0, w0) ∧ w0.client = w.client ∧ tape_ok w0 := by
      by_cases hb : w.seat.vt_bound = true
      · rw [if_pos hb]
        obtain ⟨w0, h0, h1, h2, _⟩ := vt_open_ok (hsess hb) htape
        exact ⟨w0, h0, h1, h2⟩
      · rw [if_neg hb]
        exact ⟨w, rfl, rfl, htape⟩
    obtain ⟨w0, hw0, hc0, ht0⟩ := hvt
    obtain ⟨w2, hf, hc2, _, t2⟩ := for_each_activate_total c (w0.client c).devices w0
      (by rw [hc0]; exact hseat) (by rw [hc0]; exact hfd) (by rw [hc0]; exact hin)
    obtain ⟨w3, hw3⟩ : ∃ w3 : World, w3 = ({ w2 with seat := { w2.seat with active_client := some c } } : World).setClient c { w2.client c with devices := (w0.client c).devices.map reactivated, state := CLIENT_ACTIVE } := ⟨_, rfl⟩
    have t3 : tape_ok w3 := by rw [hw3]; exact t2 ht0
    obtain ⟨s1, _, s3⟩ := client_send_enable_seat_ok c t3
    have hc3 : w3.client c = { w2.client c with devices := (w0.client c).devices.map reactivated, state := CLIENT_ACTIVE } := by
      rw [hw3, setClient_client_same]
    have heq : seat_open_client w c = some (0, (client_send_enable_seat w3 c).2) := by
      unfold seat_open_client
      rw [if_neg (by simp [hst]), if_neg (by simp [hact]), hw0]
      simp only
      rw [if_neg (by decide), hf]
      simp only
      rw [← hw3, if_neg (by omega)]
    refine ⟨_, heq, ?_, ?_, ?_, ?_, ?_⟩
    · rw [s3, hc3, hc0]; rfl
    · rw [s3, hc3, hc0]
      intro d hd
      obtain ⟨x, hx, rfl⟩ := List.mem_map.1 hd
      obtain ⟨f1, f2, f3⟩ := reactivated_flags x (hin x hx)
      exact ⟨fun e => f1 (f3 ▸ e), fun e => f2 (f3 ▸ e)⟩
    · rw [s3, hc3]; rfl
    · rw [(core_eq_iff.1 (core_client_send_enable_seat w3 c)).1.2.2.2, hw3]
      rfl
    · rw [s3, hc3, hc2, hc0]; rfl
  · intro d hd ht
    unfold seat_activate_device
    rw [if_neg (by simp [hseat]), if_neg (by simpa using hfd d hd),
      if_neg (by simp [hin d hd]), ht]

/-- C29 at the DISABLED client of `world_two_devices_disabled`, which holds an inactive EVDEV
device and an inactive DRM device. -/
theorem C29_reenable_disabled_client_witness :
    (world_reenable_request.client 0).state = CLIENT_DISABLED ∧
    (world_reenable_request.client 0).devices.map (fun d => (d.type, d.active))
      = [(SEAT_DEVICE_TYPE_EVDEV, false), (SEAT_DEVICE_TYPE_DRM, false)] ∧
    ((∃ w1, seat_open_client world_reenable_request 0 = some (0, w1) ∧
      (w1.client 0).devices = (world_reenable_request.client 0).devices.map reactivated ∧
      (∀ d ∈ (w1.client 0).devices,
        (d.type = SEAT_DEVICE_TYPE_DRM → d.active = true) ∧
        (d.type = SEAT_DEVICE_TYPE_EVDEV → d.active = false)) ∧
      (w1.client 0).state = CLIENT_ACTIVE ∧ w1.seat.active_client = some 0 ∧
      (w1.client 0).connection.outbuf
        = (world_reenable_request.client 0).connection.outbuf
          ++ proto_header SERVER_ENABLE_SEAT 0) ∧
    (∀ d ∈ (world_reenable_request.client 0).devices, d.type = SEAT_DEVICE_TYPE_EVDEV →
      seat_activate_device world_reenable_request 0 d
        = some (-1, d, { world_reenable_request with errno := EINVAL }))) :=
  ⟨by decide, by decide,
    C29_reenable_disabled_client world_reenable_request 0 (by decide) (by decide) (by decide)
      (by decide) (by decide) (by decide) (by
        intro r hr
        have e : world_reenable_request.tape = [4, 0, 0, 0] := rfl
        rw [e] at hr
        simp at hr
        omega)⟩

/-- C16, the code at the failing inputs: the loop of `dispatch` runs only while
`dispatch_pending` parsed no header at all. (1) With an ENABLE_SEAT notification in the
inbound buffer and the awaited reply still on the socket, `dispatch` returns 0 without
polling or reading: the notification is queued, no byte is pending and the reply is still
unread on the socket; `open_device` then fails with EAGAIN. (2) With only the header and two
of the four payload bytes of DEVICE_OPENED in the buffer, `dispatch` returns 0 as well, the
rest of the reply still unread on the socket. -/
theorem C16_dispatch_returns_early :
    (libseat.dispatch 10 (libseat.example_proc (proto_header SERVER_ENABLE_SEAT 0)
        [proto_header SERVER_DEVICE_OPENED 4 ++ le32 1] [])).map
        (fun r => (r.1, r.2.backend.pending_events, libseat.connection_pending r.2, r.2.socket))
      = some (0, [SERVER_ENABLE_SEAT], 0, [proto_header SERVER_DEVICE_OPENED 4 ++ le32 1]) ∧
    (libseat.open_device 10 (libseat.example_proc (proto_header SERVER_ENABLE_SEAT 0)
        [proto_header SERVER_DEVICE_OPENED 4 ++ le32 1] []) dri_card0).map
        (fun r => (r.1, r.2.1, r.2.2.errno, r.2.2.socket))
      = some (-1, none, EAGAIN, [proto_header SERVER_DEVICE_OPENED 4 ++ le32 1]) ∧
    (libseat.dispatch 10 (libseat.example_proc (proto_header SERVER_DEVICE_OPENED 4 ++ [1, 0])
        [[0, 0]] [])).map
        (fun r => (r.1, libseat.connection_pending r.2, r.2.socket))
      = some (0, 6, [[0, 0]]) := by
  refine ⟨by decide, by decide, by decide⟩

theorem quiet_refl (p : libseat.Proc) : libseat.Quiet p p := ⟨rfl, rfl⟩

theorem quiet_trans {p p1 p2 : libseat.Proc} (h1 : libseat.Quiet p p1)
    (h2 : libseat.Quiet p1 p2) : libseat.Quiet p p2 :=
  ⟨h2.1.trans h1.1, h2.2.trans h1.2⟩

theorem quiet_syscall (p : libseat.Proc) : libseat.Quiet p p.syscall.2 := by
  unfold libseat.Proc.syscall
  split
  · exact quiet_refl p
  · split <;> exact ⟨rfl, rfl⟩

theorem quiet_connection_get (p : libseat.Proc) (n : Nat) :
    libseat.Quiet p (libseat.connection_get p n).2 := by
  unfold libseat.connection_get
  split_ifs <;> exact ⟨rfl, rfl⟩

theorem quiet_connection_restore (p : libseat.Proc) (n : Nat) :
    libseat.Quiet p (libseat.connection_restore p n) := ⟨rfl, rfl⟩

theorem quiet_connection_read (p : libseat.Proc) :
    libseat.Quiet p (libseat.connection_read p).2 := by
  unfold libseat.connection_read
  split
  · exact ⟨rfl, rfl⟩
  · split_ifs <;> exact ⟨rfl, rfl⟩

theorem quiet_connection_get_fd (p : libseat.Proc) :
    libseat.Quiet p (libseat.connection_get_fd p).2 := by
  unfold libseat.connection_get_fd
  split <;> exact ⟨rfl, rfl⟩

theorem quiet_connection_flush (p : libseat.Proc) :
    libseat.Quiet p (libseat.connection_flush p).2 := quiet_syscall p

theorem quiet_queue_event (p : libseat.Proc) (opcode : Nat) :
    libseat.Quiet p (libseat.queue_event p opcode).2 := by
  unfold libseat.queue_event
  simp only
  split_ifs
  · exact quiet_syscall p
  · exact quiet_trans (quiet_syscall p) ⟨rfl, rfl⟩

theorem quiet_read_header (p : libseat.Proc) (e : Nat) :
    libseat.Quiet p (libseat.read_header p e).2 := by
  unfold libseat.read_header
  have hg := quiet_connection_get p 4
  rcases hx : libseat.connection_get p 4 with ⟨_ | header, p1⟩
  · rw [hx] at hg; exact hg
  · rw [hx] at hg
    simp only
    split_ifs
    · exact quiet_trans hg ⟨rfl, rfl⟩
    · exact hg

theorem quiet_check_error (p : libseat.Proc) : libseat.Quiet p (libseat.check_error p) := by
  unfold libseat.check_error
  have hg := quiet_connection_get p 4
  rcases hx : libseat.connection_get p 4 with ⟨_ | header, p1⟩
  · rw [hx] at hg; exact hg
  · rw [hx] at hg
    simp only
    split_ifs
    · exact quiet_trans hg ⟨rfl, rfl⟩
    · have hg2 := quiet_connection_get p1 4
      rcases hy : libseat.connection_get p1 4 with ⟨_ | msg, p2⟩
      · rw [hy] at hg2; exact quiet_trans hg hg2
      · rw [hy] at hg2; exact quiet_trans hg (quiet_trans hg2 ⟨rfl, rfl⟩)

theorem quiet_destroy (p : libseat.Proc) : libseat.Quiet p (libseat.destroy p) := ⟨rfl, rfl⟩

theorem quiet_dispatch_pending_loop : ∀ (fuel : Nat) (p : libseat.Proc) (b : Bool)
    (packets : Int) (opcode : Nat),
    libseat.Quiet p (libseat.dispatch_pending_loop fuel p b packets opcode).2.2 := by
  intro fuel
  induction fuel with
  | zero => intro p b packets opcode; exact quiet_refl p
  | succ n ih =>
    intro p b packets opcode
    unfold libseat.dispatch_pending_loop
    have hg := quiet_connection_get p 4
    rcases hx : libseat.connection_get p 4 with ⟨_ | header, p1⟩
    · rw [hx] at hg; exact hg
    · rw [hx] at hg
      simp only
      split_ifs
      · exact quiet_trans hg (quiet_trans (quiet_queue_event p1 _) (ih _ _ _ _))
      all_goals exact quiet_trans hg (quiet_connection_restore p1 4)

theorem quiet_dispatch_pending (p : libseat.Proc) (b : Bool) (opcode : Nat) :
    libseat.Quiet p (libseat.dispatch_pending p b opcode).2.2 :=
  quiet_dispatch_pending_loop _ p b 0 opcode

theorem quiet_poll_connection (p : libseat.Proc) (t : Int) :
    libseat.Quiet p (libseat.poll_connection p t).2 := by
  unfold libseat.poll_connection
  simp only
  split_ifs <;> first
    | exact quiet_syscall p
    | exact quiet_trans (quiet_syscall p) ⟨rfl, rfl⟩
    | exact quiet_trans (quiet_syscall p) (quiet_connection_read _)

theorem quiet_dispatch_loop : ∀ (fuel : Nat) (p : libseat.Proc) (opcode : Nat) (r : Int)
    (p1 : libseat.Proc), libseat.dispatch_loop fuel p opcode = some (r, p1) →
    libseat.Quiet p p1 := by
  intro fuel
  induction fuel with
  | zero => intro p opcode r p1 h; cases h
  | succ n ih =>
    intro p opcode r p1 h
    unfold libseat.dispatch_loop at h
    simp only at h
    have hd := quiet_dispatch_pending p true opcode
    split_ifs at h
    · simp only [Option.some.injEq, Prod.mk.injEq] at h
      obtain ⟨_, rfl⟩ := h
      exact quiet_trans hd (quiet_poll_connection _ _)
    · exact quiet_trans hd (quiet_trans (quiet_poll_connection _ _) (ih _ _ _ _ h))
    · simp only [Option.some.injEq, Prod.mk.injEq] at h
      obtain ⟨_, rfl⟩ := h
      exact hd

theorem quiet_dispatch {fuel : Nat} {p p1 : libseat.Proc} {r : Int}
    (h : libseat.dispatch fuel p = some (r, p1)) : libseat.Quiet p p1 := by
  unfold libseat.dispatch at h
  simp only at h
  split_ifs at h
  · simp only [Option.some.injEq, Prod.mk.injEq] at h
    obtain ⟨_, rfl⟩ := h
    exact quiet_connection_flush p
  · exact quiet_trans (quiet_connection_flush p) (quiet_dispatch_loop _ _ _ _ _ h)

theorem connection_put_calls (p : libseat.Proc) (b : List Nat) :
    (libseat.connection_put p b).2.calls = p.calls ∧
    ((libseat.connection_put p b).1 = -1 ∨
      (libseat.connection_put p b).2.backend.connection.outbuf
        = p.backend.connection.outbuf ++ b) := by
  have hs := quiet_syscall p
  unfold libseat.connection_put
  simp only
  split_ifs
  · exact ⟨hs.1, Or.inl rfl⟩
  · refine ⟨hs.1, Or.inr ?_⟩
    show p.syscall.2.backend.connection.outbuf ++ b = _
    rw [hs.2]

theorem rd16_le16 (n : Nat) (h : n < 65536) : rd16 (le16 n) = n := by
  unfold rd16 le16
  simp only [List.getD_cons_zero, List.getD_cons_succ]
  omega

theorem takeWhile_c_string (path rest : List Nat) (h : ∀ b ∈ path, b ≠ 0) :
    (path ++ 0 :: rest).takeWhile (fun b => b ≠ 0) = path := by
  induction path with
  | nil => simp
  | cons x xs ih =>
    have hx : x ≠ 0 := h x (List.mem_cons_self _ _)
    simp only [List.cons_append, List.takeWhile_cons, hx, ne_eq, not_false_eq_true,
      decide_True, if_true]
    rw [ih (fun b hb => h b (List.mem_cons_of_mem _ hb))]

theorem c_string_of_path (path tail : List Nat) (h : ∀ b ∈ path, b ≠ 0)
    (hlen : path.length + 1 ≤ MAX_PATH_LEN) :
    c_string ((path ++ [0] ++ tail).take MAX_PATH_LEN) = some path := by
  have e : (path ++ [0] ++ tail).take MAX_PATH_LEN
      = path ++ 0 :: tail.take (MAX_PATH_LEN - (path.length + 1)) := by
    rw [List.take_append_eq_append_take]
    have h1 : (path ++ [0]).take MAX_PATH_LEN = path ++ [0] :=
      List.take_of_length_le (by simp; omega)
    rw [h1]
    simp
  rw [e]
  unfold c_string
  rw [if_pos (by simp), takeWhile_c_string _ _ h]

theorem libseat_syscall_ok {p : libseat.Proc} (h : libseat.tape_ok p) :
    0 ≤ p.syscall.1 ∧ libseat.tape_ok p.syscall.2 := by
  obtain ⟨b, cs, so, fs, tape, e⟩ := p
  cases tape with
  | nil => exact ⟨le_refl _, h⟩
  | cons r rest =>
    have hr : 0 ≤ r := h r (List.mem_cons_self _ _)
    simp only [libseat.Proc.syscall]
    rw [if_neg (by omega)]
    exact ⟨hr, fun x hx => h x (List.mem_cons_of_mem _ hx)⟩

theorem libseat_connection_put_ok {p : libseat.Proc} (b : List Nat) (h : libseat.tape_ok p) :
    (libseat.connection_put p b).1 = 0 ∧ libseat.tape_ok (libseat.connection_put p b).2 ∧
      (libseat.connection_put p b).2.backend.connection.outbuf
        = p.backend.connection.outbuf ++ b := by
  obtain ⟨h1, h2⟩ := libseat_syscall_ok h
  have hq := quiet_syscall p
  refine ⟨?_, ?_, ?_⟩ <;> unfold libseat.connection_put <;> simp only <;>
    rw [if_neg (by omega)]
  · exact h2
  · show p.syscall.2.backend.connection.outbuf ++ b = _
    rw [hq.2]

/-- Whenever `open_device` returns for a path that fits, having been able to put its three
parts on the connection, the outbound buffer has grown by exactly the request and no callback
has run. -/
theorem open_device_sends {fuel : Nat} {p : libseat.Proc} {path : List Nat}
    {r : Int × Option Int × libseat.Proc} (hlen : path.length + 1 ≤ MAX_PATH_LEN)
    (ht : libseat.tape_ok p) (h : libseat.open_device fuel p path = some r) :
    r.2.2.backend.connection.outbuf
      = p.backend.connection.outbuf ++ libseat.open_device_request path ∧
    r.2.2.calls = p.calls := by
  obtain ⟨a1, a2, a3⟩ := libseat_connection_put_ok
    (proto_header CLIENT_OPEN_DEVICE (2 + (path.length + 1))) ht
  obtain ⟨b1, b2, b3⟩ := libseat_connection_put_ok (le16 (path.length + 1)) a2
  obtain ⟨c1, c2, c3⟩ := libseat_connection_put_ok (path ++ [0]) b2
  have ca := (connection_put_calls p (proto_header CLIENT_OPEN_DEVICE (2 + (path.length + 1)))).1
  have cb := (connection_put_calls (libseat.connection_put p
    (proto_header CLIENT_OPEN_DEVICE (2 + (path.length + 1)))).2 (le16 (path.length + 1))).1
  have cc := (connection_put_calls (libseat.connection_put (libseat.connection_put p
    (proto_header CLIENT_OPEN_DEVICE (2 + (path.length + 1)))).2 (le16 (path.length + 1))).2
    (path ++ [0])).1
  generalize hs : (libseat.connection_put (libseat.connection_put (libseat.connection_put p
    (proto_header CLIENT_OPEN_DEVICE (2 + (path.length + 1)))).2 (le16 (path.length + 1))).2
    (path ++ [0])).2 = ps at c3 cc
  have hout : ps.backend.connection.outbuf
      = p.backend.connection.outbuf ++ libseat.open_device_request path := by
    rw [c3, b3, a3]
    simp [libseat.open_device_request, List.append_assoc]
  have hcalls : ps.calls = p.calls := cc.trans (cb.trans ca)
  have key : ∀ q : libseat.Proc, libseat.Quiet ps q →
      q.backend.connection.outbuf
        = p.backend.connection.outbuf ++ libseat.open_device_request path ∧
      q.calls = p.calls := fun q hq => ⟨hq.2.trans hout, hq.1.trans hcalls⟩
  unfold libseat.open_device at h
  rw [if_neg (by omega)] at h
  simp only at h
  rw [if_neg (by omega), if_neg (by omega), if_neg (by omega), hs] at h
  generalize hd : libseat.dispatch fuel ps = od at h
  rcases od with _ | ⟨d, p1⟩
  · cases h
  have q1 := quiet_dispatch hd
  simp only at h
  by_cases hd1 : d = -1
  · rw [if_pos hd1] at h
    simp only [Option.some.injEq] at h
    subst h
    exact key _ q1
  rw [if_neg hd1] at h
  have q2 := quiet_read_header p1 SERVER_DEVICE_OPENED
  rcases hrh : libseat.read_header p1 SERVER_DEVICE_OPENED with ⟨_ | size, p2⟩
  · rw [hrh] at h q2
    simp only [Option.some.injEq] at h
    subst h
    exact key _ (quiet_trans q1 (quiet_trans q2 (quiet_check_error p2)))
  rw [hrh] at h q2
  simp only at h
  by_cases hsz : 4 > size
  · rw [if_pos hsz] at h
    simp only [Option.some.injEq] at h
    subst h
    exact key _ (quiet_trans q1 (quiet_trans q2 ⟨rfl, rfl⟩))
  rw [if_neg hsz] at h
  have q3 := quiet_connection_get p2 4
  rcases hg : libseat.connection_get p2 4 with ⟨_ | rmsg, p3⟩
  · rw [hg] at h q3
    simp only [Option.some.injEq] at h
    subst h
    exact key _ (quiet_trans q1 (quiet_trans q2 q3))
  rw [hg] at h q3
  simp only at h
  have q4 := quiet_connection_get_fd p3
  split_ifs at h <;> simp only [Option.some.injEq] at h <;> subst h <;>
    exact key _ (quiet_trans q1 (quiet_trans q2 (quiet_trans q3 q4)))

theorem setClient_setClient (w : World) (c : Nat) (a b : client) :
    (w.setClient c a).setClient c b = w.setClient c b := by
  cases w
  simp only [World.setClient, World.mk.injEq, true_and, and_true]
  funext i
  by_cases h : i = c <;> simp [h]

theorem take_path (path rest : List Nat) :
    (path ++ 0 :: rest).take (path.length + 1) = path ++ [0] := by
  induction path with
  | nil => rfl
  | cons x xs ih => simp [ih]

/-- The server accepts the payload of the request `open_device` encodes for a path that
fits: it consumes exactly `2 + pathlen` bytes and calls `handle_open_device` with a buffer
holding the same path. -/
theorem open_device_request_accepted (w : World) (c : Nat) (path rest : List Nat)
    (hlen : path.length + 1 ≤ MAX_PATH_LEN) (hb : ∀ b ∈ path, b ≠ 0)
    (hin : (w.client c).connection.inbuf.drop (w.client c).connection.in_pos
      = le16 (path.length + 1) ++ (path ++ [0]) ++ rest) :
    ∃ buf, client_handle_opcode w c CLIENT_OPEN_DEVICE (2 + (path.length + 1))
      = finish_opcode (handle_open_device
          (w.setClient c { w.client c with connection := { (w.client c).connection with in_pos := (w.client c).connection.in_pos + (2 + (path.length + 1)) } })
          c buf) c ∧ c_string buf = some path := by
  have hM : MAX_PATH_LEN = 256 := rfl
  have hplen : connection_pending w c = 2 + (path.length + 1) + rest.length := by
    unfold connection_pending
    rw [← List.length_drop, hin]
    simp [le16]
    omega
  have hpb : pending_bytes w c 2 = le16 (path.length + 1) := by
    unfold pending_bytes
    rw [hin]
    simp [le16]
  have hrd : rd16 (pending_bytes w c 2) = path.length + 1 := by
    rw [hpb, rd16_le16 _ (by omega)]
  rw [client_handle_opcode_open_device w c _ (by omega) (by rw [hrd])]
  rw [hrd, if_neg (by omega)]
  have hg1 : connection_get w c 2 = (some (pending_bytes w c 2),
      w.setClient c { w.client c with connection := { (w.client c).connection with in_pos := (w.client c).connection.in_pos + 2 } }) := by
    unfold connection_get
    simp only
    rw [if_neg (by omega)]
    rfl
  rw [hg1]
  simp only
  generalize hw1 : w.setClient c { w.client c with connection := { (w.client c).connection with in_pos := (w.client c).connection.in_pos + 2 } } = w1
  have hc1 : w1.client c = { w.client c with connection := { (w.client c).connection with in_pos := (w.client c).connection.in_pos + 2 } } := by
    rw [← hw1, setClient_client_same]
  have hp1 : connection_pending w1 c = (path.length + 1) + rest.length := by
    unfold connection_pending at hplen ⊢
    rw [hc1]
    simp only
    omega
  have hbytes : ((w1.client c).connection.inbuf.drop (w1.client c).connection.in_pos).take
      (path.length + 1) = path ++ [0] := by
    rw [hc1]
    simp only
    rw [← List.drop_drop, hin]
    simp [le16]
    exact take_path path rest
  have hg2 : connection_get w1 c (path.length + 1) = (some (path ++ [0]),
      w1.setClient c { w1.client c with connection := { (w1.client c).connection with in_pos := (w1.client c).connection.in_pos + (path.length + 1) } }) := by
    unfold connection_get
    simp only
    rw [if_neg (by omega), hbytes]
  rw [hg2]
  simp only
  have hw2 : w1.setClient c { w1.client c with connection := { (w1.client c).connection with in_pos := (w1.client c).connection.in_pos + (path.length + 1) } }
      = w.setClient c { w.client c with connection := { (w.client c).connection with in_pos := (w.client c).connection.in_pos + (2 + (path.length + 1)) } } := by
    rw [hc1, ← hw1, setClient_setClient]
    simp only [Nat.add_assoc]
  rw [hw2]
  exact ⟨_, rfl, c_string_of_path path _ hb hlen⟩

/-- C32: for every path (a C string) with strlen(path) + 1 <= MAX_PATH_LEN, the request that
the backend's `open_device` puts on the connection has opcode OPEN_DEVICE and a size field
equal to its payload length, 2 + path_len; the server's `client_handle_opcode`, given that
opcode and size with the payload pending, accepts it, consumes exactly that many payload
bytes and calls `handle_open_device` with a buffer holding the same path. For every longer
path `open_device` fails with EINVAL and puts nothing on the connection. -/
theorem C32_open_device_round_trip (path : List Nat) :
    (path.length + 1 ≤ MAX_PATH_LEN → (∀ b ∈ path, b ≠ 0) →
      rd16 ((libseat.open_device_request path).take 2) = CLIENT_OPEN_DEVICE ∧
      rd16 (((libseat.open_device_request path).drop 2).take 2)
        = (libseat.open_device_request path).length - 4 ∧
      (libseat.open_device_request path).length - 4 = 2 + (path.length + 1) ∧
      (∀ (fuel : Nat) (p : libseat.Proc) (r : Int × Option Int × libseat.Proc),
        libseat.tape_ok p → libseat.open_device fuel p path = some r →
        r.2.2.backend.connection.outbuf
          = p.backend.connection.outbuf ++ libseat.open_device_request path) ∧
      (∀ (w : World) (c : Nat) (rest : List Nat),
        (w.client c).connection.inbuf.drop (w.client c).connection.in_pos
          = (libseat.open_device_request path).drop 4 ++ rest →
        ∃ buf, client_handle_opcode w c (rd16 ((libseat.open_device_request path).take 2))
            (rd16 (((libseat.open_device_request path).drop 2).take 2))
          = finish_opcode (handle_open_device
              (w.setClient c { w.client c with connection := { (w.client c).connection with in_pos := (w.client c).connection.in_pos + ((libseat.open_device_request path).length - 4) } })
              c buf) c ∧ c_string buf = some path)) ∧
    (MAX_PATH_LEN < path.length + 1 → ∀ (fuel : Nat) (p : libseat.Proc),
      libseat.open_device fuel p path = some (-1, none, { p with errno := EINVAL })) := by
  constructor
  · intro hlen hb
    have hM : MAX_PATH_LEN = 256 := rfl
    have h1 : rd16 ((libseat.open_device_request path).take 2) = CLIENT_OPEN_DEVICE := by
      simp [libseat.open_device_request, proto_header, le16, rd16, CLIENT_OPEN_DEVICE]
    have h3 : (libseat.open_device_request path).length - 4 = 2 + (path.length + 1) := by
      simp [libseat.open_device_request, proto_header, le16]
      omega
    have h2 : rd16 (((libseat.open_device_request path).drop 2).take 2)
        = (libseat.open_device_request path).length - 4 := by
      rw [h3]
      have e : ((libseat.open_device_request path).drop 2).take 2
          = le16 (2 + (path.length + 1)) := by
        simp [libseat.open_device_request, proto_header, le16]
      rw [e, rd16_le16 _ (by omega)]
    have h4 : (libseat.open_device_request path).drop 4
        = le16 (path.length + 1) ++ (path ++ [0]) := by
      simp [libseat.open_device_request, proto_header, le16]
    refine ⟨h1, h2, h3, fun fuel p r ht h => (open_device_sends hlen ht h).1,
      fun w c rest hin => ?_⟩
    rw [h1, h2, h3]
    rw [h4] at hin
    exact open_device_request_accepted w c path rest hlen hb hin
  · intro hlong fuel p
    unfold libseat.open_device
    rw [if_pos hlong]

/-- C32 at the path "/dev/dri/card0": the call returns device id 1 and fd 7 having put
exactly the request on the connection. -/
theorem C32_open_device_round_trip_witness :
    dri_card0.length + 1 ≤ MAX_PATH_LEN ∧ (∀ b ∈ dri_card0, b ≠ 0) ∧
    libseat.tape_ok libseat.proc_awaiting_device ∧
    (libseat.open_device 10 libseat.proc_awaiting_device dri_card0).map
        (fun r => (r.1, r.2.1, r.2.2.backend.connection.outbuf))
      = some (1, some 7, libseat.open_device_request dri_card0) ∧
    (rd16 ((libseat.open_device_request dri_card0).take 2) = CLIENT_OPEN_DEVICE ∧
      rd16 (((libseat.open_device_request dri_card0).drop 2).take 2)
        = (libseat.open_device_request dri_card0).length - 4 ∧
      (libseat.open_device_request dri_card0).length - 4 = 2 + (dri_card0.length + 1) ∧
      (∀ (fuel : Nat) (p : libseat.Proc) (r : Int × Option Int × libseat.Proc),
        libseat.tape_ok p → libseat.open_device fuel p dri_card0 = some r →
        r.2.2.backend.connection.outbuf
          = p.backend.connection.outbuf ++ libseat.open_device_request dri_card0) ∧
      (∀ (w : World) (c : Nat) (rest : List Nat),
        (w.client c).connection.inbuf.drop (w.client c).connection.in_pos
          = (libseat.open_device_request dri_card0).drop 4 ++ rest →
        ∃ buf, client_handle_opcode w c (rd16 ((libseat.open_device_request dri_card0).take 2))
            (rd16 (((libseat.open_device_request dri_card0).drop 2).take 2))
          = finish_opcode (handle_open_device
              (w.setClient c { w.client c with connection := { (w.client c).connection with in_pos := (w.client c).connection.in_pos + ((libseat.open_device_request dri_card0).length - 4) } })
              c buf) c ∧ c_string buf = some dri_card0)) :=
  ⟨by decide, by decide, by
      intro r hr
      have e : libseat.proc_awaiting_device.tape = [0, 0, 0, 0, 1] := rfl
      rw [e] at hr
      simp at hr
      omega, by decide,
    (C32_open_device_round_trip dri_card0).1 (by decide) (by decide)⟩

theorem silent_of_quiet {p p1 : libseat.Proc} (h : libseat.Quiet p p1) : libseat.Silent p p1 :=
  h.1

theorem silent_trans {p p1 p2 : libseat.Proc} (h1 : libseat.Silent p p1)
    (h2 : libseat.Silent p1 p2) : libseat.Silent p p2 := Eq.trans h2 h1

theorem silent_connection_put (p : libseat.Proc) (b : List Nat) :
    libseat.Silent p (libseat.connection_put p b).2 := (connection_put_calls p b).1

theorem silent_dispatch {fuel : Nat} {p p1 : libseat.Proc} {r : Int}
    (h : libseat.dispatch fuel p = some (r, p1)) : libseat.Silent p p1 :=
  (quiet_dispatch h).1

theorem silent_read_header (p : libseat.Proc) (e : Nat) :
    libseat.Silent p (libseat.read_header p e).2 := (quiet_read_header p e).1

theorem silent_connection_get (p : libseat.Proc) (n : Nat) :
    libseat.Silent p (libseat.connection_get p n).2 := (quiet_connection_get p n).1

theorem open_device_silent {fuel : Nat} {p : libseat.Proc} {path : List Nat}
    {r : Int × Option Int × libseat.Proc} (h : libseat.open_device fuel p path = some r) :
    libseat.Silent p r.2.2 := by
  unfold libseat.open_device at h
  by_cases h0 : path.length + 1 > MAX_PATH_LEN
  · rw [if_pos h0] at h
    simp only [Option.some.injEq] at h
    subst h
    rfl
  rw [if_neg h0] at h
  simp only at h
  have s1 := silent_connection_put p (proto_header CLIENT_OPEN_DEVICE (2 + (path.length + 1)))
  generalize libseat.connection_put p (proto_header CLIENT_OPEN_DEVICE (2 + (path.length + 1)))
    = x1 at h s1
  by_cases h1 : x1.1 = -1
  · rw [if_pos h1] at h
    simp only [Option.some.injEq] at h
    subst h
    exact s1
  rw [if_neg h1] at h
  have s2 := silent_connection_put x1.2 (le16 (path.length + 1))
  generalize libseat.connection_put x1.2 (le16 (path.length + 1)) = x2 at h s2
  by_cases h2 : x2.1 = -1
  · rw [if_pos h2] at h
    simp only [Option.some.injEq] at h
    subst h
    exact silent_trans s1 s2
  rw [if_neg h2] at h
  have s3 := silent_connection_put x2.2 (path ++ [0])
  generalize libseat.connection_put x2.2 (path ++ [0]) = x3 at h s3
  by_cases h3 : x3.1 = -1
  · rw [if_pos h3] at h
    simp only [Option.some.injEq] at h
    subst h
    exact silent_trans s1 (silent_trans s2 s3)
  rw [if_neg h3] at h
  have s123 := silent_trans s1 (silent_trans s2 s3)
  generalize hd : libseat.dispatch fuel x3.2 = od at h
  rcases od with _ | ⟨d, p1⟩
  · cases h
  have q1 := silent_trans s123 (silent_dispatch hd)
  simp only at h
  by_cases hd1 : d = -1
  · rw [if_pos hd1] at h
    simp only [Option.some.injEq] at h
    subst h
    exact q1
  rw [if_neg hd1] at h
  have q2 := silent_read_header p1 SERVER_DEVICE_OPENED
  rcases hrh : libseat.read_header p1 SERVER_DEVICE_OPENED with ⟨_ | size, p2⟩
  · rw [hrh] at h q2
    simp only [Option.some.injEq] at h
    subst h
    exact silent_trans q1 (silent_trans q2 (quiet_check_error p2).1)
  rw [hrh] at h q2
  simp only at h
  by_cases hsz : 4 > size
  · rw [if_pos hsz] at h
    simp only [Option.some.injEq] at h
    subst h
    exact silent_trans q1 q2
  rw [if_neg hsz] at h
  have q3 := silent_connection_get p2 4
  rcases hg : libseat.connection_get p2 4 with ⟨_ | rmsg, p3⟩
  · rw [hg] at h q3
    simp only [Option.some.injEq] at h
    subst h
    exact silent_trans q1 (silent_trans q2 q3)
  rw [hg] at h q3
  simp only at h
  have q4 := (quiet_connection_get_fd p3).1
  split_ifs at h <;> simp only [Option.some.injEq] at h <;> subst h <;>
    exact silent_trans q1 (silent_trans q2 (silent_trans q3 q4))

theorem close_device_silent {fuel : Nat} {p : libseat.Proc} {device_id : Int}
    {r : Int × libseat.Proc} (h : libseat.close_device fuel p device_id = some r) :
    libseat.Silent p r.2 := by
  unfold libseat.close_device at h
  by_cases h0 : device_id < 0
  · rw [if_pos h0] at h
    simp only [Option.some.injEq] at h
    subst h
    rfl
  rw [if_neg h0] at h
  simp only at h
  have s1 := silent_connection_put p (proto_header CLIENT_CLOSE_DEVICE 4)
  generalize libseat.connection_put p (proto_header CLIENT_CLOSE_DEVICE 4) = x1 at h s1
  by_cases h1 : x1.1 = -1
  · rw [if_pos h1] at h
    simp only [Option.some.injEq] at h
    subst h
    exact s1
  rw [if_neg h1] at h
  have s2 := silent_connection_put x1.2 (le32 device_id)
  generalize libseat.connection_put x1.2 (le32 device_id) = x2 at h s2
  by_cases h2 : x2.1 = -1
  · rw [if_pos h2] at h
    simp only [Option.some.injEq] at h
    subst h
    exact silent_trans s1 s2
  rw [if_neg h2] at h
  have s12 := silent_trans s1 s2
  generalize hd : libseat.dispatch fuel x2.2 = od at h
  rcases od with _ | ⟨d, p1⟩
  · cases h
  have q1 := silent_trans s12 (silent_dispatch hd)
  simp only at h
  by_cases hd1 : d = -1
  · rw [if_pos hd1] at h
    simp only [Option.some.injEq] at h
    subst h
    exact q1
  rw [if_neg hd1] at h
  have q2 := silent_read_header p1 SERVER_DEVICE_CLOSED
  rcases hrh : libseat.read_header p1 SERVER_DEVICE_CLOSED with ⟨_ | size, p2⟩
  · rw [hrh] at h q2
    simp only [Option.some.injEq] at h
    subst h
    exact silent_trans q1 (silent_trans q2 (quiet_check_error p2).1)
  rw [hrh] at h q2
  simp only at h
  by_cases hsz : 4 > size
  · rw [if_pos hsz] at h
    simp only [Option.some.injEq] at h
    subst h
    exact silent_trans q1 q2
  rw [if_neg hsz] at h
  have q3 := silent_connection_get p2 4
  rcases hg : libseat.connection_get p2 4 with ⟨_ | rmsg, p3⟩
  · rw [hg] at h q3
    simp only [Option.some.injEq] at h
    subst h
    exact silent_trans q1 (silent_trans q2 q3)
  rw [hg] at h q3
  simp only at h
  split_ifs at h <;> simp only [Option.some.injEq] at h <;> subst h <;>
    exact silent_trans q1 (silent_trans q2 q3)

theorem close_seat_silent {fuel : Nat} {p : libseat.Proc} {r : Int × libseat.Proc}
    (h : libseat.close_seat fuel p = some r) : libseat.Silent p r.2 := by
  unfold libseat.close_seat at h
  simp only at h
  have s1 := silent_connection_put p (proto_header CLIENT_CLOSE_SEAT 0)
  generalize libseat.connection_put p (proto_header CLIENT_CLOSE_SEAT 0) = x1 at h s1
  by_cases h1 : x1.1 = -1
  · rw [if_pos h1] at h
    simp only [Option.some.injEq] at h
    subst h
    exact s1
  rw [if_neg h1] at h
  generalize hd : libseat.dispatch fuel x1.2 = od at h
  rcases od with _ | ⟨d, p1⟩
  · cases h
  have q1 := silent_trans s1 (silent_dispatch hd)
  simp only at h
  by_cases hd1 : d = -1
  · rw [if_pos hd1] at h
    simp only [Option.some.injEq] at h
    subst h
    exact q1
  rw [if_neg hd1] at h
  have q2 := silent_read_header p1 SERVER_SEAT_CLOSED
  rcases hrh : libseat.read_header p1 SERVER_SEAT_CLOSED with ⟨_ | size, p2⟩
  · rw [hrh] at h q2
    simp only [Option.some.injEq] at h
    subst h
    exact silent_trans q1 (silent_trans q2 (quiet_check_error p2).1)
  · rw [hrh] at h q2
    simp only [Option.some.injEq] at h
    subst h
    exact silent_trans q1 q2

theorem open_seat_silent {fuel : Nat} {p : libseat.Proc} {e d : Bool} {fd : Int}
    {r : Bool × libseat.Proc} (h : libseat._open_seat fuel p e d fd = some r) :
    libseat.Silent p r.2 := by
  unfold libseat._open_seat at h
  simp only at h
  have s0 : libseat.Silent p p.syscall.2 := (quiet_syscall p).1
  by_cases h0 : p.syscall.1 = -1
  · rw [if_pos h0] at h
    simp only [Option.some.injEq] at h
    subst h
    exact s0
  rw [if_neg h0] at h
  generalize hp0 : ({ p.syscall.2 with backend := { connection := { fd := fd, inbuf := [], in_pos := 0, outbuf := [], out_fds := [] }, enable_seat := e, disable_seat := d, pending_events := [], seat_name := [] } } : libseat.Proc) = p0 at h
  have s0b : libseat.Silent p p0 := by rw [← hp0]; exact s0
  have s1 := silent_connection_put p0 (proto_header CLIENT_OPEN_SEAT 0)
  generalize libseat.connection_put p0 (proto_header CLIENT_OPEN_SEAT 0) = x1 at h s1
  by_cases h1 : x1.1 = -1
  · rw [if_pos h1] at h
    simp only [Option.some.injEq] at h
    subst h
    exact silent_trans s0b s1
  rw [if_neg h1] at h
  generalize hd : libseat.dispatch fuel x1.2 = od at h
  rcases od with _ | ⟨dd, p1⟩
  · cases h
  have q1 := silent_trans s0b (silent_trans s1 (silent_dispatch hd))
  simp only at h
  by_cases hd1 : dd = -1
  · rw [if_pos hd1] at h
    simp only [Option.some.injEq] at h
    subst h
    exact q1
  rw [if_neg hd1] at h
  have q2 := silent_read_header p1 SERVER_SEAT_OPENED
  rcases hrh : libseat.read_header p1 SERVER_SEAT_OPENED with ⟨_ | size, p2⟩
  · rw [hrh] at h q2
    simp only [Option.some.injEq] at h
    subst h
    exact silent_trans q1 (silent_trans q2 (quiet_check_error p2).1)
  rw [hrh] at h q2
  simp only at h
  by_cases hsz : 2 > size
  · rw [if_pos hsz] at h
    simp only [Option.some.injEq] at h
    subst h
    exact silent_trans q1 q2
  rw [if_neg hsz] at h
  have q3 := silent_connection_get p2 2
  rcases hg : libseat.connection_get p2 2 with ⟨_ | rmsg, p3⟩
  · rw [hg] at h q3
    simp only [Option.some.injEq] at h
    subst h
    exact silent_trans q1 (silent_trans q2 q3)
  rw [hg] at h q3
  simp only at h
  by_cases hnm : 2 + rd16 rmsg > size ∨ rd16 rmsg ≥ MAX_SEAT_LEN
  · rw [if_pos hnm] at h
    simp only [Option.some.injEq] at h
    subst h
    exact silent_trans q1 (silent_trans q2 q3)
  rw [if_neg hnm] at h
  have q4 := silent_connection_get p3 (rd16 rmsg)
  rcases hg4 : libseat.connection_get p3 (rd16 rmsg) with ⟨_ | name, p4⟩
  · rw [hg4] at h q4
    simp only [Option.some.injEq] at h
    subst h
    exact silent_trans q1 (silent_trans q2 (silent_trans q3 q4))
  · rw [hg4] at h q4
    simp only [Option.some.injEq] at h
    subst h
    exact silent_trans q1 (silent_trans q2 (silent_trans q3 q4))

/-- The events `dispatch_pending` queues are notifications and go to the end of the queue,
whatever `calloc` returns. -/
theorem dispatch_pending_loop_queue : ∀ (fuel : Nat) (p : libseat.Proc) (b : Bool)
    (packets : Int) (opcode : Nat),
    ∃ evs, (libseat.dispatch_pending_loop fuel p b packets opcode).2.2.backend.pending_events
        = p.backend.pending_events ++ evs ∧
      ∀ e ∈ evs, e = SERVER_DISABLE_SEAT ∨ e = SERVER_ENABLE_SEAT := by
  intro fuel
  induction fuel with
  | zero =>
    intro p b packets opcode
    exact ⟨[], by simp [libseat.dispatch_pending_loop], fun e he => by cases he⟩
  | succ n ih =>
    intro p b packets opcode
    unfold libseat.dispatch_pending_loop
    have hg : (libseat.connection_get p 4).2.backend.pending_events
        = p.backend.pending_events := by
      unfold libseat.connection_get
      split_ifs <;> rfl
    rcases hx : libseat.connection_get p 4 with ⟨_ | header, p1⟩
    · rw [hx] at hg
      exact ⟨[], by simpa using hg, fun e he => by cases he⟩
    · rw [hx] at hg
      simp only at hg ⊢
      by_cases hn : rd16 header = SERVER_DISABLE_SEAT ∨ rd16 header = SERVER_ENABLE_SEAT
      · rw [if_pos hn]
        obtain ⟨evs, h1, h2⟩ := ih (libseat.queue_event p1 (rd16 header)).2 b (packets + 1)
          opcode
        have hq : (libseat.queue_event p1 (rd16 header)).2.backend.pending_events
            = p1.backend.pending_events ∨
            (libseat.queue_event p1 (rd16 header)).2.backend.pending_events
              = p1.backend.pending_events ++ [rd16 header] := by
          unfold libseat.queue_event
          simp only
          have hs : p1.syscall.2.backend = p1.backend := by
            unfold libseat.Proc.syscall
            split
            · rfl
            · split <;> rfl
          split_ifs
          · exact Or.inl (by rw [hs])
          · exact Or.inr (by simp only; rw [hs])
        rcases hq with hq | hq
        · exact ⟨evs, by rw [h1, hq, hg], h2⟩
        · refine ⟨rd16 header :: evs, by rw [h1, hq, hg]; simp, fun e he => ?_⟩
          rcases List.mem_cons.1 he with rfl | he
          · exact hn
          · exact h2 e he
      · rw [if_neg hn]
        exact ⟨[], by simpa [libseat.connection_restore, libseat.Proc.setConnection] using hg,
          fun e he => by cases he⟩

theorem queued_same {p p1 : libseat.Proc} (h1 : p1.calls = p.calls)
    (h2 : p1.backend.enable_seat = p.backend.enable_seat)
    (h3 : p1.backend.disable_seat = p.backend.disable_seat)
    (h4 : p1.backend.pending_events = p.backend.pending_events) : libseat.Queued p p1 :=
  ⟨h1, h2, h3, [], by simpa using h4, fun e he => by cases he⟩

theorem queued_refl (p : libseat.Proc) : libseat.Queued p p := queued_same rfl rfl rfl rfl

theorem queued_trans {p p1 p2 : libseat.Proc} (h1 : libseat.Queued p p1)
    (h2 : libseat.Queued p1 p2) : libseat.Queued p p2 := by
  obtain ⟨a1, a2, a3, evs, a4, a5⟩ := h1
  obtain ⟨b1, b2, b3, evs2, b4, b5⟩ := h2
  refine ⟨b1.trans a1, b2.trans a2, b3.trans a3, evs ++ evs2, ?_, fun e he => ?_⟩
  · rw [b4, a4, List.append_assoc]
  · rcases List.mem_append.1 he with he | he
    · exact a5 e he
    · exact b5 e he

theorem queued_syscall (p : libseat.Proc) : libseat.Queued p p.syscall.2 := by
  unfold libseat.Proc.syscall
  split
  · exact queued_refl p
  · split <;> exact queued_same rfl rfl rfl rfl

theorem queued_connection_get (p : libseat.Proc) (n : Nat) :
    libseat.Queued p (libseat.connection_get p n).2 := by
  unfold libseat.connection_get
  split_ifs <;> exact queued_same rfl rfl rfl rfl

theorem queued_connection_restore (p : libseat.Proc) (n : Nat) :
    libseat.Queued p (libseat.connection_restore p n) := queued_same rfl rfl rfl rfl

theorem queued_connection_read (p : libseat.Proc) :
    libseat.Queued p (libseat.connection_read p).2 := by
  unfold libseat.connection_read
  split
  · exact queued_same rfl rfl rfl rfl
  · split_ifs <;> exact queued_same rfl rfl rfl rfl

theorem queued_queue_event (p : libseat.Proc) (opcode : Nat)
    (h : opcode = SERVER_DISABLE_SEAT ∨ opcode = SERVER_ENABLE_SEAT) :
    libseat.Queued p (libseat.queue_event p opcode).2 := by
  unfold libseat.queue_event
  simp only
  split_ifs
  · exact queued_syscall p
  · refine queued_trans (queued_syscall p) ⟨rfl, rfl, rfl, [opcode], rfl, fun e he => ?_⟩
    rcases List.mem_singleton.1 he with rfl
    exact h

theorem queued_dispatch_pending_loop : ∀ (fuel : Nat) (p : libseat.Proc) (b : Bool)
    (packets : Int) (opcode : Nat),
    libseat.Queued p (libseat.dispatch_pending_loop fuel p b packets opcode).2.2 := by
  intro fuel
  induction fuel with
  | zero => intro p b packets opcode; exact queued_refl p
  | succ n ih =>
    intro p b packets opcode
    unfold libseat.dispatch_pending_loop
    have hg := queued_connection_get p 4
    rcases hx : libseat.connection_get p 4 with ⟨_ | header, p1⟩
    · rw [hx] at hg; exact hg
    · rw [hx] at hg
      simp only
      by_cases hn : rd16 header = SERVER_DISABLE_SEAT ∨ rd16 header = SERVER_ENABLE_SEAT
      · rw [if_pos hn]
        exact queued_trans hg (queued_trans (queued_queue_event p1 _ hn) (ih _ _ _ _))
      · rw [if_neg hn]
        exact queued_trans hg (queued_connection_restore p1 4)

theorem queued_dispatch_pending (p : libseat.Proc) (b : Bool) (opcode : Nat) :
    libseat.Queued p (libseat.dispatch_pending p b opcode).2.2 :=
  queued_dispatch_pending_loop _ p b 0 opcode

theorem queued_poll_connection (p : libseat.Proc) (t : Int) :
    libseat.Queued p (libseat.poll_connection p t).2 := by
  unfold libseat.poll_connection
  simp only
  split_ifs <;> first
    | exact queued_syscall p
    | exact queued_trans (queued_syscall p) (queued_same rfl rfl rfl rfl)
    | exact queued_trans (queued_syscall p) (queued_connection_read _)

theorem queued_dispatch_loop : ∀ (fuel : Nat) (p : libseat.Proc) (opcode : Nat) (r : Int)
    (p1 : libseat.Proc), libseat.dispatch_loop fuel p opcode = some (r, p1) →
    libseat.Queued p p1 := by
  intro fuel
  induction fuel with
  | zero => intro p opcode r p1 h; cases h
  | succ n ih =>
    intro p opcode r p1 h
    unfold libseat.dispatch_loop at h
    simp only at h
    have hd := queued_dispatch_pending p true opcode
    split_ifs at h
    · simp only [Option.some.injEq, Prod.mk.injEq] at h
      obtain ⟨_, rfl⟩ := h
      exact queued_trans hd (queued_poll_connection _ _)
    · exact queued_trans hd (queued_trans (queued_poll_connection _ _) (ih _ _ _ _ h))
    · simp only [Option.some.injEq, Prod.mk.injEq] at h
      obtain ⟨_, rfl⟩ := h
      exact hd

theorem queued_dispatch {fuel : Nat} {p p1 : libseat.Proc} {r : Int}
    (h : libseat.dispatch fuel p = some (r, p1)) : libseat.Queued p p1 := by
  unfold libseat.dispatch at h
  simp only at h
  split_ifs at h
  · simp only [Option.some.injEq, Prod.mk.injEq] at h
    obtain ⟨_, rfl⟩ := h
    exact queued_syscall p
  · exact queued_trans (queued_syscall p) (queued_dispatch_loop _ _ _ _ _ h)

theorem fires_congr {p q : libseat.Proc} (h : q.backend.enable_seat = p.backend.enable_seat)
    (h2 : q.backend.disable_seat = p.backend.disable_seat) :
    libseat.fires q = libseat.fires p := by
  funext e
  unfold libseat.fires
  rw [h, h2]

/-- The loop of `execute_events`, when it ends without `abort()`, has invoked the callback of
every queued event that has one, oldest first, and has emptied the queue. -/
theorem execute_events_loop_calls : ∀ (evs : List Nat) (p q : libseat.Proc),
    p.backend.pending_events = evs → libseat.execute_events_loop evs p = some q →
    q.calls = p.calls ++ evs.filter (libseat.fires p) ∧ q.backend.pending_events = [] ∧
      q.backend.enable_seat = p.backend.enable_seat ∧
      q.backend.disable_seat = p.backend.disable_seat := by
  intro evs
  induction evs with
  | nil =>
    intro p q hp h
    simp only [libseat.execute_events_loop, Option.some.injEq] at h
    subst h
    exact ⟨by simp, hp, rfl, rfl⟩
  | cons e rest ih =>
    intro p q hp h
    unfold libseat.execute_events_loop at h
    simp only at h
    by_cases hd : e = SERVER_DISABLE_SEAT
    · rw [if_pos hd] at h
      by_cases hf : p.backend.disable_seat = true
      · have := ih _ q (by simp [libseat.handle_disable_seat, hf]) h
        obtain ⟨a1, a2, a3, a4⟩ := this
        refine ⟨?_, a2, ?_, ?_⟩
        · rw [a1, fires_congr (p := p) (by simp [libseat.handle_disable_seat, hf])
            (by simp [libseat.handle_disable_seat, hf])]
          have hfe : libseat.fires p e = true := by
            unfold libseat.fires
            simp [hd, hf]
          rw [List.filter_cons_of_pos hfe]
          simp [libseat.handle_disable_seat, hf, hd]
        · rw [a3]; simp [libseat.handle_disable_seat, hf]
        · rw [a4]; simp [libseat.handle_disable_seat, hf]
      · have := ih _ q (by simp [libseat.handle_disable_seat, hf]) h
        obtain ⟨a1, a2, a3, a4⟩ := this
        refine ⟨?_, a2, ?_, ?_⟩
        · rw [a1, fires_congr (p := p) (by simp [libseat.handle_disable_seat, hf])
            (by simp [libseat.handle_disable_seat, hf])]
          have hfe : ¬ libseat.fires p e = true := by
            unfold libseat.fires
            simp [hd, hf, SERVER_DISABLE_SEAT, SERVER_ENABLE_SEAT]
          rw [List.filter_cons_of_neg hfe]
          simp [libseat.handle_disable_seat, hf]
        · rw [a3]; simp [libseat.handle_disable_seat, hf]
        · rw [a4]; simp [libseat.handle_disable_seat, hf]
    · rw [if_neg hd] at h
      by_cases he : e = SERVER_ENABLE_SEAT
      · rw [if_pos he] at h
        by_cases hf : p.backend.enable_seat = true
        · have := ih _ q (by simp [libseat.handle_enable_seat, hf]) h
          obtain ⟨a1, a2, a3, a4⟩ := this
          refine ⟨?_, a2, ?_, ?_⟩
          · rw [a1, fires_congr (p := p) (by simp [libseat.handle_enable_seat, hf])
              (by simp [libseat.handle_enable_seat, hf])]
            have hfe : libseat.fires p e = true := by
              unfold libseat.fires
              simp [he, hf]
            rw [List.filter_cons_of_pos hfe]
            simp [libseat.handle_enable_seat, hf, he]
          · rw [a3]; simp [libseat.handle_enable_seat, hf]
          · rw [a4]; simp [libseat.handle_enable_seat, hf]
        · have := ih _ q (by simp [libseat.handle_enable_seat, hf]) h
          obtain ⟨a1, a2, a3, a4⟩ := this
          refine ⟨?_, a2, ?_, ?_⟩
          · rw [a1, fires_congr (p := p) (by simp [libseat.handle_enable_seat, hf])
              (by simp [libseat.handle_enable_seat, hf])]
            have hfe : ¬ libseat.fires p e = true := by
              unfold libseat.fires
              simp [he, hf, SERVER_DISABLE_SEAT, SERVER_ENABLE_SEAT]
            rw [List.filter_cons_of_neg hfe]
            simp [libseat.handle_enable_seat, hf]
          · rw [a3]; simp [libseat.handle_enable_seat, hf]
          · rw [a4]; simp [libseat.handle_enable_seat, hf]
      · rw [if_neg he] at h
        cases h

/-- The loop of `execute_events` ends without `abort()` on a queue of notifications. -/
theorem execute_events_loop_total : ∀ (evs : List Nat) (p : libseat.Proc),
    (∀ e ∈ evs, e = SERVER_DISABLE_SEAT ∨ e = SERVER_ENABLE_SEAT) →
    ∃ q, libseat.execute_events_loop evs p = some q := by
  intro evs
  induction evs with
  | nil => intro p _; exact ⟨p, rfl⟩
  | cons e rest ih =>
    intro p h
    unfold libseat.execute_events_loop
    simp only
    have hr : ∀ x ∈ rest, x = SERVER_DISABLE_SEAT ∨ x = SERVER_ENABLE_SEAT :=
      fun x hx => h x (List.mem_cons_of_mem _ hx)
    rcases h e (List.mem_cons_self _ _) with hd | he
    · rw [if_pos hd]
      exact ih _ hr
    · have hd : ¬ e = SERVER_DISABLE_SEAT := by
        rw [he]; decide
      rw [if_neg hd, if_pos he]
      exact ih _ hr

theorem libseat_syscall_backend (p : libseat.Proc) : p.syscall.2.backend = p.backend := by
  unfold libseat.Proc.syscall
  split
  · rfl
  · split <;> rfl

theorem unread_length (p : libseat.Proc) :
    (libseat.unread p).length = libseat.connection_pending p := by
  unfold libseat.unread libseat.connection_pending
  exact List.length_drop _ _

theorem connection_get_header (p : libseat.Proc) (h tl : List Nat) (hl : h.length = 4)
    (hu : libseat.unread p = h ++ tl) :
    ∃ p1, libseat.connection_get p 4 = (some h, p1) ∧ libseat.unread p1 = tl ∧
      p1.tape = p.tape ∧ p1.backend.pending_events = p.backend.pending_events := by
  have hlen := unread_length p
  rw [hu, List.length_append, hl] at hlen
  refine ⟨p.setConnection { p.backend.connection with in_pos := p.backend.connection.in_pos + 4 }, ?_, ?_, rfl, rfl⟩
  · unfold libseat.connection_get
    rw [if_neg (by omega)]
    have ht : (p.backend.connection.inbuf.drop p.backend.connection.in_pos).take 4 = h := by
      have hu2 : p.backend.connection.inbuf.drop p.backend.connection.in_pos = h ++ tl := hu
      rw [hu2, ← hl, List.take_left]
    rw [ht]
  · show p.backend.connection.inbuf.drop (p.backend.connection.in_pos + 4) = tl
    have hu2 : p.backend.connection.inbuf.drop p.backend.connection.in_pos = h ++ tl := hu
    have hd : p.backend.connection.inbuf.drop (p.backend.connection.in_pos + 4)
        = (p.backend.connection.inbuf.drop p.backend.connection.in_pos).drop 4 := by
      rw [List.drop_drop, Nat.add_comm]
    rw [hd, hu2, ← hl, List.drop_left]

theorem queue_event_ok (p : libseat.Proc) (opcode : Nat) (h : libseat.tape_ok p) :
    (libseat.queue_event p opcode).2.backend.pending_events
        = p.backend.pending_events ++ [opcode] ∧
      libseat.tape_ok (libseat.queue_event p opcode).2 ∧
      libseat.unread (libseat.queue_event p opcode).2 = libseat.unread p := by
  obtain ⟨h1, h2⟩ := libseat_syscall_ok h
  have hb := libseat_syscall_backend p
  unfold libseat.queue_event
  simp only
  rw [if_neg (by omega)]
  refine ⟨?_, h2, ?_⟩
  · simp only
    rw [hb]
  · unfold libseat.unread
    simp only
    rw [hb]

theorem rd16_take (l : List Nat) : rd16 (l.take 4) = rd16 l := by
  unfold rd16
  rcases l with _ | ⟨a, _ | ⟨b, l⟩⟩ <;> simp

/-- With the allocations succeeding, `dispatch_pending` appends every notification at the
head of the unread input to the queue, in order, and stops at the first message that is not a
notification or not complete. -/
theorem dispatch_pending_loop_exact : ∀ (hs : List (List Nat)) (fuel : Nat)
    (p : libseat.Proc) (b : Bool) (packets : Int) (opcode : Nat) (rest : List Nat),
    libseat.tape_ok p → libseat.unread p = hs.flatten ++ rest →
    (∀ h ∈ hs, h.length = 4 ∧ (rd16 h = SERVER_DISABLE_SEAT ∨ rd16 h = SERVER_ENABLE_SEAT)) →
    (rest.length < 4 ∨ ¬ (rd16 rest = SERVER_DISABLE_SEAT ∨ rd16 rest = SERVER_ENABLE_SEAT)) →
    hs.length < fuel →
    (libseat.dispatch_pending_loop fuel p b packets opcode).2.2.backend.pending_events
      = p.backend.pending_events ++ hs.map rd16 ∧
    libseat.unread (libseat.dispatch_pending_loop fuel p b packets opcode).2.2 = rest := by
  intro hs
  induction hs with
  | nil =>
    intro fuel p b packets opcode rest _ hu _ hrest hf
    obtain ⟨n, rfl⟩ : ∃ n, fuel = n + 1 := ⟨fuel - 1, by simp at hf; omega⟩
    simp only [List.flatten_nil, List.nil_append] at hu
    unfold libseat.dispatch_pending_loop
    have hlen := unread_length p
    rw [hu] at hlen
    by_cases h4 : rest.length < 4
    · have hg : libseat.connection_get p 4 = (none, { p with errno := EAGAIN }) := by
        unfold libseat.connection_get
        rw [if_pos (by omega)]
      rw [hg]
      exact ⟨by simp, hu⟩
    · have hsplit : rest = rest.take 4 ++ rest.drop 4 := (List.take_append_drop 4 rest).symm
      have hl4 : (rest.take 4).length = 4 := by
        rw [List.length_take]; omega
      obtain ⟨p1, hg, hu1, _, hpe⟩ := connection_get_header p (rest.take 4) (rest.drop 4) hl4
        (hu.trans hsplit)
      rw [hg]
      simp only
      have hnot : ¬ (rd16 (rest.take 4) = SERVER_DISABLE_SEAT ∨
          rd16 (rest.take 4) = SERVER_ENABLE_SEAT) := by
        rw [rd16_take]
        rcases hrest with h | h
        · exact absurd h h4
        · exact h
      rw [if_neg hnot]
      refine ⟨by simpa [libseat.connection_restore, libseat.Proc.setConnection] using hpe, ?_⟩
      have hp1 : libseat.connection_get p 4 = (some ((p.backend.connection.inbuf.drop p.backend.connection.in_pos).take 4), p.setConnection { p.backend.connection with in_pos := p.backend.connection.in_pos + 4 }) := by
        unfold libseat.connection_get
        rw [if_neg (by omega)]
      rw [hp1] at hg
      simp only [Prod.mk.injEq] at hg
      rw [← hg.2, ← hu]
      unfold libseat.unread libseat.connection_restore libseat.Proc.setConnection
      simp
  | cons h hs ih =>
    intro fuel p b packets opcode rest htape hu hall hrest hf
    obtain ⟨n, rfl⟩ : ∃ n, fuel = n + 1 := ⟨fuel - 1, by simp at hf; omega⟩
    obtain ⟨hl, hn⟩ := hall h (List.mem_cons_self _ _)
    have hu2 : libseat.unread p = h ++ (hs.flatten ++ rest) := by
      rw [hu, List.flatten_cons, List.append_assoc]
    obtain ⟨p1, hg, hu1, ht1, hpe⟩ := connection_get_header p h (hs.flatten ++ rest) hl hu2
    unfold libseat.dispatch_pending_loop
    rw [hg]
    simp only
    rw [if_pos hn]
    have htape1 : libseat.tape_ok p1 := by
      unfold libseat.tape_ok
      rw [ht1]
      exact htape
    obtain ⟨q1, q2, q3⟩ := queue_event_ok p1 (rd16 h) htape1
    obtain ⟨r1, r2⟩ := ih n (libseat.queue_event p1 (rd16 h)).2 b (packets + 1) opcode rest q2
      (q3.trans hu1) (fun x hx => hall x (List.mem_cons_of_mem _ hx)) hrest
      (by simp at hf; omega)
    refine ⟨?_, r2⟩
    rw [r1, q1, hpe]
    simp

theorem flatten_headers_length : ∀ (hs : List (List Nat)), (∀ h ∈ hs, h.length = 4) →
    hs.flatten.length = 4 * hs.length := by
  intro hs
  induction hs with
  | nil => intro _; rfl
  | cons h hs ih =>
    intro hall
    rw [List.flatten_cons, List.length_append, hall h (List.mem_cons_self _ _),
      ih (fun x hx => hall x (List.mem_cons_of_mem _ hx)), List.length_cons]
    omega

theorem dispatch_pending_exact (p : libseat.Proc) (hs : List (List Nat)) (rest : List Nat)
    (b : Bool) (opcode : Nat) (ht : libseat.tape_ok p)
    (hu : libseat.unread p = hs.flatten ++ rest)
    (hall : ∀ h ∈ hs, h.length = 4 ∧
      (rd16 h = SERVER_DISABLE_SEAT ∨ rd16 h = SERVER_ENABLE_SEAT))
    (hrest : rest.length < 4 ∨
      ¬ (rd16 rest = SERVER_DISABLE_SEAT ∨ rd16 rest = SERVER_ENABLE_SEAT)) :
    (libseat.dispatch_pending p b opcode).2.2.calls = p.calls ∧
    (libseat.dispatch_pending p b opcode).2.2.backend.pending_events
      = p.backend.pending_events ++ hs.map rd16 ∧
    libseat.unread (libseat.dispatch_pending p b opcode).2.2 = rest := by
  have hlen := unread_length p
  rw [hu, List.length_append, flatten_headers_length hs (fun h hh => (hall h hh).1)] at hlen
  have hf : hs.length < libseat.connection_pending p / 4 + 1 := by omega
  exact ⟨(quiet_dispatch_pending p b opcode).1,
    dispatch_pending_loop_exact hs _ p b 0 opcode rest ht hu hall hrest hf⟩

theorem execute_events_after {p p1 : libseat.Proc}
    (hq : ∀ e ∈ p.backend.pending_events, e = SERVER_DISABLE_SEAT ∨ e = SERVER_ENABLE_SEAT)
    (h : libseat.Queued p p1) :
    ∃ q, libseat.execute_events p1 = some q ∧
      ∃ evs, (∀ e ∈ evs, e = SERVER_DISABLE_SEAT ∨ e = SERVER_ENABLE_SEAT) ∧
        q.calls = p.calls ++ (p.backend.pending_events ++ evs).filter (libseat.fires p) ∧
        q.backend.pending_events = [] := by
  obtain ⟨c, e1, e2, evs, hpe, hall⟩ := h
  have hn : ∀ e ∈ p1.backend.pending_events,
      e = SERVER_DISABLE_SEAT ∨ e = SERVER_ENABLE_SEAT := by
    intro e he
    rw [hpe] at he
    rcases List.mem_append.1 he with he | he
    · exact hq e he
    · exact hall e he
  obtain ⟨q, hqe⟩ := execute_events_loop_total p1.backend.pending_events p1 hn
  obtain ⟨a1, a2, _, _⟩ := execute_events_loop_calls _ p1 q rfl hqe
  refine ⟨q, hqe, evs, hall, ?_, a2⟩
  rw [a1, c, hpe, fires_congr e1 e2]

theorem dispatch_background_fires (p : libseat.Proc) (t : Int)
    (hq : ∀ e ∈ p.backend.pending_events, e = SERVER_DISABLE_SEAT ∨ e = SERVER_ENABLE_SEAT) :
    ∃ r, libseat.dispatch_background p t = some r ∧
      ∃ evs, (∀ e ∈ evs, e = SERVER_DISABLE_SEAT ∨ e = SERVER_ENABLE_SEAT) ∧
        ((r.1 = -1 ∧ r.2.calls = p.calls ∧
            r.2.backend.pending_events = p.backend.pending_events ++ evs) ∨
          (r.2.calls = p.calls ++ (p.backend.pending_events ++ evs).filter (libseat.fires p) ∧
            r.2.backend.pending_events = [])) := by
  obtain ⟨d, hdv⟩ : ∃ d, d = libseat.dispatch_pending p false 0 := ⟨_, rfl⟩
  obtain ⟨t1, ht1⟩ : ∃ t1 : Int, t1 = if d.1 > 0 then 0 else t := ⟨_, rfl⟩
  obtain ⟨rd, hrd⟩ : ∃ rd, rd = if t1 = 0 then libseat.connection_read d.2.2
      else libseat.poll_connection d.2.2 t1 := ⟨_, rfl⟩
  have hdef : libseat.dispatch_background p t
      = if rd.1 > 0 then
          (libseat.execute_events (libseat.dispatch_pending rd.2 false 0).2.2).map
            (fun q => (d.1 + (libseat.dispatch_pending rd.2 false 0).1, q))
        else if rd.1 = -1 ∧ rd.2.errno ≠ EAGAIN then some (-1, rd.2)
        else (libseat.execute_events rd.2).map (fun q => (d.1, q)) := by
    rw [hrd, ht1, hdv]
    rfl
  have hd : libseat.Queued p d.2.2 := by
    rw [hdv]
    exact queued_dispatch_pending p false 0
  have hr : libseat.Queued p rd.2 := by
    rw [hrd]
    split_ifs
    · exact queued_trans hd (queued_connection_read _)
    · exact queued_trans hd (queued_poll_connection _ _)
  rw [hdef]
  by_cases h1 : rd.1 > 0
  · rw [if_pos h1]
    obtain ⟨q, hqe, evs, hall, hc, hp⟩ := execute_events_after hq
      (queued_trans hr (queued_dispatch_pending rd.2 false 0))
    rw [hqe]
    exact ⟨_, rfl, evs, hall, Or.inr ⟨hc, hp⟩⟩
  · rw [if_neg h1]
    by_cases h2 : rd.1 = -1 ∧ rd.2.errno ≠ EAGAIN
    · rw [if_pos h2]
      obtain ⟨c, _, _, evs, hpe, hall⟩ := hr
      exact ⟨_, rfl, evs, hall, Or.inl ⟨rfl, c, hpe⟩⟩
    · rw [if_neg h2]
      obtain ⟨q, hqe, evs, hall, hc, hp⟩ := execute_events_after hq hr
      rw [hqe]
      exact ⟨_, rfl, evs, hall, Or.inr ⟨hc, hp⟩⟩

/-- C15: in the client backend none of the synchronous requests (`_open_seat`, `close_seat`,
`open_device`, `close_device`) invokes a listener callback: when the call returns, the list of
callbacks invoked is the one from before the call. Their waiting loop `dispatch` leaves the
listener alone and changes the event queue only by appending ENABLE_SEAT and DISABLE_SEAT
events at its end. With the allocations succeeding, `dispatch_pending` appends every
notification at the head of the unread input to `pending_events`, in arrival order, without
invoking a callback, and stops at the first message that is not a notification. On a queue
of notifications `execute_events` returns, having invoked the callback of each queued event
that the listener has a callback for, once and oldest first, and having emptied the queue;
`dispatch_background` returns, and either fails with -1 without invoking a callback or has
invoked exactly the callbacks of the events queued before and during the call, in that
order. -/
theorem C15_notifications_queued_until_dispatch :
    (∀ (fuel : Nat) (p : libseat.Proc) (e d : Bool) (fd : Int) (r : Bool × libseat.Proc),
      libseat._open_seat fuel p e d fd = some r → r.2.calls = p.calls) ∧
    (∀ (fuel : Nat) (p : libseat.Proc) (r : Int × libseat.Proc),
      libseat.close_seat fuel p = some r → r.2.calls = p.calls) ∧
    (∀ (fuel : Nat) (p : libseat.Proc) (path : List Nat) (r : Int × Option Int × libseat.Proc),
      libseat.open_device fuel p path = some r → r.2.2.calls = p.calls) ∧
    (∀ (fuel : Nat) (p : libseat.Proc) (device_id : Int) (r : Int × libseat.Proc),
      libseat.close_device fuel p device_id = some r → r.2.calls = p.calls) ∧
    (∀ (fuel : Nat) (p : libseat.Proc) (r : Int × libseat.Proc),
      libseat.dispatch fuel p = some r → libseat.Queued p r.2) ∧
    (∀ (p : libseat.Proc) (hs : List (List Nat)) (rest : List Nat) (b : Bool) (opcode : Nat),
      libseat.tape_ok p → libseat.unread p = hs.flatten ++ rest →
      (∀ h ∈ hs, h.length = 4 ∧
        (rd16 h = SERVER_DISABLE_SEAT ∨ rd16 h = SERVER_ENABLE_SEAT)) →
      (rest.length < 4 ∨
        ¬ (rd16 rest = SERVER_DISABLE_SEAT ∨ rd16 rest = SERVER_ENABLE_SEAT)) →
      (libseat.dispatch_pending p b opcode).2.2.calls = p.calls ∧
      (libseat.dispatch_pending p b opcode).2.2.backend.pending_events
        = p.backend.pending_events ++ hs.map rd16 ∧
      libseat.unread (libseat.dispatch_pending p b opcode).2.2 = rest) ∧
    (∀ (p : libseat.Proc),
      (∀ e ∈ p.backend.pending_events, e = SERVER_DISABLE_SEAT ∨ e = SERVER_ENABLE_SEAT) →
      ∃ q, libseat.execute_events p = some q ∧
        q.calls = p.calls ++ p.backend.pending_events.filter (libseat.fires p) ∧
        q.backend.pending_events = []) ∧
    (∀ (p : libseat.Proc) (timeout : Int),
      (∀ e ∈ p.backend.pending_events, e = SERVER_DISABLE_SEAT ∨ e = SERVER_ENABLE_SEAT) →
      ∃ r, libseat.dispatch_background p timeout = some r ∧
        ∃ evs, (∀ e ∈ evs, e = SERVER_DISABLE_SEAT ∨ e = SERVER_ENABLE_SEAT) ∧
          ((r.1 = -1 ∧ r.2.calls = p.calls ∧
              r.2.backend.pending_events = p.backend.pending_events ++ evs) ∨
            (r.2.calls
                = p.calls ++ (p.backend.pending_events ++ evs).filter (libseat.fires p) ∧
              r.2.backend.pending_events = []))) := by
  refine ⟨fun fuel p e d fd r h => open_seat_silent h, fun fuel p r h => close_seat_silent h,
    fun fuel p path r h => open_device_silent h, fun fuel p id r h => close_device_silent h,
    fun fuel p r h => @queued_dispatch fuel p r.2 r.1 h,
    fun p hs rest b opcode ht hu hall hrest => dispatch_pending_exact p hs rest b opcode ht hu hall hrest,
    fun p hq => ?_, fun p t hq => dispatch_background_fires p t hq⟩
  obtain ⟨q, hqe⟩ := execute_events_loop_total p.backend.pending_events p hq
  obtain ⟨a1, a2, _, _⟩ := execute_events_loop_calls _ p q rfl hqe
  exact ⟨q, hqe, a1, a2⟩

/-- C15 at a process with DISABLE_SEAT, ENABLE_SEAT and an incomplete DEVICE_OPENED in its
inbound buffer: `dispatch_pending` queues the two notifications in that order and invokes
nothing, and `dispatch_background` then invokes disable_seat and enable_seat, in that
order. -/
theorem C15_notifications_queued_until_dispatch_witness :
    libseat.tape_ok libseat.proc_two_notifications ∧
    libseat.unread libseat.proc_two_notifications
      = [proto_header SERVER_DISABLE_SEAT 0, proto_header SERVER_ENABLE_SEAT 0].flatten
        ++ proto_header SERVER_DEVICE_OPENED 4 ∧
    (∀ h ∈ [proto_header SERVER_DISABLE_SEAT 0, proto_header SERVER_ENABLE_SEAT 0],
      h.length = 4 ∧ (rd16 h = SERVER_DISABLE_SEAT ∨ rd16 h = SERVER_ENABLE_SEAT)) ∧
    ((proto_header SERVER_DEVICE_OPENED 4).length < 4 ∨
      ¬ (rd16 (proto_header SERVER_DEVICE_OPENED 4) = SERVER_DISABLE_SEAT ∨
        rd16 (proto_header SERVER_DEVICE_OPENED 4) = SERVER_ENABLE_SEAT)) ∧
    (libseat.dispatch_pending libseat.proc_two_notifications true 0).2.2.backend.pending_events
      = [SERVER_DISABLE_SEAT, SERVER_ENABLE_SEAT] ∧
    (libseat.dispatch_background libseat.proc_two_notifications 0).map
        (fun r => (r.1, r.2.calls, r.2.backend.pending_events))
      = some (3, [SERVER_DISABLE_SEAT, SERVER_ENABLE_SEAT], []) ∧
    ((libseat.dispatch_pending libseat.proc_two_notifications true 0).2.2.calls
        = libseat.proc_two_notifications.calls ∧
      (libseat.dispatch_pending libseat.proc_two_notifications true 0).2.2.backend.pending_events
        = libseat.proc_two_notifications.backend.pending_events
          ++ [proto_header SERVER_DISABLE_SEAT 0, proto_header SERVER_ENABLE_SEAT 0].map rd16 ∧
      libseat.unread (libseat.dispatch_pending libseat.proc_two_notifications true 0).2.2
        = proto_header SERVER_DEVICE_OPENED 4) :=
  ⟨(fun r hr => by cases hr), (by decide), (by decide), (by decide), (by decide), (by decide),
    C15_notifications_queued_until_dispatch.2.2.2.2.2.1 libseat.proc_two_notifications
      [proto_header SERVER_DISABLE_SEAT 0, proto_header SERVER_ENABLE_SEAT 0]
      (proto_header SERVER_DEVICE_OPENED 4) true 0 (fun r hr => by cases hr) (by decide)
      (by decide) (by decide)⟩

theorem int_wrap_succ (n : Nat) : int_wrap (int_wrap (n : Int) + 1) = int_wrap ((n + 1 : Nat) : Int) := by
  unfold int_wrap
  push_cast
  omega

/-- On a seat that is not VT-bound `seat_add_client` attaches a client whose session is -1,
gives it the value of the session counter and increments the counter. -/
theorem seat_add_client_new {w : World} {c : Nat} (hseat : (w.client c).seat = false)
    (hses : (w.client c).session = -1) (hvt : w.seat.vt_bound = false) :
    seat_add_client w c = (0, ({ w with seat := { w.seat with session_cnt := int_wrap (w.seat.session_cnt + 1) } } : World).setClient c { w.client c with session := w.seat.session_cnt, seat := true }) := by
  unfold seat_add_client
  rw [if_neg (by simp [hseat]), if_neg (by simp [hvt]), if_neg (by simp [hses]),
    if_neg (by simp [hvt])]

/-- A client without devices that is not the active client, on a seat that is not VT-bound
and has no switch queued: `seat_remove_client` sets its state to CLOSED and clears its seat
pointer, nothing else. -/
theorem seat_remove_client_idle {w : World} {c : Nat} (hseat : (w.client c).seat = true)
    (hd : (w.client c).devices = []) (hnx : w.seat.next_client = none)
    (hac : w.seat.active_client = none) (hvt : w.seat.vt_bound = false) :
    seat_remove_client w c = some (0, w.setClient c { w.client c with state := CLIENT_CLOSED, seat := false }) := by
  have hclose : seat_close_client w c
      = some (0, w.setClient c { w.client c with state := CLIENT_CLOSED }) := by
    unfold seat_close_client
    rw [if_neg (by simp [hseat]), hd]
    simp [close_devices_fuel, close_devices_loop, hac, hvt]
  unfold seat_remove_client
  rw [if_neg (by simp [hseat]), if_neg (by simp [hnx])]
  simp only [hd, close_devices_fuel, List.map_nil, List.sum_nil, close_devices_loop]
  rw [hclose]
  simp only [setClient_setClient, setClient_client_same]
  rw [hd]

theorem int_wrap_max : int_wrap ((4294967295 : Nat) : Int) = -1 := by
  unfold int_wrap
  norm_num

theorem run_ops_append : ∀ (l1 l2 : List (seat_op × List Int)) (w : World),
    run_ops (l1 ++ l2) w = (run_ops l1 w).bind (run_ops l2) := by
  intro l1
  induction l1 with
  | nil => intro l2 w; rfl
  | cons x rest ih =>
    intro l2 w
    obtain ⟨op, tape⟩ := x
    simp only [List.cons_append, run_ops]
    cases op.run (w.withEnv tape w.platform) with
    | none => rfl
    | some w1 => exact ih l2 w1

theorem open_device_loop_one {p : List Nat} {d1 : seat_device} (hne : d1.path ≠ p)
    (hid : 1 ≤ d1.device_id) :
    open_device_loop p [d1] 1 0 0 = Sum.inr (int_wrap (d1.device_id + 1), 1) := by
  unfold open_device_loop
  rw [if_neg hne, if_pos (by omega)]
  rfl

theorem open_device_loop_two {p : List Nat} {d1 d2 : seat_device} (hne1 : d1.path ≠ p)
    (hne2 : d2.path ≠ p) (hid1 : d1.device_id < 1) (hid2 : 1 ≤ d2.device_id) :
    open_device_loop p [d1, d2] 1 0 0 = Sum.inr (int_wrap (d2.device_id + 1), 2) := by
  unfold open_device_loop
  rw [if_neg hne1, if_neg (by omega)]
  unfold open_device_loop
  rw [if_neg hne2, if_pos (by omega)]
  rfl

/-- The call `seat_open_device` for a DRM path that is not in the ledger, every kernel call
succeeding: the new device is put in front of the ledger with the id the loop computed. -/
theorem seat_open_device_fresh (w : World) (c : Nat) (path p : List Nat) (fd m al sd : Int)
    (rest : List Int) (id : Int)
    (hseat : (w.client c).seat = true) (hstate : (w.client c).state = CLIENT_ACTIVE)
    (hact : w.seat.active_client = some c) (hpath : path ≠ [])
    (hreal : w.platform.realpath path = Except.ok p)
    (hev : w.platform.path_is_evdev p = false) (hdrm : w.platform.path_is_drm p = true)
    (hl : open_device_loop p (w.client c).devices 1 0 0
      = Sum.inr (id, (w.client c).devices.length))
    (hroom : (w.client c).devices.length < w.platform.MAX_SEAT_DEVICES)
    (ht : w.tape = fd :: m :: al :: sd :: rest) (hfd : 0 ≤ fd) (hal : 0 ≤ al) (hsd : 0 ≤ sd) :
    ∃ w0, seat_open_device w c path = some (some 0, w0) ∧ w0.tape = rest ∧
      w0.client c = { w.client c with devices :=
        { device_id := id, fd := fd, ref_cnt := 1, active := true, path := p,
          type := SEAT_DEVICE_TYPE_DRM } :: (w.client c).devices } ∧
      OnlyLedger c w w0 := by
  have s1 := syscall_of_tape ht hfd
  have s1a : w.syscall.1 = fd := by rw [s1]
  have s1b : w.syscall.2.tape = m :: al :: sd :: rest := by rw [s1]
  have s2b : (drm_set_master w.syscall.2 w.syscall.1).2.tape = al :: sd :: rest :=
    syscall_tape s1b
  have s3 := syscall_of_tape s2b hal
  have s3a : (drm_set_master w.syscall.2 w.syscall.1).2.syscall.1 = al := by rw [s3]
  have s3b : (drm_set_master w.syscall.2 w.syscall.1).2.syscall.2.tape = sd :: rest := by rw [s3]
  have s4 := syscall_of_tape s3b hsd
  have s4a : (drm_set_master w.syscall.2 w.syscall.1).2.syscall.2.syscall.1 = sd := by rw [s4]
  have s4b : (drm_set_master w.syscall.2 w.syscall.1).2.syscall.2.syscall.2.tape = rest := by
    rw [s4]
  have hcl : (drm_set_master w.syscall.2 w.syscall.1).2.syscall.2.syscall.2.client = w.client := by
    simp [drm_set_master]
  have hse : (drm_set_master w.syscall.2 w.syscall.1).2.syscall.2.syscall.2.seat = w.seat := by
    simp [drm_set_master]
  have hpl : (drm_set_master w.syscall.2 w.syscall.1).2.syscall.2.syscall.2.platform
      = w.platform := by
    simp [drm_set_master]
  have hres : seat_open_device w c path = some (some 0,
      (drm_set_master w.syscall.2 w.syscall.1).2.syscall.2.syscall.2.setClient c
        { (drm_set_master w.syscall.2 w.syscall.1).2.syscall.2.syscall.2.client c with
          devices := { device_id := id, fd := w.syscall.1, ref_cnt := 1, active := true, path := p,
                       type := SEAT_DEVICE_TYPE_DRM } ::
            ((drm_set_master w.syscall.2 w.syscall.1).2.syscall.2.syscall.2.client c).devices }) := by
    unfold seat_open_device
    rw [if_neg (by simp [hseat]), if_neg (by simpa using hpath), if_neg (by simp [hstate]),
      if_neg (by simp [hact])]
    simp only [hreal]
    rw [if_neg (by simp [hdrm])]
    simp only [hev, hl, Bool.false_eq_true, if_false, if_true]
    rw [if_neg (by omega), if_neg (by rw [s1a]; omega), if_neg (by rw [s3a]; omega),
      if_neg (by rw [s4a]; omega)]
  refine ⟨_, hres, ?_, ?_, ?_⟩
  · rw [setClient_tape, s4b]
  · rw [setClient_client_same, hcl, s1a]
  · exact onlyLedger_setClient (onlyLedger_of_client_eq hse hpl hcl) _

/-- A successful `seat_open_device` of client 0 for one of the three example DRM paths that
is not in its ledger. -/
theorem open_fresh_op {w : World} {devs : List seat_device} {p : List Nat} {id : Int}
    (h : holds w devs) (hp : p = dri_card0 ∨ p = dri_card1 ∨ p = dri_card2)
    (hl : open_device_loop p devs 1 0 0 = Sum.inr (id, devs.length)) (hlen : devs.length < 128) :
    ∃ w1, run_ops [(seat_op.open_device 0 p, [5, 0, 0, 0])] w = some w1 ∧
      holds w1 ({ device_id := id, fd := 5, ref_cnt := 1, active := true, path := p, type := SEAT_DEVICE_TYPE_DRM } :: devs) := by
  obtain ⟨hseat, hstate, hact, hpl, hdev⟩ := h
  have hplE : (w.withEnv [5, 0, 0, 0] w.platform).platform = example_platform := by
    show ({ w.platform with MAX_SEAT_DEVICES := w.platform.MAX_SEAT_DEVICES } : Platform) = _
    rw [hpl]
  have hpath : p ≠ [] := by
    rcases hp with rfl | rfl | rfl <;> decide
  have hev : example_platform.path_is_evdev p = false := by
    rcases hp with rfl | rfl | rfl <;> decide
  have hdrm : example_platform.path_is_drm p = true := by
    rcases hp with rfl | rfl | rfl <;> decide
  obtain ⟨w1, ho, _, hc, hseat1, hpl1, _, _⟩ := seat_open_device_fresh
    (w.withEnv [5, 0, 0, 0] w.platform) 0 p p 5 0 0 0 [] id hseat hstate hact hpath
    (by rw [hplE]; rfl) (by rw [hplE]; exact hev) (by rw [hplE]; exact hdrm)
    (by
      show open_device_loop p (w.client 0).devices 1 0 0 = Sum.inr (id, (w.client 0).devices.length)
      rw [hdev]; exact hl)
    (by
      show (w.client 0).devices.length < _
      rw [hplE, hdev]; exact hlen)
    rfl (by decide) (by decide) (by decide)
  refine ⟨w1, ?_, ?_⟩
  · simp only [run_ops, seat_op.run]
    rw [ho]
    rfl
  · have hc0 : (w.withEnv [5, 0, 0, 0] w.platform).client 0 = w.client 0 := rfl
    rw [hc0] at hc
    refine ⟨by rw [hc]; exact hseat, by rw [hc]; exact hstate, by rw [hseat1]; exact hact,
      by rw [hpl1]; exact hplE, by rw [hc, hdev]⟩

/-- A `seat_close_device` of client 0 for the device at position 1 of a ledger of two
devices, the last reference to it. -/
theorem close_older_op {w : World} {d1 d2 : seat_device} (h : holds w [d1, d2])
    (hfd : 0 < d2.fd) (hcnt : d2.ref_cnt ≤ 1) :
    ∃ w1, run_ops [(seat_op.close_device 0 1, [])] w = some w1 ∧ holds w1 [d1] := by
  obtain ⟨hseat, hstate, hact, hpl, hdev⟩ := h
  have hd : ((w.withEnv [] w.platform).client 0).devices[1]? = some d2 := by
    show (w.client 0).devices[1]? = some d2
    rw [hdev]
    rfl
  obtain ⟨w1, hc, hdevs, _, hs, _, hseat1, hstate1, _⟩ :=
    seat_close_device_last (w := w.withEnv [] w.platform) (c := 0) (i := 1) hseat hd hfd hcnt
  have hpl1 := (seat_close_device_onlyLedger hc).2.1
  refine ⟨w1, ?_, ?_⟩
  · simp only [run_ops, seat_op.run]
    rw [hc]
    rfl
  · refine ⟨hseat1.trans hseat, hstate1.trans hstate, by rw [hs]; exact hact, ?_, ?_⟩
    · rw [hpl1]
      show ({ w.platform with MAX_SEAT_DEVICES := w.platform.MAX_SEAT_DEVICES } : Platform) = _
      rw [hpl]
    · rw [hdevs]
      show (w.client 0).devices.eraseIdx 1 = [d1]
      rw [hdev]
      rfl

/-- The state after `churn_ops n`, as long as the ids stay below INT_MAX: client 0 holds
the devices with the ids n + 2 and n + 1. -/
theorem churn_ops_spec (n : Nat) (hn : (n : Int) + 2 ≤ INT_MAX) :
    ∃ w d1 d2, run_ops (churn_ops n) world_one_active = some w ∧ holds w [d1, d2] ∧
      d1.device_id = (n : Int) + 2 ∧ d2.device_id = (n : Int) + 1 ∧
      d1.path = (if n % 2 = 0 then dri_card0 else dri_card1) ∧
      d2.path = (if n % 2 = 0 then dri_card1 else dri_card0) ∧
      0 < d1.fd ∧ 0 < d2.fd ∧ d1.ref_cnt ≤ 1 ∧ d2.ref_cnt ≤ 1 := by
  induction n with
  | zero =>
    have h0 : holds world_one_active [] := ⟨by decide, by decide, by decide, rfl, by decide⟩
    obtain ⟨w1, r1, h1⟩ := @open_fresh_op _ _ dri_card1 1 h0 (Or.inr (Or.inl rfl)) rfl
      (by decide)
    obtain ⟨w2, r2, h2⟩ := @open_fresh_op _ _ dri_card0 2 h1 (Or.inl rfl)
      (by decide) (by decide)
    refine ⟨w2, _, _, ?_, h2, rfl, rfl, rfl, rfl, by decide, by decide, by decide, by decide⟩
    have e : churn_ops 0 = [(seat_op.open_device 0 dri_card1, [5, 0, 0, 0])]
        ++ [(seat_op.open_device 0 dri_card0, [5, 0, 0, 0])] := rfl
    rw [e, run_ops_append, r1]
    exact r2
  | succ n ih =>
    have hM : INT_MAX = 2147483647 := rfl
    rw [hM] at hn
    push_cast at hn
    obtain ⟨w, d1, d2, r, h, i1, i2, p1, p2, f1, f2, c1, c2⟩ := ih (by rw [hM]; omega)
    obtain ⟨w1, r1, h1⟩ := close_older_op h f2 c2
    have hpp : d2.path = dri_card0 ∨ d2.path = dri_card1 ∨ d2.path = dri_card2 := by
      rw [p2]
      split_ifs
      · exact Or.inr (Or.inl rfl)
      · exact Or.inl rfl
    have hne : d1.path ≠ d2.path := by
      rw [p1, p2]
      split_ifs <;> decide
    obtain ⟨w2, r2, h2⟩ := open_fresh_op h1 hpp
      (open_device_loop_one hne (by rw [i1]; omega)) (by simp)
    refine ⟨w2, _, d1, ?_, h2, ?_, ?_, ?_, ?_, by simp, f1, by simp, c1⟩
    · have e : churn_ops (n + 1) = churn_ops n ++ ([(seat_op.close_device 0 1, [])]
          ++ [(seat_op.open_device 0 (if n % 2 = 0 then dri_card1 else dri_card0),
            [5, 0, 0, 0])]) := rfl
      rw [e, run_ops_append, r]
      show run_ops _ w = _
      rw [run_ops_append, r1]
      show run_ops _ w1 = _
      rw [← p2]
      exact r2
    · show int_wrap (d1.device_id + 1) = _
      rw [i1]
      unfold int_wrap
      push_cast
      omega
    · rw [i1]
      push_cast
      omega
    · show d2.path = _
      rw [p2]
      have := Nat.mod_two_eq_zero_or_one n
      rcases this with e | e
      · rw [if_pos e, if_neg (by omega)]
      · rw [if_neg (by omega), if_pos (by omega)]
    · rw [p1]
      have := Nat.mod_two_eq_zero_or_one n
      rcases this with e | e
      · rw [if_pos e, if_neg (by omega)]
      · rw [if_neg (by omega), if_pos (by omega)]

/-- The round of `churn_ops` that starts with the ids INT_MAX and INT_MAX - 1 in the ledger
gives the reopened device the id INT_MIN, and the next new device gets INT_MIN again. -/
theorem churn_wraps (m n : Nat) (hm : m = n + 1) (hn : (n : Int) + 2 = INT_MAX) :
    ∃ w, run_ops (churn_ops m) world_one_active = some w ∧ Reachable w ∧
      (w.client 0).devices.map seat_device.device_id = [INT_MIN, INT_MAX] ∧
      (¬ ∀ d ∈ (w.client 0).devices, 0 < d.device_id) ∧
      ∃ w1, run_ops [(seat_op.open_device 0 dri_card2, [5, 0, 0, 0])] w = some w1 ∧
        Reachable w1 ∧
        (w1.client 0).devices.map seat_device.device_id = [INT_MIN, INT_MIN, INT_MAX] ∧
        ¬ ((w1.client 0).devices.map seat_device.device_id).Nodup := by
  subst hm
  have hM : INT_MAX = 2147483647 := rfl
  obtain ⟨w, d1, d2, r, h, i1, _, p1, p2, _, f2, _, c2⟩ := churn_ops_spec n (le_of_eq hn)
  rw [hn] at i1
  obtain ⟨w1, r1, h1⟩ := close_older_op h f2 c2
  have hpp : d2.path = dri_card0 ∨ d2.path = dri_card1 ∨ d2.path = dri_card2 := by
    rw [p2]
    split_ifs
    · exact Or.inr (Or.inl rfl)
    · exact Or.inl rfl
  have hne : d1.path ≠ d2.path := by
    rw [p1, p2]
    split_ifs <;> decide
  have hw : int_wrap (INT_MAX + 1) = INT_MIN := by decide
  obtain ⟨w2, r2, h2⟩ := open_fresh_op h1 hpp
    (open_device_loop_one hne (by rw [i1, hM]; decide)) (by simp)
  rw [i1, hw] at h2
  have hrun : run_ops (churn_ops (n + 1)) world_one_active = some w2 := by
    have e : churn_ops (n + 1) = churn_ops n ++ ([(seat_op.close_device 0 1, [])]
        ++ [(seat_op.open_device 0 (if n % 2 = 0 then dri_card1 else dri_card0),
          [5, 0, 0, 0])]) := rfl
    rw [e, run_ops_append, r]
    show run_ops _ w = _
    rw [run_ops_append, r1]
    show run_ops _ w1 = _
    rw [← p2]
    exact r2
  have hreach : Reachable w2 := reachable_run_ops _ _ _ world_one_active_reachable hrun
  have hn2 : d2.path ≠ dri_card2 := by
    rw [p2]
    split_ifs <;> decide
  have hn1 : d1.path ≠ dri_card2 := by
    rw [p1]
    split_ifs <;> decide
  obtain ⟨w3, r3, h3⟩ := open_fresh_op (p := dri_card2) h2 (Or.inr (Or.inr rfl))
    (@open_device_loop_two _ { device_id := INT_MIN, fd := 5, ref_cnt := 1, active := true, path := d2.path, type := SEAT_DEVICE_TYPE_DRM } d1
      hn2 hn1 (by show INT_MIN < 1; decide) (by rw [i1, hM]; decide)) (by simp)
  rw [i1, hw] at h3
  have hd2 := h2.2.2.2.2
  have hd3 := h3.2.2.2.2
  refine ⟨w2, hrun, hreach, ?_, ?_, w3, r3, reachable_run_ops _ _ _ hreach r3, ?_, ?_⟩
  · rw [hd2]
    simp only [List.map_cons, List.map_nil, i1]
  · intro hall
    have h0 : (0 : Int) < INT_MIN := hall _ (by rw [hd2]; exact List.mem_cons_self _ _)
    exact absurd h0 (by decide)
  · rw [hd3]
    simp only [List.map_cons, List.map_nil, i1]
  · rw [hd3]
    simp only [List.map_cons, List.map_nil, i1]
    decide

/-- C6, the code at the failing input: `seat_open_device` computes the id of a new device
as `old_device->device_id + 1` in an `int`, with nothing that stops it at INT_MAX. A client
that keeps two devices open and closes and reopens the older one raises the id by one each
round (three rounds after the first two opens: ids 5 and 4); in round 2147483646 the ledger
holds the ids INT_MAX and INT_MAX - 1 and the reopened device gets INT_MAX + 1, which
wrapped around is INT_MIN: a reachable ledger holds an id that is not greater than 0. The
device opened next, "/dev/dri/card2", gets INT_MIN again: a reachable ledger holds the same
id twice. -/
theorem C6_device_id_wraps :
    (run_ops (churn_ops 3) world_one_active).map
        (fun w => (w.client 0).devices.map seat_device.device_id) = some [5, 4] ∧
    ∃ w, run_ops (churn_ops 2147483646) world_one_active = some w ∧ Reachable w ∧
      (w.client 0).devices.map seat_device.device_id = [INT_MIN, INT_MAX] ∧
      (¬ ∀ d ∈ (w.client 0).devices, 0 < d.device_id) ∧
      ∃ w1, run_ops [(seat_op.open_device 0 dri_card2, [5, 0, 0, 0])] w = some w1 ∧
        Reachable w1 ∧
        (w1.client 0).devices.map seat_device.device_id = [INT_MIN, INT_MIN, INT_MAX] ∧
        ¬ ((w1.client 0).devices.map seat_device.device_id).Nodup :=
  ⟨by decide, churn_wraps 2147483646 2147483645 (by norm_num) (by norm_num [INT_MAX])⟩

/-- One client of `cycle_ops`: attached with the value of the session counter, then
removed. -/
theorem cycle_step {w : World} {n : Nat} (hvt : w.seat.vt_bound = false)
    (hnx : w.seat.next_client = none) (hac : w.seat.active_client = none)
    (hcn : w.client n = new_client) :
    ∃ w2, run_ops [(seat_op.add_client n, []), (seat_op.remove_client n, [])] w = some w2 ∧
      w2.seat.vt_bound = false ∧ w2.seat.next_client = none ∧ w2.seat.active_client = none ∧
      w2.seat.session_cnt = int_wrap (w.seat.session_cnt + 1) ∧
      (∀ k, k ≠ n → w2.client k = w.client k) ∧
      (w2.client n).seat = false ∧ (w2.client n).state = CLIENT_CLOSED ∧
      (w2.client n).session = w.seat.session_cnt := by
  have hcE : (w.withEnv [] w.platform).client n = new_client := hcn
  have hadd := seat_add_client_new (w := w.withEnv [] w.platform) (c := n)
    (by rw [hcE]; rfl) (by rw [hcE]; rfl) hvt
  obtain ⟨wa, hwa⟩ : ∃ wa, wa = (seat_add_client (w.withEnv [] w.platform) n).2 := ⟨_, rfl⟩
  have hwa2 := hwa
  rw [hadd] at hwa2
  have ha_seat : wa.seat = { w.seat with session_cnt := int_wrap (w.seat.session_cnt + 1) } := by
    rw [hwa2]; rfl
  have ha_n : wa.client n = { new_client with session := w.seat.session_cnt, seat := true } := by
    rw [hwa2]
    show (World.setClient _ n _).client n = _
    rw [setClient_client_same, hcE]
    rfl
  have ha_k : ∀ k, k ≠ n → wa.client k = w.client k := by
    intro k hk
    rw [hwa2]
    show (World.setClient _ n _).client k = _
    rw [setClient_client_other _ _ hk]
    rfl
  have hrem := seat_remove_client_idle (w := wa.withEnv [] wa.platform) (c := n)
    (by show (wa.client n).seat = true; rw [ha_n])
    (by show (wa.client n).devices = []; rw [ha_n]; rfl)
    (by show wa.seat.next_client = none; rw [ha_seat]; exact hnx)
    (by show wa.seat.active_client = none; rw [ha_seat]; exact hac)
    (by show wa.seat.vt_bound = false; rw [ha_seat]; exact hvt)
  refine ⟨(wa.withEnv [] wa.platform).setClient n { (wa.withEnv [] wa.platform).client n with state := CLIENT_CLOSED, seat := false }, ?_, ?_, ?_, ?_, ?_, ?_, ?_, ?_, ?_⟩
  · simp only [run_ops, seat_op.run]
    rw [← hwa, hrem]
    rfl
  · show wa.seat.vt_bound = false
    rw [ha_seat]; exact hvt
  · show wa.seat.next_client = none
    rw [ha_seat]; exact hnx
  · show wa.seat.active_client = none
    rw [ha_seat]; exact hac
  · show wa.seat.session_cnt = _
    rw [ha_seat]
  · intro k hk
    show (World.setClient _ n _).client k = _
    rw [setClient_client_other _ _ hk]
    exact ha_k k hk
  · show ((World.setClient _ n _).client n).seat = false
    rw [setClient_client_same]
  · show ((World.setClient _ n _).client n).state = CLIENT_CLOSED
    rw [setClient_client_same]
  · show ((World.setClient _ n _).client n).session = _
    rw [setClient_client_same]
    show (wa.client n).session = _
    rw [ha_n]

/-- The state after `cycle_ops n`: the session counter is n, wrapped around, client k < n
is CLOSED and unattached with session k, wrapped around, and the other clients are new. -/
theorem cycle_ops_spec (n : Nat) :
    ∃ w, run_ops (cycle_ops n) (example_world false new_client []) = some w ∧
      w.seat.vt_bound = false ∧ w.seat.next_client = none ∧ w.seat.active_client = none ∧
      w.seat.session_cnt = int_wrap (n : Int) ∧
      (∀ k, n ≤ k → w.client k = new_client) ∧
      (∀ k, k < n → (w.client k).seat = false ∧ (w.client k).state = CLIENT_CLOSED ∧
        (w.client k).session = int_wrap (k : Int)) := by
  induction n with
  | zero =>
    exact ⟨_, rfl, rfl, rfl, rfl, rfl, fun k _ => rfl, fun k hk => absurd hk (Nat.not_lt_zero k)⟩
  | succ n ih =>
    obtain ⟨w, hr, hvt, hnx, hac, hcnt, hnew, hold⟩ := ih
    obtain ⟨w2, r2, a1, a2, a3, a4, a5, a6, a7, a8⟩ :=
      cycle_step hvt hnx hac (hnew n (le_refl n))
    refine ⟨w2, ?_, a1, a2, a3, ?_, ?_, ?_⟩
    · have e : cycle_ops (n + 1)
          = cycle_ops n ++ [(seat_op.add_client n, []), (seat_op.remove_client n, [])] := rfl
      rw [e, run_ops_append, hr]
      exact r2
    · rw [a4, hcnt]
      exact int_wrap_succ n
    · intro k hk
      rw [a5 k (by omega)]
      exact hnew k (by omega)
    · intro k hk
      by_cases hkn : k = n
      · subst hkn
        exact ⟨a6, a7, a8.trans hcnt⟩
      · rw [a5 k hkn]
        exact hold k (by omega)

/-- When the session counter has wrapped around to -1, the client that connects next is
attached with session -1 and can be attached again after its removal. -/
theorem reattach_of_wrap (m n : Nat) (hm : m = n + 1) (hw : int_wrap (n : Int) = -1) :
    ∃ w, run_ops (cycle_ops m) (example_world false new_client []) = some w ∧ Reachable w ∧
      (w.client n).state = CLIENT_CLOSED ∧ (w.client n).seat = false ∧
      (w.client n).session = -1 ∧
      (seat_add_client w n).1 = 0 ∧ ((seat_add_client w n).2.client n).seat = true ∧
      ((seat_add_client w n).2.client n).state = CLIENT_CLOSED ∧
      (seat_add_client w n).2.seat.session_cnt = int_wrap (w.seat.session_cnt + 1) := by
  obtain ⟨w, hr, hvt, _, _, _, _, hold⟩ := cycle_ops_spec m
  obtain ⟨h1, h2, h3⟩ := hold n (by omega)
  rw [hw] at h3
  have hadd := seat_add_client_new h1 h3 hvt
  refine ⟨w, hr, reachable_run_ops _ _ _
    (Reachable.init (example_world_initial false new_client [] new_client_untouched)) hr,
    h2, h1, h3, ?_, ?_, ?_, ?_⟩
  · rw [hadd]
  · rw [hadd]
    show ((World.setClient _ n _).client n).seat = true
    rw [setClient_client_same]
  · rw [hadd]
    show ((World.setClient _ n _).client n).state = CLIENT_CLOSED
    rw [setClient_client_same]
    exact h2
  · rw [hadd]
    rfl

/-- C21, the code at the failing input: on a seat that is not VT-bound `seat_add_client`
hands out the value of `session_cnt` and increments it, with nothing that stops the counter
at INT_MAX (after two clients the counter is 2 and client 1, CLOSED and unattached, has
session 1). After 2^32 - 1 clients the counter, wrapped around, is -1, the value that marks
a client as never attached. The client that connects next, client 4294967295, is attached
with session -1 and removed by `seat_remove_client`: it is CLOSED and unattached. A later
`seat_add_client` for it returns 0, attaches the CLOSED client again and increments the
session counter. -/
theorem C21_removed_client_reattaches :
    (run_ops (cycle_ops 2) (example_world false new_client [])).map
        (fun w => (w.seat.session_cnt, (w.client 1).session, (w.client 1).state,
          (w.client 1).seat)) = some (2, 1, CLIENT_CLOSED, false) ∧
    ∃ w, run_ops (cycle_ops 4294967296) (example_world false new_client []) = some w ∧
      Reachable w ∧
      (w.client 4294967295).state = CLIENT_CLOSED ∧ (w.client 4294967295).seat = false ∧
      (w.client 4294967295).session = -1 ∧
      (seat_add_client w 4294967295).1 = 0 ∧
      ((seat_add_client w 4294967295).2.client 4294967295).seat = true ∧
      ((seat_add_client w 4294967295).2.client 4294967295).state = CLIENT_CLOSED ∧
      (seat_add_client w 4294967295).2.seat.session_cnt = int_wrap (w.seat.session_cnt + 1) :=
  ⟨by decide, reattach_of_wrap 4294967296 4294967295 (by norm_num) int_wrap_max⟩

end Seatd
